import Mathlib

/-!
# PhoenixOS: bipartite DAG, kernel-meta dump, checkpoint, migration and launch procedures

A shallow embedding of `pos/include/utils/bipartite_graph.h` (class
`POSBipartiteGraph`), of the lambda `dump_function_metas`, the migration procedures and
`init_handle_managers` of `pos/cuda_impl/client.h`, of the checkpoint procedures of
`pos/cuda_impl/worker.h`, of the launch handlers of `pos/cuda_impl/worker/cuda_driver.h` and
of `main` of `autogen/main.cpp`, followed by theorems about them.

Conventions of the embedding

* `uint64_t` values are natural numbers; `max_t1_id += 1` is taken modulo `2 ^ 64`.
* A pointer to a payload (`void*`, `T*`) is a natural number, `nullptr` being `0`.
* A `std::map` is an association list kept in ascending key order; every value
  of the two outer maps is a heap-allocated `POSNeighborMap_t` owned by exactly
  one key, so the pointer is represented by the map it points to.
* A call that does not return normally (a failed `POS_CHECK_POINTER`, an
  out-of-range vector index, control flowing off the end of a value-returning
  function) yields `none`.
-/

namespace PhoenixOS

/-! ## `std::map` as an ascending association list -/

/-- The member `find` of `std::map` (also `count(k) != 0`): the value stored under `k`. -/
def map_find {V : Type} : List (Nat × V) → Nat → Option V
  | [], _ => none
  | (k', v') :: rest, k => if k = k' then some v' else map_find rest k

/-- The assignment `m[k] = v` of `std::map`: inserts the key in order or overwrites its value. -/
def map_assign {V : Type} : List (Nat × V) → Nat → V → List (Nat × V)
  | [], k, v => [(k, v)]
  | (k', v') :: rest, k, v =>
    if k < k' then (k, v) :: (k', v') :: rest
    else if k = k' then (k, v) :: rest
    else (k', v') :: map_assign rest k v

/-- The single-element `insert` of `std::map`: leaves the map unchanged when the key is already
present, and otherwise inserts the key in order. -/
def map_insert {V : Type} (m : List (Nat × V)) (k : Nat) (v : V) : List (Nat × V) :=
  match map_find m k with
  | some _ => m
  | none => map_assign m k v

/-- The range `insert(first, last)` of `std::map`: single-element inserts in iteration order. -/
def map_insert_range {V : Type} (m : List (Nat × V)) (src : List (Nat × V)) : List (Nat × V) :=
  src.foldl (fun acc e => map_insert acc e.1 e.2) m

/-- Keys of a map in iteration order. -/
def map_keys {V : Type} (m : List (Nat × V)) : List Nat := m.map Prod.fst

/-! ## Types of `bipartite_graph.h` -/

/-- The type `pos_vertex_id_t` is `uint64_t`; ids are written as `Nat` below. -/
abbrev pos_vertex_id_t := Nat

/-- Number of values of `uint64_t`. -/
def UINT64_RANGE : Nat := 2 ^ 64

/-- The null pointer. -/
def nullptr : Nat := 0

inductive pos_edge_direction_t where
  | kPOS_Edge_Direction_In
  | kPOS_Edge_Direction_Out
  | kPOS_Edge_Direction_InOut
  | kPOS_Edge_Direction_Create
  | kPOS_Edge_Direction_Delete
  deriving DecidableEq

/-- The return codes of `pos_retval_t` that the sources at hand name. -/
inductive pos_retval_t where
  | POS_SUCCESS
  | POS_FAILED
  | POS_FAILED_NOT_EXIST
  deriving DecidableEq

/-- Vertex of the graph: `POSBgVertex_t()` is `⟨nullptr, 0⟩`. -/
structure POSBgVertex_t where
  data : Nat
  id : Nat
  deriving DecidableEq

abbrev POSNeighborMap_t := List (Nat × pos_edge_direction_t)

/-- The type `std::map<Nat, POSNeighborMap_t*>`. -/
abbrev POSTopoMap_t := List (Nat × POSNeighborMap_t)

@[irreducible] def kPOSBG_PREFILL_SIZE : Nat := 1048576

/-- The template argument of `add_vertex<T>` and `get_vertex_by_id<T>`. -/
inductive Kind where
  | T1
  | T2
  deriving DecidableEq

/-- Data members of `POSBipartiteGraph`. -/
structure POSBipartiteGraph where
  max_t1_id : Nat
  max_t2_id : Nat
  _t1s : List POSBgVertex_t
  _t2s : List POSBgVertex_t
  _topo : POSTopoMap_t
  _topo_t1_cache : POSTopoMap_t

/-- Members before the body of the constructor runs. -/
def POSBipartiteGraph.blank : POSBipartiteGraph :=
  { max_t1_id := 0, max_t2_id := 0, _t1s := [], _t2s := [], _topo := [], _topo_t1_cache := [] }

/-- One iteration of the prefill loop of the constructor. -/
def prefill_step (g : POSBipartiteGraph) (i : Nat) : POSBipartiteGraph :=
  { g with
    _topo_t1_cache := map_assign g._topo_t1_cache i []
    _topo := map_assign g._topo i []
    _t1s := g._t1s ++ [⟨nullptr, 0⟩]
    _t2s := g._t2s ++ [⟨nullptr, 0⟩] }

/-- The constructor run for `n` prefill iterations. -/
def prefill (n : Nat) : POSBipartiteGraph :=
  (List.range n).foldl prefill_step POSBipartiteGraph.blank

/-- The constructor `POSBipartiteGraph()`. -/
@[irreducible] def POSBipartiteGraph.new : POSBipartiteGraph := prefill kPOSBG_PREFILL_SIZE

/-- What a call of `add_vertex` leaves behind: the return value, the value stored through the
pointer `id` (`none` when nothing is stored) and the graph. -/
structure AddResult where
  retval : pos_retval_t
  id : Option Nat
  graph : POSBipartiteGraph

/-- The loop under `#if POS_ENABLE_DEBUG_CHECK` of `add_vertex`: true when it reaches
`retval = POS_FAILED_NOT_EXIST; goto exit`. -/
def neighbor_check_fails (T : Kind) (g : POSBipartiteGraph) (neighbor : POSNeighborMap_t) : Bool :=
  match T with
  | .T1 => neighbor.any (fun e => decide (g._t2s.length < e.1))
  | .T2 => neighbor.any (fun e => decide (g._t1s.length < e.1))

/-- The member `add_vertex<T>(data, neighbor, id)`. The macro `POS_ENABLE_DEBUG_CHECK` is not
defined in the sources at hand and is the parameter `dbg`. -/
def add_vertex (dbg : Bool) (T : Kind) (g : POSBipartiteGraph) (data : Nat)
    (neighbor : POSNeighborMap_t) : Option AddResult :=
  if dbg && neighbor_check_fails T g neighbor then
    some ⟨.POS_FAILED_NOT_EXIST, none, g⟩
  else
    match T with
    | .T1 =>
      let id := g.max_t1_id
      let g1 := { g with max_t1_id := (g.max_t1_id + 1) % UINT64_RANGE }
      if id ≥ kPOSBG_PREFILL_SIZE then
        let new_topo_map := map_insert_range [] neighbor
        some ⟨.POS_SUCCESS, some id,
          { g1 with
            _t1s := g1._t1s ++ [⟨data, id⟩]
            _topo_t1_cache := map_assign g1._topo_t1_cache id new_topo_map }⟩
      else
        match map_find g1._topo_t1_cache id, g1._t1s[id]? with
        | some new_topo_map, some _ =>
          some ⟨.POS_SUCCESS, some id,
            { g1 with
              _t1s := g1._t1s.set id ⟨data, id⟩
              _topo_t1_cache :=
                map_assign g1._topo_t1_cache id (map_insert_range new_topo_map neighbor) }⟩
        | _, _ => none
    | .T2 =>
      let id := g.max_t2_id
      let g1 := { g with max_t2_id := (g.max_t2_id + 1) % UINT64_RANGE }
      if id ≥ kPOSBG_PREFILL_SIZE then
        let new_topo_map := map_insert_range [] neighbor
        some ⟨.POS_SUCCESS, some id,
          { g1 with
            _t2s := g1._t2s ++ [⟨data, id⟩]
            _topo := map_assign g1._topo id new_topo_map }⟩
      else
        match map_find g1._topo id, g1._t2s[id]? with
        | some new_topo_map, some _ =>
          some ⟨.POS_SUCCESS, some id,
            { g1 with
              _t2s := g1._t2s.set id ⟨data, id⟩
              _topo := map_assign g1._topo id (map_insert_range new_topo_map neighbor) }⟩
        | _, _ => none

/-- The member `get_vertex_by_id<T>(id)`. In the `T2` branch the statement for an id beyond the
vector is `{ nullptr; }`, without `return`: control flows off the end of the function and no
value is returned. -/
def get_vertex_by_id (T : Kind) (g : POSBipartiteGraph) (id : Nat) : Option Nat :=
  match T with
  | .T1 => if id < g._t1s.length then (g._t1s[id]?).map (fun v => v.data) else some nullptr
  | .T2 => if id < g._t2s.length then (g._t2s[id]?).map (fun v => v.data) else none

/-- The inner loop of `__merge_topo_cache`: the edges of one T1 vertex are written into the
neighbor maps of its T2 neighbors. `_topo[k]` on an absent key stores a null pointer, on which
`POS_CHECK_POINTER` fails. -/
def merge_inner (t1_vid : Nat) : POSNeighborMap_t → POSTopoMap_t → Option POSTopoMap_t
  | [], topo => some topo
  | (t2_vid, dir) :: rest, topo =>
    match map_find topo t2_vid with
    | none => none
    | some t2_nmap => merge_inner t1_vid rest (map_assign topo t2_vid (map_assign t2_nmap t1_vid dir))

/-- The outer loop of `__merge_topo_cache` over `_topo_t1_cache`. -/
def merge_outer : POSTopoMap_t → POSTopoMap_t → Option POSTopoMap_t
  | [], topo => some topo
  | (t1_vid, t1_nmap) :: rest, topo =>
    match merge_inner t1_vid t1_nmap topo with
    | none => none
    | some topo1 => merge_outer rest topo1

/-- The member `__merge_topo_cache()`. -/
def __merge_topo_cache (g : POSBipartiteGraph) : Option POSBipartiteGraph :=
  match merge_outer g._topo_t1_cache g._topo with
  | none => none
  | some topo => some { g with _topo := topo, _topo_t1_cache := [] }

/-- The member `__join_topo()`. -/
def __join_topo (g : POSBipartiteGraph) : Option POSBipartiteGraph :=
  if g._topo_t1_cache.length ≠ 0 then __merge_topo_cache g else some g

/-- The member `get_vertex_neighbors_by_id<T2>(id)`: the graph after the merge and the returned
pointer (`none` inside for `nullptr`). Its first statement is
`POS_ERROR_C_DETAIL("don't invoke this function!")`. The macro is not defined in the sources at
hand: `POS_ERROR_C_DETAIL_returns` tells whether control continues after it, and when it does
not the call does not return, which is `none`. The warning macro `POS_WARN_C_DETAIL`, which
the sources follow with further statements, returns. -/
def get_vertex_neighbors_by_id_T2 (POS_ERROR_C_DETAIL_returns : Bool) (g : POSBipartiteGraph)
    (id : Nat) : Option (POSBipartiteGraph × Option POSNeighborMap_t) :=
  if POS_ERROR_C_DETAIL_returns then
    match __join_topo g with
    | none => none
    | some g1 => some (g1, map_find g1._topo id)
  else none

/-! ## `dump_graph_to_file` -/

/-- What one `<<` writes to the output stream: an unsigned number, an edge direction, a
serialized payload, the separator `", "`, or `std::endl`. -/
inductive Tok where
  | num (n : Nat)
  | dir (d : pos_edge_direction_t)
  | str (s : String)
  | sep
  | endl
  deriving DecidableEq

/-- The two payload loops of `dump_graph_to_file`: a vertex whose `data` is `nullptr` is skipped,
any other is serialized on a line of its own. -/
def dump_vertices (serilize : Nat → String) : List POSBgVertex_t → List Tok
  | [] => []
  | v :: rest =>
    if v.data = nullptr then dump_vertices serilize rest
    else [.str (serilize v.data), .endl] ++ dump_vertices serilize rest

/-- The loop over `direction_map` of `dump_graph_to_file`: the last pair is followed by
`std::endl`, every other pair by `", "`. -/
def dump_directions : POSNeighborMap_t → List Tok
  | [] => []
  | (nvid, dir) :: rest =>
    match rest with
    | [] => [.num nvid, .sep, .dir dir, .endl]
    | _ :: _ => [.num nvid, .sep, .dir dir, .sep] ++ dump_directions rest

/-- Body of the loop over `_topo` of `dump_graph_to_file` for one entry. -/
def dump_topo_entry (vid : Nat) (direction_map : POSNeighborMap_t) : List Tok :=
  (if direction_map.length > 0 then [.num vid, .sep, .num direction_map.length, .sep]
   else [.num vid, .sep, .num direction_map.length, .endl])
  ++ dump_directions direction_map

/-- The loop over `_topo` of `dump_graph_to_file`. -/
def dump_topo : POSTopoMap_t → List Tok
  | [] => []
  | (vid, direction_map) :: rest => dump_topo_entry vid direction_map ++ dump_topo rest

/-- The first line of the dump: `_t1s.size()`, `_t2s.size()` and `POS_TSC_FREQ`. -/
def dump_header (tsc_freq : Nat) (g : POSBipartiteGraph) : List Tok :=
  [.num g._t1s.length, .sep, .num g._t2s.length, .sep, .num tsc_freq, .endl]

/-- The member `dump_graph_to_file(file_path, serilize_t1, serilize_t2)`: the graph after the
merge pass and the content of the file, which is opened with `trunc`. The macro `POS_TSC_FREQ`
is the parameter `tsc_freq`. -/
def dump_graph_to_file (tsc_freq : Nat) (serilize_t1 serilize_t2 : Nat → String)
    (g : POSBipartiteGraph) : Option (POSBipartiteGraph × List Tok) :=
  match __join_topo g with
  | none => none
  | some g1 =>
    some (g1,
      dump_header tsc_freq g1 ++ dump_vertices serilize_t1 g1._t1s
        ++ dump_vertices serilize_t2 g1._t2s ++ dump_topo g1._topo)

/-- Number of lines of a piece of output. -/
def nb_lines (out : List Tok) : Nat := out.count .endl

/-- The numbers and directions of a piece of output, separators and line ends left out. -/
def fields : List Tok → List Tok
  | [] => []
  | .sep :: rest => fields rest
  | .endl :: rest => fields rest
  | t :: rest => t :: fields rest

/-! ## A client of the graph: sequences of calls -/

/-- One call on the graph: `add_vertex<T>(data, neighbor, &id)`, or the merge pass
`__join_topo()` as run at the start of `dump_graph_to_file` and, after its first statement, by
`get_vertex_neighbors_by_id`. -/
inductive Op where
  | add (T : Kind) (data : Nat) (neighbor : POSNeighborMap_t)
  | join

/-- Record of one returned `add_vertex` call: its arguments, its return value and the id it
stored. -/
structure Event where
  T : Kind
  data : Nat
  neighbor : POSNeighborMap_t
  retval : pos_retval_t
  id : Option Nat

/-- Runs one call; `none` when the call does not return. -/
def step (dbg : Bool) (g : POSBipartiteGraph) : Op → Option (POSBipartiteGraph × List Event)
  | .add T data neighbor =>
    match add_vertex dbg T g data neighbor with
    | none => none
    | some r => some (r.graph, [⟨T, data, neighbor, r.retval, r.id⟩])
  | .join =>
    match __join_topo g with
    | none => none
    | some g1 => some (g1, [])

/-- Runs a sequence of calls from `g` and collects the records of the `add_vertex` calls. -/
def run (dbg : Bool) : POSBipartiteGraph → List Op → Option (POSBipartiteGraph × List Event)
  | g, [] => some (g, [])
  | g, op :: ops =>
    match step dbg g op with
    | none => none
    | some (g1, ev) =>
      match run dbg g1 ops with
      | none => none
      | some (g2, evs) => some (g2, ev ++ evs)

/-- Ids stored by the successful `add_vertex<T>` calls of a record list, in call order. -/
def assigned_ids (T : Kind) (evs : List Event) : List Nat :=
  evs.filterMap (fun e => if e.T = T ∧ e.retval = .POS_SUCCESS then e.id else none)

/-- The records of the `add_vertex<T>` calls that returned `POS_SUCCESS`, in call order. -/
def successful_calls (T : Kind) (evs : List Event) : List Event :=
  evs.filter (fun e => decide (e.T = T ∧ e.retval = .POS_SUCCESS))

/-- The `add_vertex` calls of a sequence of calls, in call order: kind, payload and neighbor
map. -/
def add_calls : List Op → List (Kind × Nat × POSNeighborMap_t)
  | [] => []
  | .add T data neighbor :: ops => (T, data, neighbor) :: add_calls ops
  | .join :: ops => add_calls ops

/-- The other vertex kind. -/
def Kind.other : Kind → Kind
  | .T1 => .T2
  | .T2 => .T1

/-- True for a call sequence without a merge pass. -/
def no_join : List Op → Bool
  | [] => true
  | .add _ _ _ :: ops => no_join ops
  | .join :: _ => false

/-- The id counter of a kind: `max_t1_id` or `max_t2_id`. -/
def max_id : Kind → POSBipartiteGraph → Nat
  | .T1, g => g.max_t1_id
  | .T2, g => g.max_t2_id

/-- The vertex vector of a kind: `_t1s` or `_t2s`. -/
def vertices : Kind → POSBipartiteGraph → List POSBgVertex_t
  | .T1, g => g._t1s
  | .T2, g => g._t2s

/-- Every prefilled slot of `_topo_t1_cache` is still there (no merge has cleared the cache). -/
def CacheFull (g : POSBipartiteGraph) : Prop :=
  ∀ k, k < kPOSBG_PREFILL_SIZE → ∃ m, map_find g._topo_t1_cache k = some m

/-- The edges that the cache `cache` holds for the T2 id `t`, written into the neighbor map
`m` of `t` in the iteration order of the merge pass. -/
def apply_edges (cache : POSTopoMap_t) (t : Nat) (m : POSNeighborMap_t) : POSNeighborMap_t :=
  cache.foldl
    (fun acc e =>
      match map_find e.2 t with
      | none => acc
      | some d => map_assign acc e.1 d) m

/-- Every neighbor id held in the T1 cache is a key of `_topo`. -/
def CacheValid (g : POSBipartiteGraph) : Prop :=
  ∀ e ∈ g._topo_t1_cache, ∀ x ∈ e.2, x.1 ∈ map_keys g._topo

/-- The neighbor map supplied to the successful `add_vertex<T>` call that stored the id `v`
(empty when no call stored it). -/
def declared_neighbors (T : Kind) (evs : List Event) (v : Nat) : POSNeighborMap_t :=
  match evs.find? (fun e => decide (e.T = T ∧ e.retval = .POS_SUCCESS ∧ e.id = some v)) with
  | some e => e.neighbor
  | none => []

/-- The direction declared for the edge between the T1 id `v` and the T2 id `t`: the one the
`add_vertex<T1>` call of `v` gave for `t`, and otherwise the one the `add_vertex<T2>` call of
`t` gave for `v`. -/
def declared_edge (evs : List Event) (t v : Nat) : Option pos_edge_direction_t :=
  match map_find (declared_neighbors .T1 evs v) t with
  | some d => some d
  | none => map_find (declared_neighbors .T2 evs t) v

/-- How a graph on which only `add_vertex` has run relates to the records of the calls. -/
structure Rel (g : POSBipartiteGraph) (evs : List Event) : Prop where
  ids1 : assigned_ids .T1 evs = List.range g.max_t1_id
  ids2 : assigned_ids .T2 evs = List.range g.max_t2_id
  cache_has : ∀ v, v < g.max_t1_id → ∃ nm, map_find g._topo_t1_cache v = some nm
  cache_rel : ∀ v nm, map_find g._topo_t1_cache v = some nm →
    ∀ t, map_find nm t = map_find (declared_neighbors .T1 evs v) t
  topo_rel : ∀ t m, map_find g._topo t = some m →
    ∀ v, map_find m v = map_find (declared_neighbors .T2 evs t) v
  cache_src : ∀ e ∈ g._topo_t1_cache, ∀ x ∈ e.2,
    ∃ ev ∈ evs, ev.T = .T1 ∧ ev.retval = .POS_SUCCESS ∧ x ∈ ev.neighbor

/-! ## Closed form of the constructor and state invariant -/

/-- The prefilled outer map: keys `0 .. n-1`, each with an empty neighbor map. -/
def prefilled_map (n : Nat) : POSTopoMap_t := (List.range n).map (fun i => (i, []))

/-- State invariant, for a graph on which at most `n` calls have run. -/
structure Inv (n : Nat) (g : POSBipartiteGraph) : Prop where
  max1 : g.max_t1_id ≤ n
  max2 : g.max_t2_id ≤ n
  len1 : g._t1s.length = max kPOSBG_PREFILL_SIZE g.max_t1_id
  len2 : g._t2s.length = max kPOSBG_PREFILL_SIZE g.max_t2_id
  topo_keys : map_keys g._topo = List.range (max kPOSBG_PREFILL_SIZE g.max_t2_id)
  cache_sorted : (map_keys g._topo_t1_cache).Pairwise (· < ·)
  cache_empty : ∀ k m, map_find g._topo_t1_cache k = some m → g.max_t1_id ≤ k → m = []
  cache_vals : ∀ e ∈ g._topo_t1_cache, (map_keys e.2).Pairwise (· < ·)
  topo_vals : ∀ e ∈ g._topo, (map_keys e.2).Pairwise (· < ·)

/-! ## `client.h`: the kernel-meta record of a Function handle

A `std::string` is the list of its characters. -/

/-- The call `std::to_string` on an unsigned value: its decimal digits, most significant
first, `"0"` for zero. -/
def to_string (n : Nat) : List Char :=
  if n = 0 then ['0'] else ((Nat.digits 10 n).reverse).map Nat.digitChar

/-- The members of `POSHandle_CUDA_Function` that `dump_function_metas` reads. The class is not
among the sources at hand; the members and their kinds are those of the uses in the lambda. -/
structure POSHandle_CUDA_Function where
  name : List Char
  signature : List Char
  nb_params : Nat
  param_offsets : List Nat
  param_sizes : List Nat
  input_pointer_params : List Nat
  output_pointer_params : List Nat
  inout_pointer_params : List Nat
  suspicious_params : List Nat
  has_verified_params : Bool
  confirmed_suspicious_params : List (Nat × Nat)
  cbank_param_size : Nat

/-- The local `std::string delimiter("|")`. -/
def delimiter : List Char := ['|']

/-- A loop `for(i=0; i<nb_params; i++)` that appends `to_string(v[i])` and the delimiter, with
`k` iterations left at index `i`; an index beyond the vector has no defined value. -/
def dump_indexed (v : List Nat) : Nat → Nat → List Char → Option (List Char)
  | 0, _, output_str => some output_str
  | k + 1, i, output_str =>
    match v[i]? with
    | none => none
    | some x => dump_indexed v k (i + 1) (output_str ++ to_string x ++ delimiter)

/-- A loop `for(i=0; i<v.size(); i++)` that appends `to_string(v[i])` and the delimiter. -/
def dump_list (v : List Nat) (output_str : List Char) : List Char :=
  v.foldl (fun o x => o ++ to_string x ++ delimiter) output_str

/-- The loop over `confirmed_suspicious_params`: index, delimiter, offset, delimiter. -/
def dump_pairs (v : List (Nat × Nat)) (output_str : List Char) : List Char :=
  v.foldl (fun o p => o ++ to_string p.1 ++ delimiter ++ to_string p.2 ++ delimiter) output_str

/-- The lambda `dump_function_metas` of `__dump_hm_cuda_functions`. -/
def dump_function_metas (function_handle : POSHandle_CUDA_Function) : Option (List Char) :=
  let o1 := [] ++ (function_handle.name ++ delimiter)
  let o2 := o1 ++ (function_handle.signature ++ delimiter)
  let o3 := o2 ++ to_string function_handle.nb_params
  let o4 := o3 ++ delimiter
  match dump_indexed function_handle.param_offsets function_handle.nb_params 0 o4 with
  | none => none
  | some o5 =>
    match dump_indexed function_handle.param_sizes function_handle.nb_params 0 o5 with
    | none => none
    | some o6 =>
      let o7 := dump_list function_handle.input_pointer_params
        (o6 ++ to_string function_handle.input_pointer_params.length ++ delimiter)
      let o8 := dump_list function_handle.output_pointer_params
        (o7 ++ to_string function_handle.output_pointer_params.length ++ delimiter)
      let o9 := dump_list function_handle.inout_pointer_params
        (o8 ++ to_string function_handle.inout_pointer_params.length ++ delimiter)
      let o10 := dump_list function_handle.suspicious_params
        (o9 ++ to_string function_handle.suspicious_params.length ++ delimiter)
      let o11 :=
        if function_handle.has_verified_params then
          dump_pairs function_handle.confirmed_suspicious_params
            (o10 ++ (['1'] ++ delimiter)
              ++ to_string function_handle.confirmed_suspicious_params.length ++ delimiter)
        else o10 ++ (['0'] ++ delimiter)
      some (o11 ++ to_string function_handle.cbank_param_size)

/-- A list of indices as the specification words it: its element count, then its elements. -/
def counted (l : List Nat) : List (List Char) := to_string l.length :: l.map to_string

/-- The fields of the record in the order of the specification: name, signature, nb_params,
nb_params offsets, nb_params sizes, input, output, inout and suspicious indices (each preceded
by its count), the verified flag followed (only when it is 1) by the count and the
(index, offset) pairs, and the constant-bank size. -/
def record_fields (h : POSHandle_CUDA_Function) : List (List Char) :=
  [h.name, h.signature, to_string h.nb_params]
    ++ (h.param_offsets.take h.nb_params).map to_string
    ++ (h.param_sizes.take h.nb_params).map to_string
    ++ counted h.input_pointer_params
    ++ counted h.output_pointer_params
    ++ counted h.inout_pointer_params
    ++ counted h.suspicious_params
    ++ (if h.has_verified_params then
          [['1'], to_string h.confirmed_suspicious_params.length]
            ++ h.confirmed_suspicious_params.flatMap (fun p => [to_string p.1, to_string p.2])
        else [['0']])
    ++ [to_string h.cbank_param_size]

/-- The record without its last field, the constant-bank size. -/
def record_front (h : POSHandle_CUDA_Function) : List (List Char) :=
  [h.name, h.signature, to_string h.nb_params]
    ++ (h.param_offsets.take h.nb_params).map to_string
    ++ (h.param_sizes.take h.nb_params).map to_string
    ++ counted h.input_pointer_params
    ++ counted h.output_pointer_params
    ++ counted h.inout_pointer_params
    ++ counted h.suspicious_params
    ++ (if h.has_verified_params then
          [['1'], to_string h.confirmed_suspicious_params.length]
            ++ h.confirmed_suspicious_params.flatMap (fun p => [to_string p.1, to_string p.2])
        else [['0']])

/-- The characters `0` to `9`. -/
def decimal_digits : List Char := ['0', '1', '2', '3', '4', '5', '6', '7', '8', '9']

/-- Fields joined by the delimiter `|`, none after the last field. -/
def join_fields : List (List Char) → List Char
  | [] => []
  | [f] => f
  | f :: g :: rest => f ++ delimiter ++ join_fields (g :: rest)

/-- Fields each followed by the delimiter `|`. -/
def terminated (fs : List (List Char)) : List Char := (fs.map (fun f => f ++ delimiter)).flatten

/-- A Function handle whose record can be read back: no `|` in name or signature, and
exactly `nb_params` offsets and sizes. -/
structure RecordReadable (h : POSHandle_CUDA_Function) : Prop where
  name_ok : '|' ∉ h.name
  signature_ok : '|' ∉ h.signature
  offsets_ok : h.param_offsets.length = h.nb_params
  sizes_ok : h.param_sizes.length = h.nb_params

/-! ## Handles, handle managers and the API context

The headers that declare `POSHandle`, `POSHandleManager`, `POSAPIContext_QE` and the
checkpoint bag are not among the sources at hand; the types below carry the members that
`worker.h`, `client.h` and `worker/cuda_driver.h` read and write.

A pointer to a handle is the index of the handle in the list of all handle objects (the
*store*); a pointer that is null or dangling is an index outside the store, and dereferencing
it, like a failed `POS_CHECK_POINTER`, yields `none`. A `std::set` of handle pointers is the
ascending list of its elements. A vendor call (`cudaStreamSynchronize`, `cudaMemcpyPeerAsync`)
is a parameter that says whether the call succeeds.
-/

/-- The resource types of a CUDA client, as `__get_resource_idx` of `client.h` lists them. -/
inductive pos_resource_typeid_t where
  | kPOS_ResourceTypeId_CUDA_Context
  | kPOS_ResourceTypeId_CUDA_Module
  | kPOS_ResourceTypeId_CUDA_Function
  | kPOS_ResourceTypeId_CUDA_Var
  | kPOS_ResourceTypeId_CUDA_Device
  | kPOS_ResourceTypeId_CUDA_Memory
  | kPOS_ResourceTypeId_CUDA_Stream
  | kPOS_ResourceTypeId_CUDA_Event
  | kPOS_ResourceTypeId_cuBLAS_Context
  deriving DecidableEq

/-- Modelled from the spec: the status of a handle, from the set NotReady, WaitingReload,
Active, Deleted, Broken, Pending_Create. The sources at hand name
`kPOS_HandleStatus_Active` and `kPOS_HandleStatus_Broken`. -/
inductive pos_handle_status_t where
  | kPOS_HandleStatus_NotReady
  | kPOS_HandleStatus_WaitingReload
  | kPOS_HandleStatus_Active
  | kPOS_HandleStatus_Deleted
  | kPOS_HandleStatus_Broken
  | kPOS_HandleStatus_Create_Pending
  deriving DecidableEq

/-- Modelled from the spec: the status of the state of a handle; `client.h` assigns
`kPOS_HandleStatus_StateReady` to the member `state_status` after a reload. -/
inductive pos_handle_state_status_t where
  | kPOS_HandleStatus_StateMiss
  | kPOS_HandleStatus_StateReady
  deriving DecidableEq

/-- Modelled from the spec: the checkpoint bag of a handle, of which the code at hand reads
`get_memory_consumption()` only. -/
structure POSCheckpointBag where
  memory_consumption : Nat := 0
  deriving DecidableEq

/-- The member `get_memory_consumption()` of the checkpoint bag. -/
def POSCheckpointBag.get_memory_consumption (b : POSCheckpointBag) : Nat := b.memory_consumption

/-- The members of `POSHandle` that the code at hand reads or writes. -/
structure POSHandle where
  resource_type_id : pos_resource_typeid_t := .kPOS_ResourceTypeId_CUDA_Memory
  status : pos_handle_status_t := .kPOS_HandleStatus_Active
  state_status : pos_handle_state_status_t := .kPOS_HandleStatus_StateMiss
  client_addr : Nat := 0
  server_addr : Nat := 0
  remote_server_addr : Nat := 0
  state_size : Nat := 0
  latest_version : Nat := 0
  dag_vertex_id : Nat := 0
  parent_handles : List Nat := []
  ckpt_bag : POSCheckpointBag := {}
  deriving DecidableEq

/-- A handle with its checkpoint bag emptied: the members that a checkpoint leaves alone. -/
def POSHandle.without_ckpt_bag (h : POSHandle) : POSHandle := { h with ckpt_bag := {} }

/-- The member `handle` of `POSHandleView_t`, the only one the code at hand reads. -/
structure POSHandleView_t where
  handle : Nat
  deriving DecidableEq

/-- The members of `POSAPIContext_QE` used by the checkpoint procedures. The map
`handle_view_map` is read through `count` and `operator[]` only and is represented by its
lookup: `none` for a type without entry, else the vector stored under the type. -/
structure POSAPIContext_QE where
  dag_vertex_id : Nat := 0
  handle_view_map : pos_resource_typeid_t → Option (List POSHandleView_t) := fun _ => none
  nb_ckpt_handles : Nat := 0
  ckpt_size : Nat := 0
  ckpt_memory_consumption : Nat := 0

/-- Modelled from the spec: a handle manager owns the handles of one type (`get_nb_handles`,
`get_handle_by_id(i)`, `get_handles`), and the manager of a stateful type tracks the set of
handles modified since the last checkpoint (`get_modified_handles`, `clear_modified_handle`). -/
structure POSHandleManager where
  handles : List Nat := []
  modified_handles : List Nat := []
  deriving DecidableEq

/-- The member `handle_managers` of the client, read through `operator[]` and the macro
`pos_get_client_typed_hm`: `none` is the null pointer. -/
abbrev POSHandleManagers := pos_resource_typeid_t → Option POSHandleManager

/-! ## `worker.h`: the checkpoint procedures -/

/-- One call `handle->checkpoint(version_id, stream_id)`. -/
structure CheckpointCall where
  handle : Nat
  version_id : Nat
  stream_id : Nat
  deriving DecidableEq

/-- Modelled from the spec: `POSHandle::checkpoint(version_id, stream_id)` commits a version to
the checkpoint bag of the handle. It is a parameter of the procedures: given the calls made so
far, the handle and the two arguments, it yields the return code and the bag after the call. -/
abbrev checkpoint_t :=
  List CheckpointCall → POSHandle → Nat → Nat → pos_retval_t × POSCheckpointBag

/-- What the checkpoint procedures read and write: the handle objects, the WQE of the
checkpoint op, and the record of the `checkpoint` calls made. -/
structure WorkerState where
  handles : List POSHandle
  wqe : POSAPIContext_QE
  calls : List CheckpointCall := []

/-- The loop over handles that the three checkpoint procedures share (lines 106-122, 185-201
and 269-285): checkpoint each handle under the version `wqe->dag_vertex_id` on the stream
`stream_id`; on a failure `retval = POS_FAILED; goto exit`, otherwise count the handle and its
`state_size`. -/
def checkpoint_handles (checkpoint : checkpoint_t) (stream_id : Nat) :
    List Nat → WorkerState → Option (pos_retval_t × WorkerState)
  | [], s => some (.POS_SUCCESS, s)
  | p :: rest, s =>
    match s.handles[p]? with
    | none => none
    | some handle =>
      let r := checkpoint s.calls handle s.wqe.dag_vertex_id stream_id
      let s1 : WorkerState :=
        { s with
          handles := s.handles.set p { handle with ckpt_bag := r.2 }
          calls := s.calls ++ [⟨p, s.wqe.dag_vertex_id, stream_id⟩] }
      if r.1 ≠ .POS_SUCCESS then some (.POS_FAILED, s1)
      else
        checkpoint_handles checkpoint stream_id rest
          { s1 with
            wqe :=
              { s1.wqe with
                nb_ckpt_handles := (s1.wqe.nb_ckpt_handles + 1) % UINT64_RANGE
                ckpt_size := (s1.wqe.ckpt_size + handle.state_size) % UINT64_RANGE } }

/-- The inner loop after the label `exit` of `__checkpoint_naive` and `__checkpoint_o1`: add
`handle->ckpt_bag->get_memory_consumption()` of every handle of one manager. -/
def collect_manager_statistics (handles : List POSHandle) : List Nat → Nat → Option Nat
  | [], total => some total
  | p :: rest, total =>
    match handles[p]? with
    | none => none
    | some handle =>
      collect_manager_statistics handles rest
        ((total + handle.ckpt_bag.get_memory_consumption) % UINT64_RANGE)

/-- The loop after the label `exit` of `__checkpoint_naive` and `__checkpoint_o1`: add the
memory consumption of the checkpoint bag of every handle of every stateful manager. -/
def collect_statistics (handle_managers : POSHandleManagers) :
    List pos_resource_typeid_t → WorkerState → Option WorkerState
  | [], s => some s
  | t :: rest, s =>
    match handle_managers t with
    | none => none
    | some hm =>
      match collect_manager_statistics s.handles hm.handles s.wqe.ckpt_memory_consumption with
      | none => none
      | some total =>
        collect_statistics handle_managers rest
          { s with wqe := { s.wqe with ckpt_memory_consumption := total } }

/-- The first loop of `__checkpoint_naive`: every handle of every stateful manager. -/
def __checkpoint_naive_loop (checkpoint : checkpoint_t) (handle_managers : POSHandleManagers) :
    List pos_resource_typeid_t → WorkerState → Option (pos_retval_t × WorkerState)
  | [], s => some (.POS_SUCCESS, s)
  | t :: rest, s =>
    match handle_managers t with
    | none => none
    | some hm =>
      match checkpoint_handles checkpoint 0 hm.handles s with
      | none => none
      | some (.POS_SUCCESS, s1) => __checkpoint_naive_loop checkpoint handle_managers rest s1
      | some (retval, s1) => some (retval, s1)

/-- The first loop of `__checkpoint_o1`: the handles of the views that the WQE lists under
each stateful type; a type without entry is skipped. -/
def __checkpoint_o1_loop (checkpoint : checkpoint_t) (handle_managers : POSHandleManagers) :
    List pos_resource_typeid_t → WorkerState → Option (pos_retval_t × WorkerState)
  | [], s => some (.POS_SUCCESS, s)
  | t :: rest, s =>
    match handle_managers t with
    | none => none
    | some _ =>
      match s.wqe.handle_view_map t with
      | none => __checkpoint_o1_loop checkpoint handle_managers rest s
      | some handle_views =>
        match checkpoint_handles checkpoint 0 (handle_views.map (fun v => v.handle)) s with
        | none => none
        | some (.POS_SUCCESS, s1) => __checkpoint_o1_loop checkpoint handle_managers rest s1
        | some (retval, s1) => some (retval, s1)

/-- The three telemetry fields set to `0` at the entry of a checkpoint procedure. -/
def reset_telemetry (s : WorkerState) : WorkerState :=
  { s with wqe := { s.wqe with nb_ckpt_handles := 0, ckpt_size := 0, ckpt_memory_consumption := 0 } }

/-- The part of a checkpoint procedure between its first loop and `return retval`: when the
loop ended with `POS_SUCCESS`, `cudaStreamSynchronize(0)` (which succeeds when
`cudaStreamSynchronize_ok`), then the statistics after the label `exit`. -/
def checkpoint_exit (cudaStreamSynchronize_ok : Bool) (handle_managers : POSHandleManagers)
    (stateful_handle_type_idx : List pos_resource_typeid_t) :
    Option (pos_retval_t × WorkerState) → Option (pos_retval_t × WorkerState)
  | none => none
  | some (retval, s1) =>
    let retval1 :=
      if retval = .POS_SUCCESS then
        (if cudaStreamSynchronize_ok then pos_retval_t.POS_SUCCESS else pos_retval_t.POS_FAILED)
      else retval
    (collect_statistics handle_managers stateful_handle_type_idx s1).map (fun s2 => (retval1, s2))

/-- The member `__checkpoint_naive(wqe)` of `POSWorker_CUDA`. -/
def __checkpoint_naive (checkpoint : checkpoint_t) (cudaStreamSynchronize_ok : Bool)
    (handle_managers : POSHandleManagers)
    (stateful_handle_type_idx : List pos_resource_typeid_t) (s : WorkerState) :
    Option (pos_retval_t × WorkerState) :=
  checkpoint_exit cudaStreamSynchronize_ok handle_managers stateful_handle_type_idx
    (__checkpoint_naive_loop checkpoint handle_managers stateful_handle_type_idx
      (reset_telemetry s))

/-- The member `__checkpoint_o1(wqe)` of `POSWorker_CUDA`. -/
def __checkpoint_o1 (checkpoint : checkpoint_t) (cudaStreamSynchronize_ok : Bool)
    (handle_managers : POSHandleManagers)
    (stateful_handle_type_idx : List pos_resource_typeid_t) (s : WorkerState) :
    Option (pos_retval_t × WorkerState) :=
  checkpoint_exit cudaStreamSynchronize_ok handle_managers stateful_handle_type_idx
    (__checkpoint_o1_loop checkpoint handle_managers stateful_handle_type_idx
      (reset_telemetry s))

/-- The member `checkpoint_async(wqe, handles)` of `POSWorker_CUDA`; `_ckpt_stream` is the
checkpoint stream of the worker. -/
def checkpoint_async (checkpoint : checkpoint_t) (_ckpt_stream : Nat) (handles : List Nat)
    (s : WorkerState) : Option (pos_retval_t × WorkerState) :=
  checkpoint_handles checkpoint _ckpt_stream handles (reset_telemetry s)

/-- The handle views that the WQE lists under the stateful resource types, in the order of
`stateful_handle_type_idx` (a type counts as often as that index lists it). -/
def stateful_views (stateful_handle_type_idx : List pos_resource_typeid_t)
    (wqe : POSAPIContext_QE) : List POSHandleView_t :=
  stateful_handle_type_idx.flatMap (fun t => (wqe.handle_view_map t).getD [])

/-- The `state_size` of the handle behind a pointer (`0` for a pointer outside the store). -/
def state_size_of (handles : List POSHandle) (p : Nat) : Nat :=
  match handles[p]? with
  | some handle => handle.state_size
  | none => 0

/-- The sum of `ckpt_bag->get_memory_consumption()` over the handles of the stateful
managers of the client. -/
def stateful_memory_consumption (handle_managers : POSHandleManagers)
    (stateful_handle_type_idx : List pos_resource_typeid_t) (handles : List POSHandle) : Nat :=
  ((stateful_handle_type_idx.flatMap
      (fun t => match handle_managers t with
        | some hm => hm.handles
        | none => [])).map
    (fun p => match handles[p]? with
      | some handle => handle.ckpt_bag.get_memory_consumption
      | none => 0)).sum

/-! ### A checkpoint op after an allocation and a kernel launch

The third scenario of the specification: a Memory handle of 4096 bytes, written once
(`latest_version = 1`), and the checkpoint op with DAG vertex id `2` whose handle-view map
lists the handle under the type Memory. The telemetry fields of the WQE hold stale values. -/

/-- A `checkpoint` that succeeds and leaves a bag holding one copy of the state. -/
def scenario_checkpoint : checkpoint_t :=
  fun _ handle _ _ => (.POS_SUCCESS, { memory_consumption := handle.state_size })

/-- The stateful types of the workspace: Memory and Module. -/
def scenario_stateful_handle_type_idx : List pos_resource_typeid_t :=
  [.kPOS_ResourceTypeId_CUDA_Memory, .kPOS_ResourceTypeId_CUDA_Module]

/-- The Memory manager owns the handle at pointer `0`; the Module manager owns none. -/
def scenario_handle_managers : POSHandleManagers := fun t =>
  if t = .kPOS_ResourceTypeId_CUDA_Memory then some { handles := [0] }
  else if t = .kPOS_ResourceTypeId_CUDA_Module then some {}
  else none

/-- The store and the WQE of the checkpoint op. -/
def scenario_worker_state : WorkerState :=
  { handles := [{ state_size := 4096, latest_version := 1 }]
    wqe :=
      { dag_vertex_id := 2
        handle_view_map := fun t =>
          if t = .kPOS_ResourceTypeId_CUDA_Memory then some [⟨0⟩] else none
        nb_ckpt_handles := 55
        ckpt_size := 77
        ckpt_memory_consumption := 99 } }

/-! ### `generate_overlap_ckpt_scheme` -/

/-- Modelled from the spec: the members of `pos_ckpt_overlap_scheme_t` that
`generate_overlap_ckpt_scheme` calls. The scheme is represented by the record of the calls
made on it. -/
inductive SchemeCall where
  | refresh (nb_pending_op : Nat)
  | add_new_handle_for_distribute (relative_deadline_position : Nat) (handle : Nat)
  | schedule
  deriving DecidableEq

/-- Modelled from the spec: the query `client->dag.get_handle_modified_position(handle_id,
start_op_id, end_op_id, positions)`. It is a parameter of the procedure: given the three ids
and the vector `*positions` before the call, it yields the return code and the vector after
the call. -/
abbrev get_handle_modified_position_t := Nat → Nat → Nat → List Nat → pos_retval_t × List Nat

/-- Modelled from the spec: `next_modified_positions(handle_vertex_id, start_op_id,
end_op_id)`, the ordered list of the op ids from `start_op_id` to `end_op_id` at which the
handle is modified, `modified handle_id op_id` saying whether the op modifies the handle. -/
def next_modified_positions (modified : Nat → Nat → Bool)
    (handle_id start_op_id end_op_id : Nat) : List Nat :=
  (List.range' start_op_id (end_op_id + 1 - start_op_id)).filter (modified handle_id)

/-- The first loop of `generate_overlap_ckpt_scheme`: `remain_handles` receives the handle of
every view that the WQE lists under a stateful type. -/
def extract_modified_handles (handles : List POSHandle) (wqe : POSAPIContext_QE) :
    List pos_resource_typeid_t → List Nat → Option (List Nat)
  | [], remain_handles => some remain_handles
  | t :: rest, remain_handles =>
    match wqe.handle_view_map t with
    | none => extract_modified_handles handles wqe rest remain_handles
    | some handle_views =>
      if handle_views.all (fun v => (handles[v.handle]?).isSome) then
        extract_modified_handles handles wqe rest
          (remain_handles ++ handle_views.map (fun v => v.handle))
      else none

/-- The second loop of `generate_overlap_ckpt_scheme`. The statement
`retval != client->dag.get_handle_modified_position(...)` compares and discards the result,
so `retval` keeps its value. The first component of the result tells whether the loop was
left by `goto exit`. -/
def distribute_handles (get_handle_modified_position : get_handle_modified_position_t)
    (handles : List POSHandle) (dag_vertex_id nb_pending_op : Nat) :
    List Nat → pos_retval_t → List Nat → List SchemeCall →
      Option (Bool × pos_retval_t × List SchemeCall)
  | [], retval, _, calls => some (false, retval, calls)
  | p :: rest, retval, handle_modified_position, calls =>
    match handles[p]? with
    | none => none
    | some remain_handle =>
      let handle_modified_position1 :=
        (get_handle_modified_position remain_handle.dag_vertex_id
          ((dag_vertex_id + 1) % UINT64_RANGE)
          ((dag_vertex_id + nb_pending_op) % UINT64_RANGE) handle_modified_position).2
      if retval ≠ .POS_SUCCESS then some (true, retval, calls)
      else
        let deadline_position : Option Nat :=
          match handle_modified_position1 with
          | [] =>
            some ((dag_vertex_id + (nb_pending_op + UINT64_RANGE - 1) % UINT64_RANGE)
              % UINT64_RANGE)
          | m :: _ =>
            if m > dag_vertex_id then some ((m + UINT64_RANGE - 1) % UINT64_RANGE) else none
        match deadline_position with
        | none => none
        | some deadline_position =>
          let relative_deadline_position :=
            (deadline_position + UINT64_RANGE - dag_vertex_id) % UINT64_RANGE
          distribute_handles get_handle_modified_position handles dag_vertex_id nb_pending_op
            rest retval handle_modified_position1
            (calls ++ [.add_new_handle_for_distribute relative_deadline_position p])

/-- The member `generate_overlap_ckpt_scheme(wqe, nb_pending_op, ckpt_scheme)` of
`POSWorker_CUDA`: the return code and the calls made on the scheme. A failed `POS_ASSERT`
yields `none`. -/
def generate_overlap_ckpt_scheme (get_handle_modified_position : get_handle_modified_position_t)
    (cudaStreamSynchronize_ok : Bool) (stateful_handle_type_idx : List pos_resource_typeid_t)
    (handles : List POSHandle) (wqe : POSAPIContext_QE) (nb_pending_op : Nat) :
    Option (pos_retval_t × List SchemeCall) :=
  match extract_modified_handles handles wqe stateful_handle_type_idx [] with
  | none => none
  | some remain_handles =>
    match
      distribute_handles get_handle_modified_position handles wqe.dag_vertex_id nb_pending_op
        remain_handles .POS_SUCCESS [] [.refresh nb_pending_op] with
    | none => none
    | some (true, retval, calls) => some (retval, calls)
    | some (false, retval, calls) =>
      if cudaStreamSynchronize_ok then some (retval, calls ++ [.schedule])
      else some (.POS_FAILED, calls ++ [.schedule])

/-- The `dag_vertex_id` of the handle behind a pointer (`0` for a pointer outside the store). -/
def dag_vertex_id_of (handles : List POSHandle) (p : Nat) : Nat :=
  match handles[p]? with
  | some handle => handle.dag_vertex_id
  | none => 0

/-- The deadline as the specification words it, for a checkpoint op with DAG vertex id `c`
and `P` pending ops: the relative index `m - c` of the first op `m` among `c + 1, ..., c + P`
that modifies the handle, minus one, or `P - 1` if none of them does. -/
def relative_deadline (modified : Nat → Nat → Bool) (handle_id c P : Nat) : Nat :=
  match (List.range' (c + 1) P).find? (modified handle_id) with
  | some m => (m - c) - 1
  | none => P - 1

/-! ### A checkpoint op followed by six pending ops

The fourth scenario of the specification: the handle `H1` (pointer `0`, DAG vertex id `0`) is
written by the op right after the checkpoint op, the handle `H2` (pointer `1`, DAG vertex id
`1`) by none of the pending ops. The checkpoint op has the DAG vertex id `6`. -/

/-- The op `7` writes the handle vertex `0`. -/
def overlap_modified : Nat → Nat → Bool := fun handle_id op_id => handle_id = 0 && op_id = 7

/-- A query that answers as the specification words it. -/
def overlap_query : get_handle_modified_position_t :=
  fun handle_id start_op_id end_op_id _ =>
    (.POS_SUCCESS, next_modified_positions overlap_modified handle_id start_op_id end_op_id)

/-- The two handles. -/
def overlap_handles : List POSHandle :=
  [{ state_size := 4096, dag_vertex_id := 0 }, { state_size := 4096, dag_vertex_id := 1 }]

/-- The WQE of the checkpoint op: both handles under the type Memory. -/
def overlap_wqe : POSAPIContext_QE :=
  { dag_vertex_id := 6
    handle_view_map := fun t =>
      if t = .kPOS_ResourceTypeId_CUDA_Memory then some [⟨0⟩, ⟨1⟩] else none }

/-! ## `client.h`: the migration procedures -/

/-- The member `insert` of a `std::set` of pointers: the ascending list without repetition. -/
def set_insert : List Nat → Nat → List Nat
  | [], a => [a]
  | b :: rest, a =>
    if a < b then a :: b :: rest
    else if a = b then b :: rest
    else b :: set_insert rest a

/-- The sets of handle pointers in the member `migration_ctx` of the client. -/
structure MigrationCtx where
  precopy_handles : List Nat := []
  invalidated_handles : List Nat := []
  __TMP__host_handles : List Nat := []
  deriving DecidableEq

/-- What the migration procedures of `POSClient_CUDA` read and write: the handle objects, the
handle managers and the migration context. -/
structure ClientState where
  handles : List POSHandle
  handle_managers : POSHandleManagers
  migration_ctx : MigrationCtx := {}

/-- The local counters of `__TMP__migration_precopy`, and the record of the handles passed to
`cudaMemcpyPeerAsync`. -/
structure PrecopyLocals where
  copied : List Nat := []
  nb_precopy_handle : Nat := 0
  precopy_size : Nat := 0
  nb_host_handle : Nat := 0
  host_handle_size : Nat := 0
  deriving DecidableEq

/-- The loop of `__TMP__migration_precopy` over the modified set. The three parameters say, for
the handle at hand, what `hm_memory->is_host_stateful_handle` returns and whether
`cudaMemcpyPeerAsync` and the `cudaStreamSynchronize` after it succeed. The `continue` of the
host-stateful branch is commented out in the source, so that branch falls through to the
copy. -/
def precopy_loop (is_host_stateful_handle cudaMemcpyPeerAsync_ok cudaStreamSynchronize_ok :
    Nat → Bool) (handles : List POSHandle) :
    List Nat → MigrationCtx × PrecopyLocals → Option (MigrationCtx × PrecopyLocals)
  | [], st => some st
  | p :: rest, (ctx, loc) =>
    match handles[p]? with
    | none => none
    | some memory_handle =>
      let st1 : MigrationCtx × PrecopyLocals :=
        if is_host_stateful_handle p then
          ({ ctx with __TMP__host_handles := set_insert ctx.__TMP__host_handles p },
            { loc with
              nb_host_handle := (loc.nb_host_handle + 1) % UINT64_RANGE
              host_handle_size := (loc.host_handle_size + memory_handle.state_size)
                % UINT64_RANGE })
        else (ctx, loc)
      let st2 : MigrationCtx × PrecopyLocals :=
        (st1.1, { st1.2 with copied := st1.2.copied ++ [p] })
      if ¬ cudaMemcpyPeerAsync_ok p then
        precopy_loop is_host_stateful_handle cudaMemcpyPeerAsync_ok cudaStreamSynchronize_ok
          handles rest st2
      else if ¬ cudaStreamSynchronize_ok p then
        precopy_loop is_host_stateful_handle cudaMemcpyPeerAsync_ok cudaStreamSynchronize_ok
          handles rest st2
      else
        precopy_loop is_host_stateful_handle cudaMemcpyPeerAsync_ok cudaStreamSynchronize_ok
          handles rest
          ({ st2.1 with precopy_handles := set_insert st2.1.precopy_handles p },
            { st2.2 with
              nb_precopy_handle := (st2.2.nb_precopy_handle + 1) % UINT64_RANGE
              precopy_size := (st2.2.precopy_size + memory_handle.state_size) % UINT64_RANGE })

/-- The member `clear_modified_handle()` of the Memory manager, applied inside the client. -/
def clear_modified_handle (handle_managers : POSHandleManagers) (hm_memory : POSHandleManager) :
    POSHandleManagers := fun t =>
  if t = .kPOS_ResourceTypeId_CUDA_Memory then some { hm_memory with modified_handles := [] }
  else handle_managers t

/-- The member `__TMP__migration_precopy()` of `POSClient_CUDA`: the client afterwards and the
local counters at the end. -/
def __TMP__migration_precopy (is_host_stateful_handle cudaMemcpyPeerAsync_ok
    cudaStreamSynchronize_ok : Nat → Bool) (c : ClientState) :
    Option (ClientState × PrecopyLocals) :=
  match c.handle_managers .kPOS_ResourceTypeId_CUDA_Memory with
  | none => none
  | some hm_memory =>
    match
      (if 0 < hm_memory.modified_handles.length then
        precopy_loop is_host_stateful_handle cudaMemcpyPeerAsync_ok cudaStreamSynchronize_ok
          c.handles hm_memory.modified_handles (c.migration_ctx, {})
      else some (c.migration_ctx, {})) with
    | none => none
    | some (ctx, loc) =>
      some
        ({ c with
            migration_ctx := ctx
            handle_managers := clear_modified_handle c.handle_managers hm_memory },
          loc)

/-- The local counters of `__TMP__migration_deltacopy`, and the record of the handles passed to
`cudaMemcpyPeerAsync`. -/
structure DeltacopyLocals where
  copied : List Nat := []
  nb_deltacopy_handle : Nat := 0
  deltacopy_size : Nat := 0
  deriving DecidableEq

/-- The loop of `__TMP__migration_deltacopy` over `migration_ctx.invalidated_handles`. -/
def deltacopy_loop (is_host_stateful_handle cudaMemcpyPeerAsync_ok cudaStreamSynchronize_ok :
    Nat → Bool) (handles : List POSHandle) :
    List Nat → DeltacopyLocals → Option DeltacopyLocals
  | [], loc => some loc
  | p :: rest, loc =>
    if is_host_stateful_handle p then
      deltacopy_loop is_host_stateful_handle cudaMemcpyPeerAsync_ok cudaStreamSynchronize_ok
        handles rest loc
    else
      match handles[p]? with
      | none => none
      | some memory_handle =>
        let loc1 : DeltacopyLocals := { loc with copied := loc.copied ++ [p] }
        if ¬ cudaMemcpyPeerAsync_ok p then
          deltacopy_loop is_host_stateful_handle cudaMemcpyPeerAsync_ok cudaStreamSynchronize_ok
            handles rest loc1
        else if ¬ cudaStreamSynchronize_ok p then
          deltacopy_loop is_host_stateful_handle cudaMemcpyPeerAsync_ok cudaStreamSynchronize_ok
            handles rest loc1
        else
          deltacopy_loop is_host_stateful_handle cudaMemcpyPeerAsync_ok cudaStreamSynchronize_ok
            handles rest
            { loc1 with
              nb_deltacopy_handle := (loc1.nb_deltacopy_handle + 1) % UINT64_RANGE
              deltacopy_size := (loc1.deltacopy_size + memory_handle.state_size)
                % UINT64_RANGE }

/-- The member `__TMP__migration_deltacopy()` of `POSClient_CUDA`: the client afterwards and the
local counters at the end. The body assigns to its local variables only. -/
def __TMP__migration_deltacopy (is_host_stateful_handle cudaMemcpyPeerAsync_ok
    cudaStreamSynchronize_ok : Nat → Bool) (c : ClientState) :
    Option (ClientState × DeltacopyLocals) :=
  match c.handle_managers .kPOS_ResourceTypeId_CUDA_Memory with
  | none => none
  | some _ =>
    (deltacopy_loop is_host_stateful_handle cudaMemcpyPeerAsync_ok cudaStreamSynchronize_ok
      c.handles c.migration_ctx.invalidated_handles {}).map (fun loc => (c, loc))

/-- The local counters of `__TMP__migration_ondemand_reload`. -/
structure ReloadLocals where
  nb_handles : Nat := 0
  reload_size : Nat := 0
  deriving DecidableEq

/-- The loop of `__TMP__migration_ondemand_reload` over `migration_ctx.__TMP__host_handles`;
`reload_state_ok` says whether `memory_handle->reload_state` returns `POS_SUCCESS`. -/
def ondemand_reload_loop (reload_state_ok : Nat → Bool) :
    List Nat → List POSHandle × ReloadLocals → Option (List POSHandle × ReloadLocals)
  | [], st => some st
  | p :: rest, (handles, loc) =>
    match handles[p]? with
    | none => none
    | some memory_handle =>
      if ¬ reload_state_ok p then ondemand_reload_loop reload_state_ok rest (handles, loc)
      else
        ondemand_reload_loop reload_state_ok rest
          (handles.set p { memory_handle with state_status := .kPOS_HandleStatus_StateReady },
            { nb_handles := (loc.nb_handles + 1) % UINT64_RANGE
              reload_size := (loc.reload_size + memory_handle.state_size) % UINT64_RANGE })

/-- The member `__TMP__migration_ondemand_reload()` of `POSClient_CUDA`: the client afterwards
and the local counters at the end. -/
def __TMP__migration_ondemand_reload (reload_state_ok : Nat → Bool) (c : ClientState) :
    Option (ClientState × ReloadLocals) :=
  (ondemand_reload_loop reload_state_ok c.migration_ctx.__TMP__host_handles (c.handles, {})).map
    (fun st => ({ c with handles := st.1 }, st.2))

/-- The sum of the `state_size` of the handles of a list. -/
def total_state_size (handles : List POSHandle) (ps : List Nat) : Nat :=
  (ps.map (state_size_of handles)).sum

/-! ### A migration of three Memory handles

Three Memory handles of 4096, 8192 and 16384 bytes at the pointers `0`, `1` and `2`, all in the
modified set. The handle `0` is host-stateful; the peer copy of the handle `1` fails. -/

/-- The handle `0` is host-stateful. -/
def migration_is_host_stateful_handle : Nat → Bool := fun p => p == 0

/-- The peer copy of the handle `1` fails. -/
def migration_cudaMemcpyPeerAsync_ok : Nat → Bool := fun p => p != 1

/-- Every synchronization succeeds. -/
def migration_cudaStreamSynchronize_ok : Nat → Bool := fun _ => true

/-- The client before the precopy. -/
def migration_client : ClientState :=
  { handles := [{ state_size := 4096 }, { state_size := 8192 }, { state_size := 16384 }]
    handle_managers := fun t =>
      if t = .kPOS_ResourceTypeId_CUDA_Memory then
        some { handles := [0, 1, 2], modified_handles := [0, 1, 2] }
      else none }

/-- The client before the deltacopy: the handles `0` and `2` were precopied, and the handles `1`
and `2` were written since. -/
def migration_client_invalidated : ClientState :=
  { handles := [{ state_size := 4096 }, { state_size := 8192 }, { state_size := 16384 }]
    handle_managers := fun t =>
      if t = .kPOS_ResourceTypeId_CUDA_Memory then some { handles := [0, 1, 2] } else none
    migration_ctx :=
      { precopy_handles := [0, 2], invalidated_handles := [1, 2], __TMP__host_handles := [0] } }

/-! ### `__TMP__migration_tear_context` -/

/-- One loop of `__TMP__migration_tear_context` over the handles of a manager: a handle whose
status is `kPOS_HandleStatus_Active` is destroyed (`cublasDestroy_v2`, `cudaStreamDestroy`,
`cuModuleUnload`, whose results the source ignores) and becomes `kPOS_HandleStatus_Broken`. -/
def tear_handles : List Nat → List POSHandle → Option (List POSHandle)
  | [], handles => some handles
  | p :: rest, handles =>
    match handles[p]? with
    | none => none
    | some handle =>
      if handle.status = .kPOS_HandleStatus_Active then
        tear_handles rest (handles.set p { handle with status := .kPOS_HandleStatus_Broken })
      else tear_handles rest handles

/-- The member `__TMP__migration_tear_context(do_tear_module)` of `POSClient_CUDA`. -/
def __TMP__migration_tear_context (do_tear_module : Bool) (c : ClientState) :
    Option ClientState :=
  match c.handle_managers .kPOS_ResourceTypeId_CUDA_Context,
    c.handle_managers .kPOS_ResourceTypeId_cuBLAS_Context,
    c.handle_managers .kPOS_ResourceTypeId_CUDA_Stream,
    c.handle_managers .kPOS_ResourceTypeId_CUDA_Module,
    c.handle_managers .kPOS_ResourceTypeId_CUDA_Function with
  | some _, some hm_cublas, some hm_stream, some hm_module, some hm_function =>
    match tear_handles hm_cublas.handles c.handles with
    | none => none
    | some handles1 =>
      match tear_handles hm_stream.handles handles1 with
      | none => none
      | some handles2 =>
        if do_tear_module then
          match tear_handles hm_module.handles handles2 with
          | none => none
          | some handles3 =>
            match tear_handles hm_function.handles handles3 with
            | none => none
            | some handles4 => some { c with handles := handles4 }
        else some { c with handles := handles2 }
  | _, _, _, _, _ => none

/-! ### A client with one handle of each torn type

The handles, by pointer: `0` a Context, `1` a Stream, `2` a cuBLAS context, `3` a Module, `4` a
Function of that module, `5` a Memory buffer, all Active, and `6` a Stream that was deleted. -/

/-- The handle objects. -/
def tear_handles_store : List POSHandle :=
  [{ resource_type_id := .kPOS_ResourceTypeId_CUDA_Context },
   { resource_type_id := .kPOS_ResourceTypeId_CUDA_Stream, parent_handles := [0] },
   { resource_type_id := .kPOS_ResourceTypeId_cuBLAS_Context, parent_handles := [0] },
   { resource_type_id := .kPOS_ResourceTypeId_CUDA_Module, parent_handles := [0] },
   { resource_type_id := .kPOS_ResourceTypeId_CUDA_Function, parent_handles := [3] },
   { resource_type_id := .kPOS_ResourceTypeId_CUDA_Memory, parent_handles := [0],
     state_size := 4096 },
   { resource_type_id := .kPOS_ResourceTypeId_CUDA_Stream, parent_handles := [0],
     status := .kPOS_HandleStatus_Deleted }]

/-- The client: every manager owns the handles of its type. -/
def tear_client : ClientState :=
  { handles := tear_handles_store
    handle_managers := fun t =>
      match t with
      | .kPOS_ResourceTypeId_CUDA_Context => some { handles := [0] }
      | .kPOS_ResourceTypeId_CUDA_Stream => some { handles := [1, 6] }
      | .kPOS_ResourceTypeId_cuBLAS_Context => some { handles := [2] }
      | .kPOS_ResourceTypeId_CUDA_Module => some { handles := [3] }
      | .kPOS_ResourceTypeId_CUDA_Function => some { handles := [4] }
      | .kPOS_ResourceTypeId_CUDA_Memory => some { handles := [5] }
      | _ => some {} }

/-- The handles that `__TMP__migration_tear_context(do_tear_module)` visits, in its order: those
of the cuBLAS manager, of the Stream manager and, if `do_tear_module`, of the Module and of the
Function manager. -/
def torn_handles (do_tear_module : Bool)
    (hm_cublas hm_stream hm_module hm_function : POSHandleManager) : List Nat :=
  hm_cublas.handles ++ hm_stream.handles
    ++ (if do_tear_module then hm_module.handles ++ hm_function.handles else [])

/-! ## `client.h`: `init_handle_managers` -/

/-- The argument `related_handles` of `init`, a `std::map` from resource type to a vector of
handle pointers, which `init_handle_managers` fills with at most one entry. -/
abbrev RelatedHandles := List (pos_resource_typeid_t × List Nat)

/-- Modelled from the spec: the construction of the handle manager of a type followed by
`init(related_handles)` on it. It is a parameter of the procedure: given the type and the
related handles, it yields the return code of `init` and the manager after the call. -/
abbrev init_t := pos_resource_typeid_t → RelatedHandles → pos_retval_t × POSHandleManager

/-- One call of `init`: the type of the manager, the related handles passed and the return
code. -/
structure InitCall where
  type : pos_resource_typeid_t
  related_handles : RelatedHandles
  retval : pos_retval_t
  deriving DecidableEq

/-- What `init_handle_managers` reads and writes: the local `retval`, the member
`handle_managers`, the flag `_cxt.is_load_kernel_from_cache`, and the record of the `init`
calls made. -/
structure InitState where
  retval : pos_retval_t
  handle_managers : POSHandleManagers
  is_load_kernel_from_cache : Bool
  inits : List InitCall := []

/-- The assignment `this->handle_managers[t] = mgr`. -/
def register_manager (handle_managers : POSHandleManagers) (t : pos_resource_typeid_t)
    (mgr : POSHandleManager) : POSHandleManagers := fun t' =>
  if t' = t then some mgr else handle_managers t'

/-- One block of `init_handle_managers`: construct the manager of the type `t`, assign the
result of `init(related_handles)` to `retval`, and on success register the manager. The second
component is the manager when the block falls through, and `none` when it ends in
`goto exit`. -/
def init_manager (init : init_t) (t : pos_resource_typeid_t) (related_handles : RelatedHandles)
    (s : InitState) : InitState × Option POSHandleManager :=
  let r := init t related_handles
  let s1 : InitState :=
    { s with retval := r.1, inits := s.inits ++ [⟨t, related_handles, r.1⟩] }
  if r.1 ≠ .POS_SUCCESS then (s1, none)
  else ({ s1 with handle_managers := register_manager s1.handle_managers t r.2 }, some r.2)

/-- The part of the Module block after the registration: when the kernel-meta file exists,
`retval = module_mgr->load_cached_function_metas(path)`, and the flag is set when that is
`POS_SUCCESS`. -/
def load_kernel_meta (kernel_meta_path_exists : Bool) (load_cached_function_metas : pos_retval_t)
    (s : InitState) : InitState :=
  if kernel_meta_path_exists then
    if load_cached_function_metas = .POS_SUCCESS then
      { s with retval := load_cached_function_metas, is_load_kernel_from_cache := true }
    else { s with retval := load_cached_function_metas }
  else s

/-- The member `init_handle_managers()` of `POSClient_CUDA`, from the members `handle_managers`
and `is_load_kernel_from_cache` before the call. `kernel_meta_path_exists` is the result of
`std::filesystem::exists(kernel_meta_path)` and `load_cached_function_metas` the return code of
the load. A failed `POS_ASSERT` yields `none`. -/
def init_handle_managers (init : init_t) (kernel_meta_path_exists : Bool)
    (load_cached_function_metas : pos_retval_t) (handle_managers : POSHandleManagers)
    (is_load_kernel_from_cache : Bool) : Option InitState :=
  let s0 : InitState :=
    { retval := .POS_SUCCESS, handle_managers := handle_managers,
      is_load_kernel_from_cache := is_load_kernel_from_cache }
  -- CUDA device handle manager
  match init_manager init .kPOS_ResourceTypeId_CUDA_Device [] s0 with
  | (s, none) => some s
  | (s, some device_mgr) =>
    -- CUDA context handle manager
    if ¬ 0 < device_mgr.handles.length then none
    else
      match init_manager init .kPOS_ResourceTypeId_CUDA_Context
          [(.kPOS_ResourceTypeId_CUDA_Device, device_mgr.handles)] s with
      | (s, none) => some s
      | (s, some ctx_mgr) =>
        -- CUDA stream handle manager
        if ¬ 0 < ctx_mgr.handles.length then none
        else
          match init_manager init .kPOS_ResourceTypeId_CUDA_Stream
              [(.kPOS_ResourceTypeId_CUDA_Context, ctx_mgr.handles)] s with
          | (s, none) => some s
          | (s, some _) =>
            -- cuBLAS context handle manager
            match init_manager init .kPOS_ResourceTypeId_cuBLAS_Context [] s with
            | (s, none) => some s
            | (s, some _) =>
              -- CUDA event handle manager
              match init_manager init .kPOS_ResourceTypeId_CUDA_Event [] s with
              | (s, none) => some s
              | (s, some _) =>
                -- CUDA module handle manager
                match init_manager init .kPOS_ResourceTypeId_CUDA_Module [] s with
                | (s, none) => some s
                | (s, some _) =>
                  -- CUDA function handle manager
                  match init_manager init .kPOS_ResourceTypeId_CUDA_Function []
                      (load_kernel_meta kernel_meta_path_exists load_cached_function_metas s) with
                  | (s, none) => some s
                  | (s, some _) =>
                    -- CUDA var handle manager
                    match init_manager init .kPOS_ResourceTypeId_CUDA_Var [] s with
                    | (s, none) => some s
                    | (s, some _) =>
                      -- CUDA memory handle manager
                      if ¬ 0 < ctx_mgr.handles.length then none
                      else
                        some (init_manager init .kPOS_ResourceTypeId_CUDA_Memory
                          [(.kPOS_ResourceTypeId_CUDA_Context, ctx_mgr.handles)] s).1

/-- The order in which `init_handle_managers` initialises the managers. -/
def init_order : List pos_resource_typeid_t :=
  [.kPOS_ResourceTypeId_CUDA_Device, .kPOS_ResourceTypeId_CUDA_Context,
   .kPOS_ResourceTypeId_CUDA_Stream, .kPOS_ResourceTypeId_cuBLAS_Context,
   .kPOS_ResourceTypeId_CUDA_Event, .kPOS_ResourceTypeId_CUDA_Module,
   .kPOS_ResourceTypeId_CUDA_Function, .kPOS_ResourceTypeId_CUDA_Var,
   .kPOS_ResourceTypeId_CUDA_Memory]

/-- The member `__get_resource_idx()` of `POSClient_CUDA`: the elements of the `std::set`, in
the order of the source. -/
def __get_resource_idx : List pos_resource_typeid_t :=
  [.kPOS_ResourceTypeId_CUDA_Context, .kPOS_ResourceTypeId_CUDA_Module,
   .kPOS_ResourceTypeId_CUDA_Function, .kPOS_ResourceTypeId_CUDA_Var,
   .kPOS_ResourceTypeId_CUDA_Device, .kPOS_ResourceTypeId_CUDA_Memory,
   .kPOS_ResourceTypeId_CUDA_Stream, .kPOS_ResourceTypeId_CUDA_Event,
   .kPOS_ResourceTypeId_cuBLAS_Context]

/-- No manager is registered before `init_handle_managers`. -/
def no_handle_managers : POSHandleManagers := fun _ => none

/-- An `init` that fails for the Module manager with `POS_FAILED` and succeeds for every other
manager, which then owns one handle. -/
def init_module_fails : init_t := fun t _ =>
  if t = .kPOS_ResourceTypeId_CUDA_Module then (.POS_FAILED, {})
  else (.POS_SUCCESS, { handles := [0] })

/-- An `init` that succeeds for every manager, which then owns one handle. -/
def init_succeeds : init_t := fun _ _ => (.POS_SUCCESS, { handles := [0] })

/-! ## `worker/cuda_driver.h`: the launch handlers of the driver API

The handlers read the handles of the WQE through `pos_api_handle`, call the vendor API, store
its result in `wqe->api_cxt->return_code` and publish the WQE with `__done` or `__restore`. The
vendor calls are parameters that yield the result code and the object returned. -/

/-- The type `CUresult` of the vendor header, a number. -/
abbrev CUresult := Nat

/-- The value `CUDA_SUCCESS` of `CUresult`, `0` in the vendor header. -/
def CUDA_SUCCESS : CUresult := 0

/-- The two ways a launch handler publishes a WQE: `POSWorker::__done(ws, wqe)` and
`POSWorker::__restore(ws, wqe)`. -/
inductive PublishCall where
  | __done
  | __restore
  deriving DecidableEq

/-- What the launch handlers read and write: the handle objects, `wqe->api_cxt->return_code`,
and the record of the `__done` and `__restore` calls. -/
structure LaunchState where
  handles : List POSHandle
  return_code : CUresult := 0
  published : List PublishCall := []
  deriving DecidableEq

/-- Modelled from the spec: the macro `pos_api_handle(wqe, type, i)`, the handle of the `i`-th
view that the WQE lists under the type (`none` is the null pointer). -/
def pos_api_handle (wqe : POSAPIContext_QE) (t : pos_resource_typeid_t) (i : Nat) :
    Option Nat :=
  match wqe.handle_view_map t with
  | none => none
  | some handle_views => (handle_views[i]?).map (fun v => v.handle)

/-- Modelled from the spec: the member `set_server_addr` of a handle. -/
def POSHandle.set_server_addr (h : POSHandle) (addr : Nat) : POSHandle :=
  { h with server_addr := addr }

/-- Modelled from the spec: the member `mark_status` of a handle. -/
def POSHandle.mark_status (h : POSHandle) (status : pos_handle_status_t) : POSHandle :=
  { h with status := status }

/-- The launch handler `cu_module_load_data`. The parameter `cuModuleLoadData` yields, for the
handle that holds the binary and the DAG vertex id of the WQE, the result code and the module
returned. -/
def cu_module_load_data (cuModuleLoadData : POSHandle → Nat → CUresult × Nat)
    (wqe : POSAPIContext_QE) (s : LaunchState) : Option (pos_retval_t × LaunchState) :=
  match pos_api_handle wqe .kPOS_ResourceTypeId_CUDA_Module 0 with
  | none => none
  | some p =>
    match s.handles[p]? with
    | none => none
    | some module_handle =>
      let r := cuModuleLoadData module_handle wqe.dag_vertex_id
      let s1 : LaunchState := { s with return_code := r.1 }
      -- record server address
      let s2 : Option LaunchState :=
        if CUDA_SUCCESS = s1.return_code then
          match pos_api_handle wqe .kPOS_ResourceTypeId_CUDA_Module 0 with
          | none => none
          | some p2 =>
            match s1.handles[p2]? with
            | none => none
            | some module_handle2 =>
              some { s1 with
                handles := s1.handles.set p2
                  ((module_handle2.set_server_addr r.2).mark_status
                    .kPOS_HandleStatus_Active) }
        else some s1
      match s2 with
      | none => none
      | some s2 =>
        if CUDA_SUCCESS ≠ s2.return_code then
          some (.POS_SUCCESS, { s2 with published := s2.published ++ [.__restore] })
        else some (.POS_SUCCESS, { s2 with published := s2.published ++ [.__done] })

/-- The launch handler `cu_module_get_function`. A handle that is not a Function handle makes
`std::dynamic_pointer_cast` yield the null pointer. The parameter `cuModuleGetFunction` yields,
for the server address of the module and the Function handle, the result code and the function
returned. -/
def cu_module_get_function (cuModuleGetFunction : Nat → POSHandle → CUresult × Nat)
    (wqe : POSAPIContext_QE) (s : LaunchState) : Option (pos_retval_t × LaunchState) :=
  match pos_api_handle wqe .kPOS_ResourceTypeId_CUDA_Function 0 with
  | none => none
  | some p =>
    match s.handles[p]? with
    | none => none
    | some function_handle =>
      if function_handle.resource_type_id ≠ .kPOS_ResourceTypeId_CUDA_Function then none
      else
        match function_handle.parent_handles with
        | [] => none
        | q :: _ =>
          match s.handles[q]? with
          | none => none
          | some module_handle =>
            let r := cuModuleGetFunction module_handle.server_addr function_handle
            let s1 : LaunchState := { s with return_code := r.1 }
            -- record server address
            let s2 : LaunchState :=
              if CUDA_SUCCESS = s1.return_code then
                { s1 with
                  handles := s1.handles.set p
                    ((function_handle.set_server_addr r.2).mark_status
                      .kPOS_HandleStatus_Active) }
              else s1
            some (.POS_SUCCESS, { s2 with published := s2.published ++ [.__done] })

/-- The launch handler `cu_module_get_global`. The parameter `cuModuleGetGlobal` yields, for the
server address of the module and the Var handle, the result code and the device pointer
returned. -/
def cu_module_get_global (cuModuleGetGlobal : Nat → POSHandle → CUresult × Nat)
    (wqe : POSAPIContext_QE) (s : LaunchState) : Option (pos_retval_t × LaunchState) :=
  match pos_api_handle wqe .kPOS_ResourceTypeId_CUDA_Var 0 with
  | none => none
  | some p =>
    match s.handles[p]? with
    | none => none
    | some var_handle =>
      if var_handle.resource_type_id ≠ .kPOS_ResourceTypeId_CUDA_Var then none
      else
        match var_handle.parent_handles with
        | [] => none
        | q :: _ =>
          match s.handles[q]? with
          | none => none
          | some module_handle =>
            let r := cuModuleGetGlobal module_handle.server_addr var_handle
            let s1 : LaunchState := { s with return_code := r.1 }
            -- record server address
            let s2 : LaunchState :=
              if CUDA_SUCCESS = s1.return_code then
                { s1 with
                  handles := s1.handles.set p
                    ((var_handle.set_server_addr r.2).mark_status .kPOS_HandleStatus_Active) }
              else s1
            -- we temp hide the error from this api
            let s3 : LaunchState :=
              if CUDA_SUCCESS ≠ s2.return_code then { s2 with return_code := CUDA_SUCCESS }
              else s2
            if CUDA_SUCCESS ≠ s3.return_code then
              some (.POS_SUCCESS, { s3 with published := s3.published ++ [.__restore] })
            else some (.POS_SUCCESS, { s3 with published := s3.published ++ [.__done] })

/-- The launch handler `cu_device_primary_ctx_get_state`. The parameter
`cuDevicePrimaryCtxGetState` yields the result code for the Device handle; what the vendor call
writes into `ret_data` is not represented. -/
def cu_device_primary_ctx_get_state (cuDevicePrimaryCtxGetState : POSHandle → CUresult)
    (wqe : POSAPIContext_QE) (s : LaunchState) : Option (pos_retval_t × LaunchState) :=
  match pos_api_handle wqe .kPOS_ResourceTypeId_CUDA_Device 0 with
  | none => none
  | some p =>
    match s.handles[p]? with
    | none => none
    | some device_handle =>
      let s1 : LaunchState := { s with return_code := cuDevicePrimaryCtxGetState device_handle }
      if CUDA_SUCCESS ≠ s1.return_code then
        some (.POS_SUCCESS, { s1 with published := s1.published ++ [.__restore] })
      else some (.POS_SUCCESS, { s1 with published := s1.published ++ [.__done] })

/-- What `cu_module_get_function` and `cu_module_get_global` need in order to return: the WQE
lists a handle of the type at hand that is not null, the handle has that type, its list of
parents is not empty and its first parent is not null. -/
structure ChildReady (wqe : POSAPIContext_QE) (s : LaunchState) (t : pos_resource_typeid_t)
    (p : Nat) (ch : POSHandle) (q : Nat) (mh : POSHandle) : Prop where
  api : pos_api_handle wqe t 0 = some p
  child : s.handles[p]? = some ch
  type : ch.resource_type_id = t
  parent : ch.parent_handles.head? = some q
  module : s.handles[q]? = some mh

/-! ### A module with a function and a global variable

The handles, by pointer: `0` a Context, `1` a Module, `2` a Function of the module and `3` a
Var of the module. The two children are not Active yet. -/

/-- The handle objects, the Module with the given status. -/
def driver_handles (module_status : pos_handle_status_t) : List POSHandle :=
  [{ resource_type_id := .kPOS_ResourceTypeId_CUDA_Context },
   { resource_type_id := .kPOS_ResourceTypeId_CUDA_Module, parent_handles := [0],
     status := module_status, server_addr := 4096 },
   { resource_type_id := .kPOS_ResourceTypeId_CUDA_Function, parent_handles := [1],
     status := .kPOS_HandleStatus_Create_Pending },
   { resource_type_id := .kPOS_ResourceTypeId_CUDA_Var, parent_handles := [1],
     status := .kPOS_HandleStatus_Create_Pending }]

/-- A WQE that lists the Module, the Function and the Var. -/
def driver_wqe : POSAPIContext_QE :=
  { dag_vertex_id := 1
    handle_view_map := fun t =>
      match t with
      | .kPOS_ResourceTypeId_CUDA_Context => some [⟨0⟩]
      | .kPOS_ResourceTypeId_CUDA_Module => some [⟨1⟩]
      | .kPOS_ResourceTypeId_CUDA_Function => some [⟨2⟩]
      | .kPOS_ResourceTypeId_CUDA_Var => some [⟨3⟩]
      | _ => none }

/-- A client that owns these handles after both launches, all Active. -/
def driver_client : ClientState :=
  { handles :=
      [{ resource_type_id := .kPOS_ResourceTypeId_CUDA_Context },
       { resource_type_id := .kPOS_ResourceTypeId_CUDA_Module, parent_handles := [0],
         server_addr := 4096 },
       { resource_type_id := .kPOS_ResourceTypeId_CUDA_Function, parent_handles := [1],
         server_addr := 8192 },
       { resource_type_id := .kPOS_ResourceTypeId_CUDA_Var, parent_handles := [1],
         server_addr := 12288 }]
    handle_managers := fun t =>
      match t with
      | .kPOS_ResourceTypeId_CUDA_Context => some { handles := [0] }
      | .kPOS_ResourceTypeId_CUDA_Module => some { handles := [1] }
      | .kPOS_ResourceTypeId_CUDA_Function => some { handles := [2] }
      | .kPOS_ResourceTypeId_CUDA_Var => some { handles := [3] }
      | _ => some {} }

/-- A handle that is Active while the first of its parents is Broken. -/
def active_under_broken_parent (handles : List POSHandle) (p : Nat) : Bool :=
  match handles[p]? with
  | none => false
  | some h =>
    decide (h.status = .kPOS_HandleStatus_Active) &&
      (match h.parent_handles with
       | [] => false
       | q :: _ =>
         match handles[q]? with
         | none => false
         | some parent => decide (parent.status = .kPOS_HandleStatus_Broken))

/-! ### The related handles of `init_handle_managers` -/

/-- The related handles that `init_handle_managers` passes to the `init` of the manager of a
type, given the handles of the Device manager and those of the Context manager: the Device
handles for Context, the Context handles for Stream and Memory, and an empty map for every
other manager. -/
def passed_related_handles (device_handles context_handles : List Nat) :
    pos_resource_typeid_t → RelatedHandles
  | .kPOS_ResourceTypeId_CUDA_Context => [(.kPOS_ResourceTypeId_CUDA_Device, device_handles)]
  | .kPOS_ResourceTypeId_CUDA_Stream => [(.kPOS_ResourceTypeId_CUDA_Context, context_handles)]
  | .kPOS_ResourceTypeId_CUDA_Memory => [(.kPOS_ResourceTypeId_CUDA_Context, context_handles)]
  | _ => []

/-- An `init` that succeeds for every manager, which then owns one handle of its own: pointer
`0` for Device, `1` for Context, and so on in the order of `init_handle_managers`. -/
def init_one_handle_each : init_t := fun t _ =>
  (.POS_SUCCESS,
    { handles :=
        match t with
        | .kPOS_ResourceTypeId_CUDA_Device => [0]
        | .kPOS_ResourceTypeId_CUDA_Context => [1]
        | .kPOS_ResourceTypeId_CUDA_Stream => [2]
        | .kPOS_ResourceTypeId_cuBLAS_Context => [3]
        | .kPOS_ResourceTypeId_CUDA_Event => [4]
        | .kPOS_ResourceTypeId_CUDA_Module => [5]
        | .kPOS_ResourceTypeId_CUDA_Function => [6]
        | .kPOS_ResourceTypeId_CUDA_Var => [7]
        | .kPOS_ResourceTypeId_CUDA_Memory => [8] })

/-! ## `autogen/main.cpp` -/

/-- The object `autogener` as `main` uses it: the three directories, which `main` assigns from
the command line, and the members that `main` does not name, which only the three stages read
and write. A default-constructed `std::string` is empty. -/
structure POSAutogener (σ : Type) where
  header_directory : String := ""
  support_directory : String := ""
  gen_directory : String := ""
  members : σ

/-- A stage of the tool, one of the member functions `collect_pos_support_yamls`,
`collect_vendor_header_files` and `generate_pos_src` of `POSAutogener`, which `main` calls and
these sources do not define: given the object, it yields its return code and the object after
the call. -/
abbrev autogen_stage_t (σ : Type) := POSAutogener σ → pos_retval_t × POSAutogener σ

/-- The stages, to record which of them `main` called. -/
inductive AutogenStage where
  | collect_pos_support_yamls
  | collect_vendor_header_files
  | generate_pos_src
  deriving DecidableEq

/-- The loop `while((opt = getopt(argc, argv, "d:s:g:")) != -1)` of `main` over the results of
`getopt`, each the option character with `optarg`. The macro `POS_ERROR` of the default case
is not defined in these sources: `POS_ERROR_returns` tells whether control continues after it,
and when it does not the process ends inside the macro, which is `none`. -/
def parse_options {σ : Type} (POS_ERROR_returns : Bool) :
    List (Char × String) → POSAutogener σ → Option (POSAutogener σ)
  | [], autogener => some autogener
  | (opt, optarg) :: rest, autogener =>
    if opt = 'd' then
      parse_options POS_ERROR_returns rest { autogener with header_directory := optarg }
    else if opt = 's' then
      parse_options POS_ERROR_returns rest { autogener with support_directory := optarg }
    else if opt = 'g' then
      parse_options POS_ERROR_returns rest { autogener with gen_directory := optarg }
    else if POS_ERROR_returns then parse_options POS_ERROR_returns rest autogener
    else none

/-- The label `exit` of `main`: `-1` if `retval != POS_SUCCESS` and `0` otherwise. -/
def main_exit (retval : pos_retval_t) : Int :=
  if retval ≠ .POS_SUCCESS then -1 else 0

/-- The function `main` of the tool: the value it returns and the stages it called, in the
order of the calls, or `none` when the process ends inside `POS_ERROR`. -/
def main {σ : Type} (POS_ERROR_returns : Bool)
    (collect_pos_support_yamls collect_vendor_header_files generate_pos_src : autogen_stage_t σ)
    (members : σ) (options : List (Char × String)) : Option (Int × List AutogenStage) :=
  match parse_options POS_ERROR_returns options { members := members } with
  | none => none
  | some autogener =>
    if autogener.header_directory.length = 0 ∧ POS_ERROR_returns = false then none
    else if autogener.support_directory.length = 0 ∧ POS_ERROR_returns = false then none
    else if autogener.gen_directory.length = 0 ∧ POS_ERROR_returns = false then none
    else
      let r1 := collect_pos_support_yamls autogener
      if r1.1 ≠ .POS_SUCCESS then some (main_exit r1.1, [.collect_pos_support_yamls])
      else
        let r2 := collect_vendor_header_files r1.2
        if r2.1 ≠ .POS_SUCCESS then
          some (main_exit r2.1, [.collect_pos_support_yamls, .collect_vendor_header_files])
        else
          let r3 := generate_pos_src r2.2
          some (main_exit r3.1,
            [.collect_pos_support_yamls, .collect_vendor_header_files, .generate_pos_src])

/-- A stage that returns the given code and leaves the object alone. -/
def stage_returning (retval : pos_retval_t) : autogen_stage_t Unit := fun autogener =>
  (retval, autogener)

/-! ## Inputs for the overlap checkpoint scheme and the merge pass -/

/-- A query that fails for every handle and leaves `*positions` as it was. -/
def failing_query : get_handle_modified_position_t :=
  fun _ _ _ positions => (.POS_FAILED, positions)
/-! ## Lemmas on maps -/

theorem kPOSBG_PREFILL_SIZE_eq : kPOSBG_PREFILL_SIZE = 1048576 := by
  unfold kPOSBG_PREFILL_SIZE
  rfl

theorem map_find_assign {V : Type} (m : List (Nat × V)) (k : Nat) (v : V) (j : Nat) :
    map_find (map_assign m k v) j = if j = k then some v else map_find m j := by
  induction m with
  | nil => simp [map_assign, map_find]
  | cons hd tl ih =>
    obtain ⟨k1, v1⟩ := hd
    simp only [map_assign]
    by_cases h1 : k < k1
    · simp only [if_pos h1, map_find]
    · by_cases h2 : k = k1
      · subst h2
        simp only [if_neg h1, if_true, map_find]
        by_cases hj : j = k <;> simp [hj]
      · simp only [if_neg h1, if_neg h2, map_find, ih]
        by_cases hj : j = k
        · have : j ≠ k1 := by omega
          simp [hj, h2]
        · simp [hj]

theorem map_find_insert {V : Type} (m : List (Nat × V)) (k : Nat) (v : V) (j : Nat) :
    map_find (map_insert m k v) j =
      if j = k then some ((map_find m k).getD v) else map_find m j := by
  unfold map_insert
  cases h : map_find m k with
  | none =>
    simp only [map_find_assign, Option.getD_none]
  | some x =>
    by_cases hj : j = k
    · subst hj; simp [h]
    · simp [hj]

theorem map_find_insert_range {V : Type} (src m : List (Nat × V)) (j : Nat) :
    map_find (map_insert_range m src) j =
      match map_find m j with
      | some x => some x
      | none => map_find src j := by
  induction src generalizing m with
  | nil => cases h : map_find m j <;> simp [map_insert_range, map_find, h]
  | cons hd tl ih =>
    obtain ⟨k1, v1⟩ := hd
    have := ih (map_insert m k1 v1)
    simp only [map_insert_range, List.foldl_cons] at this ⊢
    rw [this, map_find_insert]
    by_cases hj : j = k1
    · subst hj
      cases h : map_find m j <;> simp [map_find, h]
    · cases h : map_find m j <;> simp [map_find, h, hj]

theorem map_find_none_iff {V : Type} (m : List (Nat × V)) (k : Nat) :
    map_find m k = none ↔ k ∉ map_keys m := by
  induction m with
  | nil => simp [map_find, map_keys]
  | cons hd tl ih =>
    obtain ⟨k1, v1⟩ := hd
    simp only [map_find, map_keys, List.map_cons, List.mem_cons, not_or] at ih ⊢
    split_ifs with h
    · simp [h]
    · simp [h, ih, map_keys]

theorem map_find_some_mem {V : Type} (m : List (Nat × V)) (k : Nat) (v : V)
    (h : map_find m k = some v) : k ∈ map_keys m := by
  by_contra hc
  rw [← map_find_none_iff] at hc
  rw [hc] at h
  cases h

theorem map_find_mem {V : Type} (m : List (Nat × V)) (k : Nat) (v : V)
    (h : map_find m k = some v) : (k, v) ∈ m := by
  induction m with
  | nil => simp [map_find] at h
  | cons hd tl ih =>
    obtain ⟨k1, v1⟩ := hd
    simp only [map_find] at h
    split_ifs at h with hk
    · cases h; subst hk; simp
    · exact List.mem_cons_of_mem _ (ih h)

theorem map_assign_append {V : Type} (m : List (Nat × V)) (k : Nat) (v : V)
    (h : ∀ j ∈ map_keys m, j < k) : map_assign m k v = m ++ [(k, v)] := by
  induction m with
  | nil => rfl
  | cons hd tl ih =>
    obtain ⟨k1, v1⟩ := hd
    have h1 : k1 < k := h k1 (by simp [map_keys])
    have h2 : ∀ j ∈ map_keys tl, j < k := fun j hj => h j (by simp [map_keys] at hj ⊢; right; exact hj)
    simp only [map_assign, List.cons_append]
    rw [if_neg (by omega), if_neg (by omega), ih h2]

theorem map_keys_assign_of_mem {V : Type} (m : List (Nat × V)) (k : Nat) (v : V)
    (hs : (map_keys m).Pairwise (· < ·)) (h : k ∈ map_keys m) :
    map_keys (map_assign m k v) = map_keys m := by
  induction m with
  | nil => simp [map_keys] at h
  | cons hd tl ih =>
    obtain ⟨k1, v1⟩ := hd
    simp only [map_keys, List.map_cons, List.pairwise_cons, List.mem_cons] at hs h
    simp only [map_assign]
    split_ifs with h1 h2
    · exfalso
      rcases h with h | h
      · omega
      · have := hs.1 k h
        omega
    · subst h2; simp [map_keys]
    · simp only [map_keys, List.map_cons, List.mem_cons] at ih ⊢
      rcases h with h | h
      · exact absurd h h2
      · rw [ih hs.2 h]

theorem map_keys_assign_subset {V : Type} (m : List (Nat × V)) (k : Nat) (v : V) (j : Nat)
    (h : j ∈ map_keys (map_assign m k v)) : j = k ∨ j ∈ map_keys m := by
  by_contra hc
  push_neg at hc
  have h1 := (map_find_none_iff m j).2 hc.2
  have h2 := map_find_assign m k v j
  rw [if_neg hc.1, h1, map_find_none_iff] at h2
  exact h2 h

theorem map_assign_sorted {V : Type} (m : List (Nat × V)) (k : Nat) (v : V)
    (hs : (map_keys m).Pairwise (· < ·)) : (map_keys (map_assign m k v)).Pairwise (· < ·) := by
  induction m with
  | nil => simp [map_assign, map_keys]
  | cons hd tl ih =>
    obtain ⟨k1, v1⟩ := hd
    simp only [map_keys, List.map_cons, List.pairwise_cons] at hs
    simp only [map_assign]
    split_ifs with h1 h2
    · simp only [map_keys, List.map_cons, List.pairwise_cons, List.mem_cons]
      refine ⟨?_, hs⟩
      rintro a (rfl | ha)
      · exact h1
      · exact lt_trans h1 (hs.1 a ha)
    · subst h2
      simp only [map_keys, List.map_cons, List.pairwise_cons]
      exact hs
    · simp only [map_keys, List.map_cons, List.pairwise_cons]
      refine ⟨?_, ih hs.2⟩
      intro a ha
      rcases map_keys_assign_subset tl k v a ha with rfl | ha
      · omega
      · exact hs.1 a ha

theorem map_insert_sorted {V : Type} (m : List (Nat × V)) (k : Nat) (v : V)
    (hs : (map_keys m).Pairwise (· < ·)) : (map_keys (map_insert m k v)).Pairwise (· < ·) := by
  unfold map_insert
  cases map_find m k with
  | none => exact map_assign_sorted m k v hs
  | some x => exact hs

theorem map_insert_range_sorted {V : Type} (src m : List (Nat × V))
    (hs : (map_keys m).Pairwise (· < ·)) :
    (map_keys (map_insert_range m src)).Pairwise (· < ·) := by
  induction src generalizing m with
  | nil => exact hs
  | cons hd tl ih => exact ih _ (map_insert_sorted m hd.1 hd.2 hs)

theorem mem_map_assign {V : Type} (m : List (Nat × V)) (k : Nat) (v : V) (e : Nat × V)
    (h : e ∈ map_assign m k v) : e = (k, v) ∨ e ∈ m := by
  induction m with
  | nil => simp only [map_assign, List.mem_singleton] at h; exact Or.inl h
  | cons hd tl ih =>
    obtain ⟨k1, v1⟩ := hd
    simp only [map_assign] at h
    split_ifs at h with h1 h2
    · simp only [List.mem_cons] at h ⊢
      tauto
    · simp only [List.mem_cons] at h ⊢
      tauto
    · simp only [List.mem_cons] at h ⊢
      rcases h with h | h
      · tauto
      · rcases ih h with h | h <;> tauto

theorem map_find_none_of_lt {V : Type} (m : List (Nat × V)) (k : Nat)
    (h : ∀ j ∈ map_keys m, k < j) : map_find m k = none := by
  rw [map_find_none_iff]
  intro hk
  exact lt_irrefl _ (h k hk)

theorem nil_sorted : (map_keys ([] : POSNeighborMap_t)).Pairwise (· < ·) := by
  simp [map_keys]

/-! ## The constructor in closed form -/

theorem map_keys_prefilled (n : Nat) : map_keys (prefilled_map n) = List.range n := by
  simp [map_keys, prefilled_map, Function.comp_def]

theorem prefill_eq (n : Nat) :
    prefill n =
      { max_t1_id := 0, max_t2_id := 0
        _t1s := List.replicate n ⟨nullptr, 0⟩
        _t2s := List.replicate n ⟨nullptr, 0⟩
        _topo := prefilled_map n
        _topo_t1_cache := prefilled_map n } := by
  induction n with
  | zero => rfl
  | succ n ih =>
    have hk : ∀ j ∈ map_keys (prefilled_map n), j < n := by
      intro j hj
      rw [map_keys_prefilled] at hj
      exact List.mem_range.1 hj
    unfold prefill at ih ⊢
    rw [List.range_succ, List.foldl_append, ih]
    simp only [List.foldl_cons, List.foldl_nil, prefill_step, map_assign_append _ _ _ hk]
    simp [prefilled_map, List.range_succ, List.replicate_succ']

theorem new_eq :
    POSBipartiteGraph.new =
      { max_t1_id := 0, max_t2_id := 0
        _t1s := List.replicate kPOSBG_PREFILL_SIZE ⟨nullptr, 0⟩
        _t2s := List.replicate kPOSBG_PREFILL_SIZE ⟨nullptr, 0⟩
        _topo := prefilled_map kPOSBG_PREFILL_SIZE
        _topo_t1_cache := prefilled_map kPOSBG_PREFILL_SIZE } := by
  unfold POSBipartiteGraph.new
  exact prefill_eq _

theorem map_find_prefilled (n k : Nat) :
    map_find (prefilled_map n) k = if k < n then some [] else none := by
  induction n with
  | zero => simp [prefilled_map, map_find]
  | succ n ih =>
    have hk : ∀ j ∈ map_keys (prefilled_map n), j < n := by
      intro j hj
      rw [map_keys_prefilled] at hj
      exact List.mem_range.1 hj
    have : prefilled_map (n + 1) = map_assign (prefilled_map n) n [] := by
      rw [map_assign_append _ _ _ hk]
      simp [prefilled_map, List.range_succ]
    rw [this, map_find_assign, ih]
    split_ifs <;> first | rfl | omega

/-! ## Invariant of the graphs a client can reach -/

theorem inv_new : Inv 0 POSBipartiteGraph.new := by
  rw [new_eq]
  refine ⟨le_refl _, le_refl _, ?_, ?_, ?_, ?_, ?_, ?_, ?_⟩
  · rw [List.length_replicate]
    exact (Nat.max_eq_left (Nat.zero_le _)).symm
  · rw [List.length_replicate]
    exact (Nat.max_eq_left (Nat.zero_le _)).symm
  · rw [map_keys_prefilled, Nat.max_eq_left (Nat.zero_le _)]
  · simp only [map_keys_prefilled]
    exact List.pairwise_lt_range _
  · intro k m h _
    simp only [map_find_prefilled] at h
    split_ifs at h
    cases h
    rfl
  · intro e he
    simp only [prefilled_map, List.mem_map] at he
    obtain ⟨i, -, rfl⟩ := he
    exact nil_sorted
  · intro e he
    simp only [prefilled_map, List.mem_map] at he
    obtain ⟨i, -, rfl⟩ := he
    exact nil_sorted

theorem inv_mono {n m : Nat} {g : POSBipartiteGraph} (h : Inv n g) (hnm : n ≤ m) : Inv m g :=
  ⟨le_trans h.max1 hnm, le_trans h.max2 hnm, h.len1, h.len2, h.topo_keys, h.cache_sorted,
    h.cache_empty, h.cache_vals, h.topo_vals⟩

/-- What a call of `add_vertex<T1>` that passes the neighbor check leaves behind. -/
theorem add_vertex_T1_spec {dbg : Bool} {g : POSBipartiteGraph} {data : Nat}
    {neighbor : POSNeighborMap_t} {r : AddResult}
    (hc : (dbg && neighbor_check_fails .T1 g neighbor) = false)
    (h : add_vertex dbg .T1 g data neighbor = some r) :
    r.retval = .POS_SUCCESS ∧ r.id = some g.max_t1_id ∧
    r.graph.max_t1_id = (g.max_t1_id + 1) % UINT64_RANGE ∧
    r.graph.max_t2_id = g.max_t2_id ∧ r.graph._t2s = g._t2s ∧ r.graph._topo = g._topo ∧
    ((kPOSBG_PREFILL_SIZE ≤ g.max_t1_id ∧
        r.graph._t1s = g._t1s ++ [⟨data, g.max_t1_id⟩] ∧
        r.graph._topo_t1_cache =
          map_assign g._topo_t1_cache g.max_t1_id (map_insert_range [] neighbor)) ∨
     (g.max_t1_id < kPOSBG_PREFILL_SIZE ∧ g.max_t1_id < g._t1s.length ∧
        r.graph._t1s = g._t1s.set g.max_t1_id ⟨data, g.max_t1_id⟩ ∧
        ∃ m, map_find g._topo_t1_cache g.max_t1_id = some m ∧
          r.graph._topo_t1_cache =
            map_assign g._topo_t1_cache g.max_t1_id (map_insert_range m neighbor))) := by
  simp only [add_vertex, hc] at h
  by_cases hp : g.max_t1_id ≥ kPOSBG_PREFILL_SIZE
  · simp only [hp, if_true, Bool.false_eq_true, if_false] at h
    cases h
    exact ⟨rfl, rfl, rfl, rfl, rfl, rfl, Or.inl ⟨hp, rfl, rfl⟩⟩
  · simp only [hp, Bool.false_eq_true, if_false] at h
    split at h
    · rename_i m v hm hv
      cases h
      have hlt : g.max_t1_id < g._t1s.length := by
        by_contra hc2
        rw [List.getElem?_eq_none (by omega)] at hv
        cases hv
      exact ⟨rfl, rfl, rfl, rfl, rfl, rfl, Or.inr ⟨by omega, hlt, rfl, m, hm, rfl⟩⟩
    · cases h

/-- What a call of `add_vertex<T2>` that passes the neighbor check leaves behind. -/
theorem add_vertex_T2_spec {dbg : Bool} {g : POSBipartiteGraph} {data : Nat}
    {neighbor : POSNeighborMap_t} {r : AddResult}
    (hc : (dbg && neighbor_check_fails .T2 g neighbor) = false)
    (h : add_vertex dbg .T2 g data neighbor = some r) :
    r.retval = .POS_SUCCESS ∧ r.id = some g.max_t2_id ∧
    r.graph.max_t2_id = (g.max_t2_id + 1) % UINT64_RANGE ∧
    r.graph.max_t1_id = g.max_t1_id ∧ r.graph._t1s = g._t1s ∧
    r.graph._topo_t1_cache = g._topo_t1_cache ∧
    ((kPOSBG_PREFILL_SIZE ≤ g.max_t2_id ∧
        r.graph._t2s = g._t2s ++ [⟨data, g.max_t2_id⟩] ∧
        r.graph._topo = map_assign g._topo g.max_t2_id (map_insert_range [] neighbor)) ∨
     (g.max_t2_id < kPOSBG_PREFILL_SIZE ∧ g.max_t2_id < g._t2s.length ∧
        r.graph._t2s = g._t2s.set g.max_t2_id ⟨data, g.max_t2_id⟩ ∧
        ∃ m, map_find g._topo g.max_t2_id = some m ∧
          r.graph._topo = map_assign g._topo g.max_t2_id (map_insert_range m neighbor))) := by
  simp only [add_vertex, hc] at h
  by_cases hp : g.max_t2_id ≥ kPOSBG_PREFILL_SIZE
  · simp only [hp, if_true, Bool.false_eq_true, if_false] at h
    cases h
    exact ⟨rfl, rfl, rfl, rfl, rfl, rfl, Or.inl ⟨hp, rfl, rfl⟩⟩
  · simp only [hp, Bool.false_eq_true, if_false] at h
    split at h
    · rename_i m v hm hv
      cases h
      have hlt : g.max_t2_id < g._t2s.length := by
        by_contra hc2
        rw [List.getElem?_eq_none (by omega)] at hv
        cases hv
      exact ⟨rfl, rfl, rfl, rfl, rfl, rfl, Or.inr ⟨by omega, hlt, rfl, m, hm, rfl⟩⟩
    · cases h

/-- A call of `add_vertex` that fails the neighbor check returns at once. -/
theorem add_vertex_check_fails {dbg : Bool} {T : Kind} {g : POSBipartiteGraph} {data : Nat}
    {neighbor : POSNeighborMap_t}
    (hc : (dbg && neighbor_check_fails T g neighbor) = true) :
    add_vertex dbg T g data neighbor = some ⟨.POS_FAILED_NOT_EXIST, none, g⟩ := by
  simp only [add_vertex, hc, if_true]

/-! ## The merge pass -/

theorem merge_inner_keys (v : Nat) (nm : POSNeighborMap_t) (topo topo1 : POSTopoMap_t)
    (hs : (map_keys topo).Pairwise (· < ·)) (h : merge_inner v nm topo = some topo1) :
    map_keys topo1 = map_keys topo := by
  induction nm generalizing topo with
  | nil => simp only [merge_inner] at h; cases h; rfl
  | cons hd tl ih =>
    obtain ⟨t2, dir⟩ := hd
    simp only [merge_inner] at h
    cases hf : map_find topo t2 with
    | none => rw [hf] at h; cases h
    | some x =>
      rw [hf] at h
      have hk := map_keys_assign_of_mem topo t2 (map_assign x v dir) hs (map_find_some_mem _ _ _ hf)
      have := ih _ (by rw [hk]; exact hs) h
      rw [this, hk]

theorem merge_outer_keys (cache topo topo1 : POSTopoMap_t)
    (hs : (map_keys topo).Pairwise (· < ·)) (h : merge_outer cache topo = some topo1) :
    map_keys topo1 = map_keys topo := by
  induction cache generalizing topo with
  | nil => simp only [merge_outer] at h; cases h; rfl
  | cons hd tl ih =>
    obtain ⟨v, nm⟩ := hd
    simp only [merge_outer] at h
    cases hf : merge_inner v nm topo with
    | none => rw [hf] at h; cases h
    | some x =>
      rw [hf] at h
      have hk := merge_inner_keys v nm topo x hs hf
      have := ih _ (by rw [hk]; exact hs) h
      rw [this, hk]

theorem merge_inner_vals (v : Nat) (nm : POSNeighborMap_t) (topo topo1 : POSTopoMap_t)
    (hv : ∀ e ∈ topo, (map_keys e.2).Pairwise (· < ·)) (h : merge_inner v nm topo = some topo1) :
    ∀ e ∈ topo1, (map_keys e.2).Pairwise (· < ·) := by
  induction nm generalizing topo with
  | nil => simp only [merge_inner] at h; cases h; exact hv
  | cons hd tl ih =>
    obtain ⟨t2, dir⟩ := hd
    simp only [merge_inner] at h
    cases hf : map_find topo t2 with
    | none => rw [hf] at h; cases h
    | some x =>
      rw [hf] at h
      refine ih _ ?_ h
      intro e he
      rcases mem_map_assign _ _ _ _ he with rfl | he
      · exact map_assign_sorted _ _ _ (hv _ (map_find_mem _ _ _ hf))
      · exact hv e he

theorem merge_outer_vals (cache topo topo1 : POSTopoMap_t)
    (hv : ∀ e ∈ topo, (map_keys e.2).Pairwise (· < ·)) (h : merge_outer cache topo = some topo1) :
    ∀ e ∈ topo1, (map_keys e.2).Pairwise (· < ·) := by
  induction cache generalizing topo with
  | nil => simp only [merge_outer] at h; cases h; exact hv
  | cons hd tl ih =>
    obtain ⟨v, nm⟩ := hd
    simp only [merge_outer] at h
    cases hf : merge_inner v nm topo with
    | none => rw [hf] at h; cases h
    | some x =>
      rw [hf] at h
      exact ih _ (merge_inner_vals v nm topo x hv hf) h

/-- What the merge pass leaves behind when it returns. -/
theorem join_topo_spec {g g1 : POSBipartiteGraph} (h : __join_topo g = some g1) :
    g1.max_t1_id = g.max_t1_id ∧ g1.max_t2_id = g.max_t2_id ∧ g1._t1s = g._t1s ∧
    g1._t2s = g._t2s ∧ g1._topo_t1_cache = [] ∧
    merge_outer g._topo_t1_cache g._topo = some g1._topo := by
  unfold __join_topo at h
  split_ifs at h with hz
  · unfold __merge_topo_cache at h
    cases hm : merge_outer g._topo_t1_cache g._topo with
    | none => rw [hm] at h; cases h
    | some t =>
      rw [hm] at h
      cases h
      exact ⟨rfl, rfl, rfl, rfl, rfl, rfl⟩
  · cases h
    have : g._topo_t1_cache = [] := by
      simpa using hz
    refine ⟨rfl, rfl, rfl, rfl, this, ?_⟩
    rw [this]
    rfl

theorem join_inv {n : Nat} {g g1 : POSBipartiteGraph} (hi : Inv n g)
    (h : __join_topo g = some g1) : Inv n g1 := by
  obtain ⟨h1, h2, h3, h4, h5, h6⟩ := join_topo_spec h
  have hs : (map_keys g._topo).Pairwise (· < ·) := by
    rw [hi.topo_keys]; exact List.pairwise_lt_range _
  refine ⟨by rw [h1]; exact hi.max1, by rw [h2]; exact hi.max2, by rw [h3, h1]; exact hi.len1,
    by rw [h4, h2]; exact hi.len2, ?_, ?_, ?_, ?_, ?_⟩
  · rw [merge_outer_keys _ _ _ hs h6, h2]; exact hi.topo_keys
  · rw [h5]; simp [map_keys]
  · intro k m hk
    rw [h5] at hk
    simp [map_find] at hk
  · rw [h5]; simp
  · exact merge_outer_vals _ _ _ hi.topo_vals h6

theorem add_vertex_inv {n : Nat} {dbg : Bool} {T : Kind} {g : POSBipartiteGraph} {data : Nat}
    {neighbor : POSNeighborMap_t} {r : AddResult} (hi : Inv n g) (hn : n + 1 < UINT64_RANGE)
    (h : add_vertex dbg T g data neighbor = some r) : Inv (n + 1) r.graph := by
  cases hc : (dbg && neighbor_check_fails T g neighbor) with
  | true =>
    rw [add_vertex_check_fails hc] at h
    cases h
    exact inv_mono hi (Nat.le_succ n)
  | false =>
    have hm1 := hi.max1
    have hm2 := hi.max2
    cases T with
    | T1 =>
      obtain ⟨-, -, e1, e2, e3, e4, e5⟩ := add_vertex_T1_spec hc h
      have hmod : (g.max_t1_id + 1) % UINT64_RANGE = g.max_t1_id + 1 :=
        Nat.mod_eq_of_lt (by omega)
      rw [hmod] at e1
      refine ⟨by omega, by omega, ?_, by rw [e3, e2]; exact hi.len2,
        by rw [e4, e2]; exact hi.topo_keys, ?_, ?_, ?_, by rw [e4]; exact hi.topo_vals⟩
      · have := hi.len1
        rcases e5 with ⟨hp, ev, -⟩ | ⟨hp, -, ev, -⟩
        · rw [ev, e1, List.length_append, this]
          simp only [List.length_singleton]
          omega
        · rw [ev, e1, List.length_set, this]
          omega
      · rcases e5 with ⟨-, -, ec⟩ | ⟨-, -, -, m, -, ec⟩ <;>
        · rw [ec]; exact map_assign_sorted _ _ _ hi.cache_sorted
      · intro k m hk hle
        rw [e1] at hle
        rcases e5 with ⟨-, -, ec⟩ | ⟨-, -, -, m0, -, ec⟩ <;>
        · rw [ec, map_find_assign, if_neg (by omega)] at hk
          exact hi.cache_empty k m hk (by omega)
      · intro e he
        rcases e5 with ⟨-, -, ec⟩ | ⟨-, -, -, m0, hm0, ec⟩
        · rw [ec] at he
          rcases mem_map_assign _ _ _ _ he with rfl | he
          · exact map_insert_range_sorted _ _ nil_sorted
          · exact hi.cache_vals e he
        · rw [ec] at he
          rcases mem_map_assign _ _ _ _ he with rfl | he
          · exact map_insert_range_sorted _ _ (hi.cache_vals _ (map_find_mem _ _ _ hm0))
          · exact hi.cache_vals e he
    | T2 =>
      obtain ⟨-, -, e1, e2, e3, e4, e5⟩ := add_vertex_T2_spec hc h
      have hmod : (g.max_t2_id + 1) % UINT64_RANGE = g.max_t2_id + 1 :=
        Nat.mod_eq_of_lt (by omega)
      rw [hmod] at e1
      have hs : (map_keys g._topo).Pairwise (· < ·) := by
        rw [hi.topo_keys]; exact List.pairwise_lt_range _
      refine ⟨by omega, by omega, by rw [e3, e2]; exact hi.len1, ?_, ?_,
        by rw [e4]; exact hi.cache_sorted, by rw [e4, e2]; exact hi.cache_empty,
        by rw [e4]; exact hi.cache_vals, ?_⟩
      · have := hi.len2
        rcases e5 with ⟨hp, ev, -⟩ | ⟨hp, -, ev, -⟩
        · rw [ev, e1, List.length_append, this]
          simp only [List.length_singleton]
          omega
        · rw [ev, e1, List.length_set, this]
          omega
      · rcases e5 with ⟨hp, -, ec⟩ | ⟨hp, -, -, m, hm, ec⟩
        · rw [ec, map_assign_append, e1]
          · simp only [map_keys, List.map_append, List.map_cons, List.map_nil]
            have hk := hi.topo_keys
            simp only [map_keys] at hk
            rw [hk, Nat.max_eq_right hp, Nat.max_eq_right (by omega), List.range_succ]
          · intro j hj
            rw [hi.topo_keys, Nat.max_eq_right hp] at hj
            exact List.mem_range.1 hj
        · rw [ec, map_keys_assign_of_mem _ _ _ hs (map_find_some_mem _ _ _ hm), hi.topo_keys, e1,
            Nat.max_eq_left (by omega), Nat.max_eq_left (by omega)]
      · intro e he
        rcases e5 with ⟨-, -, ec⟩ | ⟨-, -, -, m0, hm0, ec⟩
        · rw [ec] at he
          rcases mem_map_assign _ _ _ _ he with rfl | he
          · exact map_insert_range_sorted _ _ nil_sorted
          · exact hi.topo_vals e he
        · rw [ec] at he
          rcases mem_map_assign _ _ _ _ he with rfl | he
          · exact map_insert_range_sorted _ _ (hi.topo_vals _ (map_find_mem _ _ _ hm0))
          · exact hi.topo_vals e he

theorem step_inv {n : Nat} {dbg : Bool} {g g1 : POSBipartiteGraph} {op : Op} {ev : List Event}
    (hi : Inv n g) (hn : n + 1 < UINT64_RANGE) (h : step dbg g op = some (g1, ev)) :
    Inv (n + 1) g1 := by
  cases op with
  | add T data neighbor =>
    simp only [step] at h
    cases ha : add_vertex dbg T g data neighbor with
    | none => rw [ha] at h; cases h
    | some r =>
      rw [ha] at h
      cases h
      exact add_vertex_inv hi hn ha
  | join =>
    simp only [step] at h
    cases hj : __join_topo g with
    | none => rw [hj] at h; cases h
    | some g2 =>
      rw [hj] at h
      cases h
      exact inv_mono (join_inv hi hj) (Nat.le_succ n)

theorem run_cons_some {dbg : Bool} {g g1 : POSBipartiteGraph} {op : Op} {ops : List Op}
    {evs : List Event} (h : run dbg g (op :: ops) = some (g1, evs)) :
    ∃ g2 ev evs2, step dbg g op = some (g2, ev) ∧ run dbg g2 ops = some (g1, evs2) ∧
      evs = ev ++ evs2 := by
  simp only [run] at h
  cases hs : step dbg g op with
  | none => simp [hs] at h
  | some p =>
    obtain ⟨g2, ev⟩ := p
    simp only [hs] at h
    cases hr : run dbg g2 ops with
    | none => simp [hr] at h
    | some q =>
      obtain ⟨g3, evs3⟩ := q
      simp only [hr, Option.some.injEq, Prod.mk.injEq] at h
      exact ⟨g2, ev, evs3, rfl, by rw [hr, h.1], h.2.symm⟩

theorem run_inv {dbg : Bool} (ops : List Op) {n : Nat} {g g1 : POSBipartiteGraph}
    {evs : List Event} (hi : Inv n g) (hn : n + ops.length < UINT64_RANGE)
    (h : run dbg g ops = some (g1, evs)) : Inv (n + ops.length) g1 := by
  induction ops generalizing n g evs with
  | nil => simp only [run] at h; cases h; exact hi
  | cons op ops ih =>
    obtain ⟨g2, ev, evs2, hs, hr, -⟩ := run_cons_some h
    simp only [List.length_cons] at hn ⊢
    have := ih (step_inv hi (by omega) hs) (by omega) hr
    have e : n + (ops.length + 1) = n + 1 + ops.length := by omega
    rw [e]
    exact this

/-! ## Ids and payloads along a sequence of calls -/

theorem assigned_ids_append (T : Kind) (a b : List Event) :
    assigned_ids T (a ++ b) = assigned_ids T a ++ assigned_ids T b := by
  simp [assigned_ids, List.filterMap_append]

/-- One call of `add_vertex`: either it fails the check and changes nothing, or it stores the
counter of its kind as the id, advances that counter and writes the vertex slot of that id. -/
theorem add_vertex_cases {n : Nat} {dbg : Bool} {T : Kind} {g : POSBipartiteGraph} {data : Nat}
    {neighbor : POSNeighborMap_t} {r : AddResult} (hi : Inv n g) (hn : n + 1 < UINT64_RANGE)
    (h : add_vertex dbg T g data neighbor = some r) :
    (r.retval = .POS_FAILED_NOT_EXIST ∧ r.id = none ∧ r.graph = g ∧
      (dbg && neighbor_check_fails T g neighbor) = true) ∨
    (r.retval = .POS_SUCCESS ∧ r.id = some (max_id T g) ∧
      max_id T r.graph = max_id T g + 1 ∧ max_id T.other r.graph = max_id T.other g ∧
      vertices T.other r.graph = vertices T.other g ∧
      (vertices T r.graph)[max_id T g]? = some ⟨data, max_id T g⟩ ∧
      (∀ j, j ≠ max_id T g → j < (vertices T g).length →
        (vertices T r.graph)[j]? = (vertices T g)[j]?) ∧
      (dbg && neighbor_check_fails T g neighbor) = false) := by
  cases hc : (dbg && neighbor_check_fails T g neighbor) with
  | true =>
    rw [add_vertex_check_fails hc] at h
    cases h
    exact Or.inl ⟨rfl, rfl, rfl, rfl⟩
  | false =>
    right
    have hm1 := hi.max1
    have hm2 := hi.max2
    have hl1 := hi.len1
    have hl2 := hi.len2
    cases T with
    | T1 =>
      obtain ⟨e0, e00, e1, e2, e3, -, e5⟩ := add_vertex_T1_spec hc h
      rw [Nat.mod_eq_of_lt (by omega)] at e1
      simp only [max_id, vertices, Kind.other]
      refine ⟨e0, e00, e1, e2, e3, ?_, ?_, trivial⟩
      · rcases e5 with ⟨hp, ev, -⟩ | ⟨hp, hlt, ev, -⟩
        · have : g._t1s.length = g.max_t1_id := by omega
          rw [ev, List.getElem?_append_right (by omega), this]
          simp
        · rw [ev, List.getElem?_set_self hlt]
      · intro j hj hjl
        rcases e5 with ⟨hp, ev, -⟩ | ⟨hp, hlt, ev, -⟩
        · rw [ev, List.getElem?_append_left hjl]
        · rw [ev, List.getElem?_set_ne (Ne.symm hj)]
    | T2 =>
      obtain ⟨e0, e00, e1, e2, e3, -, e5⟩ := add_vertex_T2_spec hc h
      rw [Nat.mod_eq_of_lt (by omega)] at e1
      simp only [max_id, vertices, Kind.other]
      refine ⟨e0, e00, e1, e2, e3, ?_, ?_, trivial⟩
      · rcases e5 with ⟨hp, ev, -⟩ | ⟨hp, hlt, ev, -⟩
        · have : g._t2s.length = g.max_t2_id := by omega
          rw [ev, List.getElem?_append_right (by omega), this]
          simp
        · rw [ev, List.getElem?_set_self hlt]
      · intro j hj hjl
        rcases e5 with ⟨hp, ev, -⟩ | ⟨hp, hlt, ev, -⟩
        · rw [ev, List.getElem?_append_left hjl]
        · rw [ev, List.getElem?_set_ne (Ne.symm hj)]

theorem inv_len {n : Nat} {g : POSBipartiteGraph} (hi : Inv n g) (T : Kind) :
    (vertices T g).length = max kPOSBG_PREFILL_SIZE (max_id T g) := by
  cases T
  · exact hi.len1
  · exact hi.len2

/-- Effect of one call on the counter, the assigned ids and the written vertex slots of kind
`T`. -/
theorem step_ids {n : Nat} {dbg : Bool} {g g1 : POSBipartiteGraph} {op : Op} {ev : List Event}
    (T : Kind) (hi : Inv n g) (hn : n + 1 < UINT64_RANGE) (h : step dbg g op = some (g1, ev)) :
    max_id T g ≤ max_id T g1 ∧
    assigned_ids T ev = List.range' (max_id T g) (max_id T g1 - max_id T g) ∧
    (∀ j, j < max_id T g → (vertices T g1)[j]? = (vertices T g)[j]?) := by
  cases op with
  | add K data neighbor =>
    simp only [step] at h
    cases ha : add_vertex dbg K g data neighbor with
    | none => simp [ha] at h
    | some r =>
      simp only [ha, Option.some.injEq, Prod.mk.injEq] at h
      obtain ⟨rfl, rfl⟩ := h
      have hl := inv_len hi T
      rcases add_vertex_cases hi hn ha with ⟨e0, e1, e2, -⟩ | ⟨e0, e1, e2, e3, e4, -, e6, -⟩
      · rw [e2]
        refine ⟨le_refl _, ?_, fun _ _ => rfl⟩
        simp [assigned_ids, e0, e1]
      · by_cases hk : K = T
        · subst hk
          refine ⟨by omega, ?_, ?_⟩
          · rw [e2]
            simp [assigned_ids, e0, e1]
          · intro j hj
            exact e6 j (by omega) (by omega)
        · have hT : T = K.other := by
            cases K <;> cases T <;> simp_all [Kind.other]
          subst hT
          rw [e3, e4]
          refine ⟨le_refl _, ?_, fun _ _ => rfl⟩
          simp [assigned_ids, hk]
  | join =>
    simp only [step] at h
    cases hj : __join_topo g with
    | none => simp [hj] at h
    | some g2 =>
      simp only [hj, Option.some.injEq, Prod.mk.injEq] at h
      obtain ⟨rfl, rfl⟩ := h
      obtain ⟨h1, h2, h3, h4, -, -⟩ := join_topo_spec hj
      cases T <;> simp [max_id, vertices, assigned_ids, h1, h2, h3, h4]

theorem run_ids {dbg : Bool} (T : Kind) (ops : List Op) {n : Nat} {g g1 : POSBipartiteGraph}
    {evs : List Event} (hi : Inv n g) (hn : n + ops.length < UINT64_RANGE)
    (h : run dbg g ops = some (g1, evs)) :
    max_id T g ≤ max_id T g1 ∧
    assigned_ids T evs = List.range' (max_id T g) (max_id T g1 - max_id T g) ∧
    (∀ j, j < max_id T g → (vertices T g1)[j]? = (vertices T g)[j]?) := by
  induction ops generalizing n g evs with
  | nil =>
    simp only [run, Option.some.injEq, Prod.mk.injEq] at h
    obtain ⟨rfl, rfl⟩ := h
    simp [assigned_ids]
  | cons op ops ih =>
    obtain ⟨g2, ev, evs2, hs, hr, rfl⟩ := run_cons_some h
    simp only [List.length_cons] at hn
    obtain ⟨a1, a2, a3⟩ := step_ids T hi (by omega) hs
    obtain ⟨b1, b2, b3⟩ := ih (step_inv hi (by omega) hs) (by omega) hr
    refine ⟨le_trans a1 b1, ?_, ?_⟩
    · rw [assigned_ids_append, a2, b2]
      obtain ⟨k1, hk1⟩ := Nat.exists_eq_add_of_le a1
      obtain ⟨k2, hk2⟩ := Nat.exists_eq_add_of_le b1
      rw [hk2, hk1]
      have e1 : max_id T g + k1 - max_id T g = k1 := by omega
      have e2 : max_id T g + k1 + k2 - (max_id T g + k1) = k2 := by omega
      have e3 : max_id T g + k1 + k2 - max_id T g = k2 + k1 := by omega
      rw [e1, e2, e3, List.range'_append_1]
    · intro j hj
      rw [b3 j (by omega), a3 j hj]

theorem max_id_new (T : Kind) : max_id T POSBipartiteGraph.new = 0 := by
  rw [new_eq]
  cases T <;> rfl

/-- Ids assigned along a call sequence from the fresh graph are `0, 1, 2, ...` in call order. -/
theorem assigned_ids_from_new {dbg : Bool} (T : Kind) {ops : List Op} {g : POSBipartiteGraph}
    {evs : List Event} (hn : ops.length < UINT64_RANGE)
    (h : run dbg POSBipartiteGraph.new ops = some (g, evs)) :
    assigned_ids T evs = List.range (max_id T g) := by
  obtain ⟨-, a2, -⟩ := run_ids T ops inv_new (by omega) h
  rw [a2, max_id_new, List.range_eq_range']
  rfl

/-! ## Calls that return -/

theorem cacheFull_new : CacheFull POSBipartiteGraph.new := by
  intro k hk
  rw [new_eq]
  exact ⟨[], by simp only [map_find_prefilled, if_pos hk]⟩

/-- A call of `add_vertex` returns whenever the slot it reads exists: always for `T2`, and for
`T1` when the cache has not been cleared or the id is beyond the prefilled slots. -/
theorem add_vertex_returns {n : Nat} (dbg : Bool) (T : Kind) {g : POSBipartiteGraph}
    (data : Nat) (neighbor : POSNeighborMap_t) (hi : Inv n g)
    (hcf : T = .T1 → CacheFull g ∨ kPOSBG_PREFILL_SIZE ≤ g.max_t1_id) :
    ∃ r, add_vertex dbg T g data neighbor = some r := by
  cases hc : (dbg && neighbor_check_fails T g neighbor) with
  | true => exact ⟨_, add_vertex_check_fails hc⟩
  | false =>
    have hl1 := hi.len1
    have hl2 := hi.len2
    cases T with
    | T1 =>
      simp only [add_vertex, hc, Bool.false_eq_true, if_false]
      by_cases hp : g.max_t1_id ≥ kPOSBG_PREFILL_SIZE
      · simp only [hp, if_true]
        exact ⟨_, rfl⟩
      · simp only [hp, if_false]
        rcases hcf rfl with hfull | hge
        · obtain ⟨m, hm⟩ := hfull g.max_t1_id (by omega)
          have hlt : g.max_t1_id < g._t1s.length := by omega
          rw [hm, List.getElem?_eq_getElem hlt]
          exact ⟨_, rfl⟩
        · exact absurd hge hp
    | T2 =>
      simp only [add_vertex, hc, Bool.false_eq_true, if_false]
      by_cases hp : g.max_t2_id ≥ kPOSBG_PREFILL_SIZE
      · simp only [hp, if_true]
        exact ⟨_, rfl⟩
      · simp only [hp, if_false]
        have hmem : g.max_t2_id ∈ map_keys g._topo := by
          rw [hi.topo_keys, List.mem_range]
          omega
        cases hm : map_find g._topo g.max_t2_id with
        | none => exact absurd hmem ((map_find_none_iff _ _).1 hm)
        | some m =>
          have hlt : g.max_t2_id < g._t2s.length := by omega
          rw [List.getElem?_eq_getElem hlt]
          exact ⟨_, rfl⟩

theorem add_vertex_cacheFull {dbg : Bool} {T : Kind} {g : POSBipartiteGraph} {data : Nat}
    {neighbor : POSNeighborMap_t} {r : AddResult} (hcf : CacheFull g)
    (h : add_vertex dbg T g data neighbor = some r) : CacheFull r.graph := by
  cases hc : (dbg && neighbor_check_fails T g neighbor) with
  | true =>
    rw [add_vertex_check_fails hc] at h
    cases h
    exact hcf
  | false =>
    cases T with
    | T1 =>
      obtain ⟨-, -, -, -, -, -, e5⟩ := add_vertex_T1_spec hc h
      intro k hk
      obtain ⟨m, hm⟩ := hcf k hk
      rcases e5 with ⟨-, -, ec⟩ | ⟨-, -, -, m0, -, ec⟩ <;>
      · rw [ec, map_find_assign]
        split_ifs
        · exact ⟨_, rfl⟩
        · exact ⟨m, hm⟩
    | T2 =>
      obtain ⟨-, -, -, -, -, e4, -⟩ := add_vertex_T2_spec hc h
      intro k hk
      rw [e4]
      exact hcf k hk

/-- A call sequence without a merge pass, run on a graph whose cache is complete, returns. -/
theorem run_adds_returns (dbg : Bool) (ops : List Op) {n : Nat} {g : POSBipartiteGraph}
    (hi : Inv n g) (hcf : CacheFull g) (hn : n + ops.length < UINT64_RANGE)
    (hj : no_join ops = true) :
    ∃ g1 evs, run dbg g ops = some (g1, evs) ∧ CacheFull g1 := by
  induction ops generalizing n g with
  | nil => exact ⟨g, [], rfl, hcf⟩
  | cons op ops ih =>
    cases op with
    | join => simp [no_join] at hj
    | add T data neighbor =>
      simp only [no_join] at hj
      simp only [List.length_cons] at hn
      obtain ⟨r, hr⟩ := add_vertex_returns dbg T data neighbor hi (fun _ => Or.inl hcf)
      obtain ⟨g1, evs, h1, h2⟩ :=
        ih (add_vertex_inv hi (by omega) hr) (add_vertex_cacheFull hcf hr) (by omega) hj
      refine ⟨g1, [⟨T, data, neighbor, r.retval, r.id⟩] ++ evs, ?_, h2⟩
      simp only [run, step, hr, h1]

theorem length_lt_uint64 {α : Type} (l : List α) (h : l.length < 100) :
    l.length < UINT64_RANGE := by
  unfold UINT64_RANGE
  omega

theorem new_t1s_length : POSBipartiteGraph.new._t1s.length = kPOSBG_PREFILL_SIZE := by
  rw [new_eq]
  exact List.length_replicate _ _

theorem new_t2s_length : POSBipartiteGraph.new._t2s.length = kPOSBG_PREFILL_SIZE := by
  rw [new_eq]
  exact List.length_replicate _ _

/-- Reading a vertex slot that holds `⟨data, id⟩`. -/
theorem get_vertex_by_id_of_slot (T : Kind) (g : POSBipartiteGraph) (id data vid : Nat)
    (h : (vertices T g)[id]? = some ⟨data, vid⟩) : get_vertex_by_id T g id = some data := by
  have hlt : id < (vertices T g).length := by
    by_contra hc
    rw [List.getElem?_eq_none (Nat.le_of_not_lt hc)] at h
    cases h
  cases T with
  | T1 =>
    simp only [vertices] at h hlt
    simp only [get_vertex_by_id, if_pos hlt, h, Option.map_some']
  | T2 =>
    simp only [vertices] at h hlt
    simp only [get_vertex_by_id, if_pos hlt, h, Option.map_some']

/-- The neighbor check of `add_vertex` fails only on an id beyond every assigned id of the other
kind. -/
theorem neighbor_check_fails_unknown {n : Nat} {T : Kind} {g : POSBipartiteGraph}
    {neighbor : POSNeighborMap_t} (hi : Inv n g)
    (h : neighbor_check_fails T g neighbor = true) :
    ∃ e ∈ neighbor, max_id T.other g < e.1 := by
  have hl1 := hi.len1
  have hl2 := hi.len2
  cases T with
  | T1 =>
    simp only [neighbor_check_fails, List.any_eq_true, decide_eq_true_eq] at h
    obtain ⟨e, he, hlt⟩ := h
    exact ⟨e, he, by simp only [Kind.other, max_id]; omega⟩
  | T2 =>
    simp only [neighbor_check_fails, List.any_eq_true, decide_eq_true_eq] at h
    obtain ⟨e, he, hlt⟩ := h
    exact ⟨e, he, by simp only [Kind.other, max_id]; omega⟩

/-! ## What the merge pass computes -/

theorem merge_inner_find (v : Nat) (nm : POSNeighborMap_t) (topo topo1 : POSTopoMap_t)
    (hu : (map_keys nm).Pairwise (· < ·)) (h : merge_inner v nm topo = some topo1) (t : Nat) :
    map_find topo1 t =
      (map_find topo t).map (fun m =>
        match map_find nm t with
        | none => m
        | some d => map_assign m v d) := by
  induction nm generalizing topo with
  | nil =>
    simp only [merge_inner, Option.some.injEq] at h
    subst h
    cases map_find topo t <;> simp [map_find]
  | cons hd tl ih =>
    obtain ⟨t2, dir⟩ := hd
    simp only [map_keys, List.map_cons, List.pairwise_cons] at hu
    simp only [merge_inner] at h
    cases hf : map_find topo t2 with
    | none => rw [hf] at h; cases h
    | some x =>
      rw [hf] at h
      rw [ih _ hu.2 h, map_find_assign]
      by_cases ht : t = t2
      · subst ht
        have : map_find tl t = none := map_find_none_of_lt tl t hu.1
        simp [this, hf, map_find]
      · simp only [if_neg ht, map_find]

theorem merge_outer_find (cache topo topo1 : POSTopoMap_t)
    (hv : ∀ e ∈ cache, (map_keys e.2).Pairwise (· < ·))
    (h : merge_outer cache topo = some topo1) (t : Nat) :
    map_find topo1 t = (map_find topo t).map (apply_edges cache t) := by
  induction cache generalizing topo with
  | nil =>
    simp only [merge_outer, Option.some.injEq] at h
    subst h
    cases hft : map_find topo t with
    | none => rfl
    | some m => simp [apply_edges]
  | cons hd tl ih =>
    obtain ⟨v, nm⟩ := hd
    simp only [merge_outer] at h
    cases hf : merge_inner v nm topo with
    | none => rw [hf] at h; cases h
    | some x =>
      rw [hf] at h
      rw [ih _ (fun e he => hv e (List.mem_cons_of_mem _ he)) h,
        merge_inner_find v nm topo x (hv _ (List.mem_cons_self _ _)) hf t]
      cases map_find topo t with
      | none => rfl
      | some m =>
        simp only [Option.map_some', apply_edges, List.foldl_cons]

theorem apply_edges_find (cache : POSTopoMap_t) (t : Nat) (m : POSNeighborMap_t) (v : Nat)
    (hs : (map_keys cache).Pairwise (· < ·)) :
    map_find (apply_edges cache t m) v =
      match (map_find cache v).bind (fun nm => map_find nm t) with
      | some d => some d
      | none => map_find m v := by
  induction cache generalizing m with
  | nil => simp [apply_edges, map_find]
  | cons hd tl ih =>
    obtain ⟨v1, nm1⟩ := hd
    simp only [map_keys, List.map_cons, List.pairwise_cons] at hs
    have ih2 := fun m => ih m hs.2
    simp only [apply_edges, List.foldl_cons] at ih2 ⊢
    rw [ih2]
    by_cases hv : v = v1
    · subst hv
      have : map_find tl v = none := map_find_none_of_lt tl v hs.1
      simp only [this, Option.none_bind, map_find, if_true, Option.some_bind]
      cases map_find nm1 t with
      | none => rfl
      | some d => simp [map_find_assign]
    · simp only [map_find, if_neg hv]
      cases map_find nm1 t with
      | none => rfl
      | some d => simp only [map_find_assign, if_neg hv]

theorem apply_edges_sorted (cache : POSTopoMap_t) (t : Nat) (m : POSNeighborMap_t)
    (hm : (map_keys m).Pairwise (· < ·)) : (map_keys (apply_edges cache t m)).Pairwise (· < ·) := by
  induction cache generalizing m with
  | nil => exact hm
  | cons hd tl ih =>
    simp only [apply_edges, List.foldl_cons] at ih ⊢
    apply ih
    cases map_find hd.2 t with
    | none => exact hm
    | some d => exact map_assign_sorted _ _ _ hm

theorem merge_inner_isSome (v : Nat) (nm : POSNeighborMap_t) (topo : POSTopoMap_t)
    (hs : (map_keys topo).Pairwise (· < ·)) (hk : ∀ x ∈ nm, x.1 ∈ map_keys topo) :
    ∃ topo1, merge_inner v nm topo = some topo1 := by
  induction nm generalizing topo with
  | nil => exact ⟨topo, rfl⟩
  | cons hd tl ih =>
    obtain ⟨t2, dir⟩ := hd
    simp only [merge_inner]
    cases hf : map_find topo t2 with
    | none =>
      exact absurd (hk (t2, dir) (List.mem_cons_self _ _)) ((map_find_none_iff _ _).1 hf)
    | some x =>
      have hkeys := map_keys_assign_of_mem topo t2 (map_assign x v dir) hs
        (map_find_some_mem _ _ _ hf)
      exact ih _ (by rw [hkeys]; exact hs)
        (fun y hy => by rw [hkeys]; exact hk y (List.mem_cons_of_mem _ hy))

theorem merge_outer_isSome (cache topo : POSTopoMap_t)
    (hs : (map_keys topo).Pairwise (· < ·))
    (hk : ∀ e ∈ cache, ∀ x ∈ e.2, x.1 ∈ map_keys topo) :
    ∃ topo1, merge_outer cache topo = some topo1 := by
  induction cache generalizing topo with
  | nil => exact ⟨topo, rfl⟩
  | cons hd tl ih =>
    obtain ⟨v, nm⟩ := hd
    obtain ⟨x, hx⟩ := merge_inner_isSome v nm topo hs (hk _ (List.mem_cons_self _ _))
    have hkeys := merge_inner_keys v nm topo x hs hx
    simp only [merge_outer, hx]
    exact ih _ (by rw [hkeys]; exact hs)
      (fun e he y hy => by rw [hkeys]; exact hk e (List.mem_cons_of_mem _ he) y hy)

theorem inv_topo_sorted {n : Nat} {g : POSBipartiteGraph} (hi : Inv n g) :
    (map_keys g._topo).Pairwise (· < ·) := by
  rw [hi.topo_keys]
  exact List.pairwise_lt_range _

/-- The merge pass returns when every cached neighbor id is a key of `_topo`. -/
theorem join_topo_returns {n : Nat} {g : POSBipartiteGraph} (hi : Inv n g) (hv : CacheValid g) :
    ∃ g1, __join_topo g = some g1 := by
  obtain ⟨t, ht⟩ := merge_outer_isSome g._topo_t1_cache g._topo (inv_topo_sorted hi) hv
  unfold __join_topo
  split_ifs
  · exact ⟨{ g with _topo := t, _topo_t1_cache := [] }, by simp only [__merge_topo_cache, ht]⟩
  · exact ⟨g, rfl⟩

/-- After the merge pass, the neighbor map of a T2 id is its old map with the cached edges. -/
theorem join_topo_find {n : Nat} {g g1 : POSBipartiteGraph} (hi : Inv n g)
    (h : __join_topo g = some g1) (t : Nat) :
    map_find g1._topo t = (map_find g._topo t).map (apply_edges g._topo_t1_cache t) :=
  merge_outer_find _ _ _ hi.cache_vals (join_topo_spec h).2.2.2.2.2 t

theorem mem_map_insert_range {V : Type} (src m : List (Nat × V)) (e : Nat × V)
    (h : e ∈ map_insert_range m src) : e ∈ m ∨ e ∈ src := by
  induction src generalizing m with
  | nil => exact Or.inl h
  | cons hd tl ih =>
    have h1 : e ∈ map_insert_range (map_insert m hd.1 hd.2) tl := h
    rcases ih _ h1 with h2 | h2
    · unfold map_insert at h2
      cases hf : map_find m hd.1 with
      | some x =>
        rw [hf] at h2
        exact Or.inl h2
      | none =>
        rw [hf] at h2
        rcases mem_map_assign _ _ _ _ h2 with h3 | h3
        · right
          rw [h3]
          exact List.mem_cons_self _ _
        · exact Or.inl h3
    · exact Or.inr (List.mem_cons_of_mem _ h2)

theorem cacheValid_new : CacheValid POSBipartiteGraph.new := by
  intro e he x hx
  rw [new_eq] at he
  simp only [prefilled_map, List.mem_map] at he
  obtain ⟨i, -, rfl⟩ := he
  cases hx

/-- The cache stays valid under `add_vertex` when the neighbor ids of a new T1 vertex are keys
of `_topo`. -/
theorem add_vertex_cacheValid {n : Nat} {dbg : Bool} {T : Kind} {g : POSBipartiteGraph}
    {data : Nat} {neighbor : POSNeighborMap_t} {r : AddResult} (hi : Inv n g)
    (hn : n + 1 < UINT64_RANGE) (hv : CacheValid g)
    (h : add_vertex dbg T g data neighbor = some r)
    (hN : T = .T1 → ∀ x ∈ neighbor, x.1 ∈ map_keys g._topo) : CacheValid r.graph := by
  have hi1 := add_vertex_inv hi hn h
  cases hc : (dbg && neighbor_check_fails T g neighbor) with
  | true =>
    rw [add_vertex_check_fails hc] at h
    cases h
    exact hv
  | false =>
    cases T with
    | T1 =>
      obtain ⟨-, -, -, -, -, e4, e5⟩ := add_vertex_T1_spec hc h
      intro e he x hx
      rw [e4]
      rcases e5 with ⟨-, -, ec⟩ | ⟨-, -, -, m0, hm0, ec⟩
      · rw [ec] at he
        rcases mem_map_assign _ _ _ _ he with rfl | he
        · rcases mem_map_insert_range _ _ _ hx with hx | hx
          · cases hx
          · exact hN rfl x hx
        · exact hv e he x hx
      · rw [ec] at he
        rcases mem_map_assign _ _ _ _ he with rfl | he
        · rcases mem_map_insert_range _ _ _ hx with hx | hx
          · exact hv _ (map_find_mem _ _ _ hm0) x hx
          · exact hN rfl x hx
        · exact hv e he x hx
    | T2 =>
      obtain ⟨-, -, e1, -, -, e4, -⟩ := add_vertex_T2_spec hc h
      intro e he x hx
      rw [e4] at he
      have := hv e he x hx
      rw [hi.topo_keys, List.mem_range] at this
      rw [hi1.topo_keys, List.mem_range, e1, Nat.mod_eq_of_lt (by have := hi.max2; omega)]
      omega

/-- The new edges of `add_vertex<T1>` after the merge pass. -/
theorem add_T1_then_join_find {n : Nat} {dbg : Bool} {g g2 : POSBipartiteGraph} {data : Nat}
    {neighbor : POSNeighborMap_t} {r : AddResult} (hi : Inv n g) (hn : n + 1 < UINT64_RANGE)
    (hadd : add_vertex dbg .T1 g data neighbor = some r) (hret : r.retval = .POS_SUCCESS)
    (hjoin : __join_topo r.graph = some g2) (t : Nat) (d : pos_edge_direction_t)
    (ht : t ∈ map_keys g._topo) (hd : map_find neighbor t = some d) :
    ∃ m, map_find g2._topo t = some m ∧ map_find m g.max_t1_id = some d := by
  have hi1 := add_vertex_inv hi hn hadd
  have hc : (dbg && neighbor_check_fails .T1 g neighbor) = false := by
    cases hc : (dbg && neighbor_check_fails .T1 g neighbor) with
    | false => rfl
    | true =>
      rw [add_vertex_check_fails hc] at hadd
      cases hadd
      cases hret
  obtain ⟨-, -, -, -, -, e4, e5⟩ := add_vertex_T1_spec hc hadd
  have hcache : map_find r.graph._topo_t1_cache g.max_t1_id
      = some (map_insert_range [] neighbor) := by
    rcases e5 with ⟨-, -, ec⟩ | ⟨-, -, -, m0, hm0, ec⟩
    · rw [ec, map_find_assign, if_pos rfl]
    · rw [ec, map_find_assign, if_pos rfl, hi.cache_empty _ _ hm0 (le_refl _)]
  have hnm : map_find (map_insert_range [] neighbor) t = some d := by
    rw [map_find_insert_range]
    simpa [map_find] using hd
  cases hm : map_find g._topo t with
  | none => exact absurd ht ((map_find_none_iff _ _).1 hm)
  | some m =>
    refine ⟨apply_edges r.graph._topo_t1_cache t m, ?_, ?_⟩
    · rw [join_topo_find hi1 hjoin t, e4, hm]
      rfl
    · rw [apply_edges_find _ _ _ _ hi1.cache_sorted, hcache]
      simp only [Option.some_bind, hnm]

/-! ## Evaluation on the fresh graph -/

theorem new_max_t1_id : POSBipartiteGraph.new.max_t1_id = 0 := by
  rw [new_eq]

theorem new_max_t2_id : POSBipartiteGraph.new.max_t2_id = 0 := by
  rw [new_eq]

theorem new_t1s : POSBipartiteGraph.new._t1s = List.replicate kPOSBG_PREFILL_SIZE ⟨nullptr, 0⟩ := by
  rw [new_eq]

theorem new_t2s : POSBipartiteGraph.new._t2s = List.replicate kPOSBG_PREFILL_SIZE ⟨nullptr, 0⟩ := by
  rw [new_eq]

theorem dump_vertices_replicate (ser : Nat → String) (n : Nat) :
    dump_vertices ser (List.replicate n ⟨nullptr, 0⟩) = [] := by
  induction n with
  | zero => rfl
  | succ n ih => simp only [List.replicate_succ, dump_vertices, if_true, ih]

/-- The vertex vector after the first `add_vertex` of a kind on a fresh graph. -/
theorem prefilled_set_zero (v : POSBgVertex_t) :
    (List.replicate kPOSBG_PREFILL_SIZE (⟨nullptr, 0⟩ : POSBgVertex_t)).set 0 v
      = v :: List.replicate 1048575 ⟨nullptr, 0⟩ := by
  rw [kPOSBG_PREFILL_SIZE_eq, show (1048576 : Nat) = 1048575 + 1 from rfl, List.replicate_succ]
  rfl

/-- What the first `add_vertex<T1>` on a graph with `max_t1_id = 0` leaves behind. -/
theorem add_vertex_T1_first {dbg : Bool} {g : POSBipartiteGraph} {data : Nat}
    {neighbor : POSNeighborMap_t} {r : AddResult} (h0 : g.max_t1_id = 0)
    (hc : (dbg && neighbor_check_fails .T1 g neighbor) = false)
    (h : add_vertex dbg .T1 g data neighbor = some r) :
    r.retval = .POS_SUCCESS ∧ r.id = some 0 ∧ r.graph._t1s = g._t1s.set 0 ⟨data, 0⟩ ∧
    r.graph._t2s = g._t2s ∧ r.graph.max_t2_id = g.max_t2_id ∧ r.graph._topo = g._topo := by
  obtain ⟨e0, e1, -, e2, e3, e4, e5⟩ := add_vertex_T1_spec hc h
  rw [h0] at e1 e5
  refine ⟨e0, e1, ?_, e3, e2, e4⟩
  rcases e5 with ⟨hp, -⟩ | ⟨-, -, ev, -⟩
  · rw [kPOSBG_PREFILL_SIZE_eq] at hp
    omega
  · exact ev

/-- What the first `add_vertex<T2>` on a graph with `max_t2_id = 0` leaves behind. -/
theorem add_vertex_T2_first {dbg : Bool} {g : POSBipartiteGraph} {data : Nat}
    {neighbor : POSNeighborMap_t} {r : AddResult} (h0 : g.max_t2_id = 0)
    (hc : (dbg && neighbor_check_fails .T2 g neighbor) = false)
    (h : add_vertex dbg .T2 g data neighbor = some r) :
    r.retval = .POS_SUCCESS ∧ r.id = some 0 ∧ r.graph._t2s = g._t2s.set 0 ⟨data, 0⟩ ∧
    r.graph._t1s = g._t1s ∧ r.graph.max_t1_id = g.max_t1_id ∧
    r.graph._topo_t1_cache = g._topo_t1_cache ∧
    ∃ m, map_find g._topo 0 = some m ∧
      r.graph._topo = map_assign g._topo 0 (map_insert_range m neighbor) := by
  obtain ⟨e0, e1, -, e2, e3, e4, e5⟩ := add_vertex_T2_spec hc h
  rw [h0] at e1 e5
  refine ⟨e0, e1, ?_, e3, e2, e4, ?_⟩
  · rcases e5 with ⟨hp, -⟩ | ⟨-, -, ev, -⟩
    · rw [kPOSBG_PREFILL_SIZE_eq] at hp
      omega
    · exact ev
  · rcases e5 with ⟨hp, -⟩ | ⟨-, -, -, ev⟩
    · rw [kPOSBG_PREFILL_SIZE_eq] at hp
      omega
    · exact ev

theorem run_two_adds {dbg : Bool} {g : POSBipartiteGraph} {T T' : Kind} {d d' : Nat}
    {N N' : POSNeighborMap_t} {r r' : AddResult} (h : add_vertex dbg T g d N = some r)
    (h' : add_vertex dbg T' r.graph d' N' = some r') :
    run dbg g [.add T d N, .add T' d' N']
      = some (r'.graph, [⟨T, d, N, r.retval, r.id⟩, ⟨T', d', N', r'.retval, r'.id⟩]) := by
  simp only [run, step, h, h', List.singleton_append, List.append_nil]

theorem run_one_add {dbg : Bool} {g : POSBipartiteGraph} {T : Kind} {d : Nat}
    {N : POSNeighborMap_t} {r : AddResult} (h : add_vertex dbg T g d N = some r) :
    run dbg g [.add T d N] = some (r.graph, [⟨T, d, N, r.retval, r.id⟩]) := by
  simp only [run, step, h, List.append_nil]

/-! ## Graphs built by `add_vertex` alone, and the records of the calls -/

theorem declared_neighbors_of_not_assigned (T : Kind) (evs : List Event) (v : Nat)
    (h : v ∉ assigned_ids T evs) : declared_neighbors T evs v = [] := by
  unfold declared_neighbors
  have : evs.find? (fun e => decide (e.T = T ∧ e.retval = .POS_SUCCESS ∧ e.id = some v))
      = none := by
    rw [List.find?_eq_none]
    intro e he hp
    simp only [decide_eq_true_eq] at hp
    apply h
    simp only [assigned_ids, List.mem_filterMap]
    exact ⟨e, he, by simp [hp.1, hp.2.1, hp.2.2]⟩
  rw [this]

theorem declared_neighbors_append_other (T : Kind) (evs : List Event) (ev : Event) (v : Nat)
    (h : ¬(ev.T = T ∧ ev.retval = .POS_SUCCESS ∧ ev.id = some v)) :
    declared_neighbors T (evs ++ [ev]) v = declared_neighbors T evs v := by
  unfold declared_neighbors
  rw [List.find?_append]
  cases hf : evs.find? (fun e => decide (e.T = T ∧ e.retval = .POS_SUCCESS ∧ e.id = some v)) with
  | some e => rfl
  | none =>
    have : [ev].find? (fun e => decide (e.T = T ∧ e.retval = .POS_SUCCESS ∧ e.id = some v))
        = none := by
      rw [List.find?_eq_none]
      intro x hx
      simp only [List.mem_singleton] at hx
      subst hx
      simpa using h
    rw [this]
    rfl

theorem declared_neighbors_append_self (T : Kind) (evs : List Event) (ev : Event) (v : Nat)
    (hv : v ∉ assigned_ids T evs)
    (h : ev.T = T ∧ ev.retval = .POS_SUCCESS ∧ ev.id = some v) :
    declared_neighbors T (evs ++ [ev]) v = ev.neighbor := by
  have hnone : evs.find? (fun e => decide (e.T = T ∧ e.retval = .POS_SUCCESS ∧ e.id = some v))
      = none := by
    rw [List.find?_eq_none]
    intro e he hp
    simp only [decide_eq_true_eq] at hp
    apply hv
    simp only [assigned_ids, List.mem_filterMap]
    exact ⟨e, he, by simp [hp.1, hp.2.1, hp.2.2]⟩
  unfold declared_neighbors
  rw [List.find?_append, hnone]
  simp [List.find?_cons, h]

theorem assigned_ids_single (T : Kind) (ev : Event) :
    assigned_ids T [ev] =
      if ev.T = T ∧ ev.retval = .POS_SUCCESS then ev.id.toList else [] := by
  unfold assigned_ids
  by_cases h : ev.T = T ∧ ev.retval = .POS_SUCCESS
  · cases hid : ev.id <;> simp [List.filterMap_cons, h, hid]
  · simp [List.filterMap_cons, h]

theorem rel_new : Rel POSBipartiteGraph.new [] := by
  refine ⟨?_, ?_, ?_, ?_, ?_, ?_⟩
  · rw [new_max_t1_id]; rfl
  · rw [new_max_t2_id]; rfl
  · intro v hv
    rw [new_max_t1_id] at hv
    omega
  · intro v nm h t
    rw [new_eq] at h
    simp only [map_find_prefilled] at h
    split_ifs at h
    cases h
    rfl
  · intro t m h v
    rw [new_eq] at h
    simp only [map_find_prefilled] at h
    split_ifs at h
    cases h
    rfl
  · intro e he x hx
    rw [new_eq] at he
    simp only [prefilled_map, List.mem_map] at he
    obtain ⟨i, -, rfl⟩ := he
    cases hx

theorem rel_append_unassigned {g : POSBipartiteGraph} {evs : List Event} (ev : Event)
    (hr : Rel g evs) (h : ev.retval = .POS_FAILED_NOT_EXIST) : Rel g (evs ++ [ev]) := by
  have hno : ∀ T v, ¬(ev.T = T ∧ ev.retval = .POS_SUCCESS ∧ ev.id = some v) := by
    intro T v hc
    rw [h] at hc
    cases hc.2.1
  have hid : ∀ T, assigned_ids T (evs ++ [ev]) = assigned_ids T evs := by
    intro T
    rw [assigned_ids_append, assigned_ids_single, if_neg (by rw [h]; simp), List.append_nil]
  refine ⟨by rw [hid]; exact hr.ids1, by rw [hid]; exact hr.ids2, hr.cache_has, ?_, ?_, ?_⟩
  · intro v nm hf t
    rw [declared_neighbors_append_other _ _ _ _ (hno _ _)]
    exact hr.cache_rel v nm hf t
  · intro t m hf v
    rw [declared_neighbors_append_other _ _ _ _ (hno _ _)]
    exact hr.topo_rel t m hf v
  · intro e he x hx
    obtain ⟨ev0, h0, h1⟩ := hr.cache_src e he x hx
    exact ⟨ev0, List.mem_append_left _ h0, h1⟩

/-- The relation between graph and records is kept by every `add_vertex` call. -/
theorem add_vertex_rel {n : Nat} {dbg : Bool} {T : Kind} {g : POSBipartiteGraph} {data : Nat}
    {neighbor : POSNeighborMap_t} {r : AddResult} {evs : List Event} (hi : Inv n g)
    (hn : n + 1 < UINT64_RANGE) (hr : Rel g evs)
    (h : add_vertex dbg T g data neighbor = some r) :
    Rel r.graph (evs ++ [⟨T, data, neighbor, r.retval, r.id⟩]) := by
  cases hc : (dbg && neighbor_check_fails T g neighbor) with
  | true =>
    rw [add_vertex_check_fails hc] at h
    cases h
    exact rel_append_unassigned _ hr rfl
  | false =>
    have hm1 := hi.max1
    have hm2 := hi.max2
    cases T with
    | T1 =>
      obtain ⟨e0, e00, e1, e2, -, e4, e5⟩ := add_vertex_T1_spec hc h
      rw [Nat.mod_eq_of_lt (by omega)] at e1
      rw [e0, e00]
      have hnot : g.max_t1_id ∉ assigned_ids .T1 evs := by
        rw [hr.ids1, List.mem_range]
        omega
      have hcache : ∀ v, map_find r.graph._topo_t1_cache v =
          if v = g.max_t1_id then some (map_insert_range [] neighbor)
          else map_find g._topo_t1_cache v := by
        intro v
        rcases e5 with ⟨-, -, ec⟩ | ⟨-, -, -, m0, hm0, ec⟩
        · rw [ec, map_find_assign]
        · rw [ec, map_find_assign, hi.cache_empty _ _ hm0 (le_refl _)]
      refine ⟨?_, ?_, ?_, ?_, ?_, ?_⟩
      · rw [assigned_ids_append, assigned_ids_single, hr.ids1, e1, List.range_succ]
        simp
      · rw [assigned_ids_append, assigned_ids_single, hr.ids2, e2]
        simp
      · intro v hv
        rw [hcache]
        split_ifs with hvv
        · exact ⟨_, rfl⟩
        · exact hr.cache_has v (by omega)
      · intro v nm hf t
        rw [hcache] at hf
        split_ifs at hf with hvv
        · cases hf
          subst hvv
          rw [declared_neighbors_append_self _ _ _ _ hnot ⟨rfl, rfl, rfl⟩, map_find_insert_range]
          rfl
        · rw [declared_neighbors_append_other _ _ _ _ (by
            intro hcon
            exact hvv (Option.some.inj hcon.2.2).symm)]
          exact hr.cache_rel v nm hf t
      · intro t m hf v
        rw [e4] at hf
        rw [declared_neighbors_append_other _ _ _ _ (by
          intro hcon
          cases hcon.1)]
        exact hr.topo_rel t m hf v
      · intro e he x hx
        have hold : e ∈ g._topo_t1_cache → ∃ ev ∈ evs ++
            [(⟨.T1, data, neighbor, .POS_SUCCESS, some g.max_t1_id⟩ : Event)],
            ev.T = .T1 ∧ ev.retval = .POS_SUCCESS ∧ x ∈ ev.neighbor := by
          intro he0
          obtain ⟨ev0, h0, h1⟩ := hr.cache_src e he0 x hx
          exact ⟨ev0, List.mem_append_left _ h0, h1⟩
        have hnew : x ∈ neighbor → ∃ ev ∈ evs ++
            [(⟨.T1, data, neighbor, .POS_SUCCESS, some g.max_t1_id⟩ : Event)],
            ev.T = .T1 ∧ ev.retval = .POS_SUCCESS ∧ x ∈ ev.neighbor := by
          intro hxn
          exact ⟨_, List.mem_append_right _ (List.mem_singleton_self _), rfl, rfl, hxn⟩
        rcases e5 with ⟨-, -, ec⟩ | ⟨-, -, -, m0, hm0, ec⟩
        · rw [ec] at he
          rcases mem_map_assign _ _ _ _ he with rfl | he
          · rcases mem_map_insert_range _ _ _ hx with hx | hx
            · cases hx
            · exact hnew hx
          · exact hold he
        · rw [ec] at he
          rcases mem_map_assign _ _ _ _ he with rfl | he
          · rcases mem_map_insert_range _ _ _ hx with hx | hx
            · rw [hi.cache_empty _ _ hm0 (le_refl _)] at hx
              cases hx
            · exact hnew hx
          · exact hold he
    | T2 =>
      obtain ⟨e0, e00, e1, e2, -, e4, e5⟩ := add_vertex_T2_spec hc h
      rw [Nat.mod_eq_of_lt (by omega)] at e1
      rw [e0, e00]
      have hnot : g.max_t2_id ∉ assigned_ids .T2 evs := by
        rw [hr.ids2, List.mem_range]
        omega
      have hdecl := declared_neighbors_of_not_assigned .T2 evs g.max_t2_id hnot
      have htopo : ∃ m0 : POSNeighborMap_t, (∀ v, map_find m0 v = none) ∧
          ∀ t, map_find r.graph._topo t =
            if t = g.max_t2_id then some (map_insert_range m0 neighbor)
            else map_find g._topo t := by
        rcases e5 with ⟨hp, -, ec⟩ | ⟨hp, -, -, m0, hm0, ec⟩
        · exact ⟨[], fun v => rfl, fun t => by rw [ec, map_find_assign]⟩
        · refine ⟨m0, fun v => ?_, fun t => by rw [ec, map_find_assign]⟩
          rw [hr.topo_rel _ _ hm0 v, hdecl]
          rfl
      obtain ⟨m0, hm0, htopo⟩ := htopo
      refine ⟨?_, ?_, ?_, ?_, ?_, ?_⟩
      · rw [assigned_ids_append, assigned_ids_single, hr.ids1, e2]
        simp
      · rw [assigned_ids_append, assigned_ids_single, hr.ids2, e1, List.range_succ]
        simp
      · intro v hv
        rw [e4]
        exact hr.cache_has v (by omega)
      · intro v nm hf t
        rw [e4] at hf
        rw [declared_neighbors_append_other _ _ _ _ (by
          intro hcon
          cases hcon.1)]
        exact hr.cache_rel v nm hf t
      · intro t m hf v
        rw [htopo] at hf
        split_ifs at hf with htt
        · cases hf
          subst htt
          rw [declared_neighbors_append_self _ _ _ _ hnot ⟨rfl, rfl, rfl⟩, map_find_insert_range,
            hm0]
        · rw [declared_neighbors_append_other _ _ _ _ (by
            intro hcon
            exact htt (Option.some.inj hcon.2.2).symm)]
          exact hr.topo_rel t m hf v
      · intro e he x hx
        rw [e4] at he
        obtain ⟨ev0, h0, h1⟩ := hr.cache_src e he x hx
        exact ⟨ev0, List.mem_append_left _ h0, h1⟩

theorem run_adds_rel (dbg : Bool) (ops : List Op) {n : Nat} {g g1 : POSBipartiteGraph}
    {evs0 evs : List Event} (hi : Inv n g) (hn : n + ops.length < UINT64_RANGE)
    (hr : Rel g evs0) (hj : no_join ops = true) (h : run dbg g ops = some (g1, evs)) :
    Rel g1 (evs0 ++ evs) := by
  induction ops generalizing n g evs0 evs with
  | nil =>
    simp only [run, Option.some.injEq, Prod.mk.injEq] at h
    obtain ⟨rfl, rfl⟩ := h
    rw [List.append_nil]
    exact hr
  | cons op ops ih =>
    cases op with
    | join => simp [no_join] at hj
    | add T data neighbor =>
      simp only [no_join] at hj
      simp only [List.length_cons] at hn
      obtain ⟨g2, ev, evs2, hs, hrun, rfl⟩ := run_cons_some h
      simp only [step] at hs
      cases ha : add_vertex dbg T g data neighbor with
      | none => simp [ha] at hs
      | some r =>
        simp only [ha, Option.some.injEq, Prod.mk.injEq] at hs
        obtain ⟨rfl, rfl⟩ := hs
        have := ih (add_vertex_inv hi (by omega) ha) (by omega)
          (add_vertex_rel hi (by omega) hr ha) hj hrun
        rw [List.append_assoc] at this
        exact this

/-! ## The lines of the topology section -/

theorem dump_topo_eq_flatMap (topo : POSTopoMap_t) :
    dump_topo topo = topo.flatMap (fun e => dump_topo_entry e.1 e.2) := by
  induction topo with
  | nil => rfl
  | cons hd tl ih =>
    obtain ⟨vid, m⟩ := hd
    simp only [dump_topo, List.flatMap_cons, ih]

theorem fields_append (a b : List Tok) : fields (a ++ b) = fields a ++ fields b := by
  induction a with
  | nil => rfl
  | cons t tl ih =>
    cases t <;> simp [fields, ih]

theorem dump_directions_single (a : Nat × pos_edge_direction_t) :
    dump_directions [a] = [Tok.num a.1, Tok.sep, Tok.dir a.2, Tok.endl] := rfl

theorem dump_directions_cons_cons (a b : Nat × pos_edge_direction_t) (rest : POSNeighborMap_t) :
    dump_directions (a :: b :: rest)
      = [Tok.num a.1, Tok.sep, Tok.dir a.2, Tok.sep] ++ dump_directions (b :: rest) := rfl

theorem fields_dump_directions (m : POSNeighborMap_t) :
    fields (dump_directions m) = m.flatMap (fun p => [Tok.num p.1, Tok.dir p.2]) := by
  induction m with
  | nil => rfl
  | cons hd tl ih =>
    cases tl with
    | nil => simp [dump_directions_single, fields]
    | cons hd2 tl2 =>
      rw [dump_directions_cons_cons, fields_append, ih]
      simp [fields]

theorem nb_lines_append (a b : List Tok) : nb_lines (a ++ b) = nb_lines a + nb_lines b := by
  simp [nb_lines]

theorem nb_lines_dump_directions (m : POSNeighborMap_t) :
    nb_lines (dump_directions m) = if m.length > 0 then 1 else 0 := by
  induction m with
  | nil => rfl
  | cons hd tl ih =>
    cases tl with
    | nil => simp [dump_directions_single, nb_lines, List.count_cons]
    | cons hd2 tl2 =>
      rw [dump_directions_cons_cons, nb_lines_append, ih]
      simp [nb_lines, List.count_cons]

/-- One entry of `_topo` is written as one line: the id, the number of neighbors, and the
neighbor ids each followed by its direction. -/
theorem dump_topo_entry_line (vid : Nat) (m : POSNeighborMap_t) :
    nb_lines (dump_topo_entry vid m) = 1 ∧
    fields (dump_topo_entry vid m) =
      [Tok.num vid, Tok.num m.length] ++ m.flatMap (fun p => [Tok.num p.1, Tok.dir p.2]) := by
  constructor
  · unfold dump_topo_entry
    by_cases h : m.length > 0
    · simp only [if_pos h, nb_lines, List.count_append] at *
      have := nb_lines_dump_directions m
      simp only [nb_lines, if_pos h] at this
      rw [this]
      simp [List.count_cons]
    · simp only [if_neg h, nb_lines, List.count_append] at *
      have := nb_lines_dump_directions m
      simp only [nb_lines, if_neg h] at this
      rw [this]
      simp [List.count_cons]
  · unfold dump_topo_entry
    rw [fields_append, fields_dump_directions]
    split_ifs <;> rfl

theorem map_mem_iff_find {V : Type} (m : List (Nat × V)) (k : Nat) (v : V)
    (hs : (map_keys m).Pairwise (· < ·)) : (k, v) ∈ m ↔ map_find m k = some v := by
  constructor
  · intro h
    induction m with
    | nil => cases h
    | cons hd tl ih =>
      obtain ⟨k1, v1⟩ := hd
      simp only [map_keys, List.map_cons, List.pairwise_cons] at hs
      simp only [List.mem_cons, Prod.mk.injEq] at h
      simp only [map_find]
      rcases h with ⟨rfl, rfl⟩ | h
      · simp
      · have hk : k ∈ map_keys tl := List.mem_map_of_mem Prod.fst h
        have := hs.1 k hk
        rw [if_neg (by omega)]
        exact ih hs.2 h
  · exact map_find_mem m k v

theorem map_ext {V : Type} (m1 m2 : List (Nat × V))
    (h1 : (map_keys m1).Pairwise (· < ·)) (h2 : (map_keys m2).Pairwise (· < ·))
    (h : ∀ k, map_find m1 k = map_find m2 k) : m1 = m2 := by
  induction m1 generalizing m2 with
  | nil =>
    cases m2 with
    | nil => rfl
    | cons hd2 tl2 =>
      have := h hd2.1
      simp [map_find] at this
  | cons hd1 tl1 ih =>
    obtain ⟨k1, v1⟩ := hd1
    cases m2 with
    | nil =>
      have := h k1
      simp [map_find] at this
    | cons hd2 tl2 =>
      obtain ⟨k2, v2⟩ := hd2
      simp only [map_keys, List.map_cons, List.pairwise_cons] at h1 h2
      have hk : k1 = k2 := by
        by_contra hne
        have a1 := h k1
        have a2 := h k2
        simp only [map_find, if_true, if_neg hne, if_neg (Ne.symm hne)] at a1 a2
        have b1 := h2.1 k1 (map_find_some_mem _ _ _ a1.symm)
        have b2 := h1.1 k2 (map_find_some_mem _ _ _ a2)
        omega
      subst hk
      have hv := h k1
      simp only [map_find, if_true, Option.some.injEq] at hv
      subst hv
      have htl : tl1 = tl2 := by
        apply ih tl2 h1.2 h2.2
        intro k
        by_cases hkk : k = k1
        · subst hkk
          rw [map_find_none_of_lt tl1 k h1.1, map_find_none_of_lt tl2 k h2.1]
        · have := h k
          simpa only [map_find, if_neg hkk] using this
      rw [htl]

/-! ## The dump of a graph built by `add_vertex` alone -/

/-- After the merge pass, the neighbor map of a T2 id holds exactly the declared edges. -/
theorem join_declared {n : Nat} {g g1 : POSBipartiteGraph} {evs : List Event} (hi : Inv n g)
    (hr : Rel g evs) (h : __join_topo g = some g1) (t : Nat) (m : POSNeighborMap_t)
    (hm : map_find g1._topo t = some m) (v : Nat) :
    map_find m v = declared_edge evs t v := by
  rw [join_topo_find hi h t] at hm
  cases hm0 : map_find g._topo t with
  | none => rw [hm0] at hm; cases hm
  | some m0 =>
    rw [hm0] at hm
    simp only [Option.map_some', Option.some.injEq] at hm
    subst hm
    rw [apply_edges_find _ _ _ _ hi.cache_sorted, hr.topo_rel t m0 hm0 v]
    unfold declared_edge
    cases hc : map_find g._topo_t1_cache v with
    | some nm =>
      simp only [Option.some_bind]
      rw [hr.cache_rel v nm hc t]
    | none =>
      have hv : v ∉ assigned_ids .T1 evs := by
        rw [hr.ids1, List.mem_range]
        intro hlt
        obtain ⟨nm, hnm⟩ := hr.cache_has v hlt
        rw [hnm] at hc
        cases hc
      rw [declared_neighbors_of_not_assigned .T1 evs v hv]
      rfl

/-- The cache is valid when every recorded T1 call listed keys of `_topo` only. -/
theorem cacheValid_of_events {n : Nat} {g : POSBipartiteGraph} {evs : List Event} (hi : Inv n g)
    (hr : Rel g evs)
    (hv : ∀ ev ∈ evs, ev.T = .T1 → ev.retval = .POS_SUCCESS →
      ∀ x ∈ ev.neighbor, x.1 < max kPOSBG_PREFILL_SIZE g.max_t2_id) : CacheValid g := by
  intro e he x hx
  obtain ⟨ev, hev, h1, h2, h3⟩ := hr.cache_src e he x hx
  rw [hi.topo_keys, List.mem_range]
  exact hv ev hev h1 h2 x h3

/-- The state and the relation to the records after a call sequence without merge pass. -/
theorem run_adds_from_new {dbg : Bool} {ops : List Op} {g : POSBipartiteGraph}
    {evs : List Event} (h : run dbg POSBipartiteGraph.new ops = some (g, evs))
    (hn : ops.length < UINT64_RANGE) (hj : no_join ops = true) :
    Inv (0 + ops.length) g ∧ Rel g evs := by
  refine ⟨run_inv ops inv_new (by omega) h, ?_⟩
  have := run_adds_rel dbg ops inv_new (by omega) rel_new hj h
  rw [List.nil_append] at this
  exact this

theorem dump_graph_to_file_spec {tsc_freq : Nat} {s1 s2 : Nat → String}
    {g g1 : POSBipartiteGraph} {out : List Tok}
    (h : dump_graph_to_file tsc_freq s1 s2 g = some (g1, out)) :
    __join_topo g = some g1 ∧
    out = dump_header tsc_freq g1 ++ dump_vertices s1 g1._t1s ++ dump_vertices s2 g1._t2s
      ++ g1._topo.flatMap (fun e => dump_topo_entry e.1 e.2) := by
  unfold dump_graph_to_file at h
  cases hj : __join_topo g with
  | none => rw [hj] at h; cases h
  | some g2 =>
    rw [hj] at h
    simp only [Option.some.injEq, Prod.mk.injEq] at h
    obtain ⟨rfl, rfl⟩ := h
    exact ⟨rfl, by rw [dump_topo_eq_flatMap]⟩

/-- The entries of `_topo` after the merge pass of the dump. -/
theorem dump_entries {n : Nat} {g g1 : POSBipartiteGraph} {evs : List Event} (hi : Inv n g)
    (hr : Rel g evs) (hj : __join_topo g = some g1) :
    map_keys g1._topo = List.range (max kPOSBG_PREFILL_SIZE g.max_t2_id) ∧
    ∀ e ∈ g1._topo, (map_keys e.2).Pairwise (· < ·) ∧
      ∀ v d, (v, d) ∈ e.2 ↔ declared_edge evs e.1 v = some d := by
  have hi1 := join_inv hi hj
  refine ⟨by rw [hi1.topo_keys, (join_topo_spec hj).2.1], ?_⟩
  intro e he
  obtain ⟨t, m⟩ := e
  have hs := hi1.topo_vals _ he
  refine ⟨hs, fun v d => ?_⟩
  have hf : map_find g1._topo t = some m :=
    (map_mem_iff_find _ _ _ (inv_topo_sorted hi1)).1 he
  rw [map_mem_iff_find _ _ _ hs, join_declared hi hr hj t m hf v]

/-! ## The kernel-meta record -/

theorem terminated_append (a b : List (List Char)) :
    terminated (a ++ b) = terminated a ++ terminated b := by
  simp [terminated]

theorem terminated_cons (f : List Char) (fs : List (List Char)) :
    terminated (f :: fs) = f ++ delimiter ++ terminated fs := by
  simp [terminated]

theorem terminated_nil : terminated [] = [] := rfl

theorem dump_list_eq (v : List Nat) (out : List Char) :
    dump_list v out = out ++ terminated (v.map to_string) := by
  induction v generalizing out with
  | nil => simp [dump_list, terminated]
  | cons x xs ih =>
    have := ih (out ++ to_string x ++ delimiter)
    simp only [dump_list, List.foldl_cons] at this ⊢
    rw [this, List.map_cons, terminated_cons]
    simp only [List.append_assoc]

theorem dump_pairs_eq (v : List (Nat × Nat)) (out : List Char) :
    dump_pairs v out
      = out ++ terminated (v.flatMap (fun p => [to_string p.1, to_string p.2])) := by
  induction v generalizing out with
  | nil => simp [dump_pairs, terminated]
  | cons x xs ih =>
    have := ih (out ++ to_string x.1 ++ delimiter ++ to_string x.2 ++ delimiter)
    simp only [dump_pairs, List.foldl_cons] at this ⊢
    rw [this, List.flatMap_cons, terminated_append, terminated_cons, terminated_cons,
      terminated_nil]
    simp only [List.append_assoc, List.append_nil]

theorem dump_indexed_eq (v : List Nat) (k i : Nat) (out : List Char) (h : i + k ≤ v.length) :
    dump_indexed v k i out
      = some (out ++ terminated (((v.drop i).take k).map to_string)) := by
  induction k generalizing i out with
  | zero => simp [dump_indexed, terminated]
  | succ k ih =>
    have hi : i < v.length := by omega
    simp only [dump_indexed, List.getElem?_eq_getElem hi]
    rw [ih (i + 1) _ (by omega)]
    have hd : v.drop i = v[i] :: v.drop (i + 1) := by
      rw [List.drop_eq_getElem_cons hi]
    rw [hd, List.take_succ_cons, List.map_cons, terminated_cons]
    simp only [List.append_assoc]

theorem join_fields_concat (fs : List (List Char)) (last : List Char) :
    join_fields (fs ++ [last]) = terminated fs ++ last := by
  induction fs with
  | nil => rfl
  | cons f fs ih =>
    cases fs with
    | nil => simp [join_fields, terminated]
    | cons g gs =>
      rw [terminated_cons, List.append_assoc, ← ih]
      simp [join_fields]

/-- The source lambda writes the fields in the order of the specification. -/
theorem dump_function_metas_eq (h : POSHandle_CUDA_Function)
    (ho : h.nb_params ≤ h.param_offsets.length) (hs : h.nb_params ≤ h.param_sizes.length) :
    dump_function_metas h = some (join_fields (record_fields h)) := by
  unfold dump_function_metas
  simp only [dump_indexed_eq _ _ 0 _ (by omega : 0 + h.nb_params ≤ h.param_offsets.length),
    dump_indexed_eq _ _ 0 _ (by omega : 0 + h.nb_params ≤ h.param_sizes.length),
    dump_list_eq, dump_pairs_eq, List.drop_zero]
  unfold record_fields
  rw [join_fields_concat]
  congr 1
  cases h.has_verified_params <;>
    simp [terminated, counted, delimiter, List.append_assoc]

theorem record_fields_eq (h : POSHandle_CUDA_Function) :
    record_fields h = record_front h ++ [to_string h.cbank_param_size] := rfl

theorem digitChar_mem (d : Nat) (hd : d < 10) : Nat.digitChar d ∈ decimal_digits := by
  interval_cases d <;> decide

theorem to_string_chars (n : Nat) (c : Char) (h : c ∈ to_string n) : c ∈ decimal_digits := by
  unfold to_string at h
  split_ifs at h with hn
  · simp only [List.mem_singleton] at h
    subst h
    decide
  · simp only [List.mem_map, List.mem_reverse] at h
    obtain ⟨d, hd, rfl⟩ := h
    exact digitChar_mem d (Nat.digits_lt_base (by omega) hd)

/-- Every field of the record other than name and signature consists of decimal digits. -/
theorem record_front_mem (h : POSHandle_CUDA_Function) (f : List Char)
    (hf : f ∈ record_front h) :
    f = h.name ∨ f = h.signature ∨ ∀ c ∈ f, c ∈ decimal_digits := by
  have hts : ∀ n, ∀ c ∈ to_string n, c ∈ decimal_digits := to_string_chars
  have hmap : ∀ l : List Nat, ∀ f ∈ l.map to_string, ∀ c ∈ f, c ∈ decimal_digits := by
    intro l f hf
    obtain ⟨n, -, rfl⟩ := List.mem_map.1 hf
    exact hts n
  have hcounted : ∀ l : List Nat, ∀ f ∈ counted l, ∀ c ∈ f, c ∈ decimal_digits := by
    intro l f hf
    simp only [counted, List.mem_cons] at hf
    rcases hf with rfl | hf
    · exact hts _
    · exact hmap l f hf
  simp only [record_front, List.mem_append, List.mem_cons, List.not_mem_nil, or_false] at hf
  rcases hf with (((((((rfl | rfl | rfl) | hf) | hf) | hf) | hf) | hf) | hf) | hf
  · exact Or.inl rfl
  · exact Or.inr (Or.inl rfl)
  · exact Or.inr (Or.inr (hts _))
  · exact Or.inr (Or.inr (hmap _ f hf))
  · exact Or.inr (Or.inr (hmap _ f hf))
  · exact Or.inr (Or.inr (hcounted _ f hf))
  · exact Or.inr (Or.inr (hcounted _ f hf))
  · exact Or.inr (Or.inr (hcounted _ f hf))
  · exact Or.inr (Or.inr (hcounted _ f hf))
  · right; right
    split_ifs at hf with hv
    · simp only [List.mem_append, List.mem_cons, List.not_mem_nil, or_false,
        List.mem_flatMap] at hf
      rcases hf with (rfl | rfl) | ⟨p, -, rfl | rfl⟩
      · intro c hc
        simp only [List.mem_singleton] at hc
        subst hc
        decide
      · exact hts _
      · exact hts _
      · exact hts _
    · simp only [List.mem_singleton] at hf
      subst hf
      intro c hc
      simp only [List.mem_singleton] at hc
      subst hc
      decide

theorem digitChar_inj (a b : Nat) (ha : a < 10) (hb : b < 10)
    (h : Nat.digitChar a = Nat.digitChar b) : a = b := by
  interval_cases a <;> interval_cases b <;> first | rfl | (exfalso; revert h; decide)

theorem map_digitChar_inj (l1 l2 : List Nat) (h1 : ∀ d ∈ l1, d < 10) (h2 : ∀ d ∈ l2, d < 10)
    (h : l1.map Nat.digitChar = l2.map Nat.digitChar) : l1 = l2 := by
  induction l1 generalizing l2 with
  | nil =>
    cases l2 with
    | nil => rfl
    | cons b l2 => simp at h
  | cons a l1 ih =>
    cases l2 with
    | nil => simp at h
    | cons b l2 =>
      simp only [List.map_cons, List.cons.injEq] at h
      have hab := digitChar_inj a b (h1 a (List.mem_cons_self _ _)) (h2 b (List.mem_cons_self _ _)) h.1
      have := ih l2 (fun d hd => h1 d (List.mem_cons_of_mem _ hd))
        (fun d hd => h2 d (List.mem_cons_of_mem _ hd)) h.2
      rw [hab, this]

theorem to_string_ne_zero_digits (m : Nat) (hm : m ≠ 0) : to_string m ≠ ['0'] := by
  intro h
  unfold to_string at h
  rw [if_neg hm] at h
  have hlt : ∀ d ∈ (Nat.digits 10 m).reverse, d < 10 := fun d hd =>
    Nat.digits_lt_base (by omega) (List.mem_reverse.1 hd)
  have h0 : (Nat.digits 10 m).reverse = [0] :=
    map_digitChar_inj _ [0] hlt (by simp) (by rw [h]; rfl)
  have h1 : Nat.digits 10 m = [0] := by
    have := congrArg List.reverse h0
    simpa using this
  have h2 := Nat.getLast_digit_ne_zero 10 hm
  simp only [h1, List.getLast_singleton, ne_eq, not_true_eq_false] at h2

theorem to_string_inj (n m : Nat) (h : to_string n = to_string m) : n = m := by
  by_cases hn : n = 0
  · by_cases hm : m = 0
    · rw [hn, hm]
    · exfalso
      apply to_string_ne_zero_digits m hm
      rw [← h, hn]
      rfl
  · by_cases hm : m = 0
    · exfalso
      apply to_string_ne_zero_digits n hn
      rw [h, hm]
      rfl
    · unfold to_string at h
      rw [if_neg hn, if_neg hm] at h
      have hl := map_digitChar_inj _ _
        (fun d hd => Nat.digits_lt_base (by omega) (List.mem_reverse.1 hd))
        (fun d hd => Nat.digits_lt_base (by omega) (List.mem_reverse.1 hd)) h
      exact Nat.digits_inj_iff.1 (List.reverse_inj.1 hl)

theorem map_to_string_inj (l1 l2 : List Nat) (h : l1.map to_string = l2.map to_string) :
    l1 = l2 := by
  induction l1 generalizing l2 with
  | nil =>
    cases l2 with
    | nil => rfl
    | cons b l2 => simp at h
  | cons a l1 ih =>
    cases l2 with
    | nil => simp at h
    | cons b l2 =>
      simp only [List.map_cons, List.cons.injEq] at h
      rw [to_string_inj a b h.1, ih l2 h.2]

theorem delimiter_not_digit (n : Nat) : '|' ∉ to_string n := by
  intro h
  have := to_string_chars n _ h
  revert this
  decide

theorem split_at_delimiter (a b x y : List Char) (ha : '|' ∉ a) (hb : '|' ∉ b)
    (h : a ++ delimiter ++ x = b ++ delimiter ++ y) : a = b ∧ x = y := by
  induction a generalizing b with
  | nil =>
    cases b with
    | nil => exact ⟨rfl, by simpa [delimiter] using h⟩
    | cons c b =>
      simp only [delimiter, List.nil_append, List.cons_append, List.cons.injEq] at h
      exact absurd (by rw [← h.1]; exact List.mem_cons_self _ _) hb
  | cons c a ih =>
    cases b with
    | nil =>
      simp only [delimiter, List.nil_append, List.cons_append, List.cons.injEq] at h
      exact absurd (by rw [h.1]; exact List.mem_cons_self _ _) ha
    | cons c2 b =>
      simp only [List.cons_append, List.cons.injEq] at h
      obtain ⟨e1, e2⟩ := ih b (fun hc => ha (List.mem_cons_of_mem _ hc))
        (fun hc => hb (List.mem_cons_of_mem _ hc)) h.2
      exact ⟨by rw [h.1, e1], e2⟩

/-- Fields without `|`, each followed by `|`, and a last field can be read back. -/
theorem terminated_inj (fs gs : List (List Char)) (l1 l2 : List Char)
    (hf : ∀ f ∈ fs, '|' ∉ f) (hg : ∀ g ∈ gs, '|' ∉ g) (h1 : '|' ∉ l1) (h2 : '|' ∉ l2)
    (h : terminated fs ++ l1 = terminated gs ++ l2) : fs = gs ∧ l1 = l2 := by
  induction fs generalizing gs with
  | nil =>
    cases gs with
    | nil => exact ⟨rfl, by simpa [terminated] using h⟩
    | cons g gs =>
      exfalso
      apply h1
      rw [terminated_nil, List.nil_append] at h
      rw [h, terminated_cons]
      simp [delimiter]
  | cons f fs ih =>
    cases gs with
    | nil =>
      exfalso
      apply h2
      rw [terminated_nil, List.nil_append] at h
      rw [← h, terminated_cons]
      simp [delimiter]
    | cons g gs =>
      rw [terminated_cons, terminated_cons] at h
      have h' : f ++ delimiter ++ (terminated fs ++ l1) = g ++ delimiter ++ (terminated gs ++ l2) := by
        simpa only [List.append_assoc] using h
      obtain ⟨e1, e2⟩ := split_at_delimiter f g _ _ (hf f (List.mem_cons_self _ _))
        (hg g (List.mem_cons_self _ _)) h'
      obtain ⟨e3, e4⟩ := ih gs (fun x hx => hf x (List.mem_cons_of_mem _ hx))
        (fun x hx => hg x (List.mem_cons_of_mem _ hx)) e2
      exact ⟨by rw [e1, e3], e4⟩

theorem counted_append_inj (l1 l2 : List Nat) (r1 r2 : List (List Char))
    (h : counted l1 ++ r1 = counted l2 ++ r2) : l1 = l2 ∧ r1 = r2 := by
  simp only [counted, List.cons_append, List.cons.injEq] at h
  have hlen := to_string_inj _ _ h.1
  obtain ⟨e1, e2⟩ := List.append_inj h.2 (by simp [hlen])
  exact ⟨map_to_string_inj _ _ e1, e2⟩

theorem pairs_fields_inj (l1 l2 : List (Nat × Nat))
    (h : l1.flatMap (fun p => [to_string p.1, to_string p.2])
      = l2.flatMap (fun p => [to_string p.1, to_string p.2])) : l1 = l2 := by
  induction l1 generalizing l2 with
  | nil =>
    cases l2 with
    | nil => rfl
    | cons b l2 => simp at h
  | cons a l1 ih =>
    cases l2 with
    | nil => simp at h
    | cons b l2 =>
      simp only [List.flatMap_cons, List.cons_append, List.nil_append, List.cons.injEq] at h
      have e1 := to_string_inj _ _ h.1
      have e2 := to_string_inj _ _ h.2.1
      rw [Prod.ext e1 e2, ih l2 h.2.2]

theorem record_front_no_delimiter (h : POSHandle_CUDA_Function) (w : RecordReadable h) :
    ∀ f ∈ record_front h, '|' ∉ f := by
  intro f hf hc
  rcases record_front_mem h f hf with rfl | rfl | hall
  · exact w.name_ok hc
  · exact w.signature_ok hc
  · have := hall _ hc
    revert this
    decide

/-- The field list of a readable handle determines the handle's members. -/
theorem record_front_inj (h1 h2 : POSHandle_CUDA_Function) (w1 : RecordReadable h1)
    (w2 : RecordReadable h2) (h : record_front h1 = record_front h2) :
    h1.name = h2.name ∧ h1.signature = h2.signature ∧ h1.nb_params = h2.nb_params ∧
    h1.param_offsets = h2.param_offsets ∧ h1.param_sizes = h2.param_sizes ∧
    h1.input_pointer_params = h2.input_pointer_params ∧
    h1.output_pointer_params = h2.output_pointer_params ∧
    h1.inout_pointer_params = h2.inout_pointer_params ∧
    h1.suspicious_params = h2.suspicious_params ∧
    h1.has_verified_params = h2.has_verified_params ∧
    (h1.has_verified_params = true →
      h1.confirmed_suspicious_params = h2.confirmed_suspicious_params) := by
  unfold record_front at h
  rw [List.take_of_length_le (le_of_eq w1.offsets_ok),
    List.take_of_length_le (le_of_eq w1.sizes_ok),
    List.take_of_length_le (le_of_eq w2.offsets_ok),
    List.take_of_length_le (le_of_eq w2.sizes_ok)] at h
  simp only [List.append_assoc, List.cons_append, List.nil_append, List.cons.injEq] at h
  obtain ⟨hn, hs, hnb, hrest⟩ := h
  have enb := to_string_inj _ _ hnb
  obtain ⟨eA, hrest⟩ := List.append_inj hrest (by
    rw [List.length_map, List.length_map, w1.offsets_ok, w2.offsets_ok, enb])
  obtain ⟨eB, hrest⟩ := List.append_inj hrest (by
    rw [List.length_map, List.length_map, w1.sizes_ok, w2.sizes_ok, enb])
  obtain ⟨e1, hrest⟩ := counted_append_inj _ _ _ _ hrest
  obtain ⟨e2, hrest⟩ := counted_append_inj _ _ _ _ hrest
  obtain ⟨e3, hrest⟩ := counted_append_inj _ _ _ _ hrest
  obtain ⟨e4, hrest⟩ := counted_append_inj _ _ _ _ hrest
  refine ⟨hn, hs, enb, map_to_string_inj _ _ eA, map_to_string_inj _ _ eB, e1, e2, e3, e4, ?_⟩
  cases hv1 : h1.has_verified_params <;> cases hv2 : h2.has_verified_params
  · exact ⟨rfl, fun hc => by cases hc⟩
  · exfalso
    rw [hv1, hv2] at hrest
    simp at hrest
  · exfalso
    rw [hv1, hv2] at hrest
    simp at hrest
  · refine ⟨rfl, fun _ => ?_⟩
    rw [hv1, hv2] at hrest
    simp only [if_true, List.cons_append, List.nil_append, List.cons.injEq, true_and] at hrest
    exact pairs_fields_inj _ _ hrest.2

/-- Two readable handles with the same record have the same members, the confirmed pairs
included when the verified flag is set. -/
theorem record_inj (h1 h2 : POSHandle_CUDA_Function) (r : List Char)
    (w1 : RecordReadable h1) (w2 : RecordReadable h2)
    (d1 : dump_function_metas h1 = some r) (d2 : dump_function_metas h2 = some r) :
    record_front h1 = record_front h2 ∧ h1.cbank_param_size = h2.cbank_param_size := by
  rw [dump_function_metas_eq h1 (le_of_eq w1.offsets_ok.symm) (le_of_eq w1.sizes_ok.symm)] at d1
  rw [dump_function_metas_eq h2 (le_of_eq w2.offsets_ok.symm) (le_of_eq w2.sizes_ok.symm)] at d2
  have h : join_fields (record_fields h1) = join_fields (record_fields h2) := by
    rw [Option.some.inj d1, Option.some.inj d2]
  rw [record_fields_eq, record_fields_eq, join_fields_concat, join_fields_concat] at h
  obtain ⟨e1, e2⟩ := terminated_inj _ _ _ _ (record_front_no_delimiter h1 w1)
    (record_front_no_delimiter h2 w2) (delimiter_not_digit _) (delimiter_not_digit _) h
  exact ⟨e1, to_string_inj _ _ e2⟩

/-! ## The checkpoint procedures -/

/-- A handle with its checkpoint bag emptied: what `checkpoint` leaves untouched. -/
theorem set_ckpt_bag_frame (hs : List POSHandle) (p : Nat) (h : POSHandle) (b : POSCheckpointBag)
    (hp : hs[p]? = some h) :
    (hs.set p { h with ckpt_bag := b }).map POSHandle.without_ckpt_bag
      = hs.map POSHandle.without_ckpt_bag := by
  induction hs generalizing p with
  | nil => simp
  | cons a l ih =>
    cases p with
    | zero =>
      simp only [List.getElem?_cons_zero, Option.some.injEq] at hp
      subst hp
      simp [POSHandle.without_ckpt_bag]
    | succ n =>
      simp only [List.getElem?_cons_succ] at hp
      simp only [List.set_cons_succ, List.map_cons, ih n hp]

theorem state_size_of_frame (hs hs' : List POSHandle)
    (h : hs'.map POSHandle.without_ckpt_bag
      = hs.map POSHandle.without_ckpt_bag) (p : Nat) :
    state_size_of hs' p = state_size_of hs p := by
  have h1 := congrArg (fun l => l[p]?) h
  simp only [List.getElem?_map] at h1
  unfold state_size_of
  cases e' : hs'[p]? with
  | none =>
    cases e : hs[p]? with
    | none => rfl
    | some a => rw [e', e] at h1; simp at h1
  | some a' =>
    cases e : hs[p]? with
    | none => rw [e', e] at h1; simp at h1
    | some a =>
      rw [e', e] at h1
      simp only [Option.map_some', Option.some.injEq] at h1
      have h2 := congrArg POSHandle.state_size h1
      exact h2

/-- What the loop shared by the checkpoint procedures leaves behind. -/
theorem checkpoint_handles_spec (ck : checkpoint_t) (st : Nat) (ps : List Nat) :
    ∀ (s : WorkerState) (r : pos_retval_t) (s' : WorkerState),
    checkpoint_handles ck st ps s = some (r, s') →
    s.wqe.nb_ckpt_handles < UINT64_RANGE → s.wqe.ckpt_size < UINT64_RANGE →
    s'.handles.map POSHandle.without_ckpt_bag
      = s.handles.map POSHandle.without_ckpt_bag ∧
    s'.wqe.dag_vertex_id = s.wqe.dag_vertex_id ∧
    s'.wqe.handle_view_map = s.wqe.handle_view_map ∧
    s'.wqe.ckpt_memory_consumption = s.wqe.ckpt_memory_consumption ∧
    s'.wqe.nb_ckpt_handles < UINT64_RANGE ∧ s'.wqe.ckpt_size < UINT64_RANGE ∧
    (r = .POS_SUCCESS ∨ r = .POS_FAILED) ∧
    (∃ k, k ≤ ps.length ∧
      s'.calls = s.calls ++ (ps.take k).map (fun p => ⟨p, s.wqe.dag_vertex_id, st⟩)) ∧
    (r = .POS_SUCCESS →
      s'.wqe.nb_ckpt_handles = (s.wqe.nb_ckpt_handles + ps.length) % UINT64_RANGE ∧
      s'.wqe.ckpt_size
        = (s.wqe.ckpt_size + (ps.map (state_size_of s.handles)).sum) % UINT64_RANGE ∧
      s'.calls = s.calls ++ ps.map (fun p => ⟨p, s.wqe.dag_vertex_id, st⟩)) := by
  induction ps with
  | nil =>
    intro s r s' h hnb hsz
    simp only [checkpoint_handles, Option.some.injEq, Prod.mk.injEq] at h
    obtain ⟨rfl, rfl⟩ := h
    refine ⟨rfl, rfl, rfl, rfl, hnb, hsz, Or.inl rfl, ⟨0, le_refl _, by simp⟩, fun _ => ?_⟩
    simp only [List.length_nil, Nat.add_zero, List.map_nil, List.sum_nil, List.append_nil,
      and_true]
    exact ⟨(Nat.mod_eq_of_lt hnb).symm, (Nat.mod_eq_of_lt hsz).symm⟩
  | cons p rest ih =>
    intro s r s' h hnb hsz
    simp only [checkpoint_handles] at h
    cases e : s.handles[p]? with
    | none => rw [e] at h; cases h
    | some handle =>
      rw [e] at h
      simp only at h
      have hR : 0 < UINT64_RANGE := by unfold UINT64_RANGE; omega
      have hfr := set_ckpt_bag_frame s.handles p handle
        (ck s.calls handle s.wqe.dag_vertex_id st).2 e
      have hsp : state_size_of s.handles p = handle.state_size := by
        unfold state_size_of; rw [e]
      by_cases hc : (ck s.calls handle s.wqe.dag_vertex_id st).1 = .POS_SUCCESS
      · rw [if_neg (not_not.mpr hc)] at h
        obtain ⟨i1, i2, i3, i4, i5, i6, i7, ⟨k, hk, i8⟩, i9⟩ :=
          ih _ r s' h (Nat.mod_lt _ hR) (Nat.mod_lt _ hR)
        simp only at i1 i2 i3 i4 i8 i9
        refine ⟨i1.trans hfr, i2, i3, i4, i5, i6, i7, ⟨k + 1, ?_, ?_⟩, fun hr => ?_⟩
        · simp only [List.length_cons]; omega
        · rw [i8]; simp
        · obtain ⟨j1, j2, j3⟩ := i9 hr
          have hss : rest.map (state_size_of (s.handles.set p
              { handle with ckpt_bag := (ck s.calls handle s.wqe.dag_vertex_id st).2 }))
              = rest.map (state_size_of s.handles) :=
            List.map_congr_left (fun q _ => state_size_of_frame _ _ hfr q)
          rw [hss] at j2
          refine ⟨?_, ?_, ?_⟩
          · rw [j1]; simp only [List.length_cons]; unfold UINT64_RANGE; omega
          · rw [j2]; simp only [List.map_cons, List.sum_cons, hsp]; unfold UINT64_RANGE; omega
          · rw [j3]; simp
      · rw [if_pos hc] at h
        simp only [Option.some.injEq, Prod.mk.injEq] at h
        obtain ⟨rfl, rfl⟩ := h
        refine ⟨hfr, rfl, rfl, rfl, hnb, hsz, Or.inr rfl, ⟨1, ?_, ?_⟩, fun hr => ?_⟩
        · simp
        · simp
        · cases hr

theorem collect_manager_statistics_spec (hs : List POSHandle) (ps : List Nat) :
    ∀ (total total' : Nat), collect_manager_statistics hs ps total = some total' →
    total < UINT64_RANGE →
    total' < UINT64_RANGE ∧
    total' = (total + (ps.map (fun p => match hs[p]? with
      | some handle => handle.ckpt_bag.get_memory_consumption
      | none => 0)).sum) % UINT64_RANGE := by
  induction ps with
  | nil =>
    intro total total' h hb
    simp only [collect_manager_statistics, Option.some.injEq] at h
    subst h
    simp only [List.map_nil, List.sum_nil, Nat.add_zero]
    exact ⟨hb, (Nat.mod_eq_of_lt hb).symm⟩
  | cons p rest ih =>
    intro total total' h hb
    simp only [collect_manager_statistics] at h
    cases e : hs[p]? with
    | none => rw [e] at h; cases h
    | some handle =>
      rw [e] at h
      simp only at h
      have hR : 0 < UINT64_RANGE := by unfold UINT64_RANGE; omega
      obtain ⟨i1, i2⟩ := ih _ _ h (Nat.mod_lt _ hR)
      refine ⟨i1, ?_⟩
      rw [i2]
      simp only [List.map_cons, List.sum_cons, e]
      unfold UINT64_RANGE
      omega

/-- The statistics after the label `exit` change `ckpt_memory_consumption` only. -/
theorem collect_statistics_spec (hm : POSHandleManagers) (idx : List pos_resource_typeid_t) :
    ∀ (s s2 : WorkerState), collect_statistics hm idx s = some s2 →
    s.wqe.ckpt_memory_consumption < UINT64_RANGE →
    s2.handles = s.handles ∧ s2.calls = s.calls ∧
    s2.wqe.dag_vertex_id = s.wqe.dag_vertex_id ∧
    s2.wqe.handle_view_map = s.wqe.handle_view_map ∧
    s2.wqe.nb_ckpt_handles = s.wqe.nb_ckpt_handles ∧
    s2.wqe.ckpt_size = s.wqe.ckpt_size ∧
    s2.wqe.ckpt_memory_consumption
      = (s.wqe.ckpt_memory_consumption + stateful_memory_consumption hm idx s.handles)
          % UINT64_RANGE := by
  induction idx with
  | nil =>
    intro s s2 h hb
    simp only [collect_statistics, Option.some.injEq] at h
    subst h
    refine ⟨rfl, rfl, rfl, rfl, rfl, rfl, ?_⟩
    simp only [stateful_memory_consumption, List.flatMap_nil, List.map_nil, List.sum_nil,
      Nat.add_zero]
    exact (Nat.mod_eq_of_lt hb).symm
  | cons t rest ih =>
    intro s s2 h hb
    simp only [collect_statistics] at h
    cases e : hm t with
    | none => rw [e] at h; cases h
    | some m =>
      rw [e] at h
      simp only at h
      cases e2 : collect_manager_statistics s.handles m.handles s.wqe.ckpt_memory_consumption with
      | none => rw [e2] at h; cases h
      | some total =>
        rw [e2] at h
        simp only at h
        obtain ⟨b1, b2⟩ := collect_manager_statistics_spec _ _ _ _ e2 hb
        obtain ⟨i1, i2, i3, i4, i5, i6, i7⟩ := ih _ _ h b1
        simp only at i1 i2 i3 i4 i5 i6 i7
        refine ⟨i1, i2, i3, i4, i5, i6, ?_⟩
        rw [i7, b2]
        simp only [stateful_memory_consumption, List.flatMap_cons, e, List.map_append,
          List.sum_append]
        unfold UINT64_RANGE
        omega

/-- What the first loop of `__checkpoint_o1` leaves behind. -/
theorem checkpoint_o1_loop_spec (ck : checkpoint_t) (hm : POSHandleManagers)
    (idx : List pos_resource_typeid_t) :
    ∀ (s : WorkerState) (r : pos_retval_t) (s' : WorkerState),
    __checkpoint_o1_loop ck hm idx s = some (r, s') →
    s.wqe.nb_ckpt_handles < UINT64_RANGE → s.wqe.ckpt_size < UINT64_RANGE →
    s'.handles.map POSHandle.without_ckpt_bag
      = s.handles.map POSHandle.without_ckpt_bag ∧
    s'.wqe.dag_vertex_id = s.wqe.dag_vertex_id ∧
    s'.wqe.handle_view_map = s.wqe.handle_view_map ∧
    s'.wqe.ckpt_memory_consumption = s.wqe.ckpt_memory_consumption ∧
    s'.wqe.nb_ckpt_handles < UINT64_RANGE ∧ s'.wqe.ckpt_size < UINT64_RANGE ∧
    (r = .POS_SUCCESS ∨ r = .POS_FAILED) ∧
    (∃ l, s'.calls = s.calls ++ l ∧
      ∀ c ∈ l, c.version_id = s.wqe.dag_vertex_id ∧ c.stream_id = 0) ∧
    (r = .POS_SUCCESS →
      s'.wqe.nb_ckpt_handles
        = (s.wqe.nb_ckpt_handles + (stateful_views idx s.wqe).length) % UINT64_RANGE ∧
      s'.wqe.ckpt_size
        = (s.wqe.ckpt_size
            + ((stateful_views idx s.wqe).map (fun v => state_size_of s.handles v.handle)).sum)
          % UINT64_RANGE ∧
      s'.calls = s.calls
        ++ (stateful_views idx s.wqe).map (fun v => ⟨v.handle, s.wqe.dag_vertex_id, 0⟩)) := by
  induction idx with
  | nil =>
    intro s r s' h hnb hsz
    simp only [__checkpoint_o1_loop, Option.some.injEq, Prod.mk.injEq] at h
    obtain ⟨rfl, rfl⟩ := h
    refine ⟨rfl, rfl, rfl, rfl, hnb, hsz, Or.inl rfl, ⟨[], by simp, by simp⟩, fun _ => ?_⟩
    simp only [stateful_views, List.flatMap_nil, List.length_nil, Nat.add_zero, List.map_nil,
      List.sum_nil, List.append_nil, and_true]
    exact ⟨(Nat.mod_eq_of_lt hnb).symm, (Nat.mod_eq_of_lt hsz).symm⟩
  | cons t rest ih =>
    intro s r s' h hnb hsz
    simp only [__checkpoint_o1_loop] at h
    cases e : hm t with
    | none => rw [e] at h; cases h
    | some m =>
      rw [e] at h
      simp only at h
      cases e2 : s.wqe.handle_view_map t with
      | none =>
        rw [e2] at h
        simp only at h
        have hv : stateful_views (t :: rest) s.wqe = stateful_views rest s.wqe := by
          simp [stateful_views, e2]
        rw [hv]
        exact ih s r s' h hnb hsz
      | some views =>
        rw [e2] at h
        simp only at h
        have hv : stateful_views (t :: rest) s.wqe = views ++ stateful_views rest s.wqe := by
          simp [stateful_views, e2]
        rw [hv]
        cases e3 : checkpoint_handles ck 0 (views.map (fun v => v.handle)) s with
        | none => rw [e3] at h; cases h
        | some x =>
          obtain ⟨r1, s1⟩ := x
          rw [e3] at h
          obtain ⟨a1, a2, a3, a4, a5, a6, a7, ⟨k, -, a8⟩, a9⟩ :=
            checkpoint_handles_spec ck 0 _ s r1 s1 e3 hnb hsz
          rcases a7 with rfl | rfl
          · simp only at h
            obtain ⟨i1, i2, i3, i4, i5, i6, i7, ⟨l, i8, i8'⟩, i9⟩ := ih s1 r s' h a5 a6
            obtain ⟨c1, c2, c3⟩ := a9 rfl
            have hw : stateful_views rest s1.wqe = stateful_views rest s.wqe := by
              simp only [stateful_views, a3]
            rw [hw] at i9
            refine ⟨i1.trans a1, i2.trans a2, i3.trans a3, i4.trans a4, i5, i6, i7,
              ⟨(views.map (fun v => v.handle)).map
                  (fun p => (⟨p, s.wqe.dag_vertex_id, 0⟩ : CheckpointCall)) ++ l, ?_, ?_⟩,
              fun hr => ?_⟩
            · rw [i8, c3, List.append_assoc]
            · intro c hc
              rcases List.mem_append.mp hc with hc | hc
              · simp only [List.map_map, List.mem_map, Function.comp] at hc
                obtain ⟨v, -, rfl⟩ := hc
                exact ⟨rfl, rfl⟩
              · rw [← a2]; exact i8' c hc
            · obtain ⟨j1, j2, j3⟩ := i9 hr
              have hss : (stateful_views rest s.wqe).map
                    (fun v => state_size_of s1.handles v.handle)
                  = (stateful_views rest s.wqe).map
                    (fun v => state_size_of s.handles v.handle) :=
                List.map_congr_left (fun v _ => state_size_of_frame _ _ a1 v.handle)
              rw [hss] at j2
              refine ⟨?_, ?_, ?_⟩
              · rw [j1, c1]
                simp only [List.length_append, List.length_map]
                unfold UINT64_RANGE
                omega
              · have c2' : s1.wqe.ckpt_size = (s.wqe.ckpt_size
                    + (views.map (fun v => state_size_of s.handles v.handle)).sum)
                    % UINT64_RANGE := by
                  rw [c2, List.map_map]; rfl
                rw [j2, c2']
                simp only [List.map_append, List.sum_append]
                unfold UINT64_RANGE
                omega
              · rw [j3, c3, a2]
                simp only [List.map_append, List.map_map, List.append_assoc]
                rfl
          · simp only [Option.some.injEq, Prod.mk.injEq] at h
            obtain ⟨rfl, rfl⟩ := h
            refine ⟨a1, a2, a3, a4, a5, a6, Or.inr rfl, ⟨_, a8, ?_⟩, fun hr => ?_⟩
            · intro c hc
              simp only [List.mem_map] at hc
              obtain ⟨v, -, rfl⟩ := hc
              exact ⟨rfl, rfl⟩
            · cases hr

/-! ## The overlap checkpoint scheme -/

theorem stateful_views_cons_none (t : pos_resource_typeid_t) (rest : List pos_resource_typeid_t)
    (wqe : POSAPIContext_QE) (e : wqe.handle_view_map t = none) :
    stateful_views (t :: rest) wqe = stateful_views rest wqe := by
  simp [stateful_views, e]

theorem stateful_views_cons_some (t : pos_resource_typeid_t) (rest : List pos_resource_typeid_t)
    (wqe : POSAPIContext_QE) (views : List POSHandleView_t)
    (e : wqe.handle_view_map t = some views) :
    stateful_views (t :: rest) wqe = views ++ stateful_views rest wqe := by
  simp [stateful_views, e]

/-- The first loop of `generate_overlap_ckpt_scheme` collects the handles of the stateful
views when none of their pointers is null. -/
theorem extract_modified_handles_eq (handles : List POSHandle) (wqe : POSAPIContext_QE)
    (idx : List pos_resource_typeid_t) :
    ∀ (remain : List Nat), (∀ v ∈ stateful_views idx wqe, v.handle < handles.length) →
    extract_modified_handles handles wqe idx remain
      = some (remain ++ (stateful_views idx wqe).map (fun v => v.handle)) := by
  induction idx with
  | nil =>
    intro remain _
    simp [extract_modified_handles, stateful_views]
  | cons t rest ih =>
    intro remain hv
    simp only [extract_modified_handles]
    cases e : wqe.handle_view_map t with
    | none =>
      rw [stateful_views_cons_none t rest wqe e] at hv ⊢
      exact ih remain hv
    | some views =>
      rw [stateful_views_cons_some t rest wqe views e] at hv ⊢
      have hall : views.all (fun v => (handles[v.handle]?).isSome) = true := by
        rw [List.all_eq_true]
        intro v hvm
        have hlt := hv v (List.mem_append_left _ hvm)
        simp [List.getElem?_eq_getElem hlt]
      simp only [hall, if_true]
      rw [ih _ (fun v hvm => hv v (List.mem_append_right _ hvm))]
      simp

/-- The head of the filtered list is the first element that passes the filter. -/
theorem filter_head_find (p : Nat → Bool) (l : List Nat) :
    (l.filter p = [] ∧ l.find? p = none) ∨
    (∃ m t, l.filter p = m :: t ∧ l.find? p = some m ∧ m ∈ l) := by
  induction l with
  | nil => left; simp
  | cons a l ih =>
    by_cases ha : p a = true
    · right
      exact ⟨a, l.filter p, by simp [ha], by simp [ha], List.mem_cons_self _ _⟩
    · rcases ih with ⟨h1, h2⟩ | ⟨m, t, h1, h2, h3⟩
      · left
        simp [ha, h1, h2]
      · right
        exact ⟨m, t, by simp [ha, h1], by simp [ha, h2], List.mem_cons_of_mem _ h3⟩

/-- The deadline of the specification lies below the number of pending ops, and is `0` for a
handle that the op right after the checkpoint op modifies. -/
theorem relative_deadline_lt (modified : Nat → Nat → Bool) (handle_id c P : Nat) (hP : 1 ≤ P) :
    relative_deadline modified handle_id c P < P ∧
    (modified handle_id (c + 1) = true → relative_deadline modified handle_id c P = 0) := by
  unfold relative_deadline
  constructor
  · cases e : (List.range' (c + 1) P).find? (modified handle_id) with
    | none => simp only; omega
    | some m =>
      have hm := List.mem_of_find?_eq_some e
      rw [List.mem_range'_1] at hm
      simp only
      omega
  · intro h1
    obtain ⟨Q, rfl⟩ : ∃ Q, P = Q + 1 := ⟨P - 1, by omega⟩
    simp [List.range'_succ, h1]

/-- The deadline arithmetic on `uint64_t` for a handle that no pending op modifies. -/
theorem relative_deadline_position_none (c P : Nat) (hP : 1 ≤ P) (hb : c + P < UINT64_RANGE) :
    ((c + (P + UINT64_RANGE - 1) % UINT64_RANGE) % UINT64_RANGE + UINT64_RANGE - c)
      % UINT64_RANGE = P - 1 := by
  unfold UINT64_RANGE at hb ⊢
  omega

/-- The deadline arithmetic on `uint64_t` for a handle next modified by the op `m`. -/
theorem relative_deadline_position_some (c m : Nat) (hm : c < m) (hb : m < UINT64_RANGE) :
    ((m + UINT64_RANGE - 1) % UINT64_RANGE + UINT64_RANGE - c) % UINT64_RANGE = m - c - 1 := by
  unfold UINT64_RANGE at hb ⊢
  omega

/-- The second loop of `generate_overlap_ckpt_scheme` adds every handle with the deadline of the
specification, when the query yields the positions of the specification. -/
theorem distribute_handles_eq (query : get_handle_modified_position_t)
    (modified : Nat → Nat → Bool) (handles : List POSHandle) (c P : Nat)
    (hP : 1 ≤ P) (hb : c + P < UINT64_RANGE)
    (hq : ∀ id ps, (query id (c + 1) (c + P) ps).2
      = next_modified_positions modified id (c + 1) (c + P))
    (ps : List Nat) :
    ∀ (positions : List Nat) (calls : List SchemeCall), (∀ p ∈ ps, p < handles.length) →
    distribute_handles query handles c P ps .POS_SUCCESS positions calls
      = some (false, .POS_SUCCESS, calls ++ ps.map (fun p =>
          .add_new_handle_for_distribute
            (relative_deadline modified (dag_vertex_id_of handles p) c P) p)) := by
  induction ps with
  | nil =>
    intro positions calls _
    simp [distribute_handles]
  | cons p rest ih =>
    intro positions calls hv
    have hp : p < handles.length := hv p (List.mem_cons_self _ _)
    have hget : handles[p]? = some handles[p] := List.getElem?_eq_getElem hp
    have hdag : dag_vertex_id_of handles p = handles[p].dag_vertex_id := by
      unfold dag_vertex_id_of; rw [hget]
    have e1 : (c + 1) % UINT64_RANGE = c + 1 := Nat.mod_eq_of_lt (by omega)
    have e2 : (c + P) % UINT64_RANGE = c + P := Nat.mod_eq_of_lt hb
    have hspan : c + P + 1 - (c + 1) = P := by omega
    simp only [distribute_handles, hget, e1, e2, hq, ne_eq, not_true_eq_false, if_false]
    unfold next_modified_positions
    rw [hspan]
    have hrd : relative_deadline modified (dag_vertex_id_of handles p) c P
        = match (List.range' (c + 1) P).find? (modified handles[p].dag_vertex_id) with
          | some m => (m - c) - 1
          | none => P - 1 := by
      unfold relative_deadline; rw [hdag]
    rcases filter_head_find (modified handles[p].dag_vertex_id) (List.range' (c + 1) P) with
      ⟨h1, h2⟩ | ⟨m, t, h1, h2, h3⟩
    · rw [h2] at hrd
      simp only at hrd
      rw [h1]
      simp only
      rw [relative_deadline_position_none c P hP hb,
        ih _ _ (fun q hq' => hv q (List.mem_cons_of_mem _ hq'))]
      simp [hrd]
    · rw [h2] at hrd
      simp only at hrd
      rw [List.mem_range'_1] at h3
      rw [h1]
      have hgt : m > c := by omega
      simp only [hgt, if_true]
      rw [relative_deadline_position_some c m hgt (by omega),
        ih _ _ (fun q hq' => hv q (List.mem_cons_of_mem _ hq'))]
      simp [hrd]

/-! ## The migration procedures -/

theorem mem_set_insert (s : List Nat) (a q : Nat) : q ∈ set_insert s a ↔ q = a ∨ q ∈ s := by
  induction s with
  | nil => simp [set_insert]
  | cons b rest ih =>
    unfold set_insert
    by_cases h1 : a < b
    · simp [h1]
    · by_cases h2 : a = b
      · subst h2
        simp
      · simp only [h1, h2, if_false, List.mem_cons, ih]
        tauto

/-- The sets after the loop of `__TMP__migration_precopy`, which runs to the end of the modified
set when none of its pointers is null. -/
theorem precopy_loop_sets (is_host copy_ok sync_ok : Nat → Bool) (handles : List POSHandle)
    (ps : List Nat) :
    ∀ (st : MigrationCtx × PrecopyLocals), (∀ p ∈ ps, p < handles.length) →
    ∃ st', precopy_loop is_host copy_ok sync_ok handles ps st = some st' ∧
      (∀ q, q ∈ st'.1.precopy_handles ↔
        q ∈ st.1.precopy_handles ∨ (q ∈ ps ∧ copy_ok q = true ∧ sync_ok q = true)) ∧
      (∀ q, q ∈ st'.1.__TMP__host_handles ↔
        q ∈ st.1.__TMP__host_handles ∨ (q ∈ ps ∧ is_host q = true)) ∧
      st'.1.invalidated_handles = st.1.invalidated_handles ∧
      st'.2.copied = st.2.copied ++ ps := by
  induction ps with
  | nil =>
    intro st _
    exact ⟨st, by simp [precopy_loop]⟩
  | cons p rest ih =>
    intro st hv
    obtain ⟨ctx, loc⟩ := st
    have hp : p < handles.length := hv p (List.mem_cons_self _ _)
    have hget : handles[p]? = some handles[p] := List.getElem?_eq_getElem hp
    have hv' : ∀ q ∈ rest, q < handles.length := fun q hq => hv q (List.mem_cons_of_mem _ hq)
    simp only [precopy_loop, hget]
    cases hh : is_host p <;> cases hc : copy_ok p <;> cases hs : sync_ok p <;>
      simp only [Bool.false_eq_true, if_false, if_true, not_true_eq_false, not_false_eq_true] <;>
      (obtain ⟨st', e, i1, i2, i3, i4⟩ := ih _ hv'
       refine ⟨st', e, ?_, ?_, ?_, ?_⟩
       · intro q
         rw [i1]
         simp only [mem_set_insert, List.mem_cons]
         by_cases hq : q = p
         · subst hq; simp [hc, hs]
         · simp [hq]
       · intro q
         rw [i2]
         simp only [mem_set_insert, List.mem_cons]
         by_cases hq : q = p
         · subst hq; simp [hh]
         · simp [hq]
       · rw [i3]
       · rw [i4]; simp)

/-- The byte and handle counters after the loop of `__TMP__migration_precopy`. -/
theorem precopy_loop_counters (is_host copy_ok sync_ok : Nat → Bool) (handles : List POSHandle)
    (ps : List Nat) :
    ∀ (st st' : MigrationCtx × PrecopyLocals),
    precopy_loop is_host copy_ok sync_ok handles ps st = some st' →
    st.2.nb_precopy_handle < UINT64_RANGE → st.2.precopy_size < UINT64_RANGE →
    st.2.nb_host_handle < UINT64_RANGE → st.2.host_handle_size < UINT64_RANGE →
    st'.2.nb_precopy_handle
      = (st.2.nb_precopy_handle + (ps.filter (fun q => copy_ok q && sync_ok q)).length)
        % UINT64_RANGE ∧
    st'.2.precopy_size
      = (st.2.precopy_size
          + total_state_size handles (ps.filter (fun q => copy_ok q && sync_ok q)))
        % UINT64_RANGE ∧
    st'.2.nb_host_handle
      = (st.2.nb_host_handle + (ps.filter is_host).length) % UINT64_RANGE ∧
    st'.2.host_handle_size
      = (st.2.host_handle_size + total_state_size handles (ps.filter is_host))
        % UINT64_RANGE := by
  have hR : 0 < UINT64_RANGE := by unfold UINT64_RANGE; omega
  induction ps with
  | nil =>
    intro st st' h b1 b2 b3 b4
    simp only [precopy_loop, Option.some.injEq] at h
    subst h
    simp only [List.filter_nil, List.length_nil, total_state_size, List.map_nil, List.sum_nil,
      Nat.add_zero]
    exact ⟨(Nat.mod_eq_of_lt b1).symm, (Nat.mod_eq_of_lt b2).symm, (Nat.mod_eq_of_lt b3).symm,
      (Nat.mod_eq_of_lt b4).symm⟩
  | cons p rest ih =>
    intro st st' h b1 b2 b3 b4
    obtain ⟨ctx, loc⟩ := st
    simp only [precopy_loop] at h
    cases e : handles[p]? with
    | none => rw [e] at h; cases h
    | some memory_handle =>
      rw [e] at h
      have hsz : state_size_of handles p = memory_handle.state_size := by
        unfold state_size_of; rw [e]
      simp only at b1 b2 b3 b4
      cases hh : is_host p <;> cases hc : copy_ok p <;> cases hs : sync_ok p <;>
        simp only [hh, hc, hs, Bool.false_eq_true, if_false, if_true, not_true_eq_false,
          not_false_eq_true] at h <;>
        (obtain ⟨i1, i2, i3, i4⟩ := ih _ st' h (by first | exact b1 | exact Nat.mod_lt _ hR)
            (by first | exact b2 | exact Nat.mod_lt _ hR)
            (by first | exact b3 | exact Nat.mod_lt _ hR)
            (by first | exact b4 | exact Nat.mod_lt _ hR)
         simp only at i1 i2 i3 i4
         rw [i1, i2, i3, i4]
         simp only [List.filter_cons, hh, hc, hs, Bool.and_self, Bool.and_false, Bool.and_true,
           Bool.false_eq_true, if_false, if_true, total_state_size, List.map_cons, List.sum_cons,
           List.length_cons, hsz]
         refine ⟨?_, ?_, ?_, ?_⟩ <;>
           first
             | trivial
             | rfl
             | (rw [Nat.mod_add_mod]; congr 1; omega))

/-- The loop of `__TMP__migration_deltacopy` runs to the end of the set when no pointer of a
handle that is not host-stateful is null. -/
theorem deltacopy_loop_returns (is_host copy_ok sync_ok : Nat → Bool) (handles : List POSHandle)
    (ps : List Nat) :
    ∀ (loc : DeltacopyLocals), (∀ p ∈ ps, is_host p = false → p < handles.length) →
    ∃ loc', deltacopy_loop is_host copy_ok sync_ok handles ps loc = some loc' := by
  induction ps with
  | nil =>
    intro loc _
    exact ⟨loc, by simp [deltacopy_loop]⟩
  | cons p rest ih =>
    intro loc hv
    have hv' : ∀ q ∈ rest, is_host q = false → q < handles.length :=
      fun q hq => hv q (List.mem_cons_of_mem _ hq)
    cases hh : is_host p
    · have hp : p < handles.length := hv p (List.mem_cons_self _ _) hh
      have hget : handles[p]? = some handles[p] := List.getElem?_eq_getElem hp
      simp only [deltacopy_loop, hh, hget, Bool.false_eq_true, if_false]
      cases hc : copy_ok p <;> cases hs : sync_ok p <;>
        simp only [Bool.false_eq_true, if_false, if_true, not_true_eq_false,
          not_false_eq_true] <;>
        exact ih _ hv'
    · simp only [deltacopy_loop, hh, if_true]
      exact ih loc hv'

/-- The loop of `__TMP__migration_deltacopy` copies the handles that are not host-stateful and
counts those whose copy and synchronization succeed. -/
theorem deltacopy_loop_spec (is_host copy_ok sync_ok : Nat → Bool) (handles : List POSHandle)
    (ps : List Nat) :
    ∀ (loc loc' : DeltacopyLocals),
    deltacopy_loop is_host copy_ok sync_ok handles ps loc = some loc' →
    loc.nb_deltacopy_handle < UINT64_RANGE → loc.deltacopy_size < UINT64_RANGE →
      loc'.copied = loc.copied ++ ps.filter (fun q => !is_host q) ∧
      loc'.nb_deltacopy_handle
        = (loc.nb_deltacopy_handle
            + (ps.filter (fun q => !is_host q && (copy_ok q && sync_ok q))).length)
          % UINT64_RANGE ∧
      loc'.deltacopy_size
        = (loc.deltacopy_size + total_state_size handles
            (ps.filter (fun q => !is_host q && (copy_ok q && sync_ok q))))
          % UINT64_RANGE := by
  have hR : 0 < UINT64_RANGE := by unfold UINT64_RANGE; omega
  induction ps with
  | nil =>
    intro loc loc' h b1 b2
    simp only [deltacopy_loop, Option.some.injEq] at h
    subst h
    refine ⟨by simp, ?_, ?_⟩
    · simp only [List.filter_nil, List.length_nil, Nat.add_zero]
      exact (Nat.mod_eq_of_lt b1).symm
    · simp only [List.filter_nil, total_state_size, List.map_nil, List.sum_nil, Nat.add_zero]
      exact (Nat.mod_eq_of_lt b2).symm
  | cons p rest ih =>
    intro loc loc' h b1 b2
    simp only [deltacopy_loop] at h
    cases hh : is_host p
    · rw [hh] at h
      simp only [Bool.false_eq_true, if_false] at h
      cases e : handles[p]? with
      | none => rw [e] at h; cases h
      | some memory_handle =>
        rw [e] at h
        have hsz : state_size_of handles p = memory_handle.state_size := by
          unfold state_size_of; rw [e]
        cases hc : copy_ok p <;> cases hs : sync_ok p <;>
          simp only [hc, hs, Bool.false_eq_true, if_false, if_true, not_true_eq_false,
            not_false_eq_true] at h <;>
          (obtain ⟨i1, i2, i3⟩ := ih _ loc' h
              (by first | exact b1 | exact Nat.mod_lt _ hR)
              (by first | exact b2 | exact Nat.mod_lt _ hR)
           refine ⟨?_, ?_, ?_⟩
           · rw [i1]; simp [hh]
           · rw [i2]
             simp only [List.filter_cons, hh, hc, hs, Bool.not_false, Bool.and_self,
               Bool.and_false, Bool.and_true, Bool.false_eq_true, if_false, if_true,
               List.length_cons]
             try
               first
                 | rfl
                 | (rw [Nat.mod_add_mod]; congr 1; omega)
           · rw [i3]
             simp only [List.filter_cons, hh, hc, hs, Bool.not_false, Bool.and_self,
               Bool.and_false, Bool.and_true, Bool.false_eq_true, if_false, if_true,
               total_state_size, List.map_cons, List.sum_cons, hsz]
             try
               first
                 | rfl
                 | (rw [Nat.mod_add_mod]; congr 1; omega))
    · rw [hh] at h
      simp only [if_true] at h
      obtain ⟨i1, i2, i3⟩ := ih loc loc' h b1 b2
      refine ⟨?_, ?_, ?_⟩
      · rw [i1]; simp [hh]
      · rw [i2]; simp [hh]
      · rw [i3]; simp [hh]

theorem state_size_of_set (hs : List POSHandle) (p : Nat) (h h' : POSHandle)
    (hp : hs[p]? = some h) (hsz : h'.state_size = h.state_size) (q : Nat) :
    state_size_of (hs.set p h') q = state_size_of hs q := by
  unfold state_size_of
  rw [List.getElem?_set]
  by_cases hq : p = q
  · subst hq
    have hlt : p < hs.length := by
      rcases Nat.lt_or_ge p hs.length with h1 | h1
      · exact h1
      · rw [List.getElem?_eq_none h1] at hp; cases hp
    simp [hlt, hp, hsz]
  · simp [hq]

/-- The loop of `__TMP__migration_ondemand_reload` runs to the end of the set when none of its
pointers is null; it counts the handles whose reload succeeds. -/
theorem ondemand_reload_loop_spec (reload_ok : Nat → Bool) (ps : List Nat) :
    ∀ (st : List POSHandle × ReloadLocals), (∀ p ∈ ps, p < st.1.length) →
    st.2.nb_handles < UINT64_RANGE → st.2.reload_size < UINT64_RANGE →
    ∃ st', ondemand_reload_loop reload_ok ps st = some st' ∧
      st'.1.length = st.1.length ∧
      (∀ q, state_size_of st'.1 q = state_size_of st.1 q) ∧
      st'.2.nb_handles = (st.2.nb_handles + (ps.filter reload_ok).length) % UINT64_RANGE ∧
      st'.2.reload_size
        = (st.2.reload_size + total_state_size st.1 (ps.filter reload_ok)) % UINT64_RANGE := by
  have hR : 0 < UINT64_RANGE := by unfold UINT64_RANGE; omega
  induction ps with
  | nil =>
    intro st _ b1 b2
    refine ⟨st, by simp [ondemand_reload_loop], rfl, fun _ => rfl, ?_, ?_⟩
    · simp only [List.filter_nil, List.length_nil, Nat.add_zero]
      exact (Nat.mod_eq_of_lt b1).symm
    · simp only [List.filter_nil, total_state_size, List.map_nil, List.sum_nil, Nat.add_zero]
      exact (Nat.mod_eq_of_lt b2).symm
  | cons p rest ih =>
    intro st hv b1 b2
    obtain ⟨handles, loc⟩ := st
    simp only at hv b1 b2
    have hp : p < handles.length := hv p (List.mem_cons_self _ _)
    have hget : handles[p]? = some handles[p] := List.getElem?_eq_getElem hp
    have hsz : state_size_of handles p = handles[p].state_size := by
      unfold state_size_of; rw [hget]
    simp only [ondemand_reload_loop, hget]
    cases hr : reload_ok p
    · simp only [Bool.false_eq_true, not_false_eq_true, if_true]
      obtain ⟨st', e, i1, i2, i3, i4⟩ :=
        ih (handles, loc) (fun q hq => hv q (List.mem_cons_of_mem _ hq)) b1 b2
      refine ⟨st', e, i1, i2, ?_, ?_⟩
      · rw [i3]; simp [hr]
      · rw [i4]; simp [hr]
    · simp only [not_true_eq_false, if_false]
      have hfr : ∀ q, state_size_of (handles.set p
          { handles[p] with state_status := .kPOS_HandleStatus_StateReady }) q
            = state_size_of handles q :=
        state_size_of_set handles p handles[p] _ hget rfl
      obtain ⟨st', e, i1, i2, i3, i4⟩ :=
        ih (handles.set p { handles[p] with state_status := .kPOS_HandleStatus_StateReady },
            { nb_handles := (loc.nb_handles + 1) % UINT64_RANGE
              reload_size := (loc.reload_size + handles[p].state_size) % UINT64_RANGE })
          (by
            intro q hq
            simp only [List.length_set]
            exact hv q (List.mem_cons_of_mem _ hq))
          (Nat.mod_lt _ hR) (Nat.mod_lt _ hR)
      simp only [List.length_set] at i1
      refine ⟨st', e, i1, fun q => (i2 q).trans (hfr q), ?_, ?_⟩
      · rw [i3]
        simp only [List.filter_cons, hr, if_true, List.length_cons]
        rw [Nat.mod_add_mod]; congr 1; omega
      · rw [i4]
        have ht : ∀ l, total_state_size (handles.set p
            { handles[p] with state_status := .kPOS_HandleStatus_StateReady }) l
              = total_state_size handles l := by
          intro l
          unfold total_state_size
          exact congrArg List.sum (List.map_congr_left (fun q _ => hfr q))
        rw [ht]
        simp only [List.filter_cons, hr, if_true, total_state_size, List.map_cons,
          List.sum_cons, hsz]
        rw [Nat.mod_add_mod]; congr 1; omega

/-- The guard `modified_handles.size() > 0` of `__TMP__migration_precopy` is subsumed by its
loop. -/
theorem migration_precopy_eq (is_host copy_ok sync_ok : Nat → Bool) (c : ClientState)
    (hm_memory : POSHandleManager)
    (hm : c.handle_managers .kPOS_ResourceTypeId_CUDA_Memory = some hm_memory) :
    __TMP__migration_precopy is_host copy_ok sync_ok c
      = (precopy_loop is_host copy_ok sync_ok c.handles hm_memory.modified_handles
          (c.migration_ctx, {})).map
        (fun st =>
          ({ c with
              migration_ctx := st.1
              handle_managers := clear_modified_handle c.handle_managers hm_memory },
            st.2)) := by
  unfold __TMP__migration_precopy
  rw [hm]
  simp only
  cases e : hm_memory.modified_handles with
  | nil => simp [precopy_loop]
  | cons p rest =>
    simp only [List.length_cons, Nat.zero_lt_succ, if_true]
    cases precopy_loop is_host copy_ok sync_ok c.handles (p :: rest) (c.migration_ctx, {}) with
    | none => rfl
    | some st => rfl

/-- The procedure `__TMP__migration_deltacopy` returns the client as it was, with the counters
of its loop. -/
theorem migration_deltacopy_eq (is_host copy_ok sync_ok : Nat → Bool) (c : ClientState)
    (hm_memory : POSHandleManager)
    (hm : c.handle_managers .kPOS_ResourceTypeId_CUDA_Memory = some hm_memory)
    (hvi : ∀ p ∈ c.migration_ctx.invalidated_handles, is_host p = false → p < c.handles.length) :
    ∃ loc, __TMP__migration_deltacopy is_host copy_ok sync_ok c = some (c, loc) ∧
      loc.copied = c.migration_ctx.invalidated_handles.filter (fun q => !is_host q) ∧
      loc.nb_deltacopy_handle
        = (c.migration_ctx.invalidated_handles.filter
            (fun q => !is_host q && (copy_ok q && sync_ok q))).length % UINT64_RANGE ∧
      loc.deltacopy_size
        = total_state_size c.handles (c.migration_ctx.invalidated_handles.filter
            (fun q => !is_host q && (copy_ok q && sync_ok q))) % UINT64_RANGE := by
  have hR : 0 < UINT64_RANGE := by unfold UINT64_RANGE; omega
  obtain ⟨loc, e⟩ := deltacopy_loop_returns is_host copy_ok sync_ok c.handles
    c.migration_ctx.invalidated_handles {} hvi
  obtain ⟨i1, i2, i3⟩ := deltacopy_loop_spec is_host copy_ok sync_ok c.handles
    c.migration_ctx.invalidated_handles {} loc e hR hR
  refine ⟨loc, ?_, ?_, ?_, ?_⟩
  · unfold __TMP__migration_deltacopy
    rw [hm]
    simp only [e, Option.map_some']
  · rw [i1]; rfl
  · rw [i2]; simp
  · rw [i3]; simp

/-! ## Tearing the context -/

/-- What one loop of `__TMP__migration_tear_context` leaves behind: it returns when no pointer
of the manager is null, and a handle changes exactly when the manager lists it and it is
Active, in which case its status becomes Broken. -/
theorem tear_handles_spec (ps : List Nat) :
    ∀ (handles : List POSHandle), (∀ p ∈ ps, p < handles.length) →
    ∃ handles', tear_handles ps handles = some handles' ∧
      handles'.length = handles.length ∧
      ∀ q h, handles[q]? = some h →
        handles'[q]? = some
          (if q ∈ ps ∧ h.status = .kPOS_HandleStatus_Active then
            { h with status := .kPOS_HandleStatus_Broken }
          else h) := by
  induction ps with
  | nil =>
    intro handles _
    exact ⟨handles, rfl, rfl, fun q h hq => by simp [hq]⟩
  | cons p rest ih =>
    intro handles hv
    have hp : p < handles.length := hv p (List.mem_cons_self _ _)
    have hget : handles[p]? = some handles[p] := List.getElem?_eq_getElem hp
    simp only [tear_handles, hget]
    by_cases hact : handles[p].status = .kPOS_HandleStatus_Active
    · simp only [hact, if_true]
      obtain ⟨handles', e, i1, i2⟩ :=
        ih (handles.set p { handles[p] with status := .kPOS_HandleStatus_Broken })
          (by
            intro q hq
            simp only [List.length_set]
            exact hv q (List.mem_cons_of_mem _ hq))
      simp only [List.length_set] at i1
      refine ⟨handles', e, i1, ?_⟩
      intro q h hq
      by_cases hqp : q = p
      · subst hqp
        rw [hget] at hq
        simp only [Option.some.injEq] at hq
        subst hq
        have := i2 q { handles[q] with status := .kPOS_HandleStatus_Broken }
          (by simp [List.getElem?_set, hp])
        rw [this]
        simp [hact]
      · have := i2 q h (by
          rw [List.getElem?_set]
          simp [Ne.symm hqp, hq])
        rw [this]
        simp [hqp]
    · simp only [hact, if_false]
      obtain ⟨handles', e, i1, i2⟩ :=
        ih handles (fun q hq => hv q (List.mem_cons_of_mem _ hq))
      refine ⟨handles', e, i1, ?_⟩
      intro q h hq
      rw [i2 q h hq]
      by_cases hqp : q = p
      · subst hqp
        rw [hget] at hq
        simp only [Option.some.injEq] at hq
        subst hq
        simp [hact]
      · simp [hqp]

theorem tear_handles_append (ps1 ps2 : List Nat) :
    ∀ (handles : List POSHandle),
    tear_handles (ps1 ++ ps2) handles = (tear_handles ps1 handles).bind (tear_handles ps2) := by
  induction ps1 with
  | nil => intro handles; rfl
  | cons p rest ih =>
    intro handles
    simp only [List.cons_append, tear_handles]
    cases handles[p]? with
    | none => rfl
    | some handle =>
      simp only
      split
      · exact ih _
      · exact ih _

/-- The procedure `__TMP__migration_tear_context` is one pass over the handles it visits. -/
theorem migration_tear_context_eq (do_tear_module : Bool) (c : ClientState)
    (hm_context hm_cublas hm_stream hm_module hm_function : POSHandleManager)
    (h0 : c.handle_managers .kPOS_ResourceTypeId_CUDA_Context = some hm_context)
    (h1 : c.handle_managers .kPOS_ResourceTypeId_cuBLAS_Context = some hm_cublas)
    (h2 : c.handle_managers .kPOS_ResourceTypeId_CUDA_Stream = some hm_stream)
    (h3 : c.handle_managers .kPOS_ResourceTypeId_CUDA_Module = some hm_module)
    (h4 : c.handle_managers .kPOS_ResourceTypeId_CUDA_Function = some hm_function) :
    __TMP__migration_tear_context do_tear_module c
      = (tear_handles (torn_handles do_tear_module hm_cublas hm_stream hm_module hm_function)
          c.handles).map (fun handles => { c with handles := handles }) := by
  simp only [__TMP__migration_tear_context, h0, h1, h2, h3, h4, torn_handles,
    tear_handles_append]
  cases tear_handles hm_cublas.handles c.handles with
  | none => rfl
  | some handles1 =>
    simp only [Option.some_bind]
    cases tear_handles hm_stream.handles handles1 with
    | none => rfl
    | some handles2 =>
      simp only [Option.some_bind]
      cases do_tear_module with
      | false => simp [tear_handles]
      | true =>
        simp only [if_true, tear_handles_append]
        cases tear_handles hm_module.handles handles2 with
        | none => rfl
        | some handles3 =>
          simp only [Option.some_bind]
          cases tear_handles hm_function.handles handles3 with
          | none => rfl
          | some handles4 => rfl

/-! ## Initialising the handle managers -/

@[simp] theorem load_kernel_meta_inits (e : Bool) (l : pos_retval_t) (s : InitState) :
    (load_kernel_meta e l s).inits = s.inits := by
  unfold load_kernel_meta
  split
  · split <;> rfl
  · rfl

@[simp] theorem load_kernel_meta_handle_managers (e : Bool) (l : pos_retval_t) (s : InitState) :
    (load_kernel_meta e l s).handle_managers = s.handle_managers := by
  unfold load_kernel_meta
  split
  · split <;> rfl
  · rfl

/-- The flag after the kernel-meta load: set when the file exists and the load succeeds, and
otherwise as before. -/
theorem load_kernel_meta_flag (e : Bool) (l : pos_retval_t) (s : InitState) :
    (load_kernel_meta e l s).is_load_kernel_from_cache
      = ((e && decide (l = .POS_SUCCESS)) || s.is_load_kernel_from_cache) := by
  unfold load_kernel_meta
  cases e
  · simp
  · by_cases h : l = .POS_SUCCESS <;> simp [h]

/-! ## The launch handlers of the driver API -/

/-- The handler `cu_module_load_data` in closed form, when the Module handle of the WQE is not
null. -/
theorem cu_module_load_data_eq (vendor : POSHandle → Nat → CUresult × Nat)
    (wqe : POSAPIContext_QE) (s : LaunchState) (p : Nat) (mh : POSHandle)
    (hp : pos_api_handle wqe .kPOS_ResourceTypeId_CUDA_Module 0 = some p)
    (hh : s.handles[p]? = some mh) :
    cu_module_load_data vendor wqe s = some (.POS_SUCCESS,
      { handles :=
          if (vendor mh wqe.dag_vertex_id).1 = CUDA_SUCCESS then
            s.handles.set p
              { mh with
                server_addr := (vendor mh wqe.dag_vertex_id).2
                status := .kPOS_HandleStatus_Active }
          else s.handles
        return_code := (vendor mh wqe.dag_vertex_id).1
        published := s.published ++
          [if (vendor mh wqe.dag_vertex_id).1 = CUDA_SUCCESS then PublishCall.__done
            else PublishCall.__restore] }) := by
  unfold cu_module_load_data
  simp only [hp, hh]
  by_cases hr : (vendor mh wqe.dag_vertex_id).1 = CUDA_SUCCESS
  · simp [hr, POSHandle.set_server_addr, POSHandle.mark_status]
  · have hr' : ¬ CUDA_SUCCESS = (vendor mh wqe.dag_vertex_id).1 := fun h => hr h.symm
    simp [hr, hr']

/-- The handler `cu_module_load_data` returns only when the Module handle of the WQE is not
null. -/
theorem cu_module_load_data_some (vendor : POSHandle → Nat → CUresult × Nat)
    (wqe : POSAPIContext_QE) (s : LaunchState) (x : pos_retval_t × LaunchState)
    (h : cu_module_load_data vendor wqe s = some x) :
    ∃ p mh, pos_api_handle wqe .kPOS_ResourceTypeId_CUDA_Module 0 = some p ∧
      s.handles[p]? = some mh := by
  unfold cu_module_load_data at h
  cases hp : pos_api_handle wqe .kPOS_ResourceTypeId_CUDA_Module 0 with
  | none => rw [hp] at h; cases h
  | some p =>
    rw [hp] at h
    cases hh : s.handles[p]? with
    | none => simp [hh] at h
    | some mh => exact ⟨p, mh, rfl, hh⟩

/-- The handler `cu_module_get_function` in closed form. -/
theorem cu_module_get_function_eq (vendor : Nat → POSHandle → CUresult × Nat)
    (wqe : POSAPIContext_QE) (s : LaunchState) (p : Nat) (fh : POSHandle) (q : Nat)
    (mh : POSHandle)
    (hr : ChildReady wqe s .kPOS_ResourceTypeId_CUDA_Function p fh q mh) :
    cu_module_get_function vendor wqe s = some (.POS_SUCCESS,
      { handles :=
          if (vendor mh.server_addr fh).1 = CUDA_SUCCESS then
            s.handles.set p
              { fh with
                server_addr := (vendor mh.server_addr fh).2
                status := .kPOS_HandleStatus_Active }
          else s.handles
        return_code := (vendor mh.server_addr fh).1
        published := s.published ++ [PublishCall.__done] }) := by
  obtain ⟨h1, h2, h3, h4, h5⟩ := hr
  unfold cu_module_get_function
  cases hpar : fh.parent_handles with
  | nil => rw [hpar] at h4; cases h4
  | cons q' rest =>
    rw [hpar] at h4
    simp only [List.head?_cons, Option.some.injEq] at h4
    subst h4
    simp only [h1, h2, h3, hpar, h5, ne_eq, not_true_eq_false, if_false]
    by_cases hv : (vendor mh.server_addr fh).1 = CUDA_SUCCESS
    · simp [hv, POSHandle.set_server_addr, POSHandle.mark_status, h3, hpar]
    · have hv' : ¬ CUDA_SUCCESS = (vendor mh.server_addr fh).1 := fun h => hv h.symm
      simp [hv, hv']

/-- The handler `cu_module_get_function` returns only when the Function handle of the WQE and
its first parent exist. -/
theorem cu_module_get_function_some (vendor : Nat → POSHandle → CUresult × Nat)
    (wqe : POSAPIContext_QE) (s : LaunchState) (x : pos_retval_t × LaunchState)
    (h : cu_module_get_function vendor wqe s = some x) :
    ∃ p fh q mh, ChildReady wqe s .kPOS_ResourceTypeId_CUDA_Function p fh q mh := by
  unfold cu_module_get_function at h
  cases hp : pos_api_handle wqe .kPOS_ResourceTypeId_CUDA_Function 0 with
  | none => rw [hp] at h; cases h
  | some p =>
    rw [hp] at h
    cases hh : s.handles[p]? with
    | none => simp [hh] at h
    | some fh =>
      simp only [hh] at h
      by_cases ht : fh.resource_type_id = .kPOS_ResourceTypeId_CUDA_Function
      · cases hpar : fh.parent_handles with
        | nil => simp [ht, hpar] at h
        | cons q rest =>
          cases hm : s.handles[q]? with
          | none => simp [ht, hpar, hm] at h
          | some mh => exact ⟨p, fh, q, mh, ⟨hp, hh, ht, by rw [hpar]; rfl, hm⟩⟩
      · simp [ht] at h

/-- The handler `cu_module_get_global` in closed form: the return code published is
`CUDA_SUCCESS` and the WQE is published with `__done`, whatever the vendor call yields. -/
theorem cu_module_get_global_eq (vendor : Nat → POSHandle → CUresult × Nat)
    (wqe : POSAPIContext_QE) (s : LaunchState) (p : Nat) (vh : POSHandle) (q : Nat)
    (mh : POSHandle)
    (hr : ChildReady wqe s .kPOS_ResourceTypeId_CUDA_Var p vh q mh) :
    cu_module_get_global vendor wqe s = some (.POS_SUCCESS,
      { handles :=
          if (vendor mh.server_addr vh).1 = CUDA_SUCCESS then
            s.handles.set p
              { vh with
                server_addr := (vendor mh.server_addr vh).2
                status := .kPOS_HandleStatus_Active }
          else s.handles
        return_code := CUDA_SUCCESS
        published := s.published ++ [PublishCall.__done] }) := by
  obtain ⟨h1, h2, h3, h4, h5⟩ := hr
  unfold cu_module_get_global
  cases hpar : vh.parent_handles with
  | nil => rw [hpar] at h4; cases h4
  | cons q' rest =>
    rw [hpar] at h4
    simp only [List.head?_cons, Option.some.injEq] at h4
    subst h4
    simp only [h1, h2, h3, hpar, h5, ne_eq, not_true_eq_false, if_false]
    by_cases hv : (vendor mh.server_addr vh).1 = CUDA_SUCCESS
    · simp [hv, POSHandle.set_server_addr, POSHandle.mark_status, h3, hpar]
    · have hv' : ¬ CUDA_SUCCESS = (vendor mh.server_addr vh).1 := fun h => hv h.symm
      simp [hv, hv']

/-- The handler `cu_module_get_global` returns only when the Var handle of the WQE and its first
parent exist. -/
theorem cu_module_get_global_some (vendor : Nat → POSHandle → CUresult × Nat)
    (wqe : POSAPIContext_QE) (s : LaunchState) (x : pos_retval_t × LaunchState)
    (h : cu_module_get_global vendor wqe s = some x) :
    ∃ p vh q mh, ChildReady wqe s .kPOS_ResourceTypeId_CUDA_Var p vh q mh := by
  unfold cu_module_get_global at h
  cases hp : pos_api_handle wqe .kPOS_ResourceTypeId_CUDA_Var 0 with
  | none => rw [hp] at h; cases h
  | some p =>
    rw [hp] at h
    cases hh : s.handles[p]? with
    | none => simp [hh] at h
    | some vh =>
      simp only [hh] at h
      by_cases ht : vh.resource_type_id = .kPOS_ResourceTypeId_CUDA_Var
      · cases hpar : vh.parent_handles with
        | nil => simp [ht, hpar] at h
        | cons q rest =>
          cases hm : s.handles[q]? with
          | none => simp [ht, hpar, hm] at h
          | some mh => exact ⟨p, vh, q, mh, ⟨hp, hh, ht, by rw [hpar]; rfl, hm⟩⟩
      · simp [ht] at h

/-- The handler `cu_device_primary_ctx_get_state` in closed form, when the Device handle of the
WQE is not null. -/
theorem cu_device_primary_ctx_get_state_eq (vendor : POSHandle → CUresult)
    (wqe : POSAPIContext_QE) (s : LaunchState) (p : Nat) (dh : POSHandle)
    (hp : pos_api_handle wqe .kPOS_ResourceTypeId_CUDA_Device 0 = some p)
    (hh : s.handles[p]? = some dh) :
    cu_device_primary_ctx_get_state vendor wqe s = some (.POS_SUCCESS,
      { handles := s.handles
        return_code := vendor dh
        published := s.published ++
          [if vendor dh = CUDA_SUCCESS then PublishCall.__done else PublishCall.__restore] }) := by
  unfold cu_device_primary_ctx_get_state
  simp only [hp, hh]
  by_cases hr : vendor dh = CUDA_SUCCESS
  · simp [hr]
  · have hr' : ¬ CUDA_SUCCESS = vendor dh := fun h => hr h.symm
    simp [hr, hr']

/-- The handler `cu_device_primary_ctx_get_state` returns only when the Device handle of the WQE
is not null. -/
theorem cu_device_primary_ctx_get_state_some (vendor : POSHandle → CUresult)
    (wqe : POSAPIContext_QE) (s : LaunchState) (x : pos_retval_t × LaunchState)
    (h : cu_device_primary_ctx_get_state vendor wqe s = some x) :
    ∃ p dh, pos_api_handle wqe .kPOS_ResourceTypeId_CUDA_Device 0 = some p ∧
      s.handles[p]? = some dh := by
  unfold cu_device_primary_ctx_get_state at h
  cases hp : pos_api_handle wqe .kPOS_ResourceTypeId_CUDA_Device 0 with
  | none => rw [hp] at h; cases h
  | some p =>
    rw [hp] at h
    cases hh : s.handles[p]? with
    | none => simp [hh] at h
    | some dh => exact ⟨p, dh, rfl, hh⟩

/-! ## The calls of `init_handle_managers` -/

/-- What `init_handle_managers` leaves behind, when a Device or Context manager whose `init`
succeeded owns at least one handle: the `init` calls made, in the fixed order and up to the
first failure, each with the related handles it received; the result; the flag
`is_load_kernel_from_cache`; and the managers registered. -/
theorem init_handle_managers_spec (init : init_t) (kernel_meta_path_exists : Bool)
    (load_cached_function_metas : pos_retval_t) (handle_managers : POSHandleManagers)
    (is_load_kernel_from_cache : Bool)
    (hd : ∀ rel, (init .kPOS_ResourceTypeId_CUDA_Device rel).1 = .POS_SUCCESS →
      0 < (init .kPOS_ResourceTypeId_CUDA_Device rel).2.handles.length)
    (hc : ∀ rel, (init .kPOS_ResourceTypeId_CUDA_Context rel).1 = .POS_SUCCESS →
      0 < (init .kPOS_ResourceTypeId_CUDA_Context rel).2.handles.length) :
    ∃ s, init_handle_managers init kernel_meta_path_exists load_cached_function_metas
        handle_managers is_load_kernel_from_cache = some s ∧
      s.inits ≠ [] ∧
      s.inits.map (fun call => call.type) = init_order.take s.inits.length ∧
      (∀ call ∈ s.inits,
        call.retval = (init call.type call.related_handles).1 ∧
        call.related_handles
          = passed_related_handles (init .kPOS_ResourceTypeId_CUDA_Device []).2.handles
              (init .kPOS_ResourceTypeId_CUDA_Context
                [(.kPOS_ResourceTypeId_CUDA_Device,
                  (init .kPOS_ResourceTypeId_CUDA_Device []).2.handles)]).2.handles
              call.type ∧
        (call.type = .kPOS_ResourceTypeId_CUDA_Context →
          0 < (init .kPOS_ResourceTypeId_CUDA_Device []).2.handles.length ∧
          s.handle_managers .kPOS_ResourceTypeId_CUDA_Device
            = some (init .kPOS_ResourceTypeId_CUDA_Device []).2) ∧
        (call.type = .kPOS_ResourceTypeId_CUDA_Stream ∨
            call.type = .kPOS_ResourceTypeId_CUDA_Memory →
          0 < (init .kPOS_ResourceTypeId_CUDA_Context
                [(.kPOS_ResourceTypeId_CUDA_Device,
                  (init .kPOS_ResourceTypeId_CUDA_Device []).2.handles)]).2.handles.length ∧
          s.handle_managers .kPOS_ResourceTypeId_CUDA_Context
            = some (init .kPOS_ResourceTypeId_CUDA_Context
                [(.kPOS_ResourceTypeId_CUDA_Device,
                  (init .kPOS_ResourceTypeId_CUDA_Device []).2.handles)]).2)) ∧
      (s.retval = .POS_SUCCESS ↔
        s.inits.length = 9 ∧ ∀ call ∈ s.inits, call.retval = .POS_SUCCESS) ∧
      s.inits.getLast?.map (fun call => call.retval) = some s.retval ∧
      s.is_load_kernel_from_cache
        = ((kernel_meta_path_exists && decide (load_cached_function_metas = .POS_SUCCESS)
            && decide (6 < s.inits.length)) || is_load_kernel_from_cache) ∧
      (s.retval = .POS_SUCCESS → ∀ t ∈ __get_resource_idx, (s.handle_managers t).isSome) := by
  unfold init_handle_managers
  simp only [init_manager]
  by_cases h1 : (init .kPOS_ResourceTypeId_CUDA_Device []).1 = .POS_SUCCESS
  · have a1 := hd _ h1
    simp only [h1, ne_eq, not_true_eq_false, if_false, a1]
    by_cases h2 : (init .kPOS_ResourceTypeId_CUDA_Context
        [(.kPOS_ResourceTypeId_CUDA_Device,
          (init .kPOS_ResourceTypeId_CUDA_Device []).2.handles)]).1 = .POS_SUCCESS
    · have a2 := hc _ h2
      simp only [h2, ne_eq, not_true_eq_false, if_false, a2]
      by_cases h3 : (init .kPOS_ResourceTypeId_CUDA_Stream
          [(.kPOS_ResourceTypeId_CUDA_Context,
            (init .kPOS_ResourceTypeId_CUDA_Context
              [(.kPOS_ResourceTypeId_CUDA_Device,
                (init .kPOS_ResourceTypeId_CUDA_Device []).2.handles)]).2.handles)]).1
            = .POS_SUCCESS
      · simp only [h3, ne_eq, not_true_eq_false, if_false]
        by_cases h4 : (init .kPOS_ResourceTypeId_cuBLAS_Context []).1 = .POS_SUCCESS
        · simp only [h4, ne_eq, not_true_eq_false, if_false]
          by_cases h5 : (init .kPOS_ResourceTypeId_CUDA_Event []).1 = .POS_SUCCESS
          · simp only [h5, ne_eq, not_true_eq_false, if_false]
            by_cases h6 : (init .kPOS_ResourceTypeId_CUDA_Module []).1 = .POS_SUCCESS
            · simp only [h6, ne_eq, not_true_eq_false, if_false]
              by_cases h7 : (init .kPOS_ResourceTypeId_CUDA_Function []).1 = .POS_SUCCESS
              · simp only [h7, ne_eq, not_true_eq_false, if_false]
                by_cases h8 : (init .kPOS_ResourceTypeId_CUDA_Var []).1 = .POS_SUCCESS
                · simp only [h8, ne_eq, not_true_eq_false, if_false]
                  by_cases h9 : (init .kPOS_ResourceTypeId_CUDA_Memory
                      [(.kPOS_ResourceTypeId_CUDA_Context,
                        (init .kPOS_ResourceTypeId_CUDA_Context
                          [(.kPOS_ResourceTypeId_CUDA_Device,
                            (init .kPOS_ResourceTypeId_CUDA_Device []).2.handles)]).2.handles)]).1
                        = .POS_SUCCESS
                  · simp only [h9, ne_eq, not_true_eq_false, if_false, List.nil_append,
                      load_kernel_meta_inits, load_kernel_meta_handle_managers, List.append_assoc,
                      List.singleton_append]
                    refine ⟨_, rfl, ?_, ?_, ?_, ?_, ?_, ?_, ?_⟩
                    · simp
                    · simp [init_order]
                    · simp [passed_related_handles, register_manager, h1, h2, h3, h4, h5, h6, h7, h8, h9, a1, a2]
                    · simp [h1, h2, h3, h4, h5, h6, h7, h8, h9, a1, a2]
                    · simp
                    · simp [load_kernel_meta_flag]
                    · intro _ t ht
                      simp only [__get_resource_idx, List.mem_cons, List.mem_singleton, List.not_mem_nil,
                        or_false] at ht
                      rcases ht with rfl | rfl | rfl | rfl | rfl | rfl | rfl | rfl | rfl <;>
                        simp [register_manager]
                  · simp only [h9, ne_eq, not_false_eq_true, if_true, List.nil_append,
                      load_kernel_meta_inits, load_kernel_meta_handle_managers, List.append_assoc,
                      List.singleton_append]
                    refine ⟨_, rfl, ?_, ?_, ?_, ?_, ?_, ?_, ?_⟩
                    · simp
                    · simp [init_order]
                    · simp [passed_related_handles, register_manager, h1, h2, h3, h4, h5, h6, h7, h8, h9, a1, a2]
                    · simp [h1, h2, h3, h4, h5, h6, h7, h8, h9, a1, a2]
                    · simp
                    · simp [load_kernel_meta_flag]
                    · intro hs
                      exact absurd hs h9
                · simp only [h8, ne_eq, not_false_eq_true, if_true, List.nil_append,
                    load_kernel_meta_inits, load_kernel_meta_handle_managers, List.append_assoc,
                    List.singleton_append]
                  refine ⟨_, rfl, ?_, ?_, ?_, ?_, ?_, ?_, ?_⟩
                  · simp
                  · simp [init_order]
                  · simp [passed_related_handles, register_manager, h1, h2, h3, h4, h5, h6, h7, h8, a1, a2]
                  · simp [h1, h2, h3, h4, h5, h6, h7, h8, a1, a2]
                  · simp
                  · simp [load_kernel_meta_flag]
                  · intro hs
                    exact absurd hs h8
              · simp only [h7, ne_eq, not_false_eq_true, if_true, List.nil_append,
                  load_kernel_meta_inits, load_kernel_meta_handle_managers, List.append_assoc,
                  List.singleton_append]
                refine ⟨_, rfl, ?_, ?_, ?_, ?_, ?_, ?_, ?_⟩
                · simp
                · simp [init_order]
                · simp [passed_related_handles, register_manager, h1, h2, h3, h4, h5, h6, h7, a1, a2]
                · simp [h1, h2, h3, h4, h5, h6, h7, a1, a2]
                · simp
                · simp [load_kernel_meta_flag]
                · intro hs
                  exact absurd hs h7
            · simp only [h6, ne_eq, not_false_eq_true, if_true, List.nil_append,
                load_kernel_meta_inits, load_kernel_meta_handle_managers, List.append_assoc,
                List.singleton_append]
              refine ⟨_, rfl, ?_, ?_, ?_, ?_, ?_, ?_, ?_⟩
              · simp
              · simp [init_order]
              · simp [passed_related_handles, register_manager, h1, h2, h3, h4, h5, h6, a1, a2]
              · simp [h1, h2, h3, h4, h5, h6, a1, a2]
              · simp
              · simp [load_kernel_meta_flag]
              · intro hs
                exact absurd hs h6
          · simp only [h5, ne_eq, not_false_eq_true, if_true, List.nil_append,
              load_kernel_meta_inits, load_kernel_meta_handle_managers, List.append_assoc,
              List.singleton_append]
            refine ⟨_, rfl, ?_, ?_, ?_, ?_, ?_, ?_, ?_⟩
            · simp
            · simp [init_order]
            · simp [passed_related_handles, register_manager, h1, h2, h3, h4, h5, a1, a2]
            · simp [h1, h2, h3, h4, h5, a1, a2]
            · simp
            · simp [load_kernel_meta_flag]
            · intro hs
              exact absurd hs h5
        · simp only [h4, ne_eq, not_false_eq_true, if_true, List.nil_append,
            load_kernel_meta_inits, load_kernel_meta_handle_managers, List.append_assoc,
            List.singleton_append]
          refine ⟨_, rfl, ?_, ?_, ?_, ?_, ?_, ?_, ?_⟩
          · simp
          · simp [init_order]
          · simp [passed_related_handles, register_manager, h1, h2, h3, h4, a1, a2]
          · simp [h1, h2, h3, h4, a1, a2]
          · simp
          · simp [load_kernel_meta_flag]
          · intro hs
            exact absurd hs h4
      · simp only [h3, ne_eq, not_false_eq_true, if_true, List.nil_append,
          load_kernel_meta_inits, load_kernel_meta_handle_managers, List.append_assoc,
          List.singleton_append]
        refine ⟨_, rfl, ?_, ?_, ?_, ?_, ?_, ?_, ?_⟩
        · simp
        · simp [init_order]
        · simp [passed_related_handles, register_manager, h1, h2, h3, a1, a2]
        · simp [h1, h2, h3, a1, a2]
        · simp
        · simp [load_kernel_meta_flag]
        · intro hs
          exact absurd hs h3
    · simp only [h2, ne_eq, not_false_eq_true, if_true, List.nil_append,
        load_kernel_meta_inits, load_kernel_meta_handle_managers, List.append_assoc,
        List.singleton_append]
      refine ⟨_, rfl, ?_, ?_, ?_, ?_, ?_, ?_, ?_⟩
      · simp
      · simp [init_order]
      · simp [passed_related_handles, register_manager, h1, h2, a1]
      · simp [h1, h2, a1]
      · simp
      · simp [load_kernel_meta_flag]
      · intro hs
        exact absurd hs h2
  · simp only [h1, ne_eq, not_false_eq_true, if_true, List.nil_append,
      load_kernel_meta_inits, load_kernel_meta_handle_managers, List.append_assoc,
      List.singleton_append]
    refine ⟨_, rfl, ?_, ?_, ?_, ?_, ?_, ?_, ?_⟩
    · simp
    · simp [init_order]
    · simp [passed_related_handles, register_manager, h1]
    · simp [h1]
    · simp
    · simp [load_kernel_meta_flag]
    · intro hs
      exact absurd hs h1

/-! ## Lemmas on `main` of the code-generation tool -/

/-- The loop over the options returns when every option is one of `-d`, `-s` and `-g`; a
directory is then non-empty if it was before or if its option was given, every argument being
non-empty. -/
theorem parse_options_spec {σ : Type} (POS_ERROR_returns : Bool)
    (options : List (Char × String)) :
    ∀ (autogener : POSAutogener σ),
    (∀ o ∈ options, (o.1 = 'd' ∨ o.1 = 's' ∨ o.1 = 'g') ∧ o.2.length ≠ 0) →
    ∃ a, parse_options POS_ERROR_returns options autogener = some a ∧
      (autogener.header_directory.length ≠ 0 ∨ (∃ o ∈ options, o.1 = 'd') →
        a.header_directory.length ≠ 0) ∧
      (autogener.support_directory.length ≠ 0 ∨ (∃ o ∈ options, o.1 = 's') →
        a.support_directory.length ≠ 0) ∧
      (autogener.gen_directory.length ≠ 0 ∨ (∃ o ∈ options, o.1 = 'g') →
        a.gen_directory.length ≠ 0) ∧
      a.members = autogener.members := by
  induction options with
  | nil =>
    intro autogener _
    refine ⟨autogener, rfl, ?_, ?_, ?_, rfl⟩ <;>
    · intro h
      rcases h with h | ⟨o, ho, -⟩
      · exact h
      · cases ho
  | cons o rest ih =>
    intro autogener hv
    obtain ⟨opt, optarg⟩ := o
    have ho := hv (opt, optarg) (List.mem_cons_self _ _)
    have hrest : ∀ o ∈ rest, (o.1 = 'd' ∨ o.1 = 's' ∨ o.1 = 'g') ∧ o.2.length ≠ 0 :=
      fun o h => hv o (List.mem_cons_of_mem _ h)
    obtain ⟨hopt, harg⟩ := ho
    simp only at hopt harg
    rcases hopt with hopt | hopt | hopt
    · subst hopt
      obtain ⟨a, e, i1, i2, i3, i4⟩ := ih { autogener with header_directory := optarg } hrest
      refine ⟨a, by simp only [parse_options, if_true]; exact e, ?_, ?_, ?_, i4⟩
      · intro _
        exact i1 (Or.inl harg)
      · intro h
        apply i2
        rcases h with h | ⟨o, ho, h⟩
        · exact Or.inl h
        · rcases List.mem_cons.mp ho with ho | ho
          · subst ho
            simp at h
          · exact Or.inr ⟨o, ho, h⟩
      · intro h
        apply i3
        rcases h with h | ⟨o, ho, h⟩
        · exact Or.inl h
        · rcases List.mem_cons.mp ho with ho | ho
          · subst ho
            simp at h
          · exact Or.inr ⟨o, ho, h⟩
    · subst hopt
      obtain ⟨a, e, i1, i2, i3, i4⟩ := ih { autogener with support_directory := optarg } hrest
      refine ⟨a, by simp [parse_options]; exact e, ?_, ?_, ?_, i4⟩
      · intro h
        apply i1
        rcases h with h | ⟨o, ho, h⟩
        · exact Or.inl h
        · rcases List.mem_cons.mp ho with ho | ho
          · subst ho
            simp at h
          · exact Or.inr ⟨o, ho, h⟩
      · intro _
        exact i2 (Or.inl harg)
      · intro h
        apply i3
        rcases h with h | ⟨o, ho, h⟩
        · exact Or.inl h
        · rcases List.mem_cons.mp ho with ho | ho
          · subst ho
            simp at h
          · exact Or.inr ⟨o, ho, h⟩
    · subst hopt
      obtain ⟨a, e, i1, i2, i3, i4⟩ := ih { autogener with gen_directory := optarg } hrest
      refine ⟨a, by simp [parse_options]; exact e, ?_, ?_, ?_, i4⟩
      · intro h
        apply i1
        rcases h with h | ⟨o, ho, h⟩
        · exact Or.inl h
        · rcases List.mem_cons.mp ho with ho | ho
          · subst ho
            simp at h
          · exact Or.inr ⟨o, ho, h⟩
      · intro h
        apply i2
        rcases h with h | ⟨o, ho, h⟩
        · exact Or.inl h
        · rcases List.mem_cons.mp ho with ho | ho
          · subst ho
            simp at h
          · exact Or.inr ⟨o, ho, h⟩
      · intro _
        exact i3 (Or.inl harg)

/-- The function `main` once the options are read and the three directories are non-empty. -/
theorem main_eq {σ : Type} (POS_ERROR_returns : Bool) (s1 s2 s3 : autogen_stage_t σ)
    (members : σ) (options : List (Char × String)) (a : POSAutogener σ)
    (hparse : parse_options POS_ERROR_returns options { members := members } = some a)
    (hd : a.header_directory.length ≠ 0) (hs : a.support_directory.length ≠ 0)
    (hg : a.gen_directory.length ≠ 0) :
    main POS_ERROR_returns s1 s2 s3 members options =
      if (s1 a).1 ≠ .POS_SUCCESS then
        some (main_exit (s1 a).1, [.collect_pos_support_yamls])
      else if (s2 (s1 a).2).1 ≠ .POS_SUCCESS then
        some (main_exit (s2 (s1 a).2).1,
          [.collect_pos_support_yamls, .collect_vendor_header_files])
      else
        some (main_exit (s3 (s2 (s1 a).2).2).1,
          [.collect_pos_support_yamls, .collect_vendor_header_files, .generate_pos_src]) := by
  unfold main
  rw [hparse]
  simp only [hd, hs, hg, false_and, if_false]

/-! ## Lemmas on `add_vertex` after the merge pass and on the return code of the scheme -/

/-- With an empty `_topo_t1_cache`, a call of `add_vertex<T1>` that passes the neighbor check
and whose id is below the prefill size does not return: the lookup `_topo_t1_cache[*id]`
yields a null pointer. -/
theorem add_vertex_T1_cleared_cache (dbg : Bool) (g : POSBipartiteGraph) (data : Nat)
    (neighbor : POSNeighborMap_t) (hcache : g._topo_t1_cache = [])
    (hlt : g.max_t1_id < kPOSBG_PREFILL_SIZE)
    (hc : (dbg && neighbor_check_fails .T1 g neighbor) = false) :
    add_vertex dbg .T1 g data neighbor = none := by
  have hge : ¬ g.max_t1_id ≥ kPOSBG_PREFILL_SIZE := by omega
  simp only [add_vertex, hc, hge, hcache, map_find, Bool.false_eq_true, if_false]

/-- The merge pass on the fresh graph returns, and leaves an empty cache and the counter of
the T1 ids at `0`. -/
theorem join_topo_new :
    ∃ g1, __join_topo POSBipartiteGraph.new = some g1 ∧ g1._topo_t1_cache = [] ∧
      g1.max_t1_id = 0 := by
  obtain ⟨g1, h⟩ := join_topo_returns inv_new cacheValid_new
  obtain ⟨e1, -, -, -, e5, -⟩ := join_topo_spec h
  exact ⟨g1, h, e5, by rw [e1, new_max_t1_id]⟩

/-- The second loop of `generate_overlap_ckpt_scheme`, entered with `retval = POS_SUCCESS`,
is never left by `goto exit` and ends with `retval = POS_SUCCESS`, whatever the query
returns. -/
theorem distribute_handles_retval (query : get_handle_modified_position_t)
    (handles : List POSHandle) (c P : Nat) (ps : List Nat) :
    ∀ (positions : List Nat) (calls : List SchemeCall)
      (x : Bool × pos_retval_t × List SchemeCall),
    distribute_handles query handles c P ps .POS_SUCCESS positions calls = some x →
    x.1 = false ∧ x.2.1 = .POS_SUCCESS := by
  induction ps with
  | nil =>
    intro positions calls x h
    simp only [distribute_handles, Option.some.injEq] at h
    subst h
    exact ⟨rfl, rfl⟩
  | cons p rest ih =>
    intro positions calls x h
    simp only [distribute_handles] at h
    cases hh : handles[p]? with
    | none => rw [hh] at h; cases h
    | some remain_handle =>
      rw [hh] at h
      simp only [ne_eq, not_true_eq_false, if_false] at h
      split at h
      · cases h
      · exact ih _ _ x h

/-- The return code of `generate_overlap_ckpt_scheme` is that of the stream synchronization:
it does not depend on what the query returns. -/
theorem generate_overlap_ckpt_scheme_retval (query : get_handle_modified_position_t)
    (cudaStreamSynchronize_ok : Bool) (idx : List pos_resource_typeid_t)
    (handles : List POSHandle) (wqe : POSAPIContext_QE) (P : Nat) :
    (generate_overlap_ckpt_scheme query cudaStreamSynchronize_ok idx handles wqe P).map
        (fun x => x.1)
      = (generate_overlap_ckpt_scheme query cudaStreamSynchronize_ok idx handles wqe P).map
        (fun _ => if cudaStreamSynchronize_ok then .POS_SUCCESS else .POS_FAILED) := by
  unfold generate_overlap_ckpt_scheme
  cases extract_modified_handles handles wqe idx [] with
  | none => rfl
  | some remain_handles =>
    simp only
    cases hd : distribute_handles query handles wqe.dag_vertex_id P remain_handles
        .POS_SUCCESS [] [.refresh P] with
    | none => rfl
    | some x =>
      obtain ⟨b, retval, calls⟩ := x
      obtain ⟨h1, h2⟩ := distribute_handles_retval query handles _ _ _ _ _ _ hd
      simp only at h1 h2
      subst h1
      subst h2
      cases cudaStreamSynchronize_ok <;> rfl

/-- A run of the merge pass alone. -/
theorem run_join {dbg : Bool} {g g1 : POSBipartiteGraph} (h : __join_topo g = some g1) :
    run dbg g [.join] = some (g1, []) := by
  simp only [run, step, h, List.append_nil]

/-- A run of the merge pass and of an `add_vertex` that does not return. -/
theorem run_join_add_none {dbg : Bool} {g g1 : POSBipartiteGraph} {T : Kind} {data : Nat}
    {neighbor : POSNeighborMap_t} (h : __join_topo g = some g1)
    (ha : add_vertex dbg T g1 data neighbor = none) :
    run dbg g [.join, .add T data neighbor] = none := by
  simp only [run, step, h, ha]

/-! ## Lemmas on the records of the `add_vertex` calls -/

/-- A call of `add_vertex` that returns either returns `POS_SUCCESS` and stores an id, or it
returns `POS_FAILED_NOT_EXIST` with the check compiled in and stores none. -/
theorem add_vertex_retval_id {dbg : Bool} {T : Kind} {g : POSBipartiteGraph} {data : Nat}
    {neighbor : POSNeighborMap_t} {r : AddResult}
    (h : add_vertex dbg T g data neighbor = some r) :
    (r.retval = .POS_SUCCESS ∧ ∃ v, r.id = some v) ∨
    (r.retval = .POS_FAILED_NOT_EXIST ∧ r.id = none ∧ dbg = true) := by
  cases hc : (dbg && neighbor_check_fails T g neighbor) with
  | true =>
    rw [add_vertex_check_fails hc] at h
    cases h
    rw [Bool.and_eq_true] at hc
    exact Or.inr ⟨rfl, rfl, hc.1⟩
  | false =>
    cases T with
    | T1 =>
      obtain ⟨e0, e1, -⟩ := add_vertex_T1_spec hc h
      exact Or.inl ⟨e0, _, e1⟩
    | T2 =>
      obtain ⟨e0, e1, -⟩ := add_vertex_T2_spec hc h
      exact Or.inl ⟨e0, _, e1⟩

/-- The records of a run are those of its `add_vertex` calls, in call order, and every record
is that of a success with an id or of a failed check without one. -/
theorem run_events {dbg : Bool} (ops : List Op) {g g1 : POSBipartiteGraph} {evs : List Event}
    (h : run dbg g ops = some (g1, evs)) :
    evs.map (fun e => (e.T, e.data, e.neighbor)) = add_calls ops ∧
    ∀ e ∈ evs, (e.retval = .POS_SUCCESS ∧ ∃ v, e.id = some v) ∨
      (e.retval = .POS_FAILED_NOT_EXIST ∧ e.id = none ∧ dbg = true) := by
  induction ops generalizing g evs with
  | nil =>
    simp only [run, Option.some.injEq, Prod.mk.injEq] at h
    obtain ⟨-, rfl⟩ := h
    exact ⟨rfl, fun e he => by cases he⟩
  | cons op ops ih =>
    obtain ⟨g2, ev, evs2, hs, hr, rfl⟩ := run_cons_some h
    obtain ⟨i1, i2⟩ := ih hr
    cases op with
    | add T data neighbor =>
      simp only [step] at hs
      cases ha : add_vertex dbg T g data neighbor with
      | none => rw [ha] at hs; cases hs
      | some r =>
        rw [ha] at hs
        simp only [Option.some.injEq, Prod.mk.injEq] at hs
        obtain ⟨-, rfl⟩ := hs
        refine ⟨by simp only [List.singleton_append, List.map_cons, add_calls, i1], ?_⟩
        intro e he
        simp only [List.singleton_append, List.mem_cons] at he
        rcases he with rfl | he
        · exact add_vertex_retval_id ha
        · exact i2 e he
    | join =>
      simp only [step] at hs
      cases hj : __join_topo g with
      | none => rw [hj] at hs; cases hs
      | some g3 =>
        rw [hj] at hs
        simp only [Option.some.injEq, Prod.mk.injEq] at hs
        obtain ⟨-, rfl⟩ := hs
        exact ⟨by simp only [List.nil_append, add_calls, i1], fun e he => i2 e (by simpa using he)⟩

/-- When every successful record holds an id, the ids of the successful records of a kind are
the assigned ids of that kind. -/
theorem successful_calls_ids (T : Kind) (evs : List Event)
    (hall : ∀ e ∈ evs, e.retval = .POS_SUCCESS → ∃ v, e.id = some v) :
    (successful_calls T evs).map (fun e => e.id) = (assigned_ids T evs).map some := by
  induction evs with
  | nil => rfl
  | cons e rest ih =>
    have ih1 := ih (fun x hx => hall x (List.mem_cons_of_mem _ hx))
    unfold successful_calls assigned_ids at ih1 ⊢
    by_cases hp : e.T = T ∧ e.retval = .POS_SUCCESS
    · obtain ⟨v, hv⟩ := hall e (List.mem_cons_self _ _) hp.2
      rw [List.filter_cons_of_pos (by simpa using hp), List.filterMap_cons_some (by
        simp only [hp, and_self, if_true]; exact hv)]
      simp only [List.map_cons, hv, ih1]
    · rw [List.filter_cons_of_neg (by simpa using hp), List.filterMap_cons_none (by
        simp only [hp, if_false])]
      exact ih1

/-- A run of three `add_vertex` calls. -/
theorem run_three_adds {dbg : Bool} {g : POSBipartiteGraph} {T T' T'' : Kind}
    {d d' d'' : Nat} {N N' N'' : POSNeighborMap_t} {r r' r'' : AddResult}
    (h : add_vertex dbg T g d N = some r) (h' : add_vertex dbg T' r.graph d' N' = some r')
    (h'' : add_vertex dbg T'' r'.graph d'' N'' = some r'') :
    run dbg g [.add T d N, .add T' d' N', .add T'' d'' N'']
      = some (r''.graph,
          [⟨T, d, N, r.retval, r.id⟩, ⟨T', d', N', r'.retval, r'.id⟩,
            ⟨T'', d'', N'', r''.retval, r''.id⟩]) := by
  simp only [run, step, h, h', h'', List.singleton_append, List.append_nil]

/-- The check of `add_vertex` fires on a neighbor id beyond the vertex vector of the other
kind. -/
theorem neighbor_check_fails_of_beyond {T : Kind} {g : POSBipartiteGraph}
    {neighbor : POSNeighborMap_t}
    (h : ∃ e ∈ neighbor, (vertices T.other g).length < e.1) :
    neighbor_check_fails T g neighbor = true := by
  obtain ⟨e, he, hlt⟩ := h
  cases T with
  | T1 =>
    simp only [neighbor_check_fails, List.any_eq_true, decide_eq_true_eq]
    exact ⟨e, he, hlt⟩
  | T2 =>
    simp only [neighbor_check_fails, List.any_eq_true, decide_eq_true_eq]
    exact ⟨e, he, hlt⟩

/-! ## Claims on `add_vertex` and `get_vertex_by_id` -/

/-- C2: along every sequence of calls on a fresh graph (fewer than `2 ^ 64` calls, the range of
the `uint64_t` counters), the records are those of the `add_vertex` calls in call order, and
every call either returns `POS_SUCCESS` and writes an id or fails the check and writes none.
Counting from `k = 0`, the record at position `k` among the successful `add_vertex<T1>` calls
holds the id `k`, and so does the record at position `k` among the successful
`add_vertex<T2>` calls, whatever calls of the other kind lie in between: the k-th successful
call of a kind writes `k - 1`. No id is written twice within a kind, and each counter is the
number of successful calls of its kind. -/
theorem C2_add_vertex_assigns_next_id (dbg : Bool) (ops : List Op) (g : POSBipartiteGraph)
    (evs : List Event) (hn : ops.length < UINT64_RANGE)
    (h : run dbg POSBipartiteGraph.new ops = some (g, evs)) :
    evs.map (fun e => (e.T, e.data, e.neighbor)) = add_calls ops ∧
    (∀ e ∈ evs, (e.retval = .POS_SUCCESS ∧ ∃ v, e.id = some v) ∨
      (e.retval = .POS_FAILED_NOT_EXIST ∧ e.id = none ∧ dbg = true)) ∧
    (∀ (T : Kind) (k : Nat) (e : Event), (successful_calls T evs)[k]? = some e →
      e.id = some k) ∧
    (∀ T, ((successful_calls T evs).map (fun e => e.id)).Nodup) ∧
    (successful_calls .T1 evs).length = g.max_t1_id ∧
    (successful_calls .T2 evs).length = g.max_t2_id ∧
    assigned_ids .T1 evs = List.range g.max_t1_id ∧
    assigned_ids .T2 evs = List.range g.max_t2_id := by
  obtain ⟨hcalls, hev⟩ := run_events ops h
  have hall : ∀ e ∈ evs, e.retval = .POS_SUCCESS → ∃ v, e.id = some v := by
    intro e he hs
    rcases hev e he with ⟨-, hv⟩ | ⟨hf, -⟩
    · exact hv
    · rw [hs] at hf
      cases hf
  have hids : ∀ T, (successful_calls T evs).map (fun e => e.id)
      = (List.range (max_id T g)).map some := by
    intro T
    rw [successful_calls_ids T evs hall, assigned_ids_from_new T hn h]
  have hlen : ∀ T, (successful_calls T evs).length = max_id T g := by
    intro T
    have := congrArg List.length (hids T)
    simpa using this
  refine ⟨hcalls, hev, ?_, ?_, hlen .T1, hlen .T2, assigned_ids_from_new .T1 hn h,
    assigned_ids_from_new .T2 hn h⟩
  · intro T k e hk
    have h1 : ((successful_calls T evs).map (fun e => e.id))[k]? = some e.id := by
      rw [List.getElem?_map, hk]
      rfl
    rw [hids T, List.getElem?_map] at h1
    have hlt : k < (List.range (max_id T g)).length := by
      by_contra hc
      rw [List.getElem?_eq_none (Nat.le_of_not_lt hc)] at h1
      cases h1
    rw [List.getElem?_eq_getElem hlt, List.getElem_range] at h1
    simp only [Option.map_some', Option.some.injEq] at h1
    exact h1.symm
  · intro T
    rw [hids T]
    exact (List.nodup_range _).map (Option.some_injective _)

/-- Witness of C2: three calls on a fresh graph, two of kind T1 around one of kind T2. All
three return `POS_SUCCESS`; the T1 calls write the ids `0` and `1` and the T2 call writes
`0`. -/
theorem C2_add_vertex_assigns_next_id_witness :
    ∃ g evs,
      run false POSBipartiteGraph.new
        [.add .T1 7 [], .add .T2 9 [(0, .kPOS_Edge_Direction_In)],
          .add .T1 8 [(0, .kPOS_Edge_Direction_Out)]] = some (g, evs) ∧
      evs.map (fun e => (e.T, e.retval, e.id))
        = [(Kind.T1, pos_retval_t.POS_SUCCESS, some 0),
            (Kind.T2, pos_retval_t.POS_SUCCESS, some 0),
            (Kind.T1, pos_retval_t.POS_SUCCESS, some 1)] ∧
      (evs.map (fun e => (e.T, e.data, e.neighbor))
          = add_calls [.add .T1 7 [], .add .T2 9 [(0, .kPOS_Edge_Direction_In)],
            .add .T1 8 [(0, .kPOS_Edge_Direction_Out)]] ∧
        (∀ e ∈ evs, (e.retval = .POS_SUCCESS ∧ ∃ v, e.id = some v) ∨
          (e.retval = .POS_FAILED_NOT_EXIST ∧ e.id = none ∧ false = true)) ∧
        (∀ (T : Kind) (k : Nat) (e : Event), (successful_calls T evs)[k]? = some e →
          e.id = some k) ∧
        (∀ T, ((successful_calls T evs).map (fun e => e.id)).Nodup) ∧
        (successful_calls .T1 evs).length = g.max_t1_id ∧
        (successful_calls .T2 evs).length = g.max_t2_id ∧
        assigned_ids .T1 evs = List.range g.max_t1_id ∧
        assigned_ids .T2 evs = List.range g.max_t2_id) := by
  have hR : (0 : Nat) + 1 < UINT64_RANGE := by unfold UINT64_RANGE; omega
  have hR2 : (0 : Nat) + 1 + 1 < UINT64_RANGE := by unfold UINT64_RANGE; omega
  obtain ⟨r1, h1⟩ := add_vertex_returns false .T1 7 [] inv_new (fun _ => Or.inl cacheFull_new)
  have hi1 := add_vertex_inv inv_new hR h1
  have hs1 := add_vertex_T1_spec (Bool.false_and _) h1
  obtain ⟨r2, h2⟩ :=
    add_vertex_returns false .T2 9 [(0, .kPOS_Edge_Direction_In)] hi1 (fun h => by cases h)
  have hi2 := add_vertex_inv hi1 hR2 h2
  have hs2 := add_vertex_T2_spec (Bool.false_and _) h2
  obtain ⟨r3, h3⟩ :=
    add_vertex_returns false .T1 8 [(0, .kPOS_Edge_Direction_Out)] hi2
      (fun _ => Or.inl (add_vertex_cacheFull (add_vertex_cacheFull cacheFull_new h1) h2))
  have hs3 := add_vertex_T1_spec (Bool.false_and _) h3
  have hrun := run_three_adds h1 h2 h3
  have e1 : r1.id = some 0 := by rw [hs1.2.1, new_max_t1_id]
  have m1 : r1.graph.max_t1_id = 1 := by
    rw [hs1.2.2.1, new_max_t1_id]
    unfold UINT64_RANGE
    rfl
  have e2 : r2.id = some 0 := by rw [hs2.2.1, hs1.2.2.2.1, new_max_t2_id]
  have e3 : r3.id = some 1 := by rw [hs3.2.1, hs2.2.2.2.1, m1]
  refine ⟨r3.graph, _, hrun, ?_,
    C2_add_vertex_assigns_next_id false _ r3.graph _ (length_lt_uint64 _ (by decide)) hrun⟩
  simp only [List.map_cons, List.map_nil, hs1.1, hs2.1, hs3.1, e1, e2, e3]

/-- C4: a call of `add_vertex` that returns `POS_FAILED_NOT_EXIST` leaves the whole graph (both
id counters, both vertex vectors, the T1 cache and the T2 map) as it was and stores no id. -/
theorem C4_add_vertex_not_exist_changes_nothing (dbg : Bool) (T : Kind) (g : POSBipartiteGraph)
    (data : Nat) (neighbor : POSNeighborMap_t) (r : AddResult)
    (h : add_vertex dbg T g data neighbor = some r)
    (hr : r.retval = .POS_FAILED_NOT_EXIST) : r.graph = g ∧ r.id = none := by
  cases hc : (dbg && neighbor_check_fails T g neighbor) with
  | true =>
    rw [add_vertex_check_fails hc] at h
    cases h
    exact ⟨rfl, rfl⟩
  | false =>
    cases T with
    | T1 =>
      have := (add_vertex_T1_spec hc h).1
      rw [this] at hr
      cases hr
    | T2 =>
      have := (add_vertex_T2_spec hc h).1
      rw [this] at hr
      cases hr

/-- Witness of C4: on a fresh graph, with the debug check compiled in, a neighbor id beyond the
vertex vector makes `add_vertex` fail. -/
theorem C4_add_vertex_not_exist_changes_nothing_witness :
    add_vertex true .T1 POSBipartiteGraph.new 7 [(kPOSBG_PREFILL_SIZE + 1, .kPOS_Edge_Direction_In)]
        = some ⟨.POS_FAILED_NOT_EXIST, none, POSBipartiteGraph.new⟩ ∧
      (POSBipartiteGraph.new = POSBipartiteGraph.new ∧ (none : Option Nat) = none) := by
  have hc : (true && neighbor_check_fails .T1 POSBipartiteGraph.new
      [(kPOSBG_PREFILL_SIZE + 1, .kPOS_Edge_Direction_In)]) = true := by
    simp [neighbor_check_fails, new_t2s_length]
  exact ⟨add_vertex_check_fails hc,
    C4_add_vertex_not_exist_changes_nothing true .T1 POSBipartiteGraph.new 7 _ _
      (add_vertex_check_fails hc) rfl⟩

/-- C5: along every sequence of calls on a fresh graph (fewer than `2 ^ 64` calls), once
`add_vertex<K>(data, neighbor)` has returned success with id `v`, `get_vertex_by_id<K>(v)`
returns `data`, right after the call and after any further calls, for both kinds and also for
ids beyond the prefilled slots. -/
theorem C5_get_vertex_by_id_after_add_vertex (dbg : Bool) (pre post : List Op) (K : Kind)
    (data : Nat) (neighbor : POSNeighborMap_t) (g0 g2 : POSBipartiteGraph)
    (evs0 evs2 : List Event) (r : AddResult) (v : Nat)
    (hn : pre.length + 1 + post.length < UINT64_RANGE)
    (hpre : run dbg POSBipartiteGraph.new pre = some (g0, evs0))
    (hadd : add_vertex dbg K g0 data neighbor = some r)
    (hret : r.retval = .POS_SUCCESS) (hid : r.id = some v)
    (hpost : run dbg r.graph post = some (g2, evs2)) :
    get_vertex_by_id K g2 v = some data := by
  have hi0 : Inv (0 + pre.length) g0 := run_inv pre inv_new (by omega) hpre
  have hi1 := add_vertex_inv hi0 (by omega) hadd
  rcases add_vertex_cases hi0 (by omega) hadd with ⟨e0, -⟩ | ⟨-, e1, e2, -, -, e5, -, -⟩
  · rw [e0] at hret
    cases hret
  · rw [e1] at hid
    cases hid
    obtain ⟨-, -, b3⟩ := run_ids K post hi1 (by omega) hpost
    have := b3 (max_id K g0) (by omega)
    rw [e5] at this
    exact get_vertex_by_id_of_slot K g2 _ data _ this

/-- Witness of C5: a T2 vertex added between two T1 vertices is read back after them. -/
theorem C5_get_vertex_by_id_after_add_vertex_witness :
    ∃ g0 evs0 r v g2 evs2,
      run false POSBipartiteGraph.new [.add .T1 7 []] = some (g0, evs0) ∧
      add_vertex false .T2 g0 9 [(0, .kPOS_Edge_Direction_In)] = some r ∧
      r.retval = .POS_SUCCESS ∧ r.id = some v ∧
      run false r.graph [.add .T1 8 [], .add .T2 11 []] = some (g2, evs2) ∧
      get_vertex_by_id .T2 g2 v = some 9 := by
  obtain ⟨g0, evs0, h0, hcf0⟩ :=
    run_adds_returns false [.add .T1 7 []] inv_new cacheFull_new
      (by rw [Nat.zero_add]; exact length_lt_uint64 _ (by decide)) rfl
  have hi0 : Inv (0 + 1) g0 :=
    run_inv [.add .T1 7 []] inv_new (by unfold UINT64_RANGE; simp) h0
  obtain ⟨r, hr⟩ :=
    add_vertex_returns false .T2 9 [(0, .kPOS_Edge_Direction_In)] hi0 (fun h => by cases h)
  have hi1 := add_vertex_inv hi0 (by unfold UINT64_RANGE; omega) hr
  obtain ⟨g2, evs2, h2, -⟩ :=
    run_adds_returns false [.add .T1 8 [], .add .T2 11 []] hi1 (add_vertex_cacheFull hcf0 hr)
      (by unfold UINT64_RANGE; simp) rfl
  have hs := add_vertex_T2_spec (Bool.false_and _) hr
  exact ⟨g0, evs0, r, g0.max_t2_id, g2, evs2, h0, hr, hs.1, hs.2.1, h2,
    C5_get_vertex_by_id_after_add_vertex false _ _ .T2 9 _ g0 g2 evs0 evs2 r _
      (by unfold UINT64_RANGE; simp) h0 hr hs.1 hs.2.1 h2⟩

/-- C6, the code at the failing input: on a fresh graph `get_vertex_by_id<T2>` with the id
`1048576`, which is the size of `_t2s`, returns no value (its statement is `{ nullptr; }`),
while `get_vertex_by_id<T1>` returns `nullptr` there. -/
theorem C6_get_vertex_by_id_T2_beyond_vector :
    get_vertex_by_id .T2 POSBipartiteGraph.new 1048576 = none ∧
    get_vertex_by_id .T1 POSBipartiteGraph.new 1048576 = some nullptr := by
  constructor
  · simp only [get_vertex_by_id, new_t2s_length, kPOSBG_PREFILL_SIZE_eq]
    rfl
  · simp only [get_vertex_by_id, new_t1s_length, kPOSBG_PREFILL_SIZE_eq]
    rfl

/-- C3, the claim fails: on a fresh graph no T2 id has been assigned, yet with the debug check
compiled out `add_vertex<T1>` returns success for the neighbor id `5`, and also for the
neighbor id `1048577`, which lies beyond the vertex vector; and by the text of the check,
`_t2s.size() < id`, the call with the check compiled in returns success for the neighbor id
`1048576`. -/
theorem C3_add_vertex_not_found_iff_unknown_counterexample :
    (add_vertex false .T1 POSBipartiteGraph.new 7 [(5, .kPOS_Edge_Direction_In)]).map
        (fun r => r.retval) = some .POS_SUCCESS ∧
    (add_vertex false .T1 POSBipartiteGraph.new 7 [(1048577, .kPOS_Edge_Direction_In)]).map
        (fun r => r.retval) = some .POS_SUCCESS ∧
    (add_vertex true .T1 POSBipartiteGraph.new 7 [(1048576, .kPOS_Edge_Direction_In)]).map
        (fun r => r.retval) = some .POS_SUCCESS ∧
    run false POSBipartiteGraph.new [] = some (POSBipartiteGraph.new, []) ∧
    5 ∉ assigned_ids .T2 [] ∧ 1048577 ∉ assigned_ids .T2 [] ∧
    1048576 ∉ assigned_ids .T2 [] := by
  have hc1 : (true && neighbor_check_fails .T1 POSBipartiteGraph.new
      [(1048576, .kPOS_Edge_Direction_In)]) = false := by
    simp [neighbor_check_fails, new_t2s_length, kPOSBG_PREFILL_SIZE_eq]
  obtain ⟨r1, h1⟩ :=
    add_vertex_returns true .T1 7 [(1048576, .kPOS_Edge_Direction_In)] inv_new
      (fun _ => Or.inl cacheFull_new)
  obtain ⟨r2, h2⟩ :=
    add_vertex_returns false .T1 7 [(5, .kPOS_Edge_Direction_In)] inv_new
      (fun _ => Or.inl cacheFull_new)
  obtain ⟨r3, h3⟩ :=
    add_vertex_returns false .T1 7 [(1048577, .kPOS_Edge_Direction_In)] inv_new
      (fun _ => Or.inl cacheFull_new)
  refine ⟨?_, ?_, ?_, rfl, by simp [assigned_ids], by simp [assigned_ids],
    by simp [assigned_ids]⟩
  · rw [h2, Option.map_some', (add_vertex_T1_spec (Bool.false_and _) h2).1]
  · rw [h3, Option.map_some', (add_vertex_T1_spec (Bool.false_and _) h3).1]
  · rw [h1, Option.map_some', (add_vertex_T1_spec hc1 h1).1]

/-- C3 as amended: after any sequence of calls on a fresh graph (fewer than `2 ^ 64` calls),
the vertex vector of the other kind has as many slots as ids were assigned, and never fewer
than the prefill size. A call of `add_vertex` with the debug check compiled in returns
`POS_FAILED_NOT_EXIST`, leaving the graph as it was, whenever some id of the supplied neighbor
map is greater than the size of that vector; a call returns `POS_FAILED_NOT_EXIST` only if the
check is compiled in and some supplied id has not been assigned by an earlier `add_vertex` of
the other kind; with the check compiled out, or with every supplied id assigned, a call that
returns returns `POS_SUCCESS`; and when no merge pass has run the call does return. -/
theorem C3_add_vertex_not_found_conditions (dbg : Bool) (pre : List Op) (T : Kind)
    (data : Nat) (neighbor : POSNeighborMap_t) (g : POSBipartiteGraph) (evs : List Event)
    (hn : pre.length + 1 < UINT64_RANGE)
    (hpre : run dbg POSBipartiteGraph.new pre = some (g, evs)) :
    (no_join pre = true → ∃ r, add_vertex dbg T g data neighbor = some r) ∧
    (vertices T.other g).length
      = max kPOSBG_PREFILL_SIZE (assigned_ids T.other evs).length ∧
    (dbg = true → (∃ e ∈ neighbor, (vertices T.other g).length < e.1) →
      add_vertex dbg T g data neighbor = some ⟨.POS_FAILED_NOT_EXIST, none, g⟩) ∧
    (∀ r, add_vertex dbg T g data neighbor = some r →
      (r.retval = .POS_FAILED_NOT_EXIST →
        dbg = true ∧ ∃ e ∈ neighbor, e.1 ∉ assigned_ids T.other evs) ∧
      (dbg = false → r.retval = .POS_SUCCESS) ∧
      ((∀ e ∈ neighbor, e.1 ∈ assigned_ids T.other evs) → r.retval = .POS_SUCCESS)) := by
  have hi : Inv (0 + pre.length) g := run_inv pre inv_new (by omega) hpre
  have hids := assigned_ids_from_new T.other (by omega) hpre
  have key : ∀ r, add_vertex dbg T g data neighbor = some r →
      r.retval = .POS_FAILED_NOT_EXIST →
        dbg = true ∧ ∃ e ∈ neighbor, e.1 ∉ assigned_ids T.other evs := by
    intro r hr hret
    rcases add_vertex_cases hi (by omega) hr with ⟨-, -, -, hc⟩ | ⟨e0, -⟩
    · rw [Bool.and_eq_true] at hc
      obtain ⟨e, he, hlt⟩ := neighbor_check_fails_unknown hi hc.2
      refine ⟨hc.1, e, he, ?_⟩
      rw [hids, List.mem_range]
      omega
    · rw [e0] at hret
      cases hret
  refine ⟨?_, ?_, ?_, fun r hr => ⟨key r hr, ?_, ?_⟩⟩
  · intro hj
    obtain ⟨g1, evs1, h1, hcf⟩ :=
      run_adds_returns dbg pre inv_new cacheFull_new (by omega) hj
    rw [hpre] at h1
    cases h1
    exact add_vertex_returns dbg T data neighbor hi (fun _ => Or.inl hcf)
  · rw [hids, List.length_range]
    cases T with
    | T1 => exact hi.len2
    | T2 => exact hi.len1
  · intro hd hex
    exact add_vertex_check_fails (by rw [hd, neighbor_check_fails_of_beyond hex]; rfl)
  · intro hd
    rcases add_vertex_cases hi (by omega) hr with ⟨hret, -⟩ | ⟨e0, -⟩
    · have := (key r hr hret).1
      rw [hd] at this
      cases this
    · exact e0
  · intro hall
    rcases add_vertex_cases hi (by omega) hr with ⟨hret, -⟩ | ⟨e0, -⟩
    · obtain ⟨-, e, he, hne⟩ := key r hr hret
      exact absurd (hall e he) hne
    · exact e0

/-- Witness of C3 as amended: after one `add_vertex<T2>`, with the check compiled in,
`add_vertex<T1>` with the neighbor id `1048577`, beyond the `1048576` slots of the T2 vector,
returns `POS_FAILED_NOT_EXIST` and leaves the graph as it was. -/
theorem C3_add_vertex_not_found_conditions_witness :
    ∃ g evs,
      run true POSBipartiteGraph.new [.add .T2 9 []] = some (g, evs) ∧
      add_vertex true .T1 g 7 [(1048577, .kPOS_Edge_Direction_In)]
        = some ⟨.POS_FAILED_NOT_EXIST, none, g⟩ ∧
      ((no_join [.add .T2 9 []] = true →
          ∃ r, add_vertex true .T1 g 7 [(1048577, .kPOS_Edge_Direction_In)] = some r) ∧
        (vertices Kind.T1.other g).length
          = max kPOSBG_PREFILL_SIZE (assigned_ids Kind.T1.other evs).length ∧
        (true = true →
          (∃ e ∈ [(1048577, pos_edge_direction_t.kPOS_Edge_Direction_In)],
            (vertices Kind.T1.other g).length < e.1) →
          add_vertex true .T1 g 7 [(1048577, .kPOS_Edge_Direction_In)]
            = some ⟨.POS_FAILED_NOT_EXIST, none, g⟩) ∧
        (∀ r, add_vertex true .T1 g 7 [(1048577, .kPOS_Edge_Direction_In)] = some r →
          (r.retval = .POS_FAILED_NOT_EXIST →
            true = true ∧
              ∃ e ∈ [(1048577, pos_edge_direction_t.kPOS_Edge_Direction_In)],
                e.1 ∉ assigned_ids Kind.T1.other evs) ∧
          (true = false → r.retval = .POS_SUCCESS) ∧
          ((∀ e ∈ [(1048577, pos_edge_direction_t.kPOS_Edge_Direction_In)],
              e.1 ∈ assigned_ids Kind.T1.other evs) → r.retval = .POS_SUCCESS))) := by
  obtain ⟨g, evs, h, -⟩ :=
    run_adds_returns true [.add .T2 9 []] inv_new cacheFull_new
      (by unfold UINT64_RANGE; simp) rfl
  have hi : Inv (0 + 1) g :=
    run_inv [.add .T2 9 []] inv_new (by unfold UINT64_RANGE; simp) h
  have main := C3_add_vertex_not_found_conditions true _ .T1 7
    [(1048577, .kPOS_Edge_Direction_In)] g evs (by unfold UINT64_RANGE; simp) h
  have hlen : (vertices Kind.T1.other g).length < 1048577 := by
    have h2 := hi.len2
    have h3 := hi.max2
    rw [kPOSBG_PREFILL_SIZE_eq] at h2
    simp only [Kind.other, vertices]
    omega
  exact ⟨g, evs, h, main.2.2.1 rfl ⟨_, List.mem_singleton.mpr rfl, hlen⟩, main⟩

/-! ## Claims on the merge pass and the dump -/

/-- C1: after any sequence of calls on a fresh graph (fewer than `2 ^ 64` calls), let
`add_vertex<T1>(data, neighbor)` return success with id `v`, every id of `neighbor` being the
id of a T2 vertex added before. Whenever the merge pass `__join_topo` then returns, for every
entry `t ↦ d` of `neighbor` the neighbor map of `t` in `_topo` maps `v` to `d`; and the merge
pass does return when every neighbor id cached before the call is a key of `_topo`. The merged
graph is the one that `dump_graph_to_file` writes out, and the neighbor map is what
`get_vertex_neighbors_by_id<T2>(t)` returns if the macro `POS_ERROR_C_DETAIL` at its start
returns; if the macro does not return, neither does that call. -/
theorem C1_add_vertex_T1_then_merge (dbg : Bool) (pre : List Op) (data : Nat)
    (neighbor : POSNeighborMap_t) (g : POSBipartiteGraph) (evs : List Event) (r : AddResult)
    (v : Nat) (hn : pre.length + 1 < UINT64_RANGE)
    (hpre : run dbg POSBipartiteGraph.new pre = some (g, evs))
    (hN : ∀ e ∈ neighbor, e.1 ∈ assigned_ids .T2 evs)
    (hadd : add_vertex dbg .T1 g data neighbor = some r)
    (hret : r.retval = .POS_SUCCESS) (hid : r.id = some v) :
    (CacheValid g → ∃ g2, __join_topo r.graph = some g2) ∧
    (∀ g2, __join_topo r.graph = some g2 → ∀ t d, map_find neighbor t = some d →
      ∃ m, map_find g2._topo t = some m ∧ map_find m v = some d ∧
        (∀ tsc_freq serilize_t1 serilize_t2,
          ∃ out, dump_graph_to_file tsc_freq serilize_t1 serilize_t2 r.graph
            = some (g2, out)) ∧
        get_vertex_neighbors_by_id_T2 true r.graph t = some (g2, some m) ∧
        get_vertex_neighbors_by_id_T2 false r.graph t = none) := by
  have hi : Inv (0 + pre.length) g := run_inv pre inv_new (by omega) hpre
  have hids := assigned_ids_from_new .T2 (by omega) hpre
  have hkeys : ∀ e ∈ neighbor, e.1 ∈ map_keys g._topo := by
    intro e he
    have := hN e he
    rw [hids, List.mem_range] at this
    rw [hi.topo_keys, List.mem_range]
    simp only [max_id] at this
    omega
  have hv : v = g.max_t1_id := by
    rcases add_vertex_cases hi (by omega) hadd with ⟨e0, -⟩ | ⟨-, e1, -⟩
    · rw [e0] at hret
      cases hret
    · rw [e1] at hid
      cases hid
      rfl
  constructor
  · intro hcv
    exact join_topo_returns (add_vertex_inv hi (by omega) hadd)
      (add_vertex_cacheValid hi (by omega) hcv hadd (fun _ => hkeys))
  · intro g2 hjoin t d hd
    obtain ⟨m, hm1, hm2⟩ :=
      add_T1_then_join_find hi (by omega) hadd hret hjoin t d
        (hkeys _ (map_find_mem _ _ _ hd)) hd
    refine ⟨m, hm1, by rw [hv]; exact hm2, ?_, ?_, ?_⟩
    · intro tsc_freq serilize_t1 serilize_t2
      exact ⟨dump_header tsc_freq g2 ++ dump_vertices serilize_t1 g2._t1s
        ++ dump_vertices serilize_t2 g2._t2s ++ dump_topo g2._topo,
        by simp only [dump_graph_to_file, hjoin]⟩
    · simp only [get_vertex_neighbors_by_id_T2, hjoin, hm1, if_true]
    · simp only [get_vertex_neighbors_by_id_T2, Bool.false_eq_true, if_false]

/-- Witness of C1: a T2 vertex is added to a fresh graph, then a T1 vertex that lists it; the
merge pass returns and the neighbor map of the T2 vertex in `_topo` holds the new edge. -/
theorem C1_add_vertex_T1_then_merge_witness :
    ∃ g evs r v g2 m,
      run false POSBipartiteGraph.new [.add .T2 9 []] = some (g, evs) ∧
      add_vertex false .T1 g 7 [(0, .kPOS_Edge_Direction_InOut)] = some r ∧
      r.retval = .POS_SUCCESS ∧ r.id = some v ∧
      __join_topo r.graph = some g2 ∧
      map_find g2._topo 0 = some m ∧
      map_find m v = some .kPOS_Edge_Direction_InOut ∧
      get_vertex_neighbors_by_id_T2 true r.graph 0 = some (g2, some m) := by
  obtain ⟨r0, h0⟩ := add_vertex_returns false .T2 9 [] inv_new (fun h => by cases h)
  have hi0 := add_vertex_inv inv_new (by unfold UINT64_RANGE; omega) h0
  have hs0 := add_vertex_T2_first new_max_t2_id (Bool.false_and _) h0
  have hcv0 := add_vertex_cacheValid inv_new (by unfold UINT64_RANGE; omega) cacheValid_new h0
    (fun h => by cases h)
  obtain ⟨r, hr⟩ :=
    add_vertex_returns false .T1 7 [(0, .kPOS_Edge_Direction_InOut)] hi0
      (fun _ => Or.inl (add_vertex_cacheFull cacheFull_new h0))
  have hs := add_vertex_T1_spec (Bool.false_and _) hr
  have hrun := run_one_add h0
  have hN : ∀ e ∈ [(0, pos_edge_direction_t.kPOS_Edge_Direction_InOut)],
      e.1 ∈ assigned_ids .T2 [⟨.T2, 9, [], r0.retval, r0.id⟩] := by
    intro e he
    simp only [List.mem_singleton] at he
    subst he
    simp [assigned_ids, hs0.1, hs0.2.1]
  have main := C1_add_vertex_T1_then_merge false [.add .T2 9 []] 7
    [(0, .kPOS_Edge_Direction_InOut)] r0.graph _ r r0.graph.max_t1_id
    (by unfold UINT64_RANGE; simp) hrun hN hr hs.1 hs.2.1
  obtain ⟨g2, hg2⟩ := main.1 hcv0
  obtain ⟨m, hm1, hm2, -, hm3, -⟩ :=
    main.2 g2 hg2 0 .kPOS_Edge_Direction_InOut (by simp [map_find])
  exact ⟨r0.graph, _, r, _, g2, m, hrun, hr, hs.1, hs.2.1, hg2, hm1, hm2, hm3⟩

/-- C8, the code at the failing input: one T1 vertex and one T2 vertex are added to a fresh
graph and the graph is dumped. The first line announces `1048576` vertices of each kind (the
sizes of the prefilled vectors), and it is followed by one T1 payload line and one T2 payload
line, after which the topology lines start. -/
theorem C8_dump_header_counts_prefilled_slots :
    ∃ g evs g1 out,
      run false POSBipartiteGraph.new [.add .T1 7 [], .add .T2 9 []] = some (g, evs) ∧
      dump_graph_to_file 1 (fun _ => "a") (fun _ => "b") g = some (g1, out) ∧
      out = [Tok.num 1048576, Tok.sep, Tok.num 1048576, Tok.sep, Tok.num 1, Tok.endl]
              ++ [Tok.str "a", Tok.endl] ++ [Tok.str "b", Tok.endl] ++ dump_topo g1._topo ∧
      nb_lines (dump_vertices (fun _ => "a") g1._t1s) = 1 ∧
      nb_lines (dump_vertices (fun _ => "b") g1._t2s) = 1 := by
  have hR : (0 : Nat) + 1 < UINT64_RANGE := by unfold UINT64_RANGE; omega
  have hR2 : (0 : Nat) + 1 + 1 < UINT64_RANGE := by unfold UINT64_RANGE; omega
  obtain ⟨r1, h1⟩ := add_vertex_returns false .T1 7 [] inv_new (fun _ => Or.inl cacheFull_new)
  have hi1 := add_vertex_inv inv_new hR h1
  have hs1 := add_vertex_T1_first new_max_t1_id (Bool.false_and _) h1
  have hcv1 := add_vertex_cacheValid inv_new hR cacheValid_new h1 (fun _ x hx => by cases hx)
  obtain ⟨r2, h2⟩ := add_vertex_returns false .T2 9 [] hi1 (fun h => by cases h)
  have hi2 := add_vertex_inv hi1 hR2 h2
  have hs2 := add_vertex_T2_first (hs1.2.2.2.2.1.trans new_max_t2_id) (Bool.false_and _) h2
  have hcv2 := add_vertex_cacheValid hi1 hR2 hcv1 h2 (fun h => by cases h)
  obtain ⟨g1, hj⟩ := join_topo_returns hi2 hcv2
  obtain ⟨-, -, j3, j4, -, -⟩ := join_topo_spec hj
  have e1 : g1._t1s = ⟨7, 0⟩ :: List.replicate 1048575 ⟨nullptr, 0⟩ := by
    rw [j3, hs2.2.2.2.1, hs1.2.2.1, new_t1s, prefilled_set_zero]
  have e2 : g1._t2s = ⟨9, 0⟩ :: List.replicate 1048575 ⟨nullptr, 0⟩ := by
    rw [j4, hs2.2.2.1, hs1.2.2.2.1, new_t2s, prefilled_set_zero]
  have d1 : dump_vertices (fun _ => "a") g1._t1s = [Tok.str "a", Tok.endl] := by
    rw [e1, dump_vertices, if_neg (by decide), dump_vertices_replicate]
    rfl
  have d2 : dump_vertices (fun _ => "b") g1._t2s = [Tok.str "b", Tok.endl] := by
    rw [e2, dump_vertices, if_neg (by decide), dump_vertices_replicate]
    rfl
  refine ⟨r2.graph, _, g1,
    dump_header 1 g1 ++ dump_vertices (fun _ => "a") g1._t1s
      ++ dump_vertices (fun _ => "b") g1._t2s ++ dump_topo g1._topo,
    run_two_adds h1 h2, by simp only [dump_graph_to_file, hj], ?_, ?_, ?_⟩
  · have l1 : g1._t1s.length = 1048576 := by
      rw [j3, hs2.2.2.2.1, hs1.2.2.1, List.length_set, new_t1s_length, kPOSBG_PREFILL_SIZE_eq]
    have l2 : g1._t2s.length = 1048576 := by
      rw [j4, hs2.2.2.1, List.length_set, hs1.2.2.2.1, new_t2s_length, kPOSBG_PREFILL_SIZE_eq]
    rw [d1, d2, dump_header, l1, l2]
  · rw [d1]
    rfl
  · rw [d2]
    rfl

/-- C7, the claim fails: a T1 vertex is added with no neighbors, then a T2 vertex whose own
neighbor map lists the T1 id `0`. The dump writes for the T2 id `0` the line `0, 1, 0, In`, of
degree 1, although no `add_vertex<T1>` call listed the T2 id `0`. -/
theorem C7_dump_degree_counts_T1_listings_counterexample :
    ∃ g evs g1 out,
      run false POSBipartiteGraph.new
        [.add .T1 7 [], .add .T2 9 [(0, .kPOS_Edge_Direction_In)]] = some (g, evs) ∧
      dump_graph_to_file 1 (fun _ => "a") (fun _ => "b") g = some (g1, out) ∧
      (0, [(0, pos_edge_direction_t.kPOS_Edge_Direction_In)]) ∈ g1._topo ∧
      fields (dump_topo_entry 0 [(0, .kPOS_Edge_Direction_In)])
        = [Tok.num 0, Tok.num 1, Tok.num 0, Tok.dir .kPOS_Edge_Direction_In] ∧
      (∀ ev ∈ evs, ev.T = .T1 → map_find ev.neighbor 0 = none) := by
  have hR : (0 : Nat) + 1 < UINT64_RANGE := by unfold UINT64_RANGE; omega
  obtain ⟨r1, h1⟩ := add_vertex_returns false .T1 7 [] inv_new (fun _ => Or.inl cacheFull_new)
  have hi1 := add_vertex_inv inv_new hR h1
  have hs1 := add_vertex_T1_first new_max_t1_id (Bool.false_and _) h1
  obtain ⟨r2, h2⟩ :=
    add_vertex_returns false .T2 9 [(0, .kPOS_Edge_Direction_In)] hi1 (fun h => by cases h)
  have hs2 := add_vertex_T2_first (hs1.2.2.2.2.1.trans new_max_t2_id) (Bool.false_and _) h2
  have hrun := run_two_adds h1 h2
  rw [hs1.1, hs1.2.1, hs2.1, hs2.2.1] at hrun
  obtain ⟨hi, hr⟩ := run_adds_from_new hrun (by unfold UINT64_RANGE; simp) rfl
  have hcv : CacheValid r2.graph := by
    apply cacheValid_of_events hi hr
    intro ev hev hT _ x hx
    simp only [List.mem_cons, List.mem_singleton, List.not_mem_nil, or_false] at hev
    rcases hev with rfl | rfl
    · cases hx
    · cases hT
  obtain ⟨g1, hj⟩ := join_topo_returns hi hcv
  have hi1' := join_inv hi hj
  have hkey : (0 : Nat) ∈ map_keys g1._topo := by
    rw [hi1'.topo_keys, List.mem_range, kPOSBG_PREFILL_SIZE_eq]
    omega
  cases hm : map_find g1._topo 0 with
  | none => exact absurd hkey ((map_find_none_iff _ _).1 hm)
  | some m =>
    have hmem := map_find_mem _ _ _ hm
    have hsorted := hi1'.topo_vals _ hmem
    have hm_eq : m = [(0, pos_edge_direction_t.kPOS_Edge_Direction_In)] := by
      apply map_ext _ _ hsorted (by simp [map_keys])
      intro v
      rw [join_declared hi hr hj 0 m hm v]
      by_cases hv : v = 0
      · subst hv
        simp [declared_edge, declared_neighbors, List.find?_cons, map_find]
      · have hv2 : ¬ (0 = v) := fun h => hv h.symm
        simp [declared_edge, declared_neighbors, List.find?_cons, map_find, hv, hv2]
    rw [hm_eq] at hmem
    refine ⟨r2.graph, _, g1,
      dump_header 1 g1 ++ dump_vertices (fun _ => "a") g1._t1s
        ++ dump_vertices (fun _ => "b") g1._t2s ++ dump_topo g1._topo,
      hrun, by simp only [dump_graph_to_file, hj], hmem, rfl, ?_⟩
    intro ev hev hT
    simp only [List.mem_cons, List.mem_singleton, List.not_mem_nil, or_false] at hev
    rcases hev with rfl | rfl
    · rfl
    · cases hT

/-- C7 as amended: for every graph built from a fresh one by `add_vertex` calls alone (fewer
than `2 ^ 64`), the dump, when it is written, ends with the topology section, which has exactly
one line for every key of `_topo`, the keys being `0 .. max(1048576, number of T2 vertices) - 1`
in ascending order; the line of the key `t` reads `t, degree, n1, dir1, ...`, where the pairs
`(n, dir)` are in ascending order of `n` without repetition and are exactly the declared edges
of `t`: the direction that the `add_vertex<T1>` call of `n` gave for `t`, and otherwise the
direction that the `add_vertex<T2>` call of `t` itself gave for `n`. The dump is written
whenever every neighbor id listed by a successful `add_vertex<T1>` call is a key of `_topo`. -/
theorem C7_dump_topology_lines (dbg : Bool) (ops : List Op) (g : POSBipartiteGraph)
    (evs : List Event) (tsc_freq : Nat) (s1 s2 : Nat → String)
    (hn : ops.length < UINT64_RANGE) (hj : no_join ops = true)
    (hrun : run dbg POSBipartiteGraph.new ops = some (g, evs)) :
    ((∀ ev ∈ evs, ev.T = .T1 → ev.retval = .POS_SUCCESS →
        ∀ x ∈ ev.neighbor, x.1 < max kPOSBG_PREFILL_SIZE g.max_t2_id) →
      ∃ g1 out, dump_graph_to_file tsc_freq s1 s2 g = some (g1, out)) ∧
    (∀ g1 out, dump_graph_to_file tsc_freq s1 s2 g = some (g1, out) →
      out = dump_header tsc_freq g1 ++ dump_vertices s1 g1._t1s ++ dump_vertices s2 g1._t2s
        ++ g1._topo.flatMap (fun e => dump_topo_entry e.1 e.2) ∧
      map_keys g1._topo = List.range (max kPOSBG_PREFILL_SIZE g.max_t2_id) ∧
      ∀ e ∈ g1._topo,
        nb_lines (dump_topo_entry e.1 e.2) = 1 ∧
        fields (dump_topo_entry e.1 e.2) =
          [Tok.num e.1, Tok.num e.2.length]
            ++ e.2.flatMap (fun p => [Tok.num p.1, Tok.dir p.2]) ∧
        (map_keys e.2).Pairwise (· < ·) ∧
        ∀ v d, (v, d) ∈ e.2 ↔ declared_edge evs e.1 v = some d) := by
  obtain ⟨hi, hr⟩ := run_adds_from_new hrun hn hj
  constructor
  · intro hv
    obtain ⟨g1, hg1⟩ := join_topo_returns hi (cacheValid_of_events hi hr hv)
    exact ⟨g1, dump_header tsc_freq g1 ++ dump_vertices s1 g1._t1s ++ dump_vertices s2 g1._t2s
      ++ dump_topo g1._topo, by simp only [dump_graph_to_file, hg1]⟩
  · intro g1 out hd
    obtain ⟨hjoin, hout⟩ := dump_graph_to_file_spec hd
    obtain ⟨hkeys, hent⟩ := dump_entries hi hr hjoin
    refine ⟨hout, hkeys, fun e he => ?_⟩
    obtain ⟨l1, l2⟩ := dump_topo_entry_line e.1 e.2
    exact ⟨l1, l2, hent e he⟩

/-- Witness of C7 as amended: a T2 vertex, then a T1 vertex that lists it. -/
theorem C7_dump_topology_lines_witness :
    ∃ g evs,
      run false POSBipartiteGraph.new
        [.add .T2 9 [], .add .T1 7 [(0, .kPOS_Edge_Direction_Out)]] = some (g, evs) ∧
      (∃ g1 out, dump_graph_to_file 1 (fun _ => "a") (fun _ => "b") g = some (g1, out)) ∧
      (∀ g1 out, dump_graph_to_file 1 (fun _ => "a") (fun _ => "b") g = some (g1, out) →
        out = dump_header 1 g1 ++ dump_vertices (fun _ => "a") g1._t1s
          ++ dump_vertices (fun _ => "b") g1._t2s
          ++ g1._topo.flatMap (fun e => dump_topo_entry e.1 e.2) ∧
        map_keys g1._topo = List.range (max kPOSBG_PREFILL_SIZE g.max_t2_id) ∧
        ∀ e ∈ g1._topo,
          nb_lines (dump_topo_entry e.1 e.2) = 1 ∧
          fields (dump_topo_entry e.1 e.2) =
            [Tok.num e.1, Tok.num e.2.length]
              ++ e.2.flatMap (fun p => [Tok.num p.1, Tok.dir p.2]) ∧
          (map_keys e.2).Pairwise (· < ·) ∧
          ∀ v d, (v, d) ∈ e.2 ↔ declared_edge evs e.1 v = some d) := by
  obtain ⟨r1, h1⟩ := add_vertex_returns false .T2 9 [] inv_new (fun h => by cases h)
  have hi1 := add_vertex_inv inv_new (by unfold UINT64_RANGE; omega) h1
  obtain ⟨r2, h2⟩ :=
    add_vertex_returns false .T1 7 [(0, .kPOS_Edge_Direction_Out)] hi1
      (fun _ => Or.inl (add_vertex_cacheFull cacheFull_new h1))
  have hrun := run_two_adds h1 h2
  have main := C7_dump_topology_lines false
    [.add .T2 9 [], .add .T1 7 [(0, .kPOS_Edge_Direction_Out)]] r2.graph _ 1
    (fun _ => "a") (fun _ => "b") (by unfold UINT64_RANGE; simp) rfl hrun
  refine ⟨r2.graph, _, hrun, main.1 ?_, main.2⟩
  intro ev hev hT _ x hx
  simp only [List.mem_cons, List.mem_singleton, List.not_mem_nil, or_false] at hev
  rcases hev with rfl | rfl
  · cases hT
  · simp only [List.mem_singleton] at hx
    subst hx
    have : (0 : Nat) < kPOSBG_PREFILL_SIZE := by rw [kPOSBG_PREFILL_SIZE_eq]; omega
    exact lt_of_lt_of_le this (le_max_left _ _)

/-! ## Claims on the kernel-meta record -/

/-- C9, the claim fails: handles with the same record that differ in a listed field. The
names `a|b` and `a` with the signatures `c` and `b|c` give the same record, and so do an
unverified handle that holds a confirmed pair and one that holds none. -/
theorem C9_record_determines_fields_counterexample :
    (dump_function_metas ⟨"a|b".toList, "c".toList, 0, [], [], [], [], [], [], false, [], 0⟩
        = some "a|b|c|0|0|0|0|0|0|0".toList ∧
      dump_function_metas ⟨"a".toList, "b|c".toList, 0, [], [], [], [], [], [], false, [], 0⟩
        = some "a|b|c|0|0|0|0|0|0|0".toList ∧
      "a|b".toList ≠ "a".toList) ∧
    (dump_function_metas ⟨"k".toList, "s".toList, 0, [], [], [], [], [], [], false, [(0, 8)], 0⟩
        = some "k|s|0|0|0|0|0|0|0".toList ∧
      dump_function_metas ⟨"k".toList, "s".toList, 0, [], [], [], [], [], [], false, [], 0⟩
        = some "k|s|0|0|0|0|0|0|0".toList ∧
      [((0 : Nat), (8 : Nat))] ≠ []) := by
  refine ⟨⟨?_, ?_, by decide⟩, ⟨?_, ?_, by decide⟩⟩ <;>
  · rw [dump_function_metas_eq _ (by decide) (by decide)]
    simp [record_fields, join_fields, counted, to_string, delimiter]

/-- C9 as amended: for Function handles whose name and signature contain no `|` and which hold
exactly `nb_params` offsets and sizes, the record written by `dump_function_metas` determines
name, signature, nb_params, the parameter offsets and sizes, the input, output, inout and
suspicious parameter indices, the verified flag and the constant-bank size, and it determines
the confirmed-suspicious (index, offset) pairs when the verified flag is set. -/
theorem C9_record_determines_fields (h1 h2 : POSHandle_CUDA_Function) (r : List Char)
    (w1 : RecordReadable h1) (w2 : RecordReadable h2)
    (d1 : dump_function_metas h1 = some r) (d2 : dump_function_metas h2 = some r) :
    h1.name = h2.name ∧ h1.signature = h2.signature ∧ h1.nb_params = h2.nb_params ∧
    h1.param_offsets = h2.param_offsets ∧ h1.param_sizes = h2.param_sizes ∧
    h1.input_pointer_params = h2.input_pointer_params ∧
    h1.output_pointer_params = h2.output_pointer_params ∧
    h1.inout_pointer_params = h2.inout_pointer_params ∧
    h1.suspicious_params = h2.suspicious_params ∧
    h1.has_verified_params = h2.has_verified_params ∧
    (h1.has_verified_params = true →
      h1.confirmed_suspicious_params = h2.confirmed_suspicious_params) ∧
    h1.cbank_param_size = h2.cbank_param_size := by
  obtain ⟨hfront, hcbank⟩ := record_inj h1 h2 r w1 w2 d1 d2
  obtain ⟨a1, a2, a3, a4, a5, a6, a7, a8, a9, a10, a11⟩ :=
    record_front_inj h1 h2 w1 w2 hfront
  exact ⟨a1, a2, a3, a4, a5, a6, a7, a8, a9, a10, a11, hcbank⟩

/-- Witness of C9 as amended: a verified handle with two parameters. -/
theorem C9_record_determines_fields_witness :
    RecordReadable ⟨"k1".toList, "void k1(int*, int)".toList, 2, [0, 8], [8, 4], [0], [], [],
        [0], true, [(0, 0)], 0⟩ ∧
    dump_function_metas ⟨"k1".toList, "void k1(int*, int)".toList, 2, [0, 8], [8, 4], [0], [],
        [], [0], true, [(0, 0)], 0⟩
      = some "k1|void k1(int*, int)|2|0|8|8|4|1|0|0|0|1|0|1|1|0|0|0".toList ∧
    ((2 : Nat) = 2 ∧ [(0 : Nat), 8] = [0, 8] ∧ [((0 : Nat), (0 : Nat))] = [(0, 0)]) := by
  have w : RecordReadable ⟨"k1".toList, "void k1(int*, int)".toList, 2, [0, 8], [8, 4], [0],
      [], [], [0], true, [(0, 0)], 0⟩ := ⟨by decide, by decide, rfl, rfl⟩
  have d : dump_function_metas ⟨"k1".toList, "void k1(int*, int)".toList, 2, [0, 8], [8, 4],
      [0], [], [], [0], true, [(0, 0)], 0⟩
      = some "k1|void k1(int*, int)|2|0|8|8|4|1|0|0|0|1|0|1|1|0|0|0".toList := by
    rw [dump_function_metas_eq _ (by decide) (by decide)]
    simp [record_fields, join_fields, counted, to_string, delimiter]
    decide
  have main := C9_record_determines_fields _ _ _ w w d d
  exact ⟨w, d, main.2.2.1, main.2.2.2.1, main.2.2.2.2.2.2.2.2.2.2.1 rfl⟩

/-! ## Claims on the checkpoint procedures -/

/-- C11: when `__checkpoint_o1` returns `POS_SUCCESS`, `nb_ckpt_handles` is the number of handle
views that the WQE lists under the stateful resource types and `ckpt_size` is the sum of the
`state_size` of their handles, both as `uint64_t` values (exactly so when they are below
`2 ^ 64`), whatever the two fields held before the call. -/
theorem C11_checkpoint_o1_counts_views (checkpoint : checkpoint_t)
    (cudaStreamSynchronize_ok : Bool) (handle_managers : POSHandleManagers)
    (stateful_handle_type_idx : List pos_resource_typeid_t) (s s' : WorkerState)
    (h : __checkpoint_o1 checkpoint cudaStreamSynchronize_ok handle_managers
      stateful_handle_type_idx s = some (.POS_SUCCESS, s')) :
    s'.wqe.nb_ckpt_handles
      = (stateful_views stateful_handle_type_idx s.wqe).length % UINT64_RANGE ∧
    s'.wqe.ckpt_size
      = ((stateful_views stateful_handle_type_idx s.wqe).map
          (fun v => state_size_of s.handles v.handle)).sum % UINT64_RANGE ∧
    ((stateful_views stateful_handle_type_idx s.wqe).length < UINT64_RANGE →
      s'.wqe.nb_ckpt_handles = (stateful_views stateful_handle_type_idx s.wqe).length) ∧
    (((stateful_views stateful_handle_type_idx s.wqe).map
          (fun v => state_size_of s.handles v.handle)).sum < UINT64_RANGE →
      s'.wqe.ckpt_size = ((stateful_views stateful_handle_type_idx s.wqe).map
          (fun v => state_size_of s.handles v.handle)).sum) := by
  have hR : 0 < UINT64_RANGE := by unfold UINT64_RANGE; omega
  unfold __checkpoint_o1 at h
  cases e : __checkpoint_o1_loop checkpoint handle_managers stateful_handle_type_idx
      (reset_telemetry s) with
  | none => rw [e] at h; simp [checkpoint_exit] at h
  | some x =>
    obtain ⟨r1, s1⟩ := x
    rw [e] at h
    simp only [checkpoint_exit, Option.map_eq_some', Prod.mk.injEq] at h
    obtain ⟨s2, hs2, hr, rfl⟩ := h
    have hr1 : r1 = .POS_SUCCESS := by
      by_contra hne
      rw [if_neg hne] at hr
      exact hne hr
    obtain ⟨-, -, -, a4, -, -, -, -, a9⟩ :=
      checkpoint_o1_loop_spec checkpoint handle_managers stateful_handle_type_idx
        (reset_telemetry s) r1 s1 e hR hR
    obtain ⟨c1, c2, -⟩ := a9 hr1
    have a4' : s1.wqe.ckpt_memory_consumption < UINT64_RANGE := by rw [a4]; exact hR
    obtain ⟨-, -, -, -, b5, b6, -⟩ :=
      collect_statistics_spec handle_managers stateful_handle_type_idx s1 s2 hs2 a4'
    simp only [reset_telemetry, Nat.zero_add] at c1 c2
    rw [b5, b6, c1, c2]
    exact ⟨rfl, rfl, fun hl => Nat.mod_eq_of_lt hl, fun hl => Nat.mod_eq_of_lt hl⟩

/-- C11, an instance: one Memory handle of 4096 bytes in the handle-view map gives
`nb_ckpt_handles = 1` and `ckpt_size = 4096`, although the fields held 55 and 77 before. -/
theorem C11_checkpoint_o1_counts_views_witness :
    ∃ s', __checkpoint_o1 scenario_checkpoint true scenario_handle_managers
        scenario_stateful_handle_type_idx scenario_worker_state = some (.POS_SUCCESS, s') ∧
      scenario_worker_state.wqe.nb_ckpt_handles = 55 ∧
      scenario_worker_state.wqe.ckpt_size = 77 ∧
      s'.wqe.nb_ckpt_handles = 1 ∧ s'.wqe.ckpt_size = 4096 := by
  refine ⟨_, rfl, rfl, rfl, ?_, ?_⟩
  · exact (C11_checkpoint_o1_counts_views scenario_checkpoint true scenario_handle_managers
      scenario_stateful_handle_type_idx scenario_worker_state _ rfl).1
  · exact (C11_checkpoint_o1_counts_views scenario_checkpoint true scenario_handle_managers
      scenario_stateful_handle_type_idx scenario_worker_state _ rfl).2.1

/-- C12, the claim fails: the Memory handle of the scenario has `latest_version = 1`, yet
`__checkpoint_o1` checkpoints it under the version `2`, the DAG vertex id of the checkpoint
op, and the handle keeps `latest_version = 1`. -/
theorem C12_checkpoint_o1_commits_latest_version_counterexample :
    ∃ s', __checkpoint_o1 scenario_checkpoint true scenario_handle_managers
        scenario_stateful_handle_type_idx scenario_worker_state = some (.POS_SUCCESS, s') ∧
      s'.calls = [{ handle := 0, version_id := 2, stream_id := 0 }] ∧
      scenario_worker_state.handles.map (fun handle => handle.latest_version) = [1] ∧
      s'.handles.map (fun handle => handle.latest_version) = [1] :=
  ⟨_, rfl, rfl, rfl, rfl⟩

/-- C12, amended: every `handle->checkpoint` call of `__checkpoint_o1` passes the DAG vertex id
of the checkpoint WQE as version id and `0` as stream id; when the procedure returns
`POS_SUCCESS` the calls are, in order, one for each handle view that the WQE lists under the
stateful resource types. -/
theorem C12_checkpoint_o1_commits_dag_vertex_id (checkpoint : checkpoint_t)
    (cudaStreamSynchronize_ok : Bool) (handle_managers : POSHandleManagers)
    (stateful_handle_type_idx : List pos_resource_typeid_t) (s s' : WorkerState)
    (retval : pos_retval_t)
    (h : __checkpoint_o1 checkpoint cudaStreamSynchronize_ok handle_managers
      stateful_handle_type_idx s = some (retval, s')) :
    (∃ l, s'.calls = s.calls ++ l ∧
      ∀ c ∈ l, c.version_id = s.wqe.dag_vertex_id ∧ c.stream_id = 0) ∧
    (retval = .POS_SUCCESS →
      s'.calls = s.calls ++ (stateful_views stateful_handle_type_idx s.wqe).map
        (fun v => { handle := v.handle, version_id := s.wqe.dag_vertex_id, stream_id := 0 })) := by
  have hR : 0 < UINT64_RANGE := by unfold UINT64_RANGE; omega
  unfold __checkpoint_o1 at h
  cases e : __checkpoint_o1_loop checkpoint handle_managers stateful_handle_type_idx
      (reset_telemetry s) with
  | none => rw [e] at h; simp [checkpoint_exit] at h
  | some x =>
    obtain ⟨r1, s1⟩ := x
    rw [e] at h
    simp only [checkpoint_exit, Option.map_eq_some', Prod.mk.injEq] at h
    obtain ⟨s2, hs2, hr, rfl⟩ := h
    obtain ⟨-, -, -, a4, -, -, -, a8, a9⟩ :=
      checkpoint_o1_loop_spec checkpoint handle_managers stateful_handle_type_idx
        (reset_telemetry s) r1 s1 e hR hR
    have a4' : s1.wqe.ckpt_memory_consumption < UINT64_RANGE := by rw [a4]; exact hR
    obtain ⟨-, b2, -⟩ :=
      collect_statistics_spec handle_managers stateful_handle_type_idx s1 s2 hs2 a4'
    rw [b2]
    refine ⟨a8, fun hret => ?_⟩
    have hr1 : r1 = .POS_SUCCESS := by
      by_contra hne
      rw [if_neg hne] at hr
      exact hne (hr.trans hret)
    exact (a9 hr1).2.2

/-- C12 amended, an instance: the one call of the scenario passes the version id `2`. -/
theorem C12_checkpoint_o1_commits_dag_vertex_id_witness :
    ∃ s', __checkpoint_o1 scenario_checkpoint true scenario_handle_managers
        scenario_stateful_handle_type_idx scenario_worker_state = some (.POS_SUCCESS, s') ∧
      scenario_worker_state.wqe.dag_vertex_id = 2 ∧
      s'.calls = [{ handle := 0, version_id := 2, stream_id := 0 }] :=
  ⟨_, rfl, rfl,
    (C12_checkpoint_o1_commits_dag_vertex_id scenario_checkpoint true scenario_handle_managers
      scenario_stateful_handle_type_idx scenario_worker_state _ _ rfl).2 rfl⟩

/-- C13, the code departs from the claim: on the scenario `checkpoint_async` returns
`POS_SUCCESS` with `nb_ckpt_handles = 1` and `ckpt_size = 4096` but leaves
`ckpt_memory_consumption` at `0`, while the checkpoint bags of the stateful handles of the
client consume 4096 bytes; `__checkpoint_o1` and `__checkpoint_naive` record 4096 on the same
input. For every input `checkpoint_async` leaves `0` in the field. -/
theorem C13_checkpoint_async_records_no_memory_consumption :
    (∃ s1, checkpoint_async scenario_checkpoint 9 [0] scenario_worker_state
        = some (.POS_SUCCESS, s1) ∧
      s1.wqe.nb_ckpt_handles = 1 ∧ s1.wqe.ckpt_size = 4096 ∧
      s1.wqe.ckpt_memory_consumption = 0 ∧
      stateful_memory_consumption scenario_handle_managers scenario_stateful_handle_type_idx
        s1.handles = 4096) ∧
    (∃ s2, __checkpoint_o1 scenario_checkpoint true scenario_handle_managers
        scenario_stateful_handle_type_idx scenario_worker_state = some (.POS_SUCCESS, s2) ∧
      s2.wqe.ckpt_memory_consumption = 4096 ∧
      stateful_memory_consumption scenario_handle_managers scenario_stateful_handle_type_idx
        s2.handles = 4096) ∧
    (∃ s3, __checkpoint_naive scenario_checkpoint true scenario_handle_managers
        scenario_stateful_handle_type_idx scenario_worker_state = some (.POS_SUCCESS, s3) ∧
      s3.wqe.ckpt_memory_consumption = 4096 ∧
      stateful_memory_consumption scenario_handle_managers scenario_stateful_handle_type_idx
        s3.handles = 4096) ∧
    ∀ (checkpoint : checkpoint_t) (_ckpt_stream : Nat) (handles : List Nat) (s : WorkerState),
      (checkpoint_async checkpoint _ckpt_stream handles s).map
          (fun x => x.2.wqe.ckpt_memory_consumption)
        = (checkpoint_async checkpoint _ckpt_stream handles s).map (fun _ => 0) := by
  refine ⟨⟨_, rfl, rfl, rfl, rfl, rfl⟩, ⟨_, rfl, rfl, rfl⟩, ⟨_, rfl, rfl, rfl⟩, ?_⟩
  intro checkpoint _ckpt_stream handles s
  have hR : 0 < UINT64_RANGE := by unfold UINT64_RANGE; omega
  unfold checkpoint_async
  cases e : checkpoint_handles checkpoint _ckpt_stream handles (reset_telemetry s) with
  | none => rfl
  | some x =>
    obtain ⟨r1, s1⟩ := x
    obtain ⟨-, -, -, a4, -⟩ :=
      checkpoint_handles_spec checkpoint _ckpt_stream handles (reset_telemetry s) r1 s1 e hR hR
    simp only [Option.map_some', Option.some.injEq]
    exact a4

/-- C14: for a checkpoint WQE with DAG vertex id `c` and `P >= 1` pending ops (`c + P` a
`uint64_t` value), when the DAG query yields the positions of the specification and no handle
pointer of the views is null, `generate_overlap_ckpt_scheme` returns after adding to the
scheme, in order, every handle that the WQE lists under a stateful type, each with the
relative deadline `(m - c) - 1` for the first op `m` of `c + 1, ..., c + P` that modifies it,
or `P - 1` if none does; every deadline is below `P`, and it is `0` for a handle modified by
the op `c + 1`. -/
theorem C14_overlap_scheme_deadlines (get_handle_modified_position : get_handle_modified_position_t)
    (modified : Nat → Nat → Bool) (cudaStreamSynchronize_ok : Bool)
    (stateful_handle_type_idx : List pos_resource_typeid_t) (handles : List POSHandle)
    (wqe : POSAPIContext_QE) (P : Nat)
    (hP : 1 ≤ P) (hb : wqe.dag_vertex_id + P < UINT64_RANGE)
    (hq : ∀ id ps,
      (get_handle_modified_position id (wqe.dag_vertex_id + 1) (wqe.dag_vertex_id + P) ps).2
        = next_modified_positions modified id (wqe.dag_vertex_id + 1) (wqe.dag_vertex_id + P))
    (hv : ∀ v ∈ stateful_views stateful_handle_type_idx wqe, v.handle < handles.length) :
    generate_overlap_ckpt_scheme get_handle_modified_position cudaStreamSynchronize_ok
        stateful_handle_type_idx handles wqe P
      = some
          (if cudaStreamSynchronize_ok then pos_retval_t.POS_SUCCESS else pos_retval_t.POS_FAILED,
            [SchemeCall.refresh P]
              ++ (stateful_views stateful_handle_type_idx wqe).map (fun v =>
                  SchemeCall.add_new_handle_for_distribute
                    (relative_deadline modified (dag_vertex_id_of handles v.handle)
                      wqe.dag_vertex_id P) v.handle)
              ++ [SchemeCall.schedule]) ∧
    ∀ v ∈ stateful_views stateful_handle_type_idx wqe,
      relative_deadline modified (dag_vertex_id_of handles v.handle) wqe.dag_vertex_id P < P ∧
      (modified (dag_vertex_id_of handles v.handle) (wqe.dag_vertex_id + 1) = true →
        relative_deadline modified (dag_vertex_id_of handles v.handle) wqe.dag_vertex_id P
          = 0) := by
  refine ⟨?_, fun v _ => relative_deadline_lt modified _ wqe.dag_vertex_id P hP⟩
  unfold generate_overlap_ckpt_scheme
  rw [extract_modified_handles_eq handles wqe stateful_handle_type_idx [] hv]
  simp only [List.nil_append]
  rw [distribute_handles_eq get_handle_modified_position modified handles wqe.dag_vertex_id P hP
    hb hq _ [] [SchemeCall.refresh P] (by
      intro p hp
      simp only [List.mem_map] at hp
      obtain ⟨v, hvm, rfl⟩ := hp
      exact hv v hvm)]
  cases cudaStreamSynchronize_ok <;> simp [List.map_map, Function.comp_def]

/-- C14, an instance: with the checkpoint op at DAG vertex id 6 and six pending ops, the handle
written by op 7 is added at the relative slot 0 and the handle that no pending op writes at
the slot 5. -/
theorem C14_overlap_scheme_deadlines_witness :
    generate_overlap_ckpt_scheme overlap_query true [.kPOS_ResourceTypeId_CUDA_Memory]
        overlap_handles overlap_wqe 6
      = some (.POS_SUCCESS,
          [SchemeCall.refresh 6, SchemeCall.add_new_handle_for_distribute 0 0,
            SchemeCall.add_new_handle_for_distribute 5 1, SchemeCall.schedule]) :=
  (C14_overlap_scheme_deadlines overlap_query overlap_modified true
    [.kPOS_ResourceTypeId_CUDA_Memory] overlap_handles overlap_wqe 6 (by decide)
    (by unfold UINT64_RANGE; decide) (fun _ _ => rfl) (by decide)).1

/-! ## Claims on the migration procedures -/

/-- C15: when the Memory manager exists and no pointer of its modified set is null,
`__TMP__migration_precopy` returns; afterwards a handle is in `migration_ctx.precopy_handles`
exactly when it was there before or it is a handle of the modified set whose peer copy and
synchronization both succeeded; every handle of the modified set was passed to the peer copy,
in the order of the set, whatever failed before it; and the modified set of the Memory manager
is empty. The store, the other managers and the set of invalidated handles are unchanged. -/
theorem C15_precopy_adds_copied_handles (is_host_stateful_handle cudaMemcpyPeerAsync_ok
    cudaStreamSynchronize_ok : Nat → Bool) (c : ClientState) (hm_memory : POSHandleManager)
    (hm : c.handle_managers .kPOS_ResourceTypeId_CUDA_Memory = some hm_memory)
    (hv : ∀ p ∈ hm_memory.modified_handles, p < c.handles.length) :
    ∃ c' loc,
      __TMP__migration_precopy is_host_stateful_handle cudaMemcpyPeerAsync_ok
        cudaStreamSynchronize_ok c = some (c', loc) ∧
      (∀ p, p ∈ c'.migration_ctx.precopy_handles ↔
        p ∈ c.migration_ctx.precopy_handles ∨
          (p ∈ hm_memory.modified_handles ∧ cudaMemcpyPeerAsync_ok p = true ∧
            cudaStreamSynchronize_ok p = true)) ∧
      loc.copied = hm_memory.modified_handles ∧
      c'.handle_managers .kPOS_ResourceTypeId_CUDA_Memory
        = some { hm_memory with modified_handles := [] } ∧
      (∀ t, t ≠ .kPOS_ResourceTypeId_CUDA_Memory →
        c'.handle_managers t = c.handle_managers t) ∧
      c'.handles = c.handles ∧
      c'.migration_ctx.invalidated_handles = c.migration_ctx.invalidated_handles := by
  obtain ⟨st', e, i1, -, i3, i4⟩ :=
    precopy_loop_sets is_host_stateful_handle cudaMemcpyPeerAsync_ok cudaStreamSynchronize_ok
      c.handles hm_memory.modified_handles (c.migration_ctx, {}) hv
  refine ⟨{ c with
      migration_ctx := st'.1
      handle_managers := clear_modified_handle c.handle_managers hm_memory },
    st'.2, ?_, i1, ?_, ?_, ?_, rfl, i3⟩
  · rw [migration_precopy_eq _ _ _ c hm_memory hm, e]
    rfl
  · rw [i4]; rfl
  · simp [clear_modified_handle]
  · intro t ht
    simp [clear_modified_handle, ht]

/-- C15, an instance: of the three modified handles the copy of the second fails; the first
and the third are in `precopy_handles` afterwards, all three were passed to the copy, and the
modified set is empty. -/
theorem C15_precopy_adds_copied_handles_witness :
    (__TMP__migration_precopy migration_is_host_stateful_handle
        migration_cudaMemcpyPeerAsync_ok migration_cudaStreamSynchronize_ok
        migration_client).map
      (fun r => (r.1.migration_ctx.precopy_handles, r.2.copied,
        (r.1.handle_managers .kPOS_ResourceTypeId_CUDA_Memory).map
          (fun m => m.modified_handles)))
      = some ([0, 2], [0, 1, 2], some []) ∧
    ∃ c' loc,
      __TMP__migration_precopy migration_is_host_stateful_handle
        migration_cudaMemcpyPeerAsync_ok migration_cudaStreamSynchronize_ok migration_client
        = some (c', loc) ∧
      (∀ p, p ∈ c'.migration_ctx.precopy_handles ↔
        p ∈ migration_client.migration_ctx.precopy_handles ∨
          (p ∈ [0, 1, 2] ∧ migration_cudaMemcpyPeerAsync_ok p = true ∧
            migration_cudaStreamSynchronize_ok p = true)) ∧
      loc.copied = [0, 1, 2] ∧
      c'.handle_managers .kPOS_ResourceTypeId_CUDA_Memory
        = some { handles := [0, 1, 2], modified_handles := [] } ∧
      (∀ t, t ≠ .kPOS_ResourceTypeId_CUDA_Memory →
        c'.handle_managers t = migration_client.handle_managers t) ∧
      c'.handles = migration_client.handles ∧
      c'.migration_ctx.invalidated_handles
        = migration_client.migration_ctx.invalidated_handles :=
  ⟨by decide,
    C15_precopy_adds_copied_handles migration_is_host_stateful_handle
      migration_cudaMemcpyPeerAsync_ok migration_cudaStreamSynchronize_ok migration_client
      { handles := [0, 1, 2], modified_handles := [0, 1, 2] } rfl (by decide)⟩

/-- C16, the claim fails: the handle `0` of 4096 bytes is host-stateful; `__TMP__migration_precopy`
records it in `__TMP__host_handles` and also passes it to the peer copy, adds it to
`precopy_handles` and counts its bytes (4096 + 16384 bytes are precopied), and
`__TMP__migration_ondemand_reload` then counts the 4096 bytes again. -/
theorem C16_precopy_skips_host_stateful_counterexample :
    migration_is_host_stateful_handle 0 = true ∧
    (__TMP__migration_precopy migration_is_host_stateful_handle
        migration_cudaMemcpyPeerAsync_ok migration_cudaStreamSynchronize_ok
        migration_client).map
      (fun r => (r.1.migration_ctx.__TMP__host_handles, r.2.copied,
        r.1.migration_ctx.precopy_handles, r.2.precopy_size, r.2.host_handle_size))
      = some ([0], [0, 1, 2], [0, 2], 20480, 4096) ∧
    ((__TMP__migration_precopy migration_is_host_stateful_handle
        migration_cudaMemcpyPeerAsync_ok migration_cudaStreamSynchronize_ok
        migration_client).bind
      (fun r => __TMP__migration_ondemand_reload (fun _ => true) r.1)).map
      (fun r => (r.2.nb_handles, r.2.reload_size))
      = some (1, 4096) := by
  refine ⟨rfl, ?_, ?_⟩ <;> decide

/-- C16, amended: when no pointer of the modified set or of `__TMP__host_handles` is null,
`__TMP__migration_precopy` and a following `__TMP__migration_ondemand_reload` return. Every
host-stateful handle of the modified set is recorded in `__TMP__host_handles` and is still
passed to the peer copy; it is added to `precopy_handles` when copy and synchronization
succeed. The precopy counts the `state_size` of every handle of the modified set whose copy
and synchronization succeed, host-stateful or not, and the on-demand reload counts the
`state_size` of every handle of `__TMP__host_handles` whose reload succeeds. -/
theorem C16_host_stateful_copied_and_reloaded (is_host_stateful_handle cudaMemcpyPeerAsync_ok
    cudaStreamSynchronize_ok reload_state_ok : Nat → Bool) (c : ClientState)
    (hm_memory : POSHandleManager)
    (hm : c.handle_managers .kPOS_ResourceTypeId_CUDA_Memory = some hm_memory)
    (hv : ∀ p ∈ hm_memory.modified_handles, p < c.handles.length)
    (hvh : ∀ p ∈ c.migration_ctx.__TMP__host_handles, p < c.handles.length) :
    ∃ c' loc c'' rl,
      __TMP__migration_precopy is_host_stateful_handle cudaMemcpyPeerAsync_ok
        cudaStreamSynchronize_ok c = some (c', loc) ∧
      __TMP__migration_ondemand_reload reload_state_ok c' = some (c'', rl) ∧
      (∀ H ∈ hm_memory.modified_handles, is_host_stateful_handle H = true →
        H ∈ c'.migration_ctx.__TMP__host_handles ∧ H ∈ loc.copied ∧
        (cudaMemcpyPeerAsync_ok H = true → cudaStreamSynchronize_ok H = true →
          H ∈ c'.migration_ctx.precopy_handles)) ∧
      loc.precopy_size
        = total_state_size c.handles (hm_memory.modified_handles.filter
            (fun q => cudaMemcpyPeerAsync_ok q && cudaStreamSynchronize_ok q))
          % UINT64_RANGE ∧
      rl.reload_size
        = total_state_size c.handles
            (c'.migration_ctx.__TMP__host_handles.filter reload_state_ok)
          % UINT64_RANGE := by
  have hR : 0 < UINT64_RANGE := by unfold UINT64_RANGE; omega
  obtain ⟨st', e, i1, i2, -, i4⟩ :=
    precopy_loop_sets is_host_stateful_handle cudaMemcpyPeerAsync_ok cudaStreamSynchronize_ok
      c.handles hm_memory.modified_handles (c.migration_ctx, {}) hv
  obtain ⟨-, k2, -, -⟩ :=
    precopy_loop_counters is_host_stateful_handle cudaMemcpyPeerAsync_ok
      cudaStreamSynchronize_ok c.handles hm_memory.modified_handles (c.migration_ctx, {}) st' e
      hR hR hR hR
  have hvalid : ∀ p ∈ st'.1.__TMP__host_handles, p < c.handles.length := by
    intro p hp
    rcases (i2 p).mp hp with h | ⟨h, -⟩
    · exact hvh p h
    · exact hv p h
  obtain ⟨rst, er, -, -, -, r4⟩ :=
    ondemand_reload_loop_spec reload_state_ok st'.1.__TMP__host_handles (c.handles, {}) hvalid
      hR hR
  refine ⟨{ c with
      migration_ctx := st'.1
      handle_managers := clear_modified_handle c.handle_managers hm_memory },
    st'.2,
    { handles := rst.1
      migration_ctx := st'.1
      handle_managers := clear_modified_handle c.handle_managers hm_memory },
    rst.2, ?_, ?_, ?_, ?_, ?_⟩
  · rw [migration_precopy_eq _ _ _ c hm_memory hm, e]
    rfl
  · unfold __TMP__migration_ondemand_reload
    simp only [er, Option.map_some']
  · intro H hH hhost
    refine ⟨(i2 H).mpr (Or.inr ⟨hH, hhost⟩), ?_, fun h1 h2 => (i1 H).mpr (Or.inr ⟨hH, h1, h2⟩)⟩
    rw [i4]
    exact List.mem_append_right _ hH
  · rw [k2]
    simp
  · rw [r4]
    simp

/-- C16 amended, an instance: the handle `0` is host-stateful and its copy, synchronization and
reload succeed. -/
theorem C16_host_stateful_copied_and_reloaded_witness :
    (∀ p ∈ [0, 1, 2], p < migration_client.handles.length) ∧
    (∀ p ∈ migration_client.migration_ctx.__TMP__host_handles,
      p < migration_client.handles.length) ∧
    ∃ c' loc c'' rl,
      __TMP__migration_precopy migration_is_host_stateful_handle
        migration_cudaMemcpyPeerAsync_ok migration_cudaStreamSynchronize_ok migration_client
        = some (c', loc) ∧
      __TMP__migration_ondemand_reload (fun _ => true) c' = some (c'', rl) ∧
      (∀ H ∈ [0, 1, 2], migration_is_host_stateful_handle H = true →
        H ∈ c'.migration_ctx.__TMP__host_handles ∧ H ∈ loc.copied ∧
        (migration_cudaMemcpyPeerAsync_ok H = true →
          migration_cudaStreamSynchronize_ok H = true →
          H ∈ c'.migration_ctx.precopy_handles)) ∧
      loc.precopy_size
        = total_state_size migration_client.handles ([0, 1, 2].filter
            (fun q => migration_cudaMemcpyPeerAsync_ok q
              && migration_cudaStreamSynchronize_ok q))
          % UINT64_RANGE ∧
      rl.reload_size
        = total_state_size migration_client.handles
            (c'.migration_ctx.__TMP__host_handles.filter (fun _ => true))
          % UINT64_RANGE :=
  ⟨by decide, by decide,
    C16_host_stateful_copied_and_reloaded migration_is_host_stateful_handle
      migration_cudaMemcpyPeerAsync_ok migration_cudaStreamSynchronize_ok (fun _ => true)
      migration_client { handles := [0, 1, 2], modified_handles := [0, 1, 2] } rfl
      (by decide) (by decide)⟩

/-- C17, the claim fails: the peer copy of the handle `1` fails during the precopy; afterwards
the handle is in none of the sets of the migration context, and the modified set of the Memory
manager is empty. -/
theorem C17_failed_copy_marked_for_fallback_counterexample :
    migration_cudaMemcpyPeerAsync_ok 1 = false ∧
    (__TMP__migration_precopy migration_is_host_stateful_handle
        migration_cudaMemcpyPeerAsync_ok migration_cudaStreamSynchronize_ok
        migration_client).map
      (fun r => (r.1.migration_ctx,
        (r.1.handle_managers .kPOS_ResourceTypeId_CUDA_Memory).map
          (fun m => m.modified_handles)))
      = some ({ precopy_handles := [0, 2], invalidated_handles := [],
                __TMP__host_handles := [0] }, some []) := by
  refine ⟨rfl, ?_⟩
  decide

/-- C17, amended: a handle whose peer copy or synchronization fails is skipped. After
`__TMP__migration_precopy` such a handle of the modified set is in `precopy_handles` only if it
was there before, it is in `__TMP__host_handles` only if it was there before or is
host-stateful, the set of invalidated handles is as before, and the modified set is empty.
`__TMP__migration_deltacopy` returns the client as it was, so a handle whose copy failed is
still in `invalidated_handles`. Both procedures return when the pointers they dereference are
not null. -/
theorem C17_failed_copy_is_skipped (is_host_stateful_handle cudaMemcpyPeerAsync_ok
    cudaStreamSynchronize_ok : Nat → Bool) (c : ClientState) (hm_memory : POSHandleManager)
    (hm : c.handle_managers .kPOS_ResourceTypeId_CUDA_Memory = some hm_memory)
    (hv : ∀ p ∈ hm_memory.modified_handles, p < c.handles.length)
    (hvi : ∀ p ∈ c.migration_ctx.invalidated_handles,
      is_host_stateful_handle p = false → p < c.handles.length) :
    (∃ c' loc,
      __TMP__migration_precopy is_host_stateful_handle cudaMemcpyPeerAsync_ok
        cudaStreamSynchronize_ok c = some (c', loc) ∧
      (∀ p ∈ hm_memory.modified_handles,
        cudaMemcpyPeerAsync_ok p = false ∨ cudaStreamSynchronize_ok p = false →
        (p ∈ c'.migration_ctx.precopy_handles ↔ p ∈ c.migration_ctx.precopy_handles) ∧
        (p ∈ c'.migration_ctx.__TMP__host_handles ↔
          p ∈ c.migration_ctx.__TMP__host_handles ∨ is_host_stateful_handle p = true)) ∧
      c'.migration_ctx.invalidated_handles = c.migration_ctx.invalidated_handles ∧
      c'.handle_managers .kPOS_ResourceTypeId_CUDA_Memory
        = some { hm_memory with modified_handles := [] }) ∧
    (∃ loc,
      __TMP__migration_deltacopy is_host_stateful_handle cudaMemcpyPeerAsync_ok
        cudaStreamSynchronize_ok c = some (c, loc)) := by
  constructor
  · obtain ⟨st', e, i1, i2, i3, -⟩ :=
      precopy_loop_sets is_host_stateful_handle cudaMemcpyPeerAsync_ok cudaStreamSynchronize_ok
        c.handles hm_memory.modified_handles (c.migration_ctx, {}) hv
    refine ⟨{ c with
        migration_ctx := st'.1
        handle_managers := clear_modified_handle c.handle_managers hm_memory },
      st'.2, ?_, ?_, i3, ?_⟩
    · rw [migration_precopy_eq _ _ _ c hm_memory hm, e]
      rfl
    · intro p hp hfail
      constructor
      · rw [i1 p]
        constructor
        · rintro (h | ⟨-, h1, h2⟩)
          · exact h
          · rcases hfail with hf | hf
            · rw [hf] at h1; cases h1
            · rw [hf] at h2; cases h2
        · exact Or.inl
      · rw [i2 p]
        constructor
        · rintro (h | ⟨-, h1⟩)
          · exact Or.inl h
          · exact Or.inr h1
        · rintro (h | h)
          · exact Or.inl h
          · exact Or.inr ⟨hp, h⟩
    · simp [clear_modified_handle]
  · obtain ⟨loc, e, -⟩ := migration_deltacopy_eq is_host_stateful_handle cudaMemcpyPeerAsync_ok
      cudaStreamSynchronize_ok c hm_memory hm hvi
    exact ⟨loc, e⟩

/-- C17 amended, an instance: the three modified handles of which the copy of the second
fails. -/
theorem C17_failed_copy_is_skipped_witness :
    (∀ p ∈ [0, 1, 2], p < migration_client.handles.length) ∧
    (∃ c' loc,
      __TMP__migration_precopy migration_is_host_stateful_handle
        migration_cudaMemcpyPeerAsync_ok migration_cudaStreamSynchronize_ok migration_client
        = some (c', loc) ∧
      (∀ p ∈ [0, 1, 2],
        migration_cudaMemcpyPeerAsync_ok p = false ∨
          migration_cudaStreamSynchronize_ok p = false →
        (p ∈ c'.migration_ctx.precopy_handles ↔
          p ∈ migration_client.migration_ctx.precopy_handles) ∧
        (p ∈ c'.migration_ctx.__TMP__host_handles ↔
          p ∈ migration_client.migration_ctx.__TMP__host_handles ∨
            migration_is_host_stateful_handle p = true)) ∧
      c'.migration_ctx.invalidated_handles
        = migration_client.migration_ctx.invalidated_handles ∧
      c'.handle_managers .kPOS_ResourceTypeId_CUDA_Memory
        = some { handles := [0, 1, 2], modified_handles := [] }) ∧
    (∃ loc,
      __TMP__migration_deltacopy migration_is_host_stateful_handle
        migration_cudaMemcpyPeerAsync_ok migration_cudaStreamSynchronize_ok migration_client
        = some (migration_client, loc)) :=
  ⟨by decide,
    C17_failed_copy_is_skipped migration_is_host_stateful_handle
      migration_cudaMemcpyPeerAsync_ok migration_cudaStreamSynchronize_ok migration_client
      { handles := [0, 1, 2], modified_handles := [0, 1, 2] } rfl (by decide) (by decide)⟩

/-- C18, the claim fails: the handles `1` and `2` are invalidated and not host-stateful, and
their copies succeed; after `__TMP__migration_deltacopy` both are still in
`invalidated_handles`, and the handle `1` is not in `precopy_handles`. -/
theorem C18_deltacopy_moves_to_precopied_counterexample :
    (__TMP__migration_deltacopy migration_is_host_stateful_handle (fun _ => true)
        (fun _ => true) migration_client_invalidated).map
      (fun r => (r.1.migration_ctx, r.2))
      = some ({ precopy_handles := [0, 2], invalidated_handles := [1, 2],
                __TMP__host_handles := [0] },
              { copied := [1, 2], nb_deltacopy_handle := 2, deltacopy_size := 24576 }) := by
  decide

/-- C18, amended: when the Memory manager exists and no pointer of an invalidated handle that
is not host-stateful is null, `__TMP__migration_deltacopy` returns; it passes to the peer copy
exactly the handles of `invalidated_handles` that are not host-stateful, in the order of the
set, counts those whose copy and synchronization succeed, and leaves the client as it was:
`invalidated_handles`, `precopy_handles` and every handle are unchanged. -/
theorem C18_deltacopy_copies_and_keeps_sets (is_host_stateful_handle cudaMemcpyPeerAsync_ok
    cudaStreamSynchronize_ok : Nat → Bool) (c : ClientState) (hm_memory : POSHandleManager)
    (hm : c.handle_managers .kPOS_ResourceTypeId_CUDA_Memory = some hm_memory)
    (hvi : ∀ p ∈ c.migration_ctx.invalidated_handles,
      is_host_stateful_handle p = false → p < c.handles.length) :
    ∃ loc,
      __TMP__migration_deltacopy is_host_stateful_handle cudaMemcpyPeerAsync_ok
        cudaStreamSynchronize_ok c = some (c, loc) ∧
      loc.copied
        = c.migration_ctx.invalidated_handles.filter (fun q => !is_host_stateful_handle q) ∧
      loc.nb_deltacopy_handle
        = (c.migration_ctx.invalidated_handles.filter
            (fun q => !is_host_stateful_handle q
              && (cudaMemcpyPeerAsync_ok q && cudaStreamSynchronize_ok q))).length
          % UINT64_RANGE ∧
      loc.deltacopy_size
        = total_state_size c.handles (c.migration_ctx.invalidated_handles.filter
            (fun q => !is_host_stateful_handle q
              && (cudaMemcpyPeerAsync_ok q && cudaStreamSynchronize_ok q)))
          % UINT64_RANGE :=
  migration_deltacopy_eq is_host_stateful_handle cudaMemcpyPeerAsync_ok
    cudaStreamSynchronize_ok c hm_memory hm hvi

/-- C18 amended, an instance: the two invalidated handles are copied and the sets stay as they
were. -/
theorem C18_deltacopy_copies_and_keeps_sets_witness :
    (∀ p ∈ migration_client_invalidated.migration_ctx.invalidated_handles,
      migration_is_host_stateful_handle p = false →
        p < migration_client_invalidated.handles.length) ∧
    ∃ loc,
      __TMP__migration_deltacopy migration_is_host_stateful_handle (fun _ => true)
        (fun _ => true) migration_client_invalidated
        = some (migration_client_invalidated, loc) ∧
      loc.copied
        = migration_client_invalidated.migration_ctx.invalidated_handles.filter
            (fun q => !migration_is_host_stateful_handle q) ∧
      loc.nb_deltacopy_handle
        = (migration_client_invalidated.migration_ctx.invalidated_handles.filter
            (fun q => !migration_is_host_stateful_handle q && (true && true))).length
          % UINT64_RANGE ∧
      loc.deltacopy_size
        = total_state_size migration_client_invalidated.handles
            (migration_client_invalidated.migration_ctx.invalidated_handles.filter
              (fun q => !migration_is_host_stateful_handle q && (true && true)))
          % UINT64_RANGE :=
  ⟨by decide,
    C18_deltacopy_copies_and_keeps_sets migration_is_host_stateful_handle (fun _ => true)
      (fun _ => true) migration_client_invalidated { handles := [0, 1, 2] } rfl (by decide)⟩

/-- C19: for both values of `do_tear_module`, when the five managers that
`__TMP__migration_tear_context` looks up exist, no pointer it dereferences is null and no
handle of the Module or Function manager is also listed by the cuBLAS or Stream manager, the
procedure returns, and for every handle: only its status can have changed; a handle of the
cuBLAS or Stream manager that was Active is Broken, and none of them is Active; a handle of
the Module or Function manager that was Active is Broken exactly when `do_tear_module` is
true; a handle that was not Active is unchanged, and so is every handle of no one of these
four managers (Device, Context, Event, Var, Memory). Managers and migration context are
unchanged. -/
theorem C19_tear_context_statuses (do_tear_module : Bool) (c : ClientState)
    (hm_context hm_cublas hm_stream hm_module hm_function : POSHandleManager)
    (h0 : c.handle_managers .kPOS_ResourceTypeId_CUDA_Context = some hm_context)
    (h1 : c.handle_managers .kPOS_ResourceTypeId_cuBLAS_Context = some hm_cublas)
    (h2 : c.handle_managers .kPOS_ResourceTypeId_CUDA_Stream = some hm_stream)
    (h3 : c.handle_managers .kPOS_ResourceTypeId_CUDA_Module = some hm_module)
    (h4 : c.handle_managers .kPOS_ResourceTypeId_CUDA_Function = some hm_function)
    (hv : ∀ p ∈ torn_handles do_tear_module hm_cublas hm_stream hm_module hm_function,
      p < c.handles.length)
    (hdisj : ∀ p ∈ hm_module.handles ++ hm_function.handles,
      p ∉ hm_cublas.handles ++ hm_stream.handles) :
    ∃ c', __TMP__migration_tear_context do_tear_module c = some c' ∧
      c'.handle_managers = c.handle_managers ∧ c'.migration_ctx = c.migration_ctx ∧
      c'.handles.length = c.handles.length ∧
      ∀ q h, c.handles[q]? = some h →
        ∃ h', c'.handles[q]? = some h' ∧
          h' = { h with status := h'.status } ∧
          (q ∈ hm_cublas.handles ++ hm_stream.handles →
            (h.status = .kPOS_HandleStatus_Active → h'.status = .kPOS_HandleStatus_Broken) ∧
            h'.status ≠ .kPOS_HandleStatus_Active) ∧
          (q ∈ hm_module.handles ++ hm_function.handles →
            h.status = .kPOS_HandleStatus_Active →
            (h'.status = .kPOS_HandleStatus_Broken ↔ do_tear_module = true)) ∧
          (h.status ≠ .kPOS_HandleStatus_Active → h' = h) ∧
          (q ∉ hm_cublas.handles ++ hm_stream.handles
              ++ (hm_module.handles ++ hm_function.handles) → h' = h) := by
  obtain ⟨handles', e, i1, i2⟩ :=
    tear_handles_spec (torn_handles do_tear_module hm_cublas hm_stream hm_module hm_function)
      c.handles hv
  refine ⟨{ c with handles := handles' }, ?_, rfl, rfl, i1, ?_⟩
  · rw [migration_tear_context_eq do_tear_module c hm_context hm_cublas hm_stream hm_module
      hm_function h0 h1 h2 h3 h4, e]
    rfl
  · intro q h hq
    refine ⟨_, i2 q h hq, ?_, ?_, ?_, ?_, ?_⟩
    · split <;> rfl
    · intro hmem
      have hin : q ∈ torn_handles do_tear_module hm_cublas hm_stream hm_module hm_function := by
        unfold torn_handles
        exact List.mem_append_left _ hmem
      constructor
      · intro hact
        simp [hin, hact]
      · by_cases hact : h.status = .kPOS_HandleStatus_Active
        · simp [hin, hact]
        · simp [hact]
    · intro hmem hact
      have hnot := hdisj q hmem
      cases do_tear_module with
      | false =>
        have hout : q ∉ torn_handles false hm_cublas hm_stream hm_module hm_function := by
          unfold torn_handles
          simpa using hnot
        simp [hout, hact]
      | true =>
        have hin : q ∈ torn_handles true hm_cublas hm_stream hm_module hm_function := by
          unfold torn_handles
          simp only [if_true]
          exact List.mem_append_right _ hmem
        simp [hin, hact]
    · intro hact
      simp [hact]
    · intro hout
      have hout' : q ∉ torn_handles do_tear_module hm_cublas hm_stream hm_module hm_function := by
        unfold torn_handles
        intro hin
        apply hout
        rcases List.mem_append.mp hin with hin | hin
        · exact List.mem_append_left _ hin
        · cases do_tear_module with
          | false => simp at hin
          | true => exact List.mem_append_right _ (by simpa using hin)
      simp [hout']

/-- C19, an instance: with `do_tear_module` false the Active Stream and cuBLAS context become
Broken, and the deleted Stream, the Context, the Module, the Function and the Memory buffer
keep their status. -/
theorem C19_tear_context_statuses_witness :
    (__TMP__migration_tear_context false tear_client).map
      (fun c' => c'.handles.map (fun h => h.status))
      = some [.kPOS_HandleStatus_Active, .kPOS_HandleStatus_Broken, .kPOS_HandleStatus_Broken,
          .kPOS_HandleStatus_Active, .kPOS_HandleStatus_Active, .kPOS_HandleStatus_Active,
          .kPOS_HandleStatus_Deleted] ∧
    ∃ c', __TMP__migration_tear_context false tear_client = some c' ∧
      c'.handle_managers = tear_client.handle_managers ∧
      c'.migration_ctx = tear_client.migration_ctx ∧
      c'.handles.length = tear_client.handles.length ∧
      ∀ q h, tear_client.handles[q]? = some h →
        ∃ h', c'.handles[q]? = some h' ∧
          h' = { h with status := h'.status } ∧
          (q ∈ [2] ++ [1, 6] →
            (h.status = .kPOS_HandleStatus_Active → h'.status = .kPOS_HandleStatus_Broken) ∧
            h'.status ≠ .kPOS_HandleStatus_Active) ∧
          (q ∈ [3] ++ [4] →
            h.status = .kPOS_HandleStatus_Active →
            (h'.status = .kPOS_HandleStatus_Broken ↔ false = true)) ∧
          (h.status ≠ .kPOS_HandleStatus_Active → h' = h) ∧
          (q ∉ [2] ++ [1, 6] ++ ([3] ++ [4]) → h' = h) :=
  ⟨by decide,
    C19_tear_context_statuses false tear_client { handles := [0] } { handles := [2] }
      { handles := [1, 6] } { handles := [3] } { handles := [4] } rfl rfl rfl rfl rfl
      (by decide) (by decide)⟩

/-! ## Claims on `init_handle_managers` -/

/-- C20: when a Device or Context manager whose `init` succeeded owns at least one handle (the
`POS_ASSERT`s of the procedure), `init_handle_managers` returns, and the `init` calls it made
are, in the fixed order Device, Context, Stream, cuBLAS context, Event, Module, Function, Var,
Memory, those of the managers up to and including the first one whose `init` fails: every call
but the last returned `POS_SUCCESS`, the result is the return code of the last call, and a
manager is registered exactly for the types whose call returned `POS_SUCCESS` (the other
entries of `handle_managers` are as before). The result is `POS_SUCCESS` exactly when all nine
calls were made and returned `POS_SUCCESS`, and then a manager is registered for every type of
`__get_resource_idx`. -/
theorem C20_init_handle_managers_first_failure (init : init_t) (kernel_meta_path_exists : Bool)
    (load_cached_function_metas : pos_retval_t) (handle_managers : POSHandleManagers)
    (is_load_kernel_from_cache : Bool)
    (hd : ∀ rel, (init .kPOS_ResourceTypeId_CUDA_Device rel).1 = .POS_SUCCESS →
      0 < (init .kPOS_ResourceTypeId_CUDA_Device rel).2.handles.length)
    (hc : ∀ rel, (init .kPOS_ResourceTypeId_CUDA_Context rel).1 = .POS_SUCCESS →
      0 < (init .kPOS_ResourceTypeId_CUDA_Context rel).2.handles.length) :
    ∃ s, init_handle_managers init kernel_meta_path_exists load_cached_function_metas
        handle_managers is_load_kernel_from_cache = some s ∧
      s.inits ≠ [] ∧
      s.inits.map (fun call => call.type) = init_order.take s.inits.length ∧
      (∀ call ∈ s.inits, call.retval = (init call.type call.related_handles).1) ∧
      (∀ call ∈ s.inits.dropLast, call.retval = .POS_SUCCESS) ∧
      s.inits.getLast?.map (fun call => call.retval) = some s.retval ∧
      (s.retval = .POS_SUCCESS ↔
        s.inits.length = 9 ∧ ∀ call ∈ s.inits, call.retval = .POS_SUCCESS) ∧
      (∀ t, s.handle_managers t =
        match s.inits.find? (fun call => call.type = t ∧ call.retval = .POS_SUCCESS) with
        | some call => some (init t call.related_handles).2
        | none => handle_managers t) ∧
      (s.retval = .POS_SUCCESS → ∀ t ∈ __get_resource_idx, (s.handle_managers t).isSome) := by
  unfold init_handle_managers
  simp only [init_manager]
  by_cases h1 : (init .kPOS_ResourceTypeId_CUDA_Device []).1 = .POS_SUCCESS
  · have a1 := hd _ h1
    simp only [h1, ne_eq, not_true_eq_false, if_false, a1]
    by_cases h2 : (init .kPOS_ResourceTypeId_CUDA_Context
        [(.kPOS_ResourceTypeId_CUDA_Device,
          (init .kPOS_ResourceTypeId_CUDA_Device []).2.handles)]).1 = .POS_SUCCESS
    · have a2 := hc _ h2
      simp only [h2, ne_eq, not_true_eq_false, if_false, a2]
      by_cases h3 : (init .kPOS_ResourceTypeId_CUDA_Stream
          [(.kPOS_ResourceTypeId_CUDA_Context,
            (init .kPOS_ResourceTypeId_CUDA_Context
              [(.kPOS_ResourceTypeId_CUDA_Device,
                (init .kPOS_ResourceTypeId_CUDA_Device []).2.handles)]).2.handles)]).1
            = .POS_SUCCESS
      · simp only [h3, ne_eq, not_true_eq_false, if_false]
        by_cases h4 : (init .kPOS_ResourceTypeId_cuBLAS_Context []).1 = .POS_SUCCESS
        · simp only [h4, ne_eq, not_true_eq_false, if_false]
          by_cases h5 : (init .kPOS_ResourceTypeId_CUDA_Event []).1 = .POS_SUCCESS
          · simp only [h5, ne_eq, not_true_eq_false, if_false]
            by_cases h6 : (init .kPOS_ResourceTypeId_CUDA_Module []).1 = .POS_SUCCESS
            · simp only [h6, ne_eq, not_true_eq_false, if_false]
              by_cases h7 : (init .kPOS_ResourceTypeId_CUDA_Function []).1 = .POS_SUCCESS
              · simp only [h7, ne_eq, not_true_eq_false, if_false]
                by_cases h8 : (init .kPOS_ResourceTypeId_CUDA_Var []).1 = .POS_SUCCESS
                · simp only [h8, ne_eq, not_true_eq_false, if_false]
                  by_cases h9 : (init .kPOS_ResourceTypeId_CUDA_Memory
                      [(.kPOS_ResourceTypeId_CUDA_Context,
                        (init .kPOS_ResourceTypeId_CUDA_Context
                          [(.kPOS_ResourceTypeId_CUDA_Device,
                            (init .kPOS_ResourceTypeId_CUDA_Device []).2.handles)]).2.handles)]).1
                        = .POS_SUCCESS
                  · simp only [h9, ne_eq, not_true_eq_false, if_false, List.nil_append,
                      load_kernel_meta_inits, load_kernel_meta_handle_managers, List.append_assoc,
                      List.singleton_append]
                    refine ⟨_, rfl, ?_, ?_, ?_, ?_, ?_, ?_, ?_, ?_⟩
                    · simp
                    · simp [init_order]
                    · simp [h1, h2, h3, h4, h5, h6, h7, h8, h9]
                    · simp [h1, h2, h3, h4, h5, h6, h7, h8, h9]
                    · simp
                    · simp [h1, h2, h3, h4, h5, h6, h7, h8, h9]
                    · intro t
                      cases t <;> simp [register_manager, List.find?, h1, h2, h3, h4, h5, h6, h7, h8, h9]
                    · intro _ t ht
                      simp only [__get_resource_idx, List.mem_cons, List.mem_singleton, List.not_mem_nil,
                        or_false] at ht
                      rcases ht with rfl | rfl | rfl | rfl | rfl | rfl | rfl | rfl | rfl <;>
                        simp [register_manager]
                  · simp only [h9, ne_eq, not_false_eq_true, if_true, List.nil_append,
                      load_kernel_meta_inits, load_kernel_meta_handle_managers, List.append_assoc,
                      List.singleton_append]
                    refine ⟨_, rfl, ?_, ?_, ?_, ?_, ?_, ?_, ?_, ?_⟩
                    · simp
                    · simp [init_order]
                    · simp [h1, h2, h3, h4, h5, h6, h7, h8, h9]
                    · simp [h1, h2, h3, h4, h5, h6, h7, h8, h9]
                    · simp
                    · simp [h1, h2, h3, h4, h5, h6, h7, h8, h9]
                    · intro t
                      cases t <;> simp [register_manager, List.find?, h1, h2, h3, h4, h5, h6, h7, h8, h9]
                    · intro hs
                      exact absurd hs h9
                · simp only [h8, ne_eq, not_false_eq_true, if_true, List.nil_append,
                    load_kernel_meta_inits, load_kernel_meta_handle_managers, List.append_assoc,
                    List.singleton_append]
                  refine ⟨_, rfl, ?_, ?_, ?_, ?_, ?_, ?_, ?_, ?_⟩
                  · simp
                  · simp [init_order]
                  · simp [h1, h2, h3, h4, h5, h6, h7, h8]
                  · simp [h1, h2, h3, h4, h5, h6, h7, h8]
                  · simp
                  · simp [h1, h2, h3, h4, h5, h6, h7, h8]
                  · intro t
                    cases t <;> simp [register_manager, List.find?, h1, h2, h3, h4, h5, h6, h7, h8]
                  · intro hs
                    exact absurd hs h8
              · simp only [h7, ne_eq, not_false_eq_true, if_true, List.nil_append,
                  load_kernel_meta_inits, load_kernel_meta_handle_managers, List.append_assoc,
                  List.singleton_append]
                refine ⟨_, rfl, ?_, ?_, ?_, ?_, ?_, ?_, ?_, ?_⟩
                · simp
                · simp [init_order]
                · simp [h1, h2, h3, h4, h5, h6, h7]
                · simp [h1, h2, h3, h4, h5, h6, h7]
                · simp
                · simp [h1, h2, h3, h4, h5, h6, h7]
                · intro t
                  cases t <;> simp [register_manager, List.find?, h1, h2, h3, h4, h5, h6, h7]
                · intro hs
                  exact absurd hs h7
            · simp only [h6, ne_eq, not_false_eq_true, if_true, List.nil_append,
                load_kernel_meta_inits, load_kernel_meta_handle_managers, List.append_assoc,
                List.singleton_append]
              refine ⟨_, rfl, ?_, ?_, ?_, ?_, ?_, ?_, ?_, ?_⟩
              · simp
              · simp [init_order]
              · simp [h1, h2, h3, h4, h5, h6]
              · simp [h1, h2, h3, h4, h5, h6]
              · simp
              · simp [h1, h2, h3, h4, h5, h6]
              · intro t
                cases t <;> simp [register_manager, List.find?, h1, h2, h3, h4, h5, h6]
              · intro hs
                exact absurd hs h6
          · simp only [h5, ne_eq, not_false_eq_true, if_true, List.nil_append,
              load_kernel_meta_inits, load_kernel_meta_handle_managers, List.append_assoc,
              List.singleton_append]
            refine ⟨_, rfl, ?_, ?_, ?_, ?_, ?_, ?_, ?_, ?_⟩
            · simp
            · simp [init_order]
            · simp [h1, h2, h3, h4, h5]
            · simp [h1, h2, h3, h4, h5]
            · simp
            · simp [h1, h2, h3, h4, h5]
            · intro t
              cases t <;> simp [register_manager, List.find?, h1, h2, h3, h4, h5]
            · intro hs
              exact absurd hs h5
        · simp only [h4, ne_eq, not_false_eq_true, if_true, List.nil_append,
            load_kernel_meta_inits, load_kernel_meta_handle_managers, List.append_assoc,
            List.singleton_append]
          refine ⟨_, rfl, ?_, ?_, ?_, ?_, ?_, ?_, ?_, ?_⟩
          · simp
          · simp [init_order]
          · simp [h1, h2, h3, h4]
          · simp [h1, h2, h3, h4]
          · simp
          · simp [h1, h2, h3, h4]
          · intro t
            cases t <;> simp [register_manager, List.find?, h1, h2, h3, h4]
          · intro hs
            exact absurd hs h4
      · simp only [h3, ne_eq, not_false_eq_true, if_true, List.nil_append,
          load_kernel_meta_inits, load_kernel_meta_handle_managers, List.append_assoc,
          List.singleton_append]
        refine ⟨_, rfl, ?_, ?_, ?_, ?_, ?_, ?_, ?_, ?_⟩
        · simp
        · simp [init_order]
        · simp [h1, h2, h3]
        · simp [h1, h2, h3]
        · simp
        · simp [h1, h2, h3]
        · intro t
          cases t <;> simp [register_manager, List.find?, h1, h2, h3]
        · intro hs
          exact absurd hs h3
    · simp only [h2, ne_eq, not_false_eq_true, if_true, List.nil_append,
        load_kernel_meta_inits, load_kernel_meta_handle_managers, List.append_assoc,
        List.singleton_append]
      refine ⟨_, rfl, ?_, ?_, ?_, ?_, ?_, ?_, ?_, ?_⟩
      · simp
      · simp [init_order]
      · simp [h1, h2]
      · simp [h1, h2]
      · simp
      · simp [h1, h2]
      · intro t
        cases t <;> simp [register_manager, List.find?, h1, h2]
      · intro hs
        exact absurd hs h2
  · simp only [h1, ne_eq, not_false_eq_true, if_true, List.nil_append,
      load_kernel_meta_inits, load_kernel_meta_handle_managers, List.append_assoc,
      List.singleton_append]
    refine ⟨_, rfl, ?_, ?_, ?_, ?_, ?_, ?_, ?_, ?_⟩
    · simp
    · simp [init_order]
    · simp [h1]
    · simp [h1]
    · simp
    · simp [h1]
    · intro t
      cases t <;> simp [register_manager, List.find?, h1]
    · intro hs
      exact absurd hs h1

/-- C20, an instance: the `init` of the Module manager fails with `POS_FAILED`; the procedure
returns `POS_FAILED` after six `init` calls, with the managers of Device, Context, Stream,
cuBLAS context and Event registered and none for Module, Function, Var and Memory. -/
theorem C20_init_handle_managers_first_failure_witness :
    (init_handle_managers init_module_fails false .POS_SUCCESS no_handle_managers false).map
      (fun s => (s.retval, s.inits.map (fun call => call.type),
        init_order.map (fun t => (s.handle_managers t).isSome)))
      = some (.POS_FAILED, init_order.take 6,
          [true, true, true, true, true, false, false, false, false]) ∧
    (∀ rel, (init_module_fails .kPOS_ResourceTypeId_CUDA_Device rel).1 = .POS_SUCCESS →
      0 < (init_module_fails .kPOS_ResourceTypeId_CUDA_Device rel).2.handles.length) ∧
    (∀ rel, (init_module_fails .kPOS_ResourceTypeId_CUDA_Context rel).1 = .POS_SUCCESS →
      0 < (init_module_fails .kPOS_ResourceTypeId_CUDA_Context rel).2.handles.length) ∧
    ∃ s, init_handle_managers init_module_fails false .POS_SUCCESS no_handle_managers false
        = some s ∧
      s.inits ≠ [] ∧
      s.inits.map (fun call => call.type) = init_order.take s.inits.length ∧
      (∀ call ∈ s.inits,
        call.retval = (init_module_fails call.type call.related_handles).1) ∧
      (∀ call ∈ s.inits.dropLast, call.retval = .POS_SUCCESS) ∧
      s.inits.getLast?.map (fun call => call.retval) = some s.retval ∧
      (s.retval = .POS_SUCCESS ↔
        s.inits.length = 9 ∧ ∀ call ∈ s.inits, call.retval = .POS_SUCCESS) ∧
      (∀ t, s.handle_managers t =
        match s.inits.find? (fun call => call.type = t ∧ call.retval = .POS_SUCCESS) with
        | some call => some (init_module_fails t call.related_handles).2
        | none => no_handle_managers t) ∧
      (s.retval = .POS_SUCCESS → ∀ t ∈ __get_resource_idx, (s.handle_managers t).isSome) :=
  ⟨by decide, fun _ _ => Nat.zero_lt_one, fun _ _ => Nat.zero_lt_one,
    C20_init_handle_managers_first_failure init_module_fails false .POS_SUCCESS
      no_handle_managers false (fun _ _ => Nat.zero_lt_one) (fun _ _ => Nat.zero_lt_one)⟩

/-! ## Claims on the kernel-meta load and the related handles of `init_handle_managers` -/

/-- C21: when the `init` of every handle manager succeeds (and the Device and the Context manager
own a handle, as the `POS_ASSERT`s require), `init_handle_managers` returns `POS_SUCCESS` and
registers a manager for every resource type, whether the kernel-meta file exists or not and
whatever `load_cached_function_metas` returns; afterwards the flag `is_load_kernel_from_cache`
is true exactly when it was true before or the file exists and the load returned
`POS_SUCCESS`, so for a flag that was unset it is true exactly when the file exists and the
load succeeded. -/
theorem C21_kernel_meta_load_best_effort (init : init_t) (kernel_meta_path_exists : Bool)
    (load_cached_function_metas : pos_retval_t) (handle_managers : POSHandleManagers)
    (is_load_kernel_from_cache : Bool)
    (hall : ∀ t rel, (init t rel).1 = .POS_SUCCESS)
    (hd : ∀ rel, 0 < (init .kPOS_ResourceTypeId_CUDA_Device rel).2.handles.length)
    (hc : ∀ rel, 0 < (init .kPOS_ResourceTypeId_CUDA_Context rel).2.handles.length) :
    ∃ s, init_handle_managers init kernel_meta_path_exists load_cached_function_metas
        handle_managers is_load_kernel_from_cache = some s ∧
      s.retval = .POS_SUCCESS ∧
      (∀ t ∈ __get_resource_idx, (s.handle_managers t).isSome) ∧
      s.is_load_kernel_from_cache
        = ((kernel_meta_path_exists && decide (load_cached_function_metas = .POS_SUCCESS))
            || is_load_kernel_from_cache) ∧
      (is_load_kernel_from_cache = false →
        (s.is_load_kernel_from_cache = true ↔
          kernel_meta_path_exists = true ∧ load_cached_function_metas = .POS_SUCCESS)) := by
  obtain ⟨s, e, -, -, i3, i4, i5, i6, i7⟩ :=
    init_handle_managers_spec init kernel_meta_path_exists load_cached_function_metas
      handle_managers is_load_kernel_from_cache (fun rel _ => hd rel) (fun rel _ => hc rel)
  have hret : s.retval = .POS_SUCCESS := by
    cases hl : s.inits.getLast? with
    | none => rw [hl] at i5; cases i5
    | some c =>
      rw [hl] at i5
      simp only [Option.map_some', Option.some.injEq] at i5
      rw [← i5, (i3 c (List.mem_of_mem_getLast? hl)).1]
      exact hall _ _
  have hlen : s.inits.length = 9 := (i4.mp hret).1
  have hflag : s.is_load_kernel_from_cache
      = ((kernel_meta_path_exists && decide (load_cached_function_metas = .POS_SUCCESS))
          || is_load_kernel_from_cache) := by
    rw [i6, hlen]
    simp
  refine ⟨s, e, hret, i7 hret, hflag, fun h0 => ?_⟩
  rw [hflag, h0]
  simp

/-- C21, an instance: every `init` succeeds, the kernel-meta file exists and the load fails
with `POS_FAILED`; the procedure returns `POS_SUCCESS` with all nine managers registered and
the flag still false. -/
theorem C21_kernel_meta_load_best_effort_witness :
    (init_handle_managers init_succeeds true .POS_FAILED no_handle_managers false).map
      (fun s => (s.retval, s.is_load_kernel_from_cache,
        __get_resource_idx.map (fun t => (s.handle_managers t).isSome)))
      = some (.POS_SUCCESS, false, [true, true, true, true, true, true, true, true, true]) ∧
    ∃ s, init_handle_managers init_succeeds true .POS_FAILED no_handle_managers false = some s ∧
      s.retval = .POS_SUCCESS ∧
      (∀ t ∈ __get_resource_idx, (s.handle_managers t).isSome) ∧
      s.is_load_kernel_from_cache
        = ((true && decide (pos_retval_t.POS_FAILED = .POS_SUCCESS)) || false) ∧
      (false = false →
        (s.is_load_kernel_from_cache = true ↔
          true = true ∧ pos_retval_t.POS_FAILED = .POS_SUCCESS)) :=
  ⟨by decide,
    C21_kernel_meta_load_best_effort init_succeeds true .POS_FAILED no_handle_managers false
      (fun _ _ => rfl) (fun _ => Nat.zero_lt_one) (fun _ => Nat.zero_lt_one)⟩

/-- C22, the claim fails: every manager owns one handle of its own (pointer `0` for Device, `1`
for Context, `5` for Module); the `init` of the cuBLAS context, Event, Module, Function and Var
managers receives an empty map of related handles, not the Context or the Module handles. -/
theorem C22_init_along_hierarchy_counterexample :
    (init_handle_managers init_one_handle_each false .POS_SUCCESS no_handle_managers false).map
      (fun s => s.inits.map (fun call => (call.type, call.related_handles)))
      = some
          [(.kPOS_ResourceTypeId_CUDA_Device, []),
           (.kPOS_ResourceTypeId_CUDA_Context, [(.kPOS_ResourceTypeId_CUDA_Device, [0])]),
           (.kPOS_ResourceTypeId_CUDA_Stream, [(.kPOS_ResourceTypeId_CUDA_Context, [1])]),
           (.kPOS_ResourceTypeId_cuBLAS_Context, []),
           (.kPOS_ResourceTypeId_CUDA_Event, []),
           (.kPOS_ResourceTypeId_CUDA_Module, []),
           (.kPOS_ResourceTypeId_CUDA_Function, []),
           (.kPOS_ResourceTypeId_CUDA_Var, []),
           (.kPOS_ResourceTypeId_CUDA_Memory, [(.kPOS_ResourceTypeId_CUDA_Context, [1])])] := by
  decide

/-- C22, amended: `init_handle_managers` calls the `init` of the managers in the fixed order
Device, Context, Stream, cuBLAS context, Event, Module, Function, Var, Memory, up to the first
failure. The Context manager receives the handles of the registered Device manager, and the
Stream and the Memory manager receive the handles of the registered Context manager, both lists
non-empty; the Device, cuBLAS context, Event, Module, Function and Var managers receive an
empty map of related handles. -/
theorem C22_init_related_handles (init : init_t) (kernel_meta_path_exists : Bool)
    (load_cached_function_metas : pos_retval_t) (handle_managers : POSHandleManagers)
    (is_load_kernel_from_cache : Bool)
    (hd : ∀ rel, (init .kPOS_ResourceTypeId_CUDA_Device rel).1 = .POS_SUCCESS →
      0 < (init .kPOS_ResourceTypeId_CUDA_Device rel).2.handles.length)
    (hc : ∀ rel, (init .kPOS_ResourceTypeId_CUDA_Context rel).1 = .POS_SUCCESS →
      0 < (init .kPOS_ResourceTypeId_CUDA_Context rel).2.handles.length) :
    ∃ s, init_handle_managers init kernel_meta_path_exists load_cached_function_metas
        handle_managers is_load_kernel_from_cache = some s ∧
      s.inits.map (fun call => call.type) = init_order.take s.inits.length ∧
      ∀ call ∈ s.inits,
        call.related_handles
          = passed_related_handles (init .kPOS_ResourceTypeId_CUDA_Device []).2.handles
              (init .kPOS_ResourceTypeId_CUDA_Context
                [(.kPOS_ResourceTypeId_CUDA_Device,
                  (init .kPOS_ResourceTypeId_CUDA_Device []).2.handles)]).2.handles
              call.type ∧
        (call.type = .kPOS_ResourceTypeId_CUDA_Context →
          0 < (init .kPOS_ResourceTypeId_CUDA_Device []).2.handles.length ∧
          s.handle_managers .kPOS_ResourceTypeId_CUDA_Device
            = some (init .kPOS_ResourceTypeId_CUDA_Device []).2) ∧
        (call.type = .kPOS_ResourceTypeId_CUDA_Stream ∨
            call.type = .kPOS_ResourceTypeId_CUDA_Memory →
          0 < (init .kPOS_ResourceTypeId_CUDA_Context
                [(.kPOS_ResourceTypeId_CUDA_Device,
                  (init .kPOS_ResourceTypeId_CUDA_Device []).2.handles)]).2.handles.length ∧
          s.handle_managers .kPOS_ResourceTypeId_CUDA_Context
            = some (init .kPOS_ResourceTypeId_CUDA_Context
                [(.kPOS_ResourceTypeId_CUDA_Device,
                  (init .kPOS_ResourceTypeId_CUDA_Device []).2.handles)]).2) := by
  obtain ⟨s, e, -, i2, i3, -⟩ :=
    init_handle_managers_spec init kernel_meta_path_exists load_cached_function_metas
      handle_managers is_load_kernel_from_cache hd hc
  exact ⟨s, e, i2, fun call hcall => (i3 call hcall).2⟩

/-- C22 amended, an instance: every manager owns one handle of its own and every `init`
succeeds. -/
theorem C22_init_related_handles_witness :
    (∀ rel, (init_one_handle_each .kPOS_ResourceTypeId_CUDA_Device rel).1 = .POS_SUCCESS →
      0 < (init_one_handle_each .kPOS_ResourceTypeId_CUDA_Device rel).2.handles.length) ∧
    (∀ rel, (init_one_handle_each .kPOS_ResourceTypeId_CUDA_Context rel).1 = .POS_SUCCESS →
      0 < (init_one_handle_each .kPOS_ResourceTypeId_CUDA_Context rel).2.handles.length) ∧
    ∃ s, init_handle_managers init_one_handle_each false .POS_SUCCESS no_handle_managers false
        = some s ∧
      s.inits.map (fun call => call.type) = init_order.take s.inits.length ∧
      ∀ call ∈ s.inits,
        call.related_handles = passed_related_handles [0] [1] call.type ∧
        (call.type = .kPOS_ResourceTypeId_CUDA_Context →
          0 < [0].length ∧
          s.handle_managers .kPOS_ResourceTypeId_CUDA_Device = some { handles := [0] }) ∧
        (call.type = .kPOS_ResourceTypeId_CUDA_Stream ∨
            call.type = .kPOS_ResourceTypeId_CUDA_Memory →
          0 < [1].length ∧
          s.handle_managers .kPOS_ResourceTypeId_CUDA_Context = some { handles := [1] }) :=
  ⟨fun _ _ => Nat.zero_lt_one, fun _ _ => Nat.zero_lt_one,
    C22_init_related_handles init_one_handle_each false .POS_SUCCESS no_handle_managers false
      (fun _ _ => Nat.zero_lt_one) (fun _ _ => Nat.zero_lt_one)⟩

/-! ## Claims on the launch handlers of the driver API -/

/-- C23, the claim fails: the vendor call of `cu_module_get_global` returns the error code 500,
and the handler publishes the WQE with the return code `CUDA_SUCCESS`. -/
theorem C23_vendor_errors_unaltered_counterexample :
    cu_module_get_global (fun _ _ => (500, 0)) driver_wqe
        { handles := driver_handles .kPOS_HandleStatus_Active }
      = some (.POS_SUCCESS,
          { handles := driver_handles .kPOS_HandleStatus_Active
            return_code := CUDA_SUCCESS
            published := [.__done] }) := by
  decide

/-- C23, amended: when `cu_module_load_data`, `cu_module_get_function` or
`cu_device_primary_ctx_get_state` returns, it has published the WQE once and
`wqe->api_cxt->return_code` is the result code of the vendor call, success or error; when
`cu_module_get_global` returns, it has published the WQE once with `__done` and the return code
is `CUDA_SUCCESS`, whatever the vendor call returned. -/
theorem C23_vendor_result_published (cuModuleLoadData : POSHandle → Nat → CUresult × Nat)
    (cuModuleGetFunction cuModuleGetGlobal : Nat → POSHandle → CUresult × Nat)
    (cuDevicePrimaryCtxGetState : POSHandle → CUresult)
    (wqe : POSAPIContext_QE) (s : LaunchState) :
    (∀ x, cu_module_load_data cuModuleLoadData wqe s = some x →
      ∃ p mh, pos_api_handle wqe .kPOS_ResourceTypeId_CUDA_Module 0 = some p ∧
        s.handles[p]? = some mh ∧
        x.2.return_code = (cuModuleLoadData mh wqe.dag_vertex_id).1 ∧
        x.2.published = s.published ++
          [if (cuModuleLoadData mh wqe.dag_vertex_id).1 = CUDA_SUCCESS then PublishCall.__done
            else PublishCall.__restore]) ∧
    (∀ x, cu_module_get_function cuModuleGetFunction wqe s = some x →
      ∃ p fh q mh, ChildReady wqe s .kPOS_ResourceTypeId_CUDA_Function p fh q mh ∧
        x.2.return_code = (cuModuleGetFunction mh.server_addr fh).1 ∧
        x.2.published = s.published ++ [PublishCall.__done]) ∧
    (∀ x, cu_device_primary_ctx_get_state cuDevicePrimaryCtxGetState wqe s = some x →
      ∃ p dh, pos_api_handle wqe .kPOS_ResourceTypeId_CUDA_Device 0 = some p ∧
        s.handles[p]? = some dh ∧
        x.2.return_code = cuDevicePrimaryCtxGetState dh ∧
        x.2.published = s.published ++
          [if cuDevicePrimaryCtxGetState dh = CUDA_SUCCESS then PublishCall.__done
            else PublishCall.__restore]) ∧
    (∀ x, cu_module_get_global cuModuleGetGlobal wqe s = some x →
      x.2.return_code = CUDA_SUCCESS ∧ x.2.published = s.published ++ [PublishCall.__done]) := by
  refine ⟨?_, ?_, ?_, ?_⟩
  · intro x hx
    obtain ⟨p, mh, hp, hh⟩ := cu_module_load_data_some _ _ _ _ hx
    rw [cu_module_load_data_eq _ _ _ p mh hp hh] at hx
    cases hx
    exact ⟨p, mh, hp, hh, rfl, rfl⟩
  · intro x hx
    obtain ⟨p, fh, q, mh, hr⟩ := cu_module_get_function_some _ _ _ _ hx
    rw [cu_module_get_function_eq _ _ _ p fh q mh hr] at hx
    cases hx
    exact ⟨p, fh, q, mh, hr, rfl, rfl⟩
  · intro x hx
    obtain ⟨p, dh, hp, hh⟩ := cu_device_primary_ctx_get_state_some _ _ _ _ hx
    rw [cu_device_primary_ctx_get_state_eq _ _ _ p dh hp hh] at hx
    cases hx
    exact ⟨p, dh, hp, hh, rfl, rfl⟩
  · intro x hx
    obtain ⟨p, vh, q, mh, hr⟩ := cu_module_get_global_some _ _ _ _ hx
    rw [cu_module_get_global_eq _ _ _ p vh q mh hr] at hx
    cases hx
    exact ⟨rfl, rfl⟩

/-- C23 amended, an instance: the vendor call of `cu_module_load_data` returns the error code
200 and the handler publishes the WQE with that code through `__restore`. -/
theorem C23_vendor_result_published_witness :
    cu_module_load_data (fun _ _ => (200, 0)) driver_wqe
        { handles := driver_handles .kPOS_HandleStatus_Create_Pending }
      = some (.POS_SUCCESS,
          { handles := driver_handles .kPOS_HandleStatus_Create_Pending
            return_code := 200
            published := [.__restore] }) ∧
    ∃ p mh, pos_api_handle driver_wqe .kPOS_ResourceTypeId_CUDA_Module 0 = some p ∧
      (driver_handles .kPOS_HandleStatus_Create_Pending)[p]? = some mh ∧
      (200 : CUresult) = 200 ∧
      [PublishCall.__restore] = [] ++
        [if (200 : CUresult) = CUDA_SUCCESS then PublishCall.__done
          else PublishCall.__restore] :=
  ⟨by decide,
    (C23_vendor_result_published (fun _ _ => (200, 0)) (fun _ _ => (0, 0)) (fun _ _ => (0, 0))
      (fun _ => 0) driver_wqe
      { handles := driver_handles .kPOS_HandleStatus_Create_Pending }).1
      (.POS_SUCCESS,
        { handles := driver_handles .kPOS_HandleStatus_Create_Pending
          return_code := 200
          published := [.__restore] })
      (by decide)⟩

/-- C24: when the Var handle of the WQE and its first parent exist, `cu_module_get_global`
returns, whatever the vendor call yields, with `wqe->api_cxt->return_code = CUDA_SUCCESS` and
the WQE published once, through `__done` and not through `__restore`; when the vendor call
succeeded the Var handle has the returned device pointer as server address and is Active (its
other members are as before), and otherwise every handle is unchanged. -/
theorem C24_get_global_masks_errors (cuModuleGetGlobal : Nat → POSHandle → CUresult × Nat)
    (wqe : POSAPIContext_QE) (s : LaunchState) (p : Nat) (vh : POSHandle) (q : Nat)
    (mh : POSHandle) (hr : ChildReady wqe s .kPOS_ResourceTypeId_CUDA_Var p vh q mh) :
    ∃ s', cu_module_get_global cuModuleGetGlobal wqe s = some (.POS_SUCCESS, s') ∧
      s'.return_code = CUDA_SUCCESS ∧
      s'.published = s.published ++ [PublishCall.__done] ∧
      ((cuModuleGetGlobal mh.server_addr vh).1 = CUDA_SUCCESS →
        s'.handles = s.handles.set p
          { vh with
            server_addr := (cuModuleGetGlobal mh.server_addr vh).2
            status := .kPOS_HandleStatus_Active }) ∧
      ((cuModuleGetGlobal mh.server_addr vh).1 ≠ CUDA_SUCCESS → s'.handles = s.handles) := by
  refine ⟨_, cu_module_get_global_eq cuModuleGetGlobal wqe s p vh q mh hr, rfl, rfl, ?_, ?_⟩
  · intro hv
    simp only [hv, if_true]
  · intro hv
    simp only [hv, if_false]

/-- C24, an instance: the vendor call fails with the code 500; the return code published is
`CUDA_SUCCESS`, the WQE is published through `__done` and the Var handle is unchanged. -/
theorem C24_get_global_masks_errors_witness :
    ∃ s', cu_module_get_global (fun _ _ => (500, 0)) driver_wqe
        { handles := driver_handles .kPOS_HandleStatus_Active } = some (.POS_SUCCESS, s') ∧
      s'.return_code = CUDA_SUCCESS ∧
      s'.published = [] ++ [PublishCall.__done] ∧
      ((500 : CUresult) = CUDA_SUCCESS →
        s'.handles = (driver_handles .kPOS_HandleStatus_Active).set 3
          { resource_type_id := .kPOS_ResourceTypeId_CUDA_Var, parent_handles := [1],
            server_addr := 0, status := .kPOS_HandleStatus_Active }) ∧
      ((500 : CUresult) ≠ CUDA_SUCCESS →
        s'.handles = driver_handles .kPOS_HandleStatus_Active) :=
  C24_get_global_masks_errors (fun _ _ => (500, 0)) driver_wqe
    { handles := driver_handles .kPOS_HandleStatus_Active } 3
    { resource_type_id := .kPOS_ResourceTypeId_CUDA_Var, parent_handles := [1],
      status := .kPOS_HandleStatus_Create_Pending }
    1
    { resource_type_id := .kPOS_ResourceTypeId_CUDA_Module, parent_handles := [0],
      status := .kPOS_HandleStatus_Active, server_addr := 4096 }
    ⟨rfl, rfl, rfl, rfl, rfl⟩

/-- C25: when the Module handle of the WQE exists, `cu_module_load_data` returns with the result
code of the vendor call as return code; on success the Module handle has the returned module as
server address and is Active and the WQE is published through `__done`, on an error every
handle is unchanged and the WQE is published through `__restore`. When the Function handle of
the WQE and its first parent exist, `cu_module_get_function` returns; on success the Function
handle has the returned function as server address and is Active, on an error every handle is
unchanged, and in both cases the WQE is published once through `__done`. -/
theorem C25_load_data_and_get_function (cuModuleLoadData : POSHandle → Nat → CUresult × Nat)
    (cuModuleGetFunction : Nat → POSHandle → CUresult × Nat)
    (wqe : POSAPIContext_QE) (s : LaunchState) (pm : Nat) (module_handle : POSHandle)
    (p : Nat) (fh : POSHandle) (q : Nat) (mh : POSHandle)
    (hp : pos_api_handle wqe .kPOS_ResourceTypeId_CUDA_Module 0 = some pm)
    (hh : s.handles[pm]? = some module_handle)
    (hr : ChildReady wqe s .kPOS_ResourceTypeId_CUDA_Function p fh q mh) :
    (∃ s', cu_module_load_data cuModuleLoadData wqe s = some (.POS_SUCCESS, s') ∧
      s'.return_code = (cuModuleLoadData module_handle wqe.dag_vertex_id).1 ∧
      ((cuModuleLoadData module_handle wqe.dag_vertex_id).1 = CUDA_SUCCESS →
        s'.handles = s.handles.set pm
          { module_handle with
            server_addr := (cuModuleLoadData module_handle wqe.dag_vertex_id).2
            status := .kPOS_HandleStatus_Active } ∧
        s'.published = s.published ++ [PublishCall.__done]) ∧
      ((cuModuleLoadData module_handle wqe.dag_vertex_id).1 ≠ CUDA_SUCCESS →
        s'.handles = s.handles ∧ s'.published = s.published ++ [PublishCall.__restore])) ∧
    (∃ s', cu_module_get_function cuModuleGetFunction wqe s = some (.POS_SUCCESS, s') ∧
      s'.return_code = (cuModuleGetFunction mh.server_addr fh).1 ∧
      s'.published = s.published ++ [PublishCall.__done] ∧
      ((cuModuleGetFunction mh.server_addr fh).1 = CUDA_SUCCESS →
        s'.handles = s.handles.set p
          { fh with
            server_addr := (cuModuleGetFunction mh.server_addr fh).2
            status := .kPOS_HandleStatus_Active }) ∧
      ((cuModuleGetFunction mh.server_addr fh).1 ≠ CUDA_SUCCESS → s'.handles = s.handles)) := by
  constructor
  · refine ⟨_, cu_module_load_data_eq cuModuleLoadData wqe s pm module_handle hp hh, rfl, ?_, ?_⟩
    · intro hv
      simp only [hv, if_true, and_self]
    · intro hv
      simp only [hv, if_false, and_self]
  · refine ⟨_, cu_module_get_function_eq cuModuleGetFunction wqe s p fh q mh hr, rfl, rfl,
      ?_, ?_⟩
    · intro hv
      simp only [hv, if_true]
    · intro hv
      simp only [hv, if_false]

/-- C25, an instance: the module is loaded at the server address 4096 and becomes Active, and
the function of the module is then found at 8192 and becomes Active; both WQEs are published
through `__done`. -/
theorem C25_load_data_and_get_function_witness :
    cu_module_load_data (fun _ _ => (CUDA_SUCCESS, 4096)) driver_wqe
        { handles := (driver_handles .kPOS_HandleStatus_Create_Pending).set 1
            { resource_type_id := .kPOS_ResourceTypeId_CUDA_Module, parent_handles := [0],
              status := .kPOS_HandleStatus_Create_Pending } }
      = some (.POS_SUCCESS,
          { handles := driver_handles .kPOS_HandleStatus_Active
            return_code := CUDA_SUCCESS
            published := [.__done] }) ∧
    ((∃ s', cu_module_load_data (fun _ _ => (CUDA_SUCCESS, 4096)) driver_wqe
        { handles := driver_handles .kPOS_HandleStatus_Active } = some (.POS_SUCCESS, s') ∧
      s'.return_code = CUDA_SUCCESS ∧
      (CUDA_SUCCESS = CUDA_SUCCESS →
        s'.handles = (driver_handles .kPOS_HandleStatus_Active).set 1
          { resource_type_id := .kPOS_ResourceTypeId_CUDA_Module, parent_handles := [0],
            server_addr := 4096, status := .kPOS_HandleStatus_Active } ∧
        s'.published = [] ++ [PublishCall.__done]) ∧
      (CUDA_SUCCESS ≠ CUDA_SUCCESS →
        s'.handles = driver_handles .kPOS_HandleStatus_Active ∧
        s'.published = [] ++ [PublishCall.__restore])) ∧
    (∃ s', cu_module_get_function (fun _ _ => (CUDA_SUCCESS, 8192)) driver_wqe
        { handles := driver_handles .kPOS_HandleStatus_Active } = some (.POS_SUCCESS, s') ∧
      s'.return_code = CUDA_SUCCESS ∧
      s'.published = [] ++ [PublishCall.__done] ∧
      (CUDA_SUCCESS = CUDA_SUCCESS →
        s'.handles = (driver_handles .kPOS_HandleStatus_Active).set 2
          { resource_type_id := .kPOS_ResourceTypeId_CUDA_Function, parent_handles := [1],
            server_addr := 8192, status := .kPOS_HandleStatus_Active }) ∧
      (CUDA_SUCCESS ≠ CUDA_SUCCESS →
        s'.handles = driver_handles .kPOS_HandleStatus_Active))) :=
  ⟨by decide,
    C25_load_data_and_get_function (fun _ _ => (CUDA_SUCCESS, 4096))
      (fun _ _ => (CUDA_SUCCESS, 8192)) driver_wqe
      { handles := driver_handles .kPOS_HandleStatus_Active } 1
      { resource_type_id := .kPOS_ResourceTypeId_CUDA_Module, parent_handles := [0],
        status := .kPOS_HandleStatus_Active, server_addr := 4096 }
      2
      { resource_type_id := .kPOS_ResourceTypeId_CUDA_Function, parent_handles := [1],
        status := .kPOS_HandleStatus_Create_Pending }
      1
      { resource_type_id := .kPOS_ResourceTypeId_CUDA_Module, parent_handles := [0],
        status := .kPOS_HandleStatus_Active, server_addr := 4096 }
      rfl rfl ⟨rfl, rfl, rfl, rfl, rfl⟩⟩

/-- C26, counterexamples: `cu_module_get_function` marks the Function handle (pointer `2`)
Active although its Module (pointer `1`) is Broken, since the handler reads only the server
address of the parent; and `__TMP__migration_tear_context(true)` marks the Module Broken but
visits no Var handle, so that the Var (pointer `3`) is still Active under a Broken parent. -/
theorem C26_active_under_broken_parent_counterexample :
    (cu_module_get_function (fun _ _ => (CUDA_SUCCESS, 8192)) driver_wqe
        { handles := driver_handles .kPOS_HandleStatus_Broken }).map
      (fun x => (x.1, active_under_broken_parent x.2.handles 2)) = some (.POS_SUCCESS, true) ∧
    active_under_broken_parent driver_client.handles 3 = false ∧
    (__TMP__migration_tear_context true driver_client).map
      (fun c' => (c'.handles.map (fun h => h.status), active_under_broken_parent c'.handles 3))
      = some ([.kPOS_HandleStatus_Active, .kPOS_HandleStatus_Broken, .kPOS_HandleStatus_Broken,
          .kPOS_HandleStatus_Active], true) := by
  decide

/-- C26 amended: `cu_module_get_function` and `cu_module_get_global` return only when the
Function or Var handle of the WQE has a first parent that exists, and they mark the handle
Active exactly when the vendor call succeeded, whatever the status of that parent. After
`__TMP__migration_tear_context`, which returns when the five managers it looks up exist and no
pointer it dereferences is null, no handle of the cuBLAS or Stream manager and, with
`do_tear_module`, no handle of the Module or Function manager is Active, and every handle of no
one of these managers is unchanged, also when its parent is now Broken. -/
theorem C26_child_of_existing_parent (cuModuleGetFunction cuModuleGetGlobal :
      Nat → POSHandle → CUresult × Nat)
    (wqe : POSAPIContext_QE) (s : LaunchState)
    (do_tear_module : Bool) (c : ClientState)
    (hm_context hm_cublas hm_stream hm_module hm_function : POSHandleManager)
    (h0 : c.handle_managers .kPOS_ResourceTypeId_CUDA_Context = some hm_context)
    (h1 : c.handle_managers .kPOS_ResourceTypeId_cuBLAS_Context = some hm_cublas)
    (h2 : c.handle_managers .kPOS_ResourceTypeId_CUDA_Stream = some hm_stream)
    (h3 : c.handle_managers .kPOS_ResourceTypeId_CUDA_Module = some hm_module)
    (h4 : c.handle_managers .kPOS_ResourceTypeId_CUDA_Function = some hm_function)
    (hv : ∀ p ∈ torn_handles do_tear_module hm_cublas hm_stream hm_module hm_function,
      p < c.handles.length) :
    (∀ x, cu_module_get_function cuModuleGetFunction wqe s = some x →
      ∃ p fh q mh, ChildReady wqe s .kPOS_ResourceTypeId_CUDA_Function p fh q mh ∧
        x.2.handles =
          if (cuModuleGetFunction mh.server_addr fh).1 = CUDA_SUCCESS then
            s.handles.set p
              { fh with
                server_addr := (cuModuleGetFunction mh.server_addr fh).2
                status := .kPOS_HandleStatus_Active }
          else s.handles) ∧
    (∀ x, cu_module_get_global cuModuleGetGlobal wqe s = some x →
      ∃ p vh q mh, ChildReady wqe s .kPOS_ResourceTypeId_CUDA_Var p vh q mh ∧
        x.2.handles =
          if (cuModuleGetGlobal mh.server_addr vh).1 = CUDA_SUCCESS then
            s.handles.set p
              { vh with
                server_addr := (cuModuleGetGlobal mh.server_addr vh).2
                status := .kPOS_HandleStatus_Active }
          else s.handles) ∧
    (∃ c', __TMP__migration_tear_context do_tear_module c = some c' ∧
      c'.handles.length = c.handles.length ∧
      ∀ q h, c.handles[q]? = some h →
        ∃ h', c'.handles[q]? = some h' ∧
          (q ∈ torn_handles do_tear_module hm_cublas hm_stream hm_module hm_function →
            h'.status ≠ .kPOS_HandleStatus_Active) ∧
          (q ∉ torn_handles do_tear_module hm_cublas hm_stream hm_module hm_function →
            h' = h)) := by
  refine ⟨?_, ?_, ?_⟩
  · intro x hx
    obtain ⟨p, fh, q, mh, hr⟩ := cu_module_get_function_some _ _ _ _ hx
    rw [cu_module_get_function_eq _ _ _ p fh q mh hr] at hx
    cases hx
    exact ⟨p, fh, q, mh, hr, rfl⟩
  · intro x hx
    obtain ⟨p, vh, q, mh, hr⟩ := cu_module_get_global_some _ _ _ _ hx
    rw [cu_module_get_global_eq _ _ _ p vh q mh hr] at hx
    cases hx
    exact ⟨p, vh, q, mh, hr, rfl⟩
  · obtain ⟨handles', e, i1, i2⟩ :=
      tear_handles_spec (torn_handles do_tear_module hm_cublas hm_stream hm_module hm_function)
        c.handles hv
    refine ⟨{ c with handles := handles' }, ?_, i1, ?_⟩
    · rw [migration_tear_context_eq do_tear_module c hm_context hm_cublas hm_stream hm_module
        hm_function h0 h1 h2 h3 h4, e]
      rfl
    · intro q h hq
      refine ⟨_, i2 q h hq, ?_, ?_⟩
      · intro hin
        by_cases hact : h.status = .kPOS_HandleStatus_Active
        · simp [hin, hact]
        · simp [hact]
      · intro hout
        simp [hout]

/-- C26 amended, an instance: `cu_module_get_global` marks the Var Active under an Active
Module, and `__TMP__migration_tear_context(true)` then leaves no Module or Function Active and
the Var as it was. -/
theorem C26_child_of_existing_parent_witness :
    (∃ p vh q mh, ChildReady driver_wqe
        { handles := driver_handles .kPOS_HandleStatus_Active }
        .kPOS_ResourceTypeId_CUDA_Var p vh q mh ∧
      (driver_handles .kPOS_HandleStatus_Active).set 3
          { resource_type_id := .kPOS_ResourceTypeId_CUDA_Var, parent_handles := [1],
            server_addr := 12288 } =
        if ((fun (_ : Nat) (_ : POSHandle) => ((CUDA_SUCCESS, 12288) : CUresult × Nat))
            mh.server_addr vh).1 = CUDA_SUCCESS then
          (driver_handles .kPOS_HandleStatus_Active).set p
            { vh with
              server_addr := ((fun (_ : Nat) (_ : POSHandle) =>
                ((CUDA_SUCCESS, 12288) : CUresult × Nat)) mh.server_addr vh).2
              status := .kPOS_HandleStatus_Active }
        else driver_handles .kPOS_HandleStatus_Active) ∧
    (∃ c', __TMP__migration_tear_context true driver_client = some c' ∧
      c'.handles.length = driver_client.handles.length ∧
      ∀ q h, driver_client.handles[q]? = some h →
        ∃ h', c'.handles[q]? = some h' ∧
          (q ∈ torn_handles true {} {} { handles := [1] } { handles := [2] } →
            h'.status ≠ .kPOS_HandleStatus_Active) ∧
          (q ∉ torn_handles true {} {} { handles := [1] } { handles := [2] } → h' = h)) :=
  have h := C26_child_of_existing_parent (fun _ _ => (CUDA_SUCCESS, 8192))
    (fun _ _ => (CUDA_SUCCESS, 12288)) driver_wqe
    { handles := driver_handles .kPOS_HandleStatus_Active } true driver_client
    { handles := [0] } {} {} { handles := [1] } { handles := [2] } rfl rfl rfl rfl rfl
    (by decide)
  ⟨h.2.1
      (.POS_SUCCESS,
        { handles := (driver_handles .kPOS_HandleStatus_Active).set 3
            { resource_type_id := .kPOS_ResourceTypeId_CUDA_Var, parent_handles := [1],
              server_addr := 12288 }
          return_code := CUDA_SUCCESS
          published := [.__done] })
      (by decide),
    h.2.2⟩

/-! ## Claims on `main` of the code-generation tool -/

/-- C27: when every option that `getopt` yields is one of `-d`, `-s` and `-g` with a non-empty
argument and each of the three is given, `main` returns; it calls
`collect_pos_support_yamls`, then `collect_vendor_header_files` if that returned
`POS_SUCCESS`, then `generate_pos_src` if that returned `POS_SUCCESS` too, and no stage after
one that did not return `POS_SUCCESS`; it returns `0` if and only if all three stages returned
`POS_SUCCESS`, and `-1` otherwise. -/
theorem C27_autogen_main_stages {σ : Type} (POS_ERROR_returns : Bool)
    (collect_pos_support_yamls collect_vendor_header_files generate_pos_src : autogen_stage_t σ)
    (members : σ) (options : List (Char × String))
    (hopts : ∀ o ∈ options, (o.1 = 'd' ∨ o.1 = 's' ∨ o.1 = 'g') ∧ o.2.length ≠ 0)
    (hd : ∃ o ∈ options, o.1 = 'd') (hs : ∃ o ∈ options, o.1 = 's')
    (hg : ∃ o ∈ options, o.1 = 'g') :
    ∃ autogener code stages,
      parse_options POS_ERROR_returns options { members := members } = some autogener ∧
      main POS_ERROR_returns collect_pos_support_yamls collect_vendor_header_files
        generate_pos_src members options = some (code, stages) ∧
      stages = AutogenStage.collect_pos_support_yamls ::
        (if (collect_pos_support_yamls autogener).1 = .POS_SUCCESS then
          AutogenStage.collect_vendor_header_files ::
            (if (collect_vendor_header_files (collect_pos_support_yamls autogener).2).1
                = .POS_SUCCESS then [AutogenStage.generate_pos_src]
              else [])
        else []) ∧
      (code = 0 ↔
        (collect_pos_support_yamls autogener).1 = .POS_SUCCESS ∧
        (collect_vendor_header_files (collect_pos_support_yamls autogener).2).1
          = .POS_SUCCESS ∧
        (generate_pos_src
          (collect_vendor_header_files (collect_pos_support_yamls autogener).2).2).1
          = .POS_SUCCESS) ∧
      (code ≠ 0 → code = -1) := by
  obtain ⟨a, e, i1, i2, i3, -⟩ :=
    parse_options_spec POS_ERROR_returns options { members := members } hopts
  have e1 := main_eq POS_ERROR_returns collect_pos_support_yamls collect_vendor_header_files
    generate_pos_src members options a e (i1 (Or.inr hd)) (i2 (Or.inr hs)) (i3 (Or.inr hg))
  by_cases h1 : (collect_pos_support_yamls a).1 = .POS_SUCCESS
  · by_cases h2 : (collect_vendor_header_files (collect_pos_support_yamls a).2).1 = .POS_SUCCESS
    · by_cases h3 : (generate_pos_src
          (collect_vendor_header_files (collect_pos_support_yamls a).2).2).1 = .POS_SUCCESS
      · refine ⟨a, 0, _, e, ?_, rfl, ?_, ?_⟩
        · rw [e1]
          simp [h1, h2, h3, main_exit]
        · simp [h1, h2, h3]
        · simp
      · refine ⟨a, -1, _, e, ?_, rfl, ?_, ?_⟩
        · rw [e1]
          simp [h1, h2, h3, main_exit]
        · simp [h3]
        · simp
    · refine ⟨a, -1, _, e, ?_, rfl, ?_, ?_⟩
      · rw [e1]
        simp [h1, h2, main_exit]
      · simp [h2]
      · simp
  · refine ⟨a, -1, _, e, ?_, rfl, ?_, ?_⟩
    · rw [e1]
      simp [h1, main_exit]
    · simp [h1]
    · simp

/-- C27, an instance: with `-d`, `-s` and `-g` given and the second stage failing, `main` calls
the first two stages only and returns `-1`. -/
theorem C27_autogen_main_stages_witness :
    main false (stage_returning .POS_SUCCESS) (stage_returning .POS_FAILED)
        (stage_returning .POS_SUCCESS) ()
        [('d', "include"), ('s', "support"), ('g', "generated")]
      = some (-1, [.collect_pos_support_yamls, .collect_vendor_header_files]) ∧
    ∃ autogener code stages,
      parse_options false [('d', "include"), ('s', "support"), ('g', "generated")]
        { members := () } = some autogener ∧
      main false (stage_returning .POS_SUCCESS) (stage_returning .POS_FAILED)
        (stage_returning .POS_SUCCESS) ()
        [('d', "include"), ('s', "support"), ('g', "generated")] = some (code, stages) ∧
      stages = AutogenStage.collect_pos_support_yamls ::
        (if (stage_returning .POS_SUCCESS autogener).1 = .POS_SUCCESS then
          AutogenStage.collect_vendor_header_files ::
            (if (stage_returning .POS_FAILED (stage_returning .POS_SUCCESS autogener).2).1
                = .POS_SUCCESS then [AutogenStage.generate_pos_src]
              else [])
        else []) ∧
      (code = 0 ↔
        (stage_returning .POS_SUCCESS autogener).1 = .POS_SUCCESS ∧
        (stage_returning .POS_FAILED (stage_returning .POS_SUCCESS autogener).2).1
          = .POS_SUCCESS ∧
        (stage_returning .POS_SUCCESS
          (stage_returning .POS_FAILED (stage_returning .POS_SUCCESS autogener).2).2).1
          = .POS_SUCCESS) ∧
      (code ≠ 0 → code = -1) :=
  ⟨by decide,
    C27_autogen_main_stages false (stage_returning .POS_SUCCESS) (stage_returning .POS_FAILED)
      (stage_returning .POS_SUCCESS) () [('d', "include"), ('s', "support"), ('g', "generated")]
      (by decide) (by decide) (by decide) (by decide)⟩

/-! ## Claims on insertions after the merge pass -/

/-- C28, the code departs from the claim: on the fresh graph the merge pass returns and leaves
`_topo_t1_cache` empty, with the next T1 id `0` below the prefill size; the call
`add_vertex<T1>` that follows does not return, whatever the payload and the neighbors, since
the slot `_topo_t1_cache[0]` is gone; and so it is on every graph after a merge, for an id below
the prefill size and neighbors that pass the check. Without the merge the same call returns
`POS_SUCCESS` with the id `0`. -/
theorem C28_add_vertex_T1_after_merge_does_not_return :
    (∃ g1, run false POSBipartiteGraph.new [.join] = some (g1, []) ∧
      g1._topo_t1_cache = [] ∧ g1.max_t1_id = 0) ∧
    (∀ (data : Nat) (neighbor : POSNeighborMap_t),
      run false POSBipartiteGraph.new [.join, .add .T1 data neighbor] = none) ∧
    (∀ (dbg : Bool) (data : Nat),
      run dbg POSBipartiteGraph.new [.join, .add .T1 data []] = none) ∧
    (∀ (dbg : Bool) (g : POSBipartiteGraph) (data : Nat) (neighbor : POSNeighborMap_t),
      (__join_topo g).bind (fun g1 =>
        if g1.max_t1_id < kPOSBG_PREFILL_SIZE ∧
            (dbg && neighbor_check_fails .T1 g1 neighbor) = false then
          add_vertex dbg .T1 g1 data neighbor
        else none) = none) ∧
    (∀ (dbg : Bool) (data : Nat),
      ∃ r, add_vertex dbg .T1 POSBipartiteGraph.new data [] = some r ∧
        r.retval = .POS_SUCCESS ∧ r.id = some 0) := by
  obtain ⟨g1, hj, hcache, hmax⟩ := join_topo_new
  have hlt : g1.max_t1_id < kPOSBG_PREFILL_SIZE := by
    rw [hmax, kPOSBG_PREFILL_SIZE_eq]
    omega
  refine ⟨⟨g1, run_join hj, hcache, hmax⟩, ?_, ?_, ?_, ?_⟩
  · intro data neighbor
    exact run_join_add_none hj
      (add_vertex_T1_cleared_cache false g1 data neighbor hcache hlt rfl)
  · intro dbg data
    exact run_join_add_none hj
      (add_vertex_T1_cleared_cache dbg g1 data [] hcache hlt (by simp [neighbor_check_fails]))
  · intro dbg g data neighbor
    cases hg : __join_topo g with
    | none => rfl
    | some g2 =>
      simp only [Option.some_bind]
      split_ifs with hc
      · exact add_vertex_T1_cleared_cache dbg g2 data neighbor (join_topo_spec hg).2.2.2.2.1
          hc.1 hc.2
      · rfl
  · intro dbg data
    obtain ⟨r, hr⟩ := add_vertex_returns dbg .T1 data [] inv_new
      (fun _ => Or.inl cacheFull_new)
    obtain ⟨e0, e1, -⟩ := add_vertex_T1_first new_max_t1_id
      (by simp [neighbor_check_fails]) hr
    exact ⟨r, hr, e0, e1⟩

/-! ## Claims on the return code and the deadlines of the overlap scheme -/

/-- C29, the code departs from the claim: with a query that fails for every handle,
`generate_overlap_ckpt_scheme` returns `POS_SUCCESS` and adds both handles to the scheme, with
deadlines computed from the positions that the query did not fill. The result of the query is
compared with `retval` and discarded: for every query the return code is that of the stream
synchronization alone. -/
theorem C29_overlap_scheme_ignores_query_failure :
    generate_overlap_ckpt_scheme failing_query true [.kPOS_ResourceTypeId_CUDA_Memory]
        overlap_handles overlap_wqe 6
      = some (.POS_SUCCESS,
          [SchemeCall.refresh 6, SchemeCall.add_new_handle_for_distribute 5 0,
            SchemeCall.add_new_handle_for_distribute 5 1, SchemeCall.schedule]) ∧
    (∀ handle_id start_op_id end_op_id positions,
      (failing_query handle_id start_op_id end_op_id positions).1 = .POS_FAILED) ∧
    ∀ (query : get_handle_modified_position_t) (cudaStreamSynchronize_ok : Bool)
      (idx : List pos_resource_typeid_t) (handles : List POSHandle) (wqe : POSAPIContext_QE)
      (P : Nat),
      (generate_overlap_ckpt_scheme query cudaStreamSynchronize_ok idx handles wqe P).map
          (fun x => x.1)
        = (generate_overlap_ckpt_scheme query cudaStreamSynchronize_ok idx handles wqe P).map
          (fun _ => if cudaStreamSynchronize_ok then .POS_SUCCESS else .POS_FAILED) := by
  refine ⟨by decide, fun _ _ _ _ => rfl, ?_⟩
  intro query cudaStreamSynchronize_ok idx handles wqe P
  exact generate_overlap_ckpt_scheme_retval query cudaStreamSynchronize_ok idx handles wqe P

/-- C30, the code departs from the claim: with `nb_pending_op = 0` the deadline
`wqe->dag_vertex_id + (nb_pending_op - 1)` wraps around, and both handles, which no pending op
modifies, are added to the scheme with the relative deadline `2^64 - 1`, which is above
`nb_pending_op`. -/
theorem C30_overlap_scheme_deadline_wraps :
    generate_overlap_ckpt_scheme overlap_query true [.kPOS_ResourceTypeId_CUDA_Memory]
        overlap_handles overlap_wqe 0
      = some (.POS_SUCCESS,
          [SchemeCall.refresh 0,
            SchemeCall.add_new_handle_for_distribute 18446744073709551615 0,
            SchemeCall.add_new_handle_for_distribute 18446744073709551615 1,
            SchemeCall.schedule]) ∧
    next_modified_positions overlap_modified 0 (6 + 1) (6 + 0) = [] ∧
    next_modified_positions overlap_modified 1 (6 + 1) (6 + 0) = [] ∧
    ¬ (18446744073709551615 ≤ 0) ∧
    18446744073709551615 + 1 = UINT64_RANGE := by
  refine ⟨by decide, by decide, by decide, by decide, ?_⟩
  unfold UINT64_RANGE
  rfl

end PhoenixOS
